import Mathlib

/-!
# PRIMME outer Davidson driver (`main_iter_d.c`): shallow embedding

The C function `main_iter_dprimme` and the helpers defined next to it in
`src/PRIMMESRC/DSRC/main_iter_d.c` are translated to Lean functions on an
explicit state record.  The dense wrappers `Num_gemv_Sprimme`,
`Num_scal_Sprimme` (`src/src/linalg/blaslapack.c`) and
`Num_zero_matrix_Sprimme` (`src/src/linalg/magma_wrapper.c`) are translated
as well.

Conventions of the embedding

* `int` is `ℤ` (no overflow is modelled), `double` is `ℚ` (exact arithmetic;
  a division by zero yields `0` as in Mathlib).  `HUGE_VAL` and the libm
  functions `sqrt`, `log`, `exp` are not part of the repository sources and
  are taken as parameters (fields of `Env`).
* A C array is a total function `ℕ → α`; `rd a i` is `a[i]` and `wr a i v` is
  `a[i] = v`.  A pointer into the middle of an array is the array together
  with an integer offset.
* Local variables of `main_iter_dprimme` are fields of `MainState`; the
  initial value of such a field stands for the indeterminate value of the
  uninitialised C variable.
* Functions of the repository whose source is not included (`init_basis`,
  `ortho`, `solve_H`, `solve_correction`, `restart`, `check_convergence`,
  `prepare_vecs`, `update_Q`, `update_projection`, `Num_update_VWXR`, the
  user callbacks) are fields of `Env`.  Each receives the whole state (it can
  read everything reachable from its pointer arguments) and returns exactly
  the objects it is handed for writing.
* `trace` is ghost state: every collaborator call made by `main_iter_dprimme`
  is appended to it.  `ignored` is ghost state too: it lists the Ritz indices
  skipped by the "Ignore some cases" branch of `prepare_candidates_dprimme`.
  `fprintf` output (and with it `print_residuals`) is not
  modelled, nor is the carving of `realWork` into the work arrays: each work
  array is a field of its own.
* A loop of the C code is a recursive function with a fuel argument; a result
  `none`, `Flow.stuck` or `Outcome.outOfFuel` means that the fuel did not
  suffice, never that the C code stopped.
-/

namespace PRIMME

/-! ## Arrays -/

/-- Read `a[i]`. -/
def rd {α : Type} (a : ℕ → α) (i : ℤ) : α := a i.toNat

/-- Write `a[i] = v`. -/
def wr {α : Type} (a : ℕ → α) (i : ℤ) (v : α) : ℕ → α :=
  fun k => if (k : ℤ) = i then v else a k

/-- Overwrite the `n` cells `a[off], …, a[off+n-1]` with `f 0, …, f (n-1)`. -/
def wrRange {α : Type} (a : ℕ → α) (off n : ℤ) (f : ℤ → α) : ℕ → α :=
  fun k => if off ≤ (k : ℤ) ∧ (k : ℤ) < off + n then f ((k : ℤ) - off) else a k

abbrev Arr := ℕ → ℚ
abbrev IArr := ℕ → ℤ

/-! ## Constants

The return codes are those listed in the "Return Value" comment of
`main_iter_dprimme`. -/

def MAX_ITERATIONS_REACHED : ℤ := -1
def INIT_FAILURE : ℤ := -2
def ORTHO_FAILURE : ℤ := -3
def SOLVE_H_FAILURE : ℤ := -4
def SOLVE_CORRECTION_FAILURE : ℤ := -5
def RESTART_FAILURE : ℤ := -6
def LOCK_FAILURE : ℤ := -7

def FALSE : ℤ := 0
def TRUE : ℤ := 1

/-- Modelled from the spec: the convergence flags of `const.h` (not included);
the spec lists the three states UNCONVERGED, CONVERGED and
PRACTICALLY_CONVERGED, the code only tests a flag against `UNCONVERGED`. -/
def UNCONVERGED : ℤ := 0

/-- Modelled from the spec: see `UNCONVERGED`. -/
def CONVERGED : ℤ := 1

/-- Modelled from the spec: see `UNCONVERGED`. -/
def PRACTICALLY_CONVERGED : ℤ := 2

/-- Modelled from the spec: the target selector of `primme.h` (not
included), with the six values that the spec lists (`target ∈ {smallest,
largest, closest_abs, closest_leq, closest_geq, interior}`).  The code of
`main_iter_d.c` names four of them: `primme_smallest`, `primme_largest`,
`primme_closest_leq` and `primme_closest_geq`. -/
inductive primme_target
  | primme_smallest
  | primme_largest
  | primme_closest_geq
  | primme_closest_leq
  | primme_closest_abs
  | primme_interior
  deriving DecidableEq, Repr

/-- Modelled from the spec: the projection mode of `primme.h` (not
included). -/
inductive primme_projection
  | primme_proj_RR
  | primme_proj_harmonic
  | primme_proj_refined
  deriving DecidableEq, Repr

open primme_target primme_projection

/-! ## `primme_params` (the fields read or written in `main_iter_d.c`) -/

structure primme_stats where
  numOuterIterations : ℤ
  numRestarts : ℤ
  numMatvecs : ℤ

structure projectors_params where
  RightQ : ℤ
  SkewQ : ℤ

structure correction_params where
  precondition : ℤ
  maxInnerIterations : ℤ
  projectors : projectors_params

structure restarting_params where
  maxPrevRetain : ℤ

structure projection_params where
  projection : primme_projection

structure primme_params where
  n : ℤ
  nLocal : ℤ
  numProcs : ℤ
  procID : ℤ
  numEvals : ℤ
  numOrthoConst : ℤ
  maxBasisSize : ℤ
  minRestartSize : ℤ
  maxBlockSize : ℤ
  maxMatvecs : ℤ
  maxOuterIterations : ℤ
  numTargetShifts : ℤ
  /-- The pointer `targetShifts`; `none` is `NULL`. -/
  targetShifts : Option Arr
  target : primme_target
  locking : ℤ
  dynamicMethodSwitch : ℤ
  initSize : ℤ
  printLevel : ℤ
  eps : ℚ
  aNorm : ℚ
  stats : primme_stats
  correctionParams : correction_params
  restartingParams : restarting_params
  projectionParams : projection_params

/-- The value `primme->targetShifts[i]`. -/
def primme_params.targetShift (p : primme_params) (i : ℤ) : ℚ :=
  match p.targetShifts with
  | some a => rd a i
  | none => 0

/-- The struct `primme_CostModel`. -/
structure primme_CostModel where
  MV_PR : ℚ
  MV : ℚ
  PR : ℚ
  qmr_only : ℚ
  qmr_plus_MV_PR : ℚ
  gdk_plus_MV_PR : ℚ
  gdk_plus_MV : ℚ
  project_locked : ℚ
  reortho_locked : ℚ
  gdk_conv_rate : ℚ
  jdq_conv_rate : ℚ
  JDQMR_slowdown : ℚ
  ratio_MV_outer : ℚ
  nextReset : ℤ
  gdk_sum_logResReductions : ℚ
  jdq_sum_logResReductions : ℚ
  gdk_sum_MV : ℚ
  jdq_sum_MV : ℚ
  nevals_by_gdk : ℤ
  nevals_by_jdq : ℤ
  numMV_0 : ℤ
  numIt_0 : ℤ
  timer_0 : ℚ
  time_in_inner : ℚ
  resid_0 : ℚ
  accum_jdq : ℚ
  accum_gdk : ℚ
  accum_jdq_gdk : ℚ

/-- Ghost record of one call made by `main_iter_dprimme` to a collaborator,
with the value the collaborator returned where it has one. -/
inductive Call
  | init_basis (ret : ℤ)
  | matrixMatvec (blockSize : ℤ)
  | update_Q
  | update_projection
  | solve_H (ret : ℤ)
  | prepare_candidates (ret : ℤ)
  | solve_correction (ret : ℤ)
  | ortho (ret : ℤ)
  | prepare_vecs
  | restart (ret : ℤ)
  | verify_norms (ret : ℤ)
  deriving DecidableEq, Repr

/-- Objects that only the collaborators read and write: the estimates kept in
`primme->stats`, the random seed, and the work arrays that
`main_iter_dprimme` merely carves out of `realWork` and passes on. -/
structure Shared where
  estimateMaxEVal : ℚ
  estimateMinEVal : ℚ
  estimateLargestSVal : ℚ
  maxConvTol : ℚ
  estimateResidualError : ℚ
  iseed : IArr
  H : Arr
  Q : Arr
  R : Arr
  QtV : Arr
  hVecsRot : Arr
  M : Arr
  UDU : Arr
  evecsHat : Arr
  ipivot : IArr
  prevRitzVals : Arr
  rwork : Arr

/-- The arguments, outputs, work arrays and local variables of
`main_iter_dprimme`. -/
structure MainState where
  primme : primme_params
  machEps : ℚ
  evals : Arr
  perm : IArr
  evecs : Arr
  resNorms : Arr
  /-- The array `intWork`; `flags` is `intWork` itself, so `flags[i]` is
  `intWork[i]`. -/
  flags : IArr
  iev : IArr
  iwork : IArr
  V : Arr
  W : Arr
  hVecs : Arr
  hU : Arr
  previousHVecs : Arr
  previousHU : Arr
  hVals : Arr
  hSVals : Arr
  prevhSvals : Arr
  blockNorms : Arr
  sh : Shared
  blockSize : ℤ
  availableBlockSize : ℤ
  basisSize : ℤ
  numLocked : ℤ
  numGuesses : ℤ
  nextGuess : ℤ
  numConverged : ℤ
  targetShiftIndex : ℤ
  recentlyConverged : ℤ
  maxRecentlyConverged : ℤ
  numConvergedStored : ℤ
  converged : ℤ
  LockingProblem : ℤ
  numPrevRetained : ℤ
  numArbitraryVecs : ℤ
  numPrevRitzVals : ℤ
  tol : ℚ
  smallestResNorm : ℚ
  reset : ℤ
  restartsSinceReset : ℤ
  wholeSpace : ℤ
  CostModel : primme_CostModel
  timeForMV : ℚ
  tstart : ℚ
  enforceRestart : ℤ
  /-- Ghost: number of readings of the wall clock so far. -/
  clock : ℕ
  /-- Ghost: the collaborator calls made so far, oldest first. -/
  trace : List Call
  /-- Ghost: the Ritz indices that the candidate loop of
  `prepare_candidates_dprimme` skipped through its "Ignore some cases" branch,
  oldest first. -/
  ignored : List ℤ

/-! ## Collaborators -/

structure InitBasisOut where
  ret : ℤ
  V : Arr
  W : Arr
  evecs : Arr
  basisSize : ℤ
  nextGuess : ℤ
  numGuesses : ℤ
  timeForMV : ℚ
  /-- Number of columns the callee pushed through the matvec adapter. -/
  mv : ℕ
  sh : Shared

structure SolveHOut where
  ret : ℤ
  hU : Arr
  hVecs : Arr
  hVals : Arr
  hSVals : Arr
  iwork : IArr
  sh : Shared

structure CheckConvergenceOut where
  ret : ℤ
  flags : IArr
  reset : ℤ
  sh : Shared

structure PrepareVecsOut where
  hVecs : Arr
  numArbitraryVecs : ℤ
  sh : Shared

structure UpdateVWXROut where
  ret : ℤ
  X : Arr
  R : Arr
  Rnorms : Arr
  sh : Shared

structure SolveCorrectionOut where
  ret : ℤ
  V : Arr
  W : Arr
  blockNorms : Arr
  numPrevRitzVals : ℤ
  mv : ℕ
  sh : Shared

structure OrthoOut where
  ret : ℤ
  V : Arr
  sh : Shared

structure RestartOut where
  ret : ℤ
  V : Arr
  W : Arr
  hVals : Arr
  hSVals : Arr
  flags : IArr
  iev : IArr
  blockSize : ℤ
  blockNorms : Arr
  evecs : Arr
  perm : IArr
  evals : Arr
  resNorms : Arr
  numConverged : ℤ
  numLocked : ℤ
  numConvergedStored : ℤ
  previousHVecs : Arr
  numPrevRetained : ℤ
  numPrevRitzVals : ℤ
  hU : Arr
  hVecs : Arr
  basisSize : ℤ
  targetShiftIndex : ℤ
  numArbitraryVecs : ℤ
  previousHU : Arr
  prevhSvals : Arr
  restartsSinceReset : ℤ
  reset : ℤ
  iwork : IArr
  mv : ℕ
  sh : Shared

/-- Everything `main_iter_d.c` uses but does not define. -/
structure Env where
  /-- The constant `HUGE_VAL` of `math.h`. -/
  HUGE_VAL : ℚ
  sqrt : ℚ → ℚ
  log : ℚ → ℚ
  exp : ℚ → ℚ
  /-- The user operator: the callback `primme->matrixMatvec` on one column
  of `nLocal` entries. -/
  A : Arr → Arr
  /-- The callback `primme->globalSumDouble(sendBuf, recvBuf, &count)`: the
  contents it stores in `recvBuf[0..count)`. -/
  globalSumDouble : Arr → ℤ → Arr
  /-- The reading of `primme_wTimer(0)` at the given tick of the clock. -/
  wTimer : ℕ → ℚ
  init_basis : MainState → InitBasisOut
  /-- Arguments: `targetShift`, `basisSize`, `blockSize`. -/
  update_Q : MainState → ℚ → ℤ → ℤ → Shared
  /-- Arguments: `numCols`, `blockSize`, `isSymmetric` (1: `H` from `V`,`W`;
  0: `QtV` from `Q`,`V`). -/
  update_projection : MainState → ℤ → ℤ → ℤ → Shared
  /-- Arguments: `basisSize`, `numConverged`. -/
  solve_H : MainState → ℤ → ℤ → SolveHOut
  /-- Arguments: `X`, `R`, `evecs`, `numLocked`, `left`, `right`, `flags`,
  `blockNorms`, `hVals`, `reset`. -/
  check_convergence : MainState → Arr → Arr → Option Arr → ℤ → ℤ → ℤ → IArr →
    Arr → Arr → ℤ → CheckConvergenceOut
  /-- Arguments: `basisSize`, `i0`, `blockSize`, `targetShiftIndex`,
  `numArbitraryVecs`, `smallestResNorm`, `flags`. -/
  prepare_vecs : MainState → ℤ → ℤ → ℤ → ℤ → ℤ → ℚ → Option IArr →
    PrepareVecsOut
  /-- Arguments: `basisSize`, `h` (the packed coefficient columns), `hVals`
  (the packed Ritz values), `blockNormsSize`. -/
  Num_update_VWXR : MainState → ℤ → Arr → Arr → ℤ → UpdateVWXROut
  /-- Arguments: `basisSize`, `blockSize`. -/
  solve_correction : MainState → ℤ → ℤ → SolveCorrectionOut
  /-- Arguments: `b1`, `b2`, `numLocked`. -/
  ortho : MainState → ℤ → ℤ → ℤ → OrthoOut
  /-- Argument: `basisSize`. -/
  restart : MainState → ℤ → RestartOut

/-! ## Dense helpers

Their sources are not part of the included files; they have the standard
BLAS meaning. -/

/-- The pointer `a + off` viewed as an array. -/
def ptr {α : Type} (a : ℕ → α) (off : ℤ) : ℕ → α := fun k => rd a (off + k)

/-- Modelled from the spec: `Num_scal_dprimme(n, alpha, x, 1)` with `x`
the pointer `a + off`: scale `n` consecutive entries by `alpha`. -/
def Num_scal_dprimme (n : ℤ) (alpha : ℚ) (a : Arr) (off : ℤ) : Arr :=
  wrRange a off n (fun k => alpha * rd a (off + k))

/-- Modelled from the spec: `Num_dcopy_dprimme(n, x, 1, y, 1)` with `x` the
pointer `a + xoff` and `y` the pointer `b + yoff`: copy `n` entries. -/
def Num_dcopy_dprimme (n : ℤ) (a : Arr) (xoff : ℤ) (b : Arr) (yoff : ℤ) : Arr :=
  wrRange b yoff n (fun k => rd a (xoff + k))

/-- Modelled from the spec: `Num_axpy_dprimme(n, alpha, x, 1, y, 1)`:
`y ← y + alpha·x` on `n` entries. -/
def Num_axpy_dprimme (n : ℤ) (alpha : ℚ) (a : Arr) (xoff : ℤ) (b : Arr) (yoff : ℤ) :
    Arr :=
  wrRange b yoff n (fun k => rd b (yoff + k) + alpha * rd a (xoff + k))

/-- Modelled from the spec: `Num_dot_dprimme(n, x, 1, y, 1)`: the sum of
`x[k]·y[k]` over `k < n`. -/
def Num_dot_dprimme (n : ℤ) (a : Arr) (xoff : ℤ) (b : Arr) (yoff : ℤ) : ℚ :=
  ((List.range n.toNat).map (fun k => rd a (xoff + k) * rd b (yoff + k))).sum

/-- Modelled from the spec: `Num_copy_matrix_dprimme(x, m, n, ldx, y, ldy)`
with `x = a + xoff`, `y = b + yoff`: copy an `m × n` column-major matrix. -/
def Num_copy_matrix_dprimme (a : Arr) (xoff m n ldx : ℤ) (b : Arr) (yoff ldy : ℤ) :
    Arr :=
  fun k =>
    let d := (k : ℤ) - yoff
    if 0 ≤ d ∧ 0 < ldy ∧ d / ldy < n ∧ d % ldy < m then
      rd a (xoff + (d / ldy) * ldx + d % ldy)
    else b k

/-- Modelled from the spec:
`Num_copy_matrix_columns_dprimme(x, m, xin, n, ldx, y, NULL, ldy)`: column
`i` of `y` becomes column `xin[i]` of `x`, for `i < n`, on `m` rows. -/
def Num_copy_matrix_columns_dprimme (x : Arr) (m : ℤ) (xin : IArr) (n ldx : ℤ)
    (y : Arr) (ldy : ℤ) : Arr :=
  fun k =>
    let d := (k : ℤ)
    if 0 < ldy ∧ d / ldy < n ∧ d % ldy < m then
      rd x (rd xin (d / ldy) * ldx + d % ldy)
    else y k

/-- Modelled from the spec: `Num_compact_vecs_dprimme(vecs, m, n, ld, perm,
work, ldwork, 1)`: the returned matrix, whose column `i` is column `perm[i]`
of `vecs`; rows are addressed with the leading dimension `ld`. -/
def Num_compact_vecs_dprimme (vecs : Arr) (ld : ℤ) (perm : IArr) : Arr :=
  fun k =>
    if 0 < ld then rd vecs (rd perm ((k : ℤ) / ld) * ld + (k : ℤ) % ld) else vecs k

/-- Modelled from the spec: `reset_flags_dprimme(flags, first, last)`: mark
the Ritz indices `first..last` as UNCONVERGED. -/
def reset_flags_dprimme (flags : IArr) (first last : ℤ) : IArr :=
  fun k => if first ≤ (k : ℤ) ∧ (k : ℤ) ≤ last then UNCONVERGED else flags k

/-- Modelled from the spec: the matvec adapter `matrixMatvec_dprimme(V,
nLocal, ldV, W, ldW, basisSize, blockSize, primme)`: "applies A to
`blockSize` input columns" (`W[:,c] = A·V[:,c]` for the columns
`c = basisSize, …, basisSize+blockSize-1`) and "updates `numMatvecs` by
`blockSize`".  The result is the new `W` and the new counter. -/
def matrixMatvec_dprimme (env : Env) (V : Arr) (nLocal ldV : ℤ) (W : Arr)
    (ldW basisSize blockSize : ℤ) (numMatvecs : ℤ) : Arr × ℤ :=
  (fun k =>
    let d := (k : ℤ) - ldW * basisSize
    if 0 ≤ d ∧ 0 < ldW ∧ d / ldW < blockSize ∧ d % ldW < nLocal then
      env.A (fun i => if (i : ℤ) < nLocal then rd V (ldV * (basisSize + d / ldW) + i) else 0)
        (d % ldW).toNat
    else W k,
   numMatvecs + blockSize)

/-- The C macro `min`. -/
def cmin {α : Type} [LinearOrder α] (a b : α) : α := if a < b then a else b

/-- The C macro `max`. -/
def cmax {α : Type} [LinearOrder α] (a b : α) : α := if a > b then a else b

/-! ## Dynamic method switching (cost model) -/

/-- The function `initializeModel`; `timer` is the reading of
`primme_wTimer(0)`. -/
def initializeModel (timer : ℚ) (primme : primme_params) : primme_CostModel :=
  { MV_PR := 0
    MV := 0
    PR := 0
    qmr_only := 0
    qmr_plus_MV_PR := 0
    gdk_plus_MV_PR := 0
    gdk_plus_MV := 0
    project_locked := 0
    reortho_locked := 0
    gdk_conv_rate := 1 / 10000
    jdq_conv_rate := 1 / 10000
    JDQMR_slowdown := 3 / 2
    ratio_MV_outer := 0
    nextReset := 1
    gdk_sum_logResReductions := 0
    jdq_sum_logResReductions := 0
    gdk_sum_MV := 0
    jdq_sum_MV := 0
    nevals_by_gdk := 0
    nevals_by_jdq := 0
    numMV_0 := primme.stats.numMatvecs
    numIt_0 := primme.stats.numOuterIterations + 1
    timer_0 := timer
    time_in_inner := 0
    resid_0 := -1
    accum_jdq := 0
    accum_gdk := 0
    accum_jdq_gdk := 1 }

/-- The value `slowdown` computed by the nested conditionals at the start of
`update_slowdown`. -/
def rawSlowdown (env : Env) (model : primme_CostModel) : ℚ :=
  if model.gdk_conv_rate < 1 then
    if model.jdq_conv_rate < 1 then
      env.log model.gdk_conv_rate / env.log model.jdq_conv_rate
    else if model.jdq_conv_rate = 1 then 5 / 2
    else -(env.log model.gdk_conv_rate) / env.log model.jdq_conv_rate
  else if model.gdk_conv_rate = 1 then 11 / 10
  else
    if model.jdq_conv_rate < 1 then
      env.log model.gdk_conv_rate / env.log model.jdq_conv_rate
    else if model.jdq_conv_rate = 1 then 11 / 10
    else env.log model.jdq_conv_rate / env.log model.gdk_conv_rate

/-- The function `update_slowdown`. -/
def update_slowdown (env : Env) (model : primme_CostModel) : primme_CostModel :=
  let slowdown := rawSlowdown env model
  let slowdown := cmax (model.ratio_MV_outer / (model.ratio_MV_outer - 1))
    (cmin slowdown model.ratio_MV_outer)
  { model with JDQMR_slowdown := cmax (11 / 10) (cmin slowdown (5 / 2)) }

/-- The function `ratio_JDQMR_GDpk`. -/
def ratio_JDQMR_GDpk (model : primme_CostModel) (numLocked : ℤ)
    (estimate_slowdown estimate_ratio_MV_outer : ℚ) : ℚ :=
  estimate_slowdown *
    (model.qmr_plus_MV_PR + model.project_locked * numLocked +
      (model.gdk_plus_MV - model.qmr_only - model.qmr_plus_MV_PR
        + (model.reortho_locked - model.project_locked) * numLocked)
        / estimate_ratio_MV_outer)
    / (model.gdk_plus_MV_PR + model.reortho_locked * numLocked)

/-- The average over the processes computed in the switch functions:
`globalSumDouble(&r, &globalRatio, &one)` followed by
`globalRatio/numProcs`, when `numProcs > 1`. -/
def averageOverProcs (env : Env) (primme : primme_params) (r : ℚ) : ℚ :=
  if primme.numProcs > 1 then
    env.globalSumDouble (wr (fun _ => 0) 0 r) 1 0 / primme.numProcs
  else r

/-- The accumulator update shared by the two switch functions
(`accum_jdq`, `accum_gdk`, `accum_jdq_gdk`). -/
def accumulate (model : primme_CostModel) (r : ℚ) : primme_CostModel :=
  let accum_jdq := model.accum_jdq + model.gdk_plus_MV_PR * r
  let accum_gdk := model.accum_gdk + model.gdk_plus_MV_PR
  { model with
    accum_jdq := accum_jdq
    accum_gdk := accum_gdk
    accum_jdq_gdk := accum_jdq / accum_gdk }

/-- The function `switch_from_JDQMR`. -/
def switch_from_JDQMR (env : Env) (model : primme_CostModel) (primme : primme_params) :
    primme_CostModel × primme_params :=
  let est_slowdown : ℚ := 11 / 10
  let est_ratio_MV_outer : ℚ := 1000
  if primme.dynamicMethodSwitch = 2 ∧
      averageOverProcs env primme
        (ratio_JDQMR_GDpk model 0 est_slowdown est_ratio_MV_outer) > 105 / 100 then
    (model,
      { primme with
        dynamicMethodSwitch := -1
        correctionParams := { primme.correctionParams with maxInnerIterations := 0 } })
  else
    let switchto : ℤ :=
      if primme.dynamicMethodSwitch = 2 then 1
      else if primme.dynamicMethodSwitch = 4 then 3
      else 0
    let r := averageOverProcs env primme
      (ratio_JDQMR_GDpk model 0 model.JDQMR_slowdown model.ratio_MV_outer)
    let primme :=
      if r > 105 / 100 then
        { primme with
          dynamicMethodSwitch := switchto
          correctionParams := { primme.correctionParams with maxInnerIterations := 0 } }
      else primme
    (accumulate model r, primme)

/-- The function `switch_from_GDpk`. -/
def switch_from_GDpk (env : Env) (model : primme_CostModel) (primme : primme_params) :
    primme_CostModel × primme_params :=
  if primme.stats.numRestarts = 0 then (model, primme)
  else
    let switchto : ℤ :=
      if primme.dynamicMethodSwitch = 1 then 2
      else if primme.dynamicMethodSwitch = 3 then 4
      else 0
    if model.qmr_only = 0 then
      (model,
        { primme with
          dynamicMethodSwitch := switchto
          correctionParams := { primme.correctionParams with maxInnerIterations := -1 } })
    else
      let r := averageOverProcs env primme
        (ratio_JDQMR_GDpk model 0 model.JDQMR_slowdown model.ratio_MV_outer)
      let primme :=
        if r < 95 / 100 then
          { primme with
            dynamicMethodSwitch := switchto
            correctionParams := { primme.correctionParams with maxInnerIterations := -1 } }
        else primme
      (accumulate model r, primme)

/-- The function `update_statistics`: the returned pair is the return value
and the updated model. -/
def update_statistics (env : Env) (model : primme_CostModel) (primme : primme_params)
    (current_time : ℚ) (recentConv calledAtRestart numConverged : ℤ)
    (currentResNorm aNormEst : ℚ) : ℤ × primme_CostModel :=
  let elapsed_time := current_time - model.timer_0
  let time_in_outer := elapsed_time - model.time_in_inner
  let kout := primme.stats.numOuterIterations - model.numIt_0
  let nMV := primme.stats.numMatvecs - model.numMV_0
  let kout := if calledAtRestart ≠ 0 then kout + 1 else kout
  if kout = 0 then (0, model)
  else
    let kinn : ℚ := (nMV : ℚ) / (kout : ℚ) - 2
    if primme.correctionParams.maxInnerIterations = -1 ∧
        (kinn < 1 ∧ model.qmr_only = 0) then (0, model)
    else
      let low_res : ℚ :=
        if recentConv > 0 then
          if primme.aNorm > 0 then primme.eps * primme.aNorm else primme.eps * aNormEst
        else currentResNorm
      let model :=
        if recentConv > 0 then
          if primme.correctionParams.maxInnerIterations = -1 then
            { model with nevals_by_jdq := model.nevals_by_jdq + recentConv }
          else { model with nevals_by_gdk := model.nevals_by_gdk + recentConv }
        else model
      let model :=
        if model.gdk_plus_MV = 0 then { model with gdk_plus_MV := time_in_outer / (kout : ℚ) }
        else { model with gdk_plus_MV := (model.gdk_plus_MV + time_in_outer / (kout : ℚ)) / 2 }
      let model :=
        if Int.tdiv numConverged 10 ≥ model.nextReset then
          { model with
            gdk_sum_logResReductions := model.gdk_sum_logResReductions / model.nevals_by_gdk
            gdk_sum_MV := model.gdk_sum_MV / model.nevals_by_gdk
            jdq_sum_logResReductions := model.jdq_sum_logResReductions / model.nevals_by_jdq
            jdq_sum_MV := model.jdq_sum_MV / model.nevals_by_jdq
            nextReset := Int.tdiv numConverged 10 + 1
            nevals_by_gdk := 1
            nevals_by_jdq := 1 }
        else model
      let model :=
        if primme.dynamicMethodSwitch = 1 ∨ primme.dynamicMethodSwitch = 3 then
          let PR : ℚ :=
            if model.PR = 0 then model.time_in_inner / (kout : ℚ)
            else (model.PR + model.time_in_inner / (kout : ℚ)) / 2
          let gdk_sum_logResReductions : ℚ :=
            if low_res ≤ model.resid_0 then
              model.gdk_sum_logResReductions + env.log (low_res / model.resid_0)
            else model.gdk_sum_logResReductions
          let gdk_sum_MV : ℚ := model.gdk_sum_MV + (nMV : ℚ)
          { model with
            PR := PR
            gdk_plus_MV_PR := model.gdk_plus_MV + PR
            MV_PR := model.MV + PR
            gdk_sum_logResReductions := gdk_sum_logResReductions
            gdk_sum_MV := gdk_sum_MV
            gdk_conv_rate := env.exp (gdk_sum_logResReductions / gdk_sum_MV) }
        else if primme.dynamicMethodSwitch = 2 ∨ primme.dynamicMethodSwitch = 4 then
          let qmr_plus_MV_PR : ℚ :=
            if model.qmr_plus_MV_PR = 0 then
              (model.time_in_inner / (kout : ℚ) - model.MV_PR) / kinn
            else if kinn ≠ 0 then
              (model.qmr_plus_MV_PR + (model.time_in_inner / (kout : ℚ) - model.MV_PR) / kinn) / 2
            else model.qmr_plus_MV_PR
          let ratio_MV_outer : ℚ :=
            if model.qmr_plus_MV_PR = 0 then (nMV : ℚ) / (kout : ℚ)
            else (model.ratio_MV_outer + (nMV : ℚ) / (kout : ℚ)) / 2
          let jdq_sum_logResReductions : ℚ :=
            if low_res ≤ model.resid_0 then
              model.jdq_sum_logResReductions + env.log (low_res / model.resid_0)
            else model.jdq_sum_logResReductions
          let jdq_sum_MV : ℚ := model.jdq_sum_MV + (nMV : ℚ)
          { model with
            qmr_plus_MV_PR := qmr_plus_MV_PR
            ratio_MV_outer := ratio_MV_outer
            qmr_only := qmr_plus_MV_PR - model.MV_PR
            gdk_plus_MV_PR := model.gdk_plus_MV + model.PR
            jdq_sum_logResReductions := jdq_sum_logResReductions
            jdq_sum_MV := jdq_sum_MV
            jdq_conv_rate := env.exp (jdq_sum_logResReductions / jdq_sum_MV) }
        else model
      let model := update_slowdown env model
      (1,
        { model with
          numIt_0 :=
            if calledAtRestart ≠ 0 then primme.stats.numOuterIterations + 1
            else primme.stats.numOuterIterations
          numMV_0 := primme.stats.numMatvecs
          timer_0 := current_time
          time_in_inner := 0
          resid_0 := currentResNorm })

/-! ## `retain_previous_coefficients` -/

/-- The first `for` loop of `retain_previous_coefficients`, entered with the
loop variables `i`, `index` and the array `cols`; the result is the final `i`
and `cols`, or `none` when `fuel` iterations do not suffice. -/
def retainLoop (maxPrevRetain basisSize blockSize : ℤ) (iev flags : IArr) :
    ℕ → ℤ → ℤ → IArr → Option (ℤ × IArr)
  | fuel, i, index, cols =>
    if i < maxPrevRetain ∧ index < basisSize then
      match fuel with
      | 0 => none
      | f + 1 =>
        if i < blockSize then
          retainLoop maxPrevRetain basisSize blockSize iev flags f (i + 1) (rd iev i + 1)
            (wr cols i (rd iev i))
        else if rd flags index = UNCONVERGED then
          retainLoop maxPrevRetain basisSize blockSize iev flags f (i + 1) (index + 1)
            (wr cols i index)
        else
          retainLoop maxPrevRetain basisSize blockSize iev flags f i (index + 1) cols
    else some (i, cols)

/-- The function `retain_previous_coefficients`: the result is the return
value `numPrevRetained`, the array `previousHVecs` and the array `cols`.
The final double loop stores zero in every cell `ldpreviousHVecs*i + j` with
`i < numPrevRetained` and `basisSize <= j < mpreviousHVecs`. -/
def retain_previous_coefficients (fuel : ℕ) (hVecs : Arr) (ldhVecs : ℤ)
    (previousHVecs : Arr) (mpreviousHVecs ldpreviousHVecs basisSize : ℤ) (iev : IArr)
    (blockSize : ℤ) (flags cols : IArr) (primme : primme_params) :
    Option (ℤ × Arr × IArr) :=
  match retainLoop primme.restartingParams.maxPrevRetain basisSize blockSize iev flags
      fuel 0 0 cols with
  | none => none
  | some (numPrevRetained, cols) =>
    let previousHVecs := Num_copy_matrix_columns_dprimme hVecs basisSize cols
      numPrevRetained ldhVecs previousHVecs ldpreviousHVecs
    let previousHVecs : Arr := fun k =>
      if (List.range numPrevRetained.toNat).any (fun i =>
          decide (basisSize ≤ (k : ℤ) - ldpreviousHVecs * (i : ℤ) ∧
            (k : ℤ) - ldpreviousHVecs * (i : ℤ) < mpreviousHVecs)) then 0
      else previousHVecs k
    some (numPrevRetained, previousHVecs, cols)

/-! ## `verify_norms` -/

/-- The first loop of `verify_norms`: for `i = 0, …, basisSize-1` the column
`i` of `W` is overwritten with `W[:,i] - hVals[i]·V[:,i]` and its squared
norm is stored in `dwork[i]`.  The result is the pair `(W, dwork)`. -/
def verifyResiduals (nLocal : ℤ) (V : Arr) (hVals : Arr) (basisSize : ℤ)
    (W dwork : Arr) : Arr × Arr :=
  (List.range basisSize.toNat).foldl
    (fun (acc : Arr × Arr) (i : ℕ) =>
      let W := Num_axpy_dprimme nLocal (-(rd hVals i)) V (nLocal * i) acc.1 (nLocal * i)
      (W, wr acc.2 i (Num_dot_dprimme nLocal W (nLocal * i) W (nLocal * i))))
    (W, dwork)

/-- The first part of `verify_norms` ("Compute the residual vectors"): the
residuals are formed in `W`, their squared norms in `dwork` (the start of
`rwork`), summed over the processes into `resNorms[0..basisSize)`, and the
square roots are taken. -/
def MainState.verifyResidualNorms (env : Env) (s : MainState) (basisSize : ℤ) : MainState :=
  let wd := verifyResiduals s.primme.nLocal s.V s.hVals basisSize s.W s.sh.rwork
  let resNorms := wrRange s.resNorms 0 basisSize
    (fun i => rd (env.globalSumDouble wd.2 basisSize) i)
  { s with
    W := wd.1
    sh := { s.sh with rwork := wd.2 }
    resNorms := wrRange resNorms 0 basisSize (fun i => env.sqrt (rd resNorms i)) }

/-- The call `check_convergence_dprimme(V, …, W, …, NULL, 0, …, 0, basisSize,
flags, resNorms, hVals, &reset, …)` of `verify_norms` (the local `reset` is
uninitialised in C; it is passed as 0): the return value and the new
state. -/
def MainState.verifyCheck (env : Env) (s : MainState) (basisSize : ℤ) : ℤ × MainState :=
  let cc := env.check_convergence s s.V s.W none 0 0 basisSize s.flags s.resNorms
    s.hVals 0
  (cc.ret, { s with
    flags := wrRange s.flags 0 basisSize (fun i => rd cc.flags i)
    sh := cc.sh })

/-- The last part of `verify_norms` ("Set converged to 1 if the first
basisSize pairs are converged"). -/
def MainState.setConverged (s : MainState) (basisSize : ℤ) : MainState :=
  { s with
    converged :=
      if (List.range basisSize.toNat).all (fun i => decide (s.flags i ≠ UNCONVERGED))
      then 1 else 0 }

/-- The function `verify_norms(V, W, hVals, basisSize, resNorms, flags,
&converged, …)` called on the arrays of the state; the result is the return
value and the new state. -/
def verify_norms (env : Env) (s : MainState) (basisSize : ℤ) : ℤ × MainState :=
  let c := (s.verifyResidualNorms env basisSize).verifyCheck env basisSize
  if c.1 ≠ 0 then c else (0, c.2.setConverged basisSize)

/-! ## `prepare_candidates_dprimme` -/

/-- The minimum loop `for (…; i < hi; i++) m = min(m, a[i])` started at
`i = lo`. -/
def minLoop (a : Arr) (lo hi : ℤ) (m : ℚ) : ℚ :=
  (List.range (hi - lo).toNat).foldl (fun m k => cmin m (rd a (lo + k))) m

/-- The candidate loop of `prepare_candidates_dprimme` ("Compact blockNorms, X
and R for the unconverged pairs"), run for at most `k` more iterations from
the loop variables `i`, `blki`.  `xOff` and `rOff` are the offsets of the
pointers `X` and `R` inside `V` and `W`.  The result is the final `blki` and
the new state. -/
def candidateLoop (nLocal ldV xOff rOff numEvals blockNormsSize maxBlockSize numLocked : ℤ)
    (targetShift : ℚ) (flagsBlock : IArr) : ℕ → ℤ → ℤ → MainState → ℤ × MainState
  | 0, _, blki, s => (blki, s)
  | k + 1, i, blki, s =>
    if i < blockNormsSize ∧ s.blockSize < maxBlockSize then
      let s := { s with flags := wr s.flags (rd s.iev blki) (rd flagsBlock i) }
      let idx := rd s.iev blki
      let s :=
        if (s.primme.target = primme_closest_leq
              ∧ rd s.hVals idx - rd s.blockNorms blki > targetShift) ∨
            (s.primme.target = primme_closest_geq
              ∧ rd s.hVals idx + rd s.blockNorms blki < targetShift) then
          { s with ignored := s.ignored ++ [idx] }
        else if rd flagsBlock i ≠ UNCONVERGED ∧ s.recentlyConverged < numEvals ∧
            (idx < s.primme.numEvals - numLocked
              ∨ s.primme.target = primme_closest_geq
              ∨ s.primme.target = primme_closest_leq) then
          let s :=
            if s.primme.locking = 0 then
              { s with
                evals := wr s.evals idx (rd s.hVals idx)
                resNorms := wr s.resNorms idx (rd s.blockNorms blki)
                sh := { s.sh with
                  maxConvTol := cmax s.sh.maxConvTol (rd s.blockNorms blki) } }
            else s
          { s with recentlyConverged := s.recentlyConverged + 1 }
        else if rd flagsBlock i = UNCONVERGED then
          { s with
            blockNorms := wr s.blockNorms s.blockSize (rd s.blockNorms blki)
            iev := wr s.iev s.blockSize (rd s.iev blki)
            V := Num_copy_matrix_dprimme s.V (xOff + blki * ldV) nLocal 1 ldV
              s.V (xOff + s.blockSize * ldV) ldV
            W := Num_copy_matrix_dprimme s.W (rOff + blki * ldV) nLocal 1 ldV
              s.W (rOff + s.blockSize * ldV) ldV
            blockSize := s.blockSize + 1 }
        else s
      candidateLoop nLocal ldV xOff rOff numEvals blockNormsSize maxBlockSize numLocked
        targetShift flagsBlock k (i + 1) (blki + 1) s
    else (blki, s)

/-- The scan `for ( ; i<basisSize && blki < maxBlockSize; i++) if (flags[i] ==
UNCONVERGED) iev[blki++] = i;` run for at most `k` more iterations; the
result is the final `blki` and `iev`. -/
def scanLoop (basisSize maxBlockSize : ℤ) (flags : IArr) : ℕ → ℤ → ℤ → IArr → ℤ × IArr
  | 0, _, blki, iev => (blki, iev)
  | k + 1, i, blki, iev =>
    if i < basisSize ∧ blki < maxBlockSize then
      if rd flags i = UNCONVERGED then
        scanLoop basisSize maxBlockSize flags k (i + 1) (blki + 1) (wr iev blki i)
      else scanLoop basisSize maxBlockSize flags k (i + 1) blki iev
    else (blki, iev)

/-- The call of `check_convergence_dprimme` at the top of the `while (1)`
loop of `prepare_candidates_dprimme` ("Recompute flags in
iev(*blockSize:*blockSize+blockNormsize)"); `flagsBlock` is `iwork`.  The
result is the return value and the new state. -/
def candidatesCheck (env : Env) (ldV xOff rOff numLocked blockNormsSize : ℤ)
    (hValsBlock : Arr) (s : MainState) : ℤ × MainState :=
  let cc := env.check_convergence s (ptr s.V (xOff + s.blockSize * ldV))
    (ptr s.W (rOff + s.blockSize * ldV)) (some s.evecs) numLocked 0 blockNormsSize
    s.iwork (ptr s.blockNorms s.blockSize) hValsBlock s.reset
  (cc.ret, { s with
    iwork := wrRange s.iwork 0 blockNormsSize (fun i => rd cc.flags i)
    reset := cc.reset
    sh := cc.sh })

/-- The call of `prepare_vecs_dprimme` inside the loop of
`prepare_candidates_dprimme`, started at the Ritz index `i`. -/
def candidatesPrepareVecs (env : Env) (basisSize maxBlockSize targetShiftIndex i : ℤ)
    (s : MainState) : MainState :=
  let pv := env.prepare_vecs s basisSize i (maxBlockSize - s.blockSize) targetShiftIndex
    s.numArbitraryVecs s.smallestResNorm (some s.flags)
  { s with
    hVecs := pv.hVecs
    numArbitraryVecs := pv.numArbitraryVecs
    sh := pv.sh }

/-- The call of `Num_update_VWXR_dprimme` inside the loop of
`prepare_candidates_dprimme` ("Compute X, R and residual norms for the next
candidates"), for the `blockNormsSize` indices appended to `iev`.  The result
is the return value and the new state. -/
def candidatesResiduals (env : Env) (nLocal basisSize ldV xOff rOff ldhVecs
    blockNormsSize : ℤ) (s : MainState) : ℤ × MainState :=
  let hValsBlock := Num_compact_vecs_dprimme s.hVals 1 (ptr s.iev s.blockSize)
  let hVecsBlock := Num_compact_vecs_dprimme s.hVecs ldhVecs (ptr s.iev s.blockSize)
  let u := env.Num_update_VWXR s basisSize hVecsBlock hValsBlock blockNormsSize
  (u.ret, { s with
    V := Num_copy_matrix_dprimme u.X 0 nLocal blockNormsSize ldV
      s.V (xOff + s.blockSize * ldV) ldV
    W := Num_copy_matrix_dprimme u.R 0 nLocal blockNormsSize ldV
      s.W (rOff + s.blockSize * ldV) ldV
    blockNorms := wrRange s.blockNorms s.blockSize blockNormsSize
      (fun k => rd u.Rnorms k)
    sh := u.sh })

/-- The statements "Update the smallest residual norm" at the end of the
loop of `prepare_candidates_dprimme`. -/
def candidatesSmallest (env : Env) (blockNormsSize : ℤ) (s : MainState) : MainState :=
  let s : MainState :=
    if s.blockSize = 0 ∧ blockNormsSize > 0 then
      { s with smallestResNorm := env.HUGE_VAL }
    else s
  { s with
    smallestResNorm :=
      minLoop s.blockNorms s.blockSize blockNormsSize s.smallestResNorm }

/-- The search "Find next candidates, starting from iev(*blockSize)+1" of
`prepare_candidates_dprimme`, started at the Ritz index `i`: the result is the
final `blki` and the new state. -/
def candidatesScan (basisSize maxBlockSize i : ℤ) (s : MainState) : ℤ × MainState :=
  let sc := scanLoop basisSize maxBlockSize s.flags (basisSize - i).toNat i s.blockSize
    s.iev
  (sc.1, { s with iev := sc.2 })

/-- The Ritz index at which `prepare_candidates_dprimme` resumes after the
candidate loop: `if (blki > 0) i = iev[blki-1]+1; else i = 0;`. -/
def candidatesResume (blki : ℤ) (iev : IArr) : ℤ :=
  if blki > 0 then rd iev (blki - 1) + 1 else 0

/-- The `while (1)` loop of `prepare_candidates_dprimme`, entered with the
current `blockNormsSize` and `hValsBlock`.  The result is the return value and
the new state, or `none` when `fuel` iterations do not suffice. -/
def candidatesWhile (env : Env) (nLocal basisSize ldV xOff rOff ldhVecs numEvals
    maxBlockSize numLocked targetShiftIndex : ℤ) (targetShift : ℚ) :
    ℕ → ℤ → Arr → MainState → Option (ℤ × MainState)
  | 0, _, _, _ => none
  | fuel + 1, blockNormsSize, hValsBlock, s =>
    let c := candidatesCheck env ldV xOff rOff numLocked blockNormsSize hValsBlock s
    if c.1 ≠ 0 then some c
    else
      let flagsBlock := c.2.iwork
      let r := candidateLoop nLocal ldV xOff rOff numEvals blockNormsSize maxBlockSize
        numLocked targetShift flagsBlock blockNormsSize.toNat 0 c.2.blockSize c.2
      let i : ℤ := candidatesResume r.1 r.2.iev
      let sc := candidatesScan basisSize maxBlockSize i
        (candidatesPrepareVecs env basisSize maxBlockSize targetShiftIndex i r.2)
      let blki := sc.1
      if blki = sc.2.blockSize ∨ sc.2.recentlyConverged ≥ numEvals then some (0, sc.2)
      else
        let blockNormsSize := blki - sc.2.blockSize
        let hValsBlock := Num_compact_vecs_dprimme sc.2.hVals 1 (ptr sc.2.iev sc.2.blockSize)
        let u := candidatesResiduals env nLocal basisSize ldV xOff rOff ldhVecs
          blockNormsSize sc.2
        if u.1 ≠ 0 then some u
        else
          candidatesWhile env nLocal basisSize ldV xOff rOff ldhVecs numEvals maxBlockSize
            numLocked targetShiftIndex targetShift fuel blockNormsSize hValsBlock
            (candidatesSmallest env blockNormsSize u.2)

/-- The function `prepare_candidates_dprimme` called on the arrays of the
state (`X` and `R` are `V + xOff` and `W + rOff`; the outputs `blockSize`,
`recentlyConverged`, `numArbitraryVecs`, `smallestResNorm` and `reset` are the
fields of the state).  The result is the return value and the new state, or
`none` when `fuel` passes of the `while (1)` loop do not suffice. -/
def prepare_candidates_dprimme (env : Env) (fuel : ℕ) (s : MainState)
    (nLocal basisSize ldV xOff rOff ldhVecs numEvals blockNormsSize maxBlockSize
      numLocked targetShiftIndex : ℤ) : Option (ℤ × MainState) :=
  let s := { s with blockSize := 0 }
  let targetShift : ℚ :=
    match s.primme.targetShifts with
    | some a => rd a targetShiftIndex
    | none => 0
  let hValsBlock := Num_compact_vecs_dprimme s.hVals 1 (ptr s.iev s.blockSize)
  let s :=
    if blockNormsSize > 0 then
      { s with smallestResNorm := minLoop s.blockNorms 0 blockNormsSize env.HUGE_VAL }
    else s
  let s := { s with recentlyConverged := 0 }
  candidatesWhile env nLocal basisSize ldV xOff rOff ldhVecs numEvals maxBlockSize
    numLocked targetShiftIndex targetShift fuel blockNormsSize hValsBlock s

/-! ## `main_iter_dprimme` -/

/-- Control flow out of a piece of `main_iter_dprimme`. -/
inductive Flow
  /-- The piece ran to its end. -/
  | cont (s : MainState)
  /-- A `break` left the enclosing loop. -/
  | brk (s : MainState)
  /-- A `return` with the given value. -/
  | ret (code : ℤ) (s : MainState)
  /-- The fuel of the model ran out (the C code would still be running). -/
  | stuck (s : MainState)

/-- Result of a run of `main_iter_dprimme`. -/
inductive Outcome
  | returned (code : ℤ) (s : MainState)
  | outOfFuel (s : MainState)

/-- Ghost: log a collaborator call. -/
def MainState.log (s : MainState) (c : Call) : MainState :=
  { s with trace := s.trace ++ [c] }

/-- Read `primme_wTimer(0)`: the reading and the state with the clock
advanced. -/
def MainState.wTimer (env : Env) (s : MainState) : ℚ × MainState :=
  (env.wTimer s.clock, { s with clock := s.clock + 1 })

/-- Add the matvecs a collaborator performed through the adapter to
`primme->stats.numMatvecs`. -/
def MainState.addMatvecs (s : MainState) (mv : ℕ) : MainState :=
  { s with primme := { s.primme with
      stats := { s.primme.stats with numMatvecs := s.primme.stats.numMatvecs + mv } } }

/-- The pointer `Q` is not `NULL`: `Q` is carved out of the workspace exactly
when the projection is not Rayleigh-Ritz (`numQR > 0`). -/
abbrev MainState.useQ (s : MainState) : Prop :=
  s.primme.projectionParams.projection ≠ primme_proj_RR

/-- The pointer `QtV` is not `NULL`: only for the harmonic projection. -/
abbrev MainState.useQtV (s : MainState) : Prop :=
  s.primme.projectionParams.projection = primme_proj_harmonic

/-- The call `matrixMatvec_dprimme(V, nLocal, nLocal, W, nLocal, basisSize,
blockSize, primme)`. -/
def MainState.matvec (env : Env) (s : MainState) (basisSize blockSize : ℤ) : MainState :=
  let r := matrixMatvec_dprimme env s.V s.primme.nLocal s.primme.nLocal s.W
    s.primme.nLocal basisSize blockSize s.primme.stats.numMatvecs
  { s with
    W := r.1
    primme := { s.primme with stats := { s.primme.stats with numMatvecs := r.2 } }
    trace := s.trace ++ [Call.matrixMatvec blockSize] }

/-- The three statements `if (Q) update_Q_dprimme(…); if (H)
update_projection_dprimme(V, W, H, …); if (QtV)
update_projection_dprimme(Q, V, QtV, …);` for the columns
`numCols .. numCols+blockSize-1`. -/
def MainState.updateProjections (env : Env) (s : MainState) (numCols blockSize : ℤ) :
    MainState :=
  let s :=
    if s.useQ then
      { s with
        sh := env.update_Q s (s.primme.targetShift s.targetShiftIndex) numCols blockSize
        trace := s.trace ++ [Call.update_Q] }
    else s
  let s := { s with
    sh := env.update_projection s numCols blockSize 1
    trace := s.trace ++ [Call.update_projection] }
  if s.useQtV then
    { s with
      sh := env.update_projection s numCols blockSize 0
      trace := s.trace ++ [Call.update_projection] }
  else s

/-- The call `solve_H_dprimme(H, basisSize, …, numConverged, …)`: the return
value and the new state. -/
def MainState.solveH (env : Env) (s : MainState) : ℤ × MainState :=
  let o := env.solve_H s s.basisSize s.numConverged
  (o.ret,
    { s with
      hU := o.hU
      hVecs := o.hVecs
      hVals := o.hVals
      hSVals := o.hSVals
      iwork := o.iwork
      sh := o.sh
      trace := s.trace ++ [Call.solve_H o.ret] })

/-- The call `ortho_dprimme(V, nLocal, NULL, 0, b1, b2, evecs, nLocal,
numLocked, …)`: the return value and the new state. -/
def MainState.orthoCall (env : Env) (s : MainState) (b1 b2 numLocked : ℤ) :
    ℤ × MainState :=
  let o := env.ortho s b1 b2 numLocked
  (o.ret, { s with V := o.V, sh := o.sh, trace := s.trace ++ [Call.ortho o.ret] })

/-- The loop guard shared by the three loops: neither budget is exhausted. -/
abbrev MainState.withinBudget (s : MainState) : Prop :=
  (s.primme.maxMatvecs = 0 ∨ s.primme.stats.numMatvecs < s.primme.maxMatvecs) ∧
  (s.primme.maxOuterIterations = 0 ∨
    s.primme.stats.numOuterIterations < s.primme.maxOuterIterations)

/-- The call `switch_from_GDpk(&CostModel, primme)`. -/
def MainState.switchGDpk (env : Env) (s : MainState) : MainState :=
  { s with
    CostModel := (switch_from_GDpk env s.CostModel s.primme).1
    primme := (switch_from_GDpk env s.CostModel s.primme).2 }

/-- The call `switch_from_JDQMR(&CostModel, primme)`. -/
def MainState.switchJDQMR (env : Env) (s : MainState) : MainState :=
  { s with
    CostModel := (switch_from_JDQMR env s.CostModel s.primme).1
    primme := (switch_from_JDQMR env s.CostModel s.primme).2 }

/-- The block "If dynamic method switching, time the inner method" that
precedes the correction solve in a growth step. -/
def dynamicBeforeCorrection (env : Env) (s : MainState) : MainState :=
  if s.primme.dynamicMethodSwitch > 0 then
    let t := s.wTimer env
    let s : MainState := { t.2 with tstart := t.1 }
    let s : MainState :=
      if s.CostModel.resid_0 = -1 then
        { s with CostModel := { s.CostModel with resid_0 := rd s.blockNorms 0 } }
      else s
    if s.recentlyConverged > 0 ∨ s.primme.dynamicMethodSwitch = 2 then
      let u := update_statistics env s.CostModel s.primme s.tstart s.recentlyConverged 0
        s.numConverged (rd s.blockNorms 0) s.sh.estimateLargestSVal
      let s : MainState := { s with CostModel := u.2 }
      if u.1 ≠ 0 then
        if s.primme.dynamicMethodSwitch = 3 then s.switchGDpk env
        else if s.primme.dynamicMethodSwitch = 2 ∨ s.primme.dynamicMethodSwitch = 4 then
          s.switchJDQMR env
        else s
      else s
    else s
  else s

/-- The early-restart test of a growth step (the condition of the `break`
that follows `numConverged += recentlyConverged`). -/
abbrev MainState.earlyRestart (s : MainState) : Prop :=
  s.numConverged ≥ s.primme.numEvals ∨
  (s.primme.locking ≠ 0 ∧ s.recentlyConverged > 0
    ∧ s.primme.target ≠ primme_smallest
    ∧ s.primme.target ≠ primme_largest) ∨
  s.targetShiftIndex < 0 ∨
  (s.useQ ∧ s.primme.targetShift s.targetShiftIndex ≠
    s.primme.targetShift (cmin (s.primme.numTargetShifts - 1) s.numConverged))

/-- The first part of a growth step: count the outer iteration and determine
`availableBlockSize` and `maxRecentlyConverged` (including the reset
heuristic for the refined projection). -/
def growthBlockSize (s : MainState) : MainState :=
  let s : MainState := { s with primme := { s.primme with stats := { s.primme.stats with
    numOuterIterations := s.primme.stats.numOuterIterations + 1 } } }
  let s : MainState :=
    if s.primme.numTargetShifts > s.numConverged + 1 ∧ s.useQ then
      { s with
        availableBlockSize := 1
        maxRecentlyConverged := s.numConverged - s.numLocked + 1 }
    else
      { s with
        availableBlockSize := s.primme.maxBlockSize
        maxRecentlyConverged := s.primme.numEvals - s.numConverged }
  let s : MainState := { s with
    availableBlockSize := cmin s.availableBlockSize (s.primme.maxBasisSize - s.basisSize) }
  let s : MainState := { s with
    availableBlockSize := cmin s.availableBlockSize (s.maxRecentlyConverged + 1) }
  let s : MainState := { s with
    availableBlockSize := cmin s.availableBlockSize (s.primme.n - s.basisSize) }
  if s.primme.projectionParams.projection = primme_proj_refined ∧
      s.basisSize > 0 ∧ s.restartsSinceReset > 0 ∧
      |s.primme.targetShift s.targetShiftIndex - rd s.hVals 0|
        - cmax s.primme.aNorm s.sh.estimateLargestSVal * s.machEps > rd s.hSVals 0 then
    { s with availableBlockSize := 0, targetShiftIndex := -1, reset := 2 }
  else s

/-- The end of a growth step: the "+k" snapshot taken when the basis is about
to be full.  `none` when the fuel does not suffice. -/
def growthRetain (fuel : ℕ) (s : MainState) : Option MainState :=
  if s.basisSize + s.primme.maxBlockSize ≥ s.primme.maxBasisSize
      ∧ s.basisSize < s.primme.maxBasisSize then
    match retain_previous_coefficients fuel (if s.useQtV then s.hU else s.hVecs)
        s.basisSize s.previousHVecs s.primme.maxBasisSize s.primme.maxBasisSize
        s.basisSize s.iev s.blockSize s.flags s.iwork s.primme with
    | none => none
    | some (n, prev, cols) =>
      let s : MainState := { s with numPrevRetained := n, previousHVecs := prev, iwork := cols }
      if s.primme.projectionParams.projection = primme_proj_refined then
        match retain_previous_coefficients fuel s.hU s.basisSize s.previousHU
            s.primme.maxBasisSize s.primme.maxBasisSize s.basisSize s.iev s.blockSize
            s.flags s.iwork s.primme with
        | none => none
        | some (_, prevU, cols) =>
          let s : MainState := { s with previousHU := prevU, iwork := cols }
          some { s with
            prevhSvals := Num_copy_matrix_columns_dprimme s.hSVals 1 s.iwork
              s.numPrevRetained 1 s.prevhSvals 1 }
      else some s
  else some s

/-- The statement "Set the block with the first unconverged pairs" of a
growth step: the call of `prepare_candidates_dprimme` (whose return value
`main_iter_dprimme` does not use) when `availableBlockSize > 0`, and
`blockSize = recentlyConverged = 0` otherwise.  `none` when the fuel does not
suffice for `prepare_candidates_dprimme`. -/
def growthPrepare (env : Env) (fuel : ℕ) (s : MainState) : Option MainState :=
  if s.availableBlockSize > 0 then
    match prepare_candidates_dprimme env fuel s s.primme.nLocal s.basisSize
        s.primme.nLocal (s.basisSize * s.primme.nLocal) (s.basisSize * s.primme.nLocal)
        s.basisSize s.maxRecentlyConverged s.blockSize s.availableBlockSize s.numLocked
        s.targetShiftIndex with
    | none => none
    | some r => some (r.2.log (Call.prepare_candidates r.1))
  else some { s with blockSize := 0, recentlyConverged := 0 }

/-- The statement `numConverged += recentlyConverged;`. -/
def MainState.countConverged (s : MainState) : MainState :=
  { s with numConverged := s.numConverged + s.recentlyConverged }

/-- The candidate preparation of a growth step followed by
`numConverged += recentlyConverged`. -/
def growthCandidates (env : Env) (fuel : ℕ) (s : MainState) : Option MainState :=
  match growthPrepare env fuel s with
  | none => none
  | some s => some s.countConverged

/-- The case `blockSize == 0` of a growth step: `blockSize =
availableBlockSize` and the next `blockSize` columns of `V` are zeroed. -/
def MainState.zeroBlock (s : MainState) : MainState :=
  let s : MainState := { s with blockSize := s.availableBlockSize }
  { s with
    V := Num_scal_dprimme (s.blockSize * s.primme.nLocal) 0 s.V
      (s.primme.nLocal * s.basisSize) }

/-- The call `solve_correction_dprimme(…)`: the return value and the new
state. -/
def MainState.solveCorrection (env : Env) (s : MainState) : ℤ × MainState :=
  let o := env.solve_correction s s.basisSize s.blockSize
  (o.ret,
    ({ s with
      V := o.V
      W := o.W
      blockNorms := o.blockNorms
      numPrevRitzVals := o.numPrevRitzVals
      sh := o.sh
      trace := s.trace ++ [Call.solve_correction o.ret] } : MainState).addMatvecs o.mv)

/-- The statement `CostModel.time_in_inner += primme_wTimer(0) - tstart;`. -/
def MainState.addInnerTime (env : Env) (s : MainState) : MainState :=
  let t := s.wTimer env
  { t.2 with CostModel := { t.2.CostModel with
    time_in_inner := t.2.CostModel.time_in_inner + (t.1 - t.2.tstart) } }

/-- The middle of a growth step: if the block is empty, zero the next
`availableBlockSize` columns of `V`; otherwise time and run the correction
solver. -/
def growthCorrection (env : Env) (s : MainState) : Flow :=
  if s.blockSize = 0 then Flow.cont s.zeroBlock
  else
    let c := (dynamicBeforeCorrection env s).solveCorrection env
    if c.1 ≠ 0 then Flow.ret SOLVE_CORRECTION_FAILURE c.2
    else if c.2.primme.dynamicMethodSwitch > 0 then Flow.cont (c.2.addInnerTime env)
    else Flow.cont c.2

/-- The statements of a growth step between the orthogonalization and the
projected solve: `W = A·V` on the new columns, the update of `Q`, `H`, `QtV`,
and `basisSize += blockSize; blockSize = 0;`. -/
def MainState.extendBasis (env : Env) (s : MainState) : MainState :=
  let s : MainState := s.matvec env s.basisSize s.blockSize
  let s : MainState := s.updateProjections env s.basisSize s.blockSize
  { s with basisSize := s.basisSize + s.blockSize, blockSize := 0 }

/-- The statement `numArbitraryVecs = 0;`. -/
def MainState.resetArbitrary (s : MainState) : MainState :=
  { s with numArbitraryVecs := 0 }

/-- The last part of a growth step: orthogonalize the new columns, apply the
operator to them, extend the projections, solve the projected problem and
take the "+k" snapshot. -/
def growthExtend (env : Env) (fuel : ℕ) (s : MainState) : Flow :=
  let o := s.orthoCall env s.basisSize (s.basisSize + s.blockSize - 1)
    (s.primme.numOrthoConst + s.numLocked)
  if o.1 < 0 then Flow.ret ORTHO_FAILURE o.2
  else
    let h := (o.2.extendBasis env).solveH env
    if h.1 ≠ 0 then Flow.ret SOLVE_H_FAILURE h.2
    else
      match growthRetain fuel h.2.resetArbitrary with
      | none => Flow.stuck h.2.resetArbitrary
      | some s => Flow.cont s

/-- One pass through the body of the growth loop ("Main block Davidson
loop"). -/
def growthStep (env : Env) (fuel : ℕ) (s : MainState) : Flow :=
  match growthCandidates env fuel (growthBlockSize s) with
  | none => Flow.stuck (growthBlockSize s)
  | some s =>
    if s.earlyRestart then Flow.brk s
    else
      match growthCorrection env s with
      | Flow.cont s => growthExtend env fuel s
      | other => other

/-- The condition of the growth loop. -/
abbrev MainState.growthGuard (s : MainState) : Prop :=
  s.basisSize < s.primme.maxBasisSize ∧
  s.basisSize < s.primme.n - s.primme.numOrthoConst - s.numLocked ∧
  s.withinBudget

/-- The growth loop `while (basisSize < maxBasisSize && basisSize < n -
numOrthoConst - numLocked && …budgets…)`, with `fuel` passes allowed. -/
def growthLoop (env : Env) (inner : ℕ) : ℕ → MainState → Flow
  | fuel, s =>
    if s.growthGuard then
      match fuel with
      | 0 => Flow.stuck s
      | f + 1 =>
        match growthStep env inner s with
        | Flow.cont s => growthLoop env inner f s
        | Flow.brk s => Flow.cont s
        | other => other
    else Flow.cont s

/-- The call `restart_dprimme(…)` of the restart loop; its return value is
not assigned to anything by `main_iter_dprimme`, it is only logged here. -/
def MainState.restartCall (env : Env) (s : MainState) : MainState :=
  let o := env.restart s s.basisSize
  let s : MainState := { s with
    V := o.V
    W := o.W
    hVals := o.hVals
    hSVals := o.hSVals
    flags := o.flags
    iev := o.iev
    blockSize := o.blockSize
    blockNorms := o.blockNorms
    evecs := o.evecs
    perm := o.perm
    evals := o.evals
    resNorms := o.resNorms
    numConverged := o.numConverged
    numLocked := o.numLocked
    numConvergedStored := o.numConvergedStored
    previousHVecs := o.previousHVecs
    numPrevRetained := o.numPrevRetained
    numPrevRitzVals := o.numPrevRitzVals
    hU := o.hU
    hVecs := o.hVecs
    basisSize := o.basisSize
    targetShiftIndex := o.targetShiftIndex
    numArbitraryVecs := o.numArbitraryVecs
    previousHU := o.previousHU
    prevhSvals := o.prevhSvals
    restartsSinceReset := o.restartsSinceReset
    reset := o.reset
    iwork := o.iwork
    sh := o.sh
    trace := s.trace ++ [Call.restart o.ret] }
  s.addMatvecs o.mv

/-- The number `numNew` of initial guesses pulled into the basis after a
restart: `max(0, min(primme->minRestartSize-basisSize, numGuesses))`. -/
def MainState.numNew (s : MainState) : ℤ :=
  cmax 0 (cmin (s.primme.minRestartSize - s.basisSize) s.numGuesses)

/-- The copy of `numNew` initial guesses from `evecs` into `V` and the update
of `nextGuess` and `numGuesses`. -/
def MainState.copyGuesses (s : MainState) (numNew : ℤ) : MainState :=
  let s : MainState := { s with
    V := Num_copy_matrix_dprimme s.evecs (s.nextGuess * s.primme.nLocal) s.primme.nLocal
      numNew s.primme.nLocal s.V (s.basisSize * s.primme.nLocal) s.primme.nLocal }
  { s with
    nextGuess := s.nextGuess + numNew
    numGuesses := s.numGuesses - numNew }

/-- The statements that extend the basis by the `numNew` orthogonalized
guesses: `W = A·V` on the new columns, the update of `Q`, `H`, `QtV`, and
`basisSize += numNew`. -/
def MainState.extendByGuesses (env : Env) (s : MainState) (numNew : ℤ) : MainState :=
  let s : MainState := s.matvec env s.basisSize numNew
  let s : MainState := s.updateProjections env s.basisSize numNew
  { s with basisSize := s.basisSize + numNew }

/-- The block "If there are any initial guesses remaining, then copy it into
the basis" that follows the restart. -/
def restartGuesses (env : Env) (s : MainState) : Flow :=
  if s.numGuesses > 0 then
    let o := (s.copyGuesses s.numNew).orthoCall env s.basisSize
      (s.basisSize + s.numNew - 1) s.numLocked
    if o.1 < 0 then Flow.ret ORTHO_FAILURE o.2
    else
      let h := (o.2.extendByGuesses env s.numNew).solveH env
      if h.1 ≠ 0 then Flow.ret SOLVE_H_FAILURE h.2
      else Flow.cont h.2
  else Flow.cont s

/-- The statement `wholeSpace = basisSize >= primme->n -
primme->numOrthoConst - numLocked;`. -/
def MainState.setWholeSpace (s : MainState) : MainState :=
  { s with
    wholeSpace :=
      if s.basisSize ≥ s.primme.n - s.primme.numOrthoConst - s.numLocked then 1 else 0 }

/-- The statement `if (targetShiftIndex >= 0) prepare_vecs_dprimme(…);` that
precedes the restart. -/
def MainState.prepareVecsCall (env : Env) (s : MainState) : MainState :=
  if s.targetShiftIndex ≥ 0 then
    let pv := env.prepare_vecs s s.basisSize 0 s.availableBlockSize s.targetShiftIndex
      s.numArbitraryVecs s.smallestResNorm none
    { s with
      hVecs := pv.hVecs
      numArbitraryVecs := pv.numArbitraryVecs
      sh := pv.sh
      trace := s.trace ++ [Call.prepare_vecs] }
  else s

/-- The statements `primme->stats.numRestarts++; primme->initSize =
numConverged;`. -/
def MainState.countRestart (s : MainState) : MainState :=
  let s : MainState := { s with primme := { s.primme with
    stats := { s.primme.stats with numRestarts := s.primme.stats.numRestarts + 1 } } }
  { s with primme := { s.primme with initSize := s.numConverged } }

/-- The block "If dynamic method switching == 1, update model parameters and
evaluate whether to switch from GD+k to JDQMR" at the end of a restart. -/
def dynamicAfterRestart (env : Env) (s : MainState) : MainState :=
  if s.primme.dynamicMethodSwitch = 1 then
    let t := s.wTimer env
    let s : MainState := { t.2 with tstart := t.1 }
    let u := update_statistics env s.CostModel s.primme s.tstart 0 1 s.numConverged
      (rd s.blockNorms 0) s.sh.estimateMaxEVal
    let s : MainState := { s with CostModel := u.2 }
    s.switchGDpk env
  else s

/-- The part of the restart-loop body that follows the growth loop: set
`wholeSpace`, call `prepare_vecs` and `restart`, pull in initial guesses,
count the restart, evaluate the dynamic switch, and `break` if
`wholeSpace`. -/
def afterGrowth (env : Env) (s : MainState) : Flow :=
  match restartGuesses env ((s.setWholeSpace.prepareVecsCall env).restartCall env) with
  | Flow.cont s =>
    if (dynamicAfterRestart env s.countRestart).wholeSpace ≠ 0 then
      Flow.brk (dynamicAfterRestart env s.countRestart)
    else Flow.cont (dynamicAfterRestart env s.countRestart)
  | other => other

/-- The statement `numPrevRetained = 0;` at the top of the restart loop. -/
def MainState.resetRetained (s : MainState) : MainState :=
  { s with numPrevRetained := 0 }

/-- The condition of the restart loop. -/
abbrev MainState.restartGuard (s : MainState) : Prop :=
  s.numConverged < s.primme.numEvals ∧ s.withinBudget

/-- The restart loop `while (numConverged < primme->numEvals &&
…budgets…)`, with `fuel` passes allowed, each growth loop being allowed
`inner` passes. -/
def restartLoop (env : Env) (inner : ℕ) : ℕ → MainState → Flow
  | fuel, s =>
    if s.restartGuard then
      match fuel with
      | 0 => Flow.stuck s
      | f + 1 =>
        match growthLoop env inner inner s.resetRetained with
        | Flow.cont s =>
          match afterGrowth env s with
          | Flow.cont s => restartLoop env inner f s
          | Flow.brk s => Flow.cont s
          | other => other
        | other => other
    else Flow.cont s

/-- The recommendation "if dynamic method, give method recommendation for
future runs". -/
def recommendMethod (s : MainState) : MainState :=
  if s.primme.dynamicMethodSwitch > 0 then
    if s.CostModel.accum_jdq_gdk < 96 / 100 then
      { s with primme := { s.primme with dynamicMethodSwitch := -2 } }
    else if s.CostModel.accum_jdq_gdk > 104 / 100 then
      { s with primme := { s.primme with dynamicMethodSwitch := -1 } }
    else { s with primme := { s.primme with dynamicMethodSwitch := -3 } }
  else s

/-- The statement `if (primme->aNorm <= 0.0L) primme->aNorm =
primme->stats.estimateLargestSVal;`. -/
def setANorm (s : MainState) : MainState :=
  if s.primme.aNorm ≤ 0 then
    { s with primme := { s.primme with aNorm := s.sh.estimateLargestSVal } }
  else s

/-- The statement `intWork[0] = LockingProblem;` (recall that `flags` is
`intWork`). -/
def MainState.reportLockingProblem (s : MainState) : MainState :=
  { s with flags := wr s.flags 0 s.LockingProblem }

/-- The code after the restart loop when locking is enabled. -/
def finishLocking (s : MainState) : Flow :=
  if (recommendMethod s).reportLockingProblem.numConverged = s.primme.numEvals
      ∨ (recommendMethod s).reportLockingProblem.wholeSpace ≠ 0 then
    Flow.ret 0 (setANorm (recommendMethod s).reportLockingProblem)
  else Flow.ret MAX_ITERATIONS_REACHED (recommendMethod s).reportLockingProblem

/-- The value of `restartLimitReached`: `primme->maxMatvecs > 0 &&
primme->stats.numMatvecs >= primme->maxMatvecs`. -/
abbrev MainState.restartLimitReached (s : MainState) : Prop :=
  s.primme.maxMatvecs > 0 ∧ s.primme.stats.numMatvecs ≥ s.primme.maxMatvecs

/-- The statement `if (enforceRestart) { enforceRestart = 0; converged = 0; }
else { ret = verify_norms(V, W, hVals, numConverged, resNorms, flags,
&converged, …); … }`: the value of `ret` (0 in the first branch) and the new
state. -/
def verifyStep (env : Env) (s : MainState) : ℤ × MainState :=
  if s.enforceRestart ≠ 0 then (0, { s with enforceRestart := 0, converged := 0 })
  else
    ((verify_norms env s s.numConverged).1,
      (verify_norms env s s.numConverged).2.log
        (Call.verify_norms (verify_norms env s s.numConverged).1))

/-- The copy of the current Ritz values and vectors to the output arrays:
`evals[i] = hVals[i]`, `perm[i] = i` for `i < numEvals`, the first
`numEvals` columns of `V` to `evecs` behind the `numOrthoConst` constraint
vectors, and `primme->initSize = numConverged`. -/
def MainState.copyOut (s : MainState) : MainState :=
  let s : MainState := { s with
    evals := wrRange s.evals 0 s.primme.numEvals (fun i => rd s.hVals i)
    perm := wrRange s.perm 0 s.primme.numEvals (fun i => i) }
  let s : MainState := { s with
    evecs := Num_dcopy_dprimme (s.primme.nLocal * s.primme.numEvals) s.V 0
      s.evecs (s.primme.nLocal * s.primme.numOrthoConst) }
  { s with primme := { s.primme with initSize := s.numConverged } }

/-- The statements `restartsSinceReset = 0; reset = 0;
primme->stats.estimateResidualError = 0.0;`. -/
def MainState.afterReorthogonalization (s : MainState) : MainState :=
  { s with
    restartsSinceReset := 0
    reset := 0
    sh := { s.sh with estimateResidualError := 0 } }

/-- The code after the restart loop when locking is off, entered with the
value `limit` of `restartLimitReached` and after the verification step. -/
def finishNoLocking (env : Env) (limit : Prop) [Decidable limit] (s : MainState) : Flow :=
  if limit ∨ s.converged ≠ 0 ∨ s.wholeSpace ≠ 0 then
    if (recommendMethod s.copyOut).converged ≠ 0 then
      Flow.ret 0 (setANorm (recommendMethod s.copyOut))
    else Flow.ret MAX_ITERATIONS_REACHED (recommendMethod s.copyOut)
  else if s.converged = 0 then
    let o := s.orthoCall env 0 (s.basisSize - 1) (s.primme.numOrthoConst + s.numLocked)
    if o.1 < 0 then Flow.ret ORTHO_FAILURE o.2
    else Flow.cont (o.2.matvec env 0 o.2.basisSize).afterReorthogonalization
  else Flow.cont s

/-- The code that follows the restart loop inside the outer loop ("If
locking is enabled, check …, else make sure the residual norms … have
remained converged").  `Flow.cont` means that the outer loop goes on. -/
def afterRestartLoop (env : Env) (s : MainState) : Flow :=
  if s.primme.locking ≠ 0 then finishLocking s
  else
    if (verifyStep env s).1 ≠ 0 then Flow.ret (verifyStep env s).1 (verifyStep env s).2
    else finishNoLocking env s.restartLimitReached (verifyStep env s).2

/-- The statements at the top of a pass of the outer loop, up to the
projected solve: reset the counters of converged pairs and the flags, set
`targetShiftIndex = 0` and recompute the projections from scratch. -/
def MainState.resetOuter (env : Env) (s : MainState) : MainState :=
  let s : MainState := { s with
    primme := { s.primme with initSize := 0 }
    numConverged := 0
    numConvergedStored := 0 }
  let s : MainState := { s with
    flags := reset_flags_dprimme s.flags 0 (s.primme.maxBasisSize - 1) }
  let s : MainState := { s with targetShiftIndex := 0 }
  s.updateProjections env 0 s.basisSize

/-- The statements `numArbitraryVecs = 0; availableBlockSize = blockSize = 0;
smallestResNorm = HUGE_VAL;`. -/
def MainState.resetBlock (env : Env) (s : MainState) : MainState :=
  { s with
    numArbitraryVecs := 0
    availableBlockSize := 0
    blockSize := 0
    smallestResNorm := env.HUGE_VAL }

/-- The start of a pass of the outer loop: reset the flags, recompute the
projections from scratch and solve the projected problem. -/
def outerStart (env : Env) (s : MainState) : Flow :=
  let h := (s.resetOuter env).solveH env
  if h.1 ≠ 0 then Flow.ret SOLVE_H_FAILURE h.2
  else Flow.cont (h.2.resetBlock env)

/-- The condition of the outer loop. -/
abbrev MainState.outerGuard (s : MainState) : Prop :=
  s.converged = 0 ∧ s.withinBudget

/-- The outer verification loop `while (!converged && …budgets…)`, with
`fuel` passes allowed; `Flow.cont` means that the loop was left through its
condition. -/
def outerLoop (env : Env) (inner : ℕ) : ℕ → MainState → Flow
  | fuel, s =>
    if s.outerGuard then
      match fuel with
      | 0 => Flow.stuck s
      | f + 1 =>
        match outerStart env s with
        | Flow.cont s =>
          match restartLoop env inner inner s with
          | Flow.cont s =>
            match afterRestartLoop env s with
            | Flow.cont s => outerLoop env inner f s
            | other => other
          | other => other
        | other => other
    else Flow.cont s

/-- The initialisations at the top of `main_iter_dprimme` ("Initialize
counters and flags", "Set the tolerance for the residual norms") together
with the initialisers of the declarations; the ghost trace starts empty. -/
def initCounters (env : Env) (s : MainState) : MainState :=
  let s : MainState := { s with
    numPrevRitzVals := 0
    reset := 0
    restartsSinceReset := 0
    wholeSpace := 0
    tstart := 0
    enforceRestart := 0
    trace := [] }
  let s : MainState := { s with primme := { s.primme with
    stats := { numOuterIterations := 0, numRestarts := 0, numMatvecs := 0 } } }
  let s : MainState := { s with
    numLocked := 0
    converged := FALSE
    LockingProblem := 0
    numPrevRetained := 0
    blockSize := 0 }
  let s : MainState := { s with sh := { s.sh with
    estimateMaxEVal := -env.HUGE_VAL
    estimateMinEVal := env.HUGE_VAL
    estimateLargestSVal := -env.HUGE_VAL
    maxConvTol := 0
    estimateResidualError := 0 } }
  { s with
    tol := if s.primme.aNorm > 0 then s.primme.eps * s.primme.aNorm else s.primme.eps }

/-- The "Quick return for matrix of dimension 1". -/
def quickReturn (env : Env) (s : MainState) : Outcome :=
  let s : MainState := { s with evecs := wr s.evecs 0 1 }
  let r := matrixMatvec_dprimme env s.evecs s.primme.nLocal s.primme.nLocal s.W
    s.primme.nLocal 0 1 s.primme.stats.numMatvecs
  let s : MainState := { s with
    W := r.1
    primme := { s.primme with stats := { s.primme.stats with numMatvecs := r.2 } }
    trace := s.trace ++ [Call.matrixMatvec 1] }
  let s : MainState := { s with evals := wr s.evals 0 (rd s.W 0) }
  let s : MainState := { s with V := wr s.V 0 1 }
  let s : MainState := { s with resNorms := wr s.resNorms 0 0 }
  let s : MainState := { s with primme := { s.primme with
    stats := { s.primme.stats with numMatvecs := s.primme.stats.numMatvecs + 1 } } }
  let s : MainState := { s with primme := { s.primme with initSize := 1 } }
  Outcome.returned 0 s

/-- The call of `init_basis_dprimme`: the return value and the new state. -/
def MainState.initBasis (env : Env) (s : MainState) : ℤ × MainState :=
  let o := env.init_basis s
  let s : MainState := { s with
    V := o.V
    W := o.W
    evecs := o.evecs
    basisSize := o.basisSize
    nextGuess := o.nextGuess
    numGuesses := o.numGuesses
    timeForMV := o.timeForMV
    sh := o.sh
    trace := s.trace ++ [Call.init_basis o.ret] }
  (o.ret, s.addMatvecs o.mv)

/-- The block "Dynamic method switch means we need to decide whether to allow
inner iterations based on runtime timing measurements". -/
def initDynamic (env : Env) (s : MainState) : MainState :=
  if s.primme.dynamicMethodSwitch > 0 then
    let t := s.wTimer env
    let s : MainState := { t.2 with CostModel := initializeModel t.1 t.2.primme }
    let s : MainState := { s with CostModel := { s.CostModel with MV := s.timeForMV } }
    let s : MainState :=
      if s.primme.numEvals < 5 then
        { s with primme := { s.primme with dynamicMethodSwitch := 1 } }
      else { s with primme := { s.primme with dynamicMethodSwitch := 3 } }
    { s with primme := { s.primme with
      correctionParams := { s.primme.correctionParams with maxInnerIterations := 0 } } }
  else s

/-- The "Especial configuration for matrix of dimension 2". -/
def setupDim2 (s : MainState) : MainState :=
  if s.primme.n = 2 then
    { s with primme := { s.primme with
      minRestartSize := 2
      restartingParams := { s.primme.restartingParams with maxPrevRetain := 0 } } }
  else s

/-- The state in which `main_iter_dprimme` reaches its outer loop when
`init_basis_dprimme` succeeded. -/
def entryState (env : Env) (s : MainState) : MainState :=
  let i := (setupDim2 (initCounters env s)).initBasis env
  initDynamic env { i.2 with primme := { i.2.primme with initSize := 0 } }

/-- The function `main_iter_dprimme`, started in the state `s` (arguments,
work arrays and indeterminate locals), every loop being allowed `fuel`
passes. -/
def main_iter_dprimme (env : Env) (fuel : ℕ) (s : MainState) : Outcome :=
  if (initCounters env s).primme.n = 1 then quickReturn env (initCounters env s)
  else
    let i := (setupDim2 (initCounters env s)).initBasis env
    if i.1 < 0 then Outcome.returned INIT_FAILURE i.2
    else
      match outerLoop env fuel fuel (entryState env s) with
      | Flow.cont s => Outcome.returned 0 (setANorm s)
      | Flow.brk s => Outcome.returned 0 (setANorm s)
      | Flow.ret code s => Outcome.returned code s
      | Flow.stuck s => Outcome.outOfFuel s

/-- The return value of a run, `none` when the fuel ran out. -/
def Outcome.code : Outcome → Option ℤ
  | Outcome.returned c _ => some c
  | Outcome.outOfFuel _ => none

/-- The final state of a run. -/
def Outcome.state : Outcome → MainState
  | Outcome.returned _ s => s
  | Outcome.outOfFuel s => s

/-- The state carried by a control-flow result. -/
def Flow.state : Flow → MainState
  | Flow.cont s => s
  | Flow.brk s => s
  | Flow.ret _ s => s
  | Flow.stuck s => s

/-- The piece ended normally (no `return`, no `break`, fuel sufficed). -/
def Flow.isCont : Flow → Bool
  | Flow.cont _ => true
  | _ => false

/-- The piece ended with a `break`. -/
def Flow.isBrk : Flow → Bool
  | Flow.brk _ => true
  | _ => false

/-- The value returned by the piece, if it ended with a `return`. -/
def Flow.retCode : Flow → Option ℤ
  | Flow.ret c _ => some c
  | _ => none

/-! ## Ghost notions used to state the properties -/

/-- The configuration that no statement of `main_iter_d.c` assigns after the
initialisation of the counters (together with the two locals
`LockingProblem` and `enforceRestart`, which are assigned only there and in
the dead branch guarded by `enforceRestart`). -/
structure Config where
  n : ℤ
  nLocal : ℤ
  numEvals : ℤ
  numOrthoConst : ℤ
  maxBasisSize : ℤ
  maxBlockSize : ℤ
  maxMatvecs : ℤ
  maxOuterIterations : ℤ
  locking : ℤ
  target : primme_target
  projection : primme_projection
  LockingProblem : ℤ
  enforceRestart : ℤ

/-- The configuration part of a state. -/
def MainState.config (s : MainState) : Config :=
  { n := s.primme.n
    nLocal := s.primme.nLocal
    numEvals := s.primme.numEvals
    numOrthoConst := s.primme.numOrthoConst
    maxBasisSize := s.primme.maxBasisSize
    maxBlockSize := s.primme.maxBlockSize
    maxMatvecs := s.primme.maxMatvecs
    maxOuterIterations := s.primme.maxOuterIterations
    locking := s.primme.locking
    target := s.primme.target
    projection := s.primme.projectionParams.projection
    LockingProblem := s.LockingProblem
    enforceRestart := s.enforceRestart }

/-- The failure code that `main_iter_dprimme` must return after the logged
call, if the call reported a fatal failure: a negative value of `init_basis`
or `ortho`, a non-zero value of `solve_H` or `solve_correction`. -/
def failing : Call → Option ℤ
  | Call.init_basis r => if r < 0 then some INIT_FAILURE else none
  | Call.ortho r => if r < 0 then some ORTHO_FAILURE else none
  | Call.solve_H r => if r ≠ 0 then some SOLVE_H_FAILURE else none
  | Call.solve_correction r => if r ≠ 0 then some SOLVE_CORRECTION_FAILURE else none
  | _ => none

/-- No call of the list reported a fatal failure. -/
def Clean (t : List Call) : Prop := ∀ c ∈ t, failing c = none

/-- The state `s'` is reached from `s` without a fatal failure: same
configuration, and the calls logged in between are clean. -/
def Ext (s s' : MainState) : Prop :=
  s'.config = s.config ∧ ∃ t, s'.trace = s.trace ++ t ∧ Clean t

/-- The state `s'` is reached from `s` by clean calls followed by one last
call that reported the fatal failure `code`. -/
def Fatal (code : ℤ) (s s' : MainState) : Prop :=
  s'.config = s.config ∧
    ∃ t c, s'.trace = s.trace ++ (t ++ [c]) ∧ Clean t ∧ failing c = some code

/-- A control-flow result of a piece started in `s` respects the failure
protocol: it either got where it is by clean calls, or it is a `return` of
the failure code of the last call, all earlier calls being clean. -/
def Flow.Good (s : MainState) : Flow → Prop
  | Flow.cont s' => Ext s s'
  | Flow.brk s' => Ext s s'
  | Flow.stuck s' => Ext s s'
  | Flow.ret code s' => Ext s s' ∨ Fatal code s s'

/-- Between `s` and `s'` the arrays `evals`, `resNorms`, `evecs` and the
counter `stats.numMatvecs` have not changed and no matvec call has been
logged. -/
def Untouched (s s' : MainState) : Prop :=
  s'.evals = s.evals ∧ s'.resNorms = s.resNorms ∧ s'.evecs = s.evecs ∧
  s'.primme.stats.numMatvecs = s.primme.stats.numMatvecs ∧
  ∀ b, Call.matrixMatvec b ∈ s'.trace → Call.matrixMatvec b ∈ s.trace

/-! ## Further pieces of a growth step -/

/-- The statements of a growth step that precede the reset heuristic of the
refined projection: `primme->stats.numOuterIterations++` and the
determination of `availableBlockSize` and `maxRecentlyConverged` ("When QR
are computed and there are more than one target shift, limit blockSize and
the converged values to one", "Limit blockSize to vacant vectors in the
basis", "Limit blockSize to remaining values to converge plus one", "Limit
basisSize to the matrix dimension"). -/
def growthClamp (s : MainState) : MainState :=
  let s : MainState := { s with primme := { s.primme with stats := { s.primme.stats with
    numOuterIterations := s.primme.stats.numOuterIterations + 1 } } }
  let s : MainState :=
    if s.primme.numTargetShifts > s.numConverged + 1 ∧ s.useQ then
      { s with
        availableBlockSize := 1
        maxRecentlyConverged := s.numConverged - s.numLocked + 1 }
    else
      { s with
        availableBlockSize := s.primme.maxBlockSize
        maxRecentlyConverged := s.primme.numEvals - s.numConverged }
  let s : MainState := { s with
    availableBlockSize := cmin s.availableBlockSize (s.primme.maxBasisSize - s.basisSize) }
  let s : MainState := { s with
    availableBlockSize := cmin s.availableBlockSize (s.maxRecentlyConverged + 1) }
  { s with
    availableBlockSize := cmin s.availableBlockSize (s.primme.n - s.basisSize) }

/-- The condition of the reset heuristic of a growth step ("If QR
decomposition accumulates so much error, force it to reset by setting
targetShiftIndex to -1"). -/
abbrev MainState.resetHeuristic (s : MainState) : Prop :=
  s.primme.projectionParams.projection = primme_proj_refined ∧
    s.basisSize > 0 ∧ s.restartsSinceReset > 0 ∧
    |s.primme.targetShift s.targetShiftIndex - rd s.hVals 0|
      - cmax s.primme.aNorm s.sh.estimateLargestSVal * s.machEps > rd s.hSVals 0

/-! ## Ghost notions for the budget of outer iterations and the dynamic switch -/

/-- The pair (`dynamicMethodSwitch`, `correctionParams.maxInnerIterations`)
of a state. -/
def MainState.dyn (s : MainState) : ℤ × ℤ :=
  (s.primme.dynamicMethodSwitch, s.primme.correctionParams.maxInnerIterations)

/-- A switch of method: from state 1 or 3 (GD+k) to 2 or 4 (JDQMR) with
`maxInnerIterations = -1`, from 2 or 4 back to 1 or 3 with
`maxInnerIterations = 0`, or from 2 to the terminal -1 with
`maxInnerIterations = 0`. -/
def SwitchStep (a b : ℤ × ℤ) : Prop :=
  (a.1 = 1 ∧ b = (2, -1)) ∨ (a.1 = 3 ∧ b = (4, -1)) ∨
  (a.1 = 2 ∧ b = (1, 0)) ∨ (a.1 = 4 ∧ b = (3, 0)) ∨ (a.1 = 2 ∧ b = (-1, 0))

/-- The final recommendation: a positive `dynamicMethodSwitch` is replaced by
-1, -2 or -3, `maxInnerIterations` is kept. -/
def AdviceStep (a b : ℤ × ℤ) : Prop :=
  0 < a.1 ∧ b.2 = a.2 ∧ (b.1 = -1 ∨ b.1 = -2 ∨ b.1 = -3)

/-- The pair `b` is obtained from `a` by switches of method and final
recommendations. -/
def DynReach : ℤ × ℤ → ℤ × ℤ → Prop :=
  Relation.ReflTransGen (fun a b => SwitchStep a b ∨ AdviceStep a b)

/-- A terminal recommendation. -/
def Recommended (d : ℤ) : Prop := d = -1 ∨ d = -2 ∨ d = -3

/-- A value that `dynamicMethodSwitch` takes when dynamic switching is
active: one of the four running states or a terminal recommendation. -/
def DynOk (d : ℤ) : Prop := d = 1 ∨ d = 2 ∨ d = 3 ∨ d = 4 ∨ Recommended d

/-- Between `s` and `s'` the budget `maxOuterIterations` and the counter
`stats.numOuterIterations` have not changed, and `dynamicMethodSwitch`,
`maxInnerIterations` have changed by method switches and recommendations
only. -/
def Kept (s s' : MainState) : Prop :=
  s'.primme.maxOuterIterations = s.primme.maxOuterIterations ∧
  s'.primme.stats.numOuterIterations = s.primme.stats.numOuterIterations ∧
  DynReach s.dyn s'.dyn

/-- Between `s` and `s'` the budget `maxOuterIterations` has not changed, the
counter `stats.numOuterIterations` has not decreased and has stayed within a
positive budget if it was within it, and `dynamicMethodSwitch`,
`maxInnerIterations` have changed by method switches and recommendations
only. -/
def Loose (s s' : MainState) : Prop :=
  s'.primme.maxOuterIterations = s.primme.maxOuterIterations ∧
  (0 < s.primme.maxOuterIterations →
    s.primme.stats.numOuterIterations ≤ s.primme.maxOuterIterations →
    s'.primme.stats.numOuterIterations ≤ s.primme.maxOuterIterations) ∧
  DynReach s.dyn s'.dyn

/-- A `return` of the control-flow result either leaves a terminal
recommendation in `dynamicMethodSwitch`, or returns the code of a fatal
failure, or hands on the non-zero value of the call of `verify_norms` logged
last. -/
def Flow.Advised : Flow → Prop
  | Flow.ret c s' =>
    Recommended s'.primme.dynamicMethodSwitch ∨ c = ORTHO_FAILURE ∨ c = SOLVE_H_FAILURE ∨
      c = SOLVE_CORRECTION_FAILURE ∨ (c ≠ 0 ∧ Call.verify_norms c ∈ s'.trace)
  | _ => True
/-! ## Ghost notions for the block of `prepare_candidates_dprimme` -/

/-- One pass through the body of the candidate loop of
`prepare_candidates_dprimme`, at the loop variables `i`, `blki` (the state is
returned unchanged if the loop condition does not hold). -/
def candidateStep (nLocal ldV xOff rOff numEvals blockNormsSize maxBlockSize numLocked : ℤ)
    (targetShift : ℚ) (flagsBlock : IArr) (i blki : ℤ) (s : MainState) : MainState :=
  (candidateLoop nLocal ldV xOff rOff numEvals blockNormsSize maxBlockSize numLocked
    targetShift flagsBlock 1 i blki s).2

/-- The entries `iev[lo], …, iev[hi-1]` are strictly increasing. -/
def Increasing (iev : IArr) (lo hi : ℤ) : Prop :=
  ∀ p q : ℤ, lo ≤ p → p < q → q < hi → rd iev p < rd iev q

/-- None of the indices of the list `l` occurs in the block
`iev[0..blockSize)`. -/
def BlockFree (iev : IArr) (blockSize : ℤ) (l : List ℤ) : Prop :=
  ∀ j ∈ l, ∀ p : ℤ, 0 ≤ p → p < blockSize → rd iev p ≠ j

/-- Invariant of the block during `prepare_candidates_dprimme`: the kept
indices `iev[0..blockSize)` and the indices ignored since the call started
(`ignored` is `L0` followed by them) all lie below the frontier `F`, and no
ignored index is in the block. -/
def BlockInv (L0 : List ℤ) (iev : IArr) (blockSize : ℤ) (ignored : List ℤ) (F : ℤ) : Prop :=
  0 ≤ blockSize ∧ (∀ p : ℤ, 0 ≤ p → p < blockSize → rd iev p < F) ∧
    ∃ l, ignored = L0 ++ l ∧ (∀ j ∈ l, j < F) ∧ BlockFree iev blockSize l

/-- Invariant of the candidate loop: `BlockInv`, and the candidates still to
be tested, `iev[blki..hi)`, are strictly increasing and not below the
frontier. -/
def CandInv (L0 : List ℤ) (iev : IArr) (blockSize : ℤ) (ignored : List ℤ)
    (blki hi F : ℤ) : Prop :=
  BlockInv L0 iev blockSize ignored F ∧ blockSize ≤ blki ∧
    (∀ q : ℤ, blki ≤ q → q < hi → F ≤ rd iev q) ∧ Increasing iev blki hi

/-- What `prepare_candidates_dprimme` leaves unchanged between `s` and `s'`:
the parameters, the Ritz values, the scalars it receives by value, the ghost
trace, and, when locking is on, the arrays `evals` and `resNorms`. -/
def CandFrame (s s' : MainState) : Prop :=
  s'.primme = s.primme ∧ s'.hVals = s.hVals ∧ s'.numConverged = s.numConverged ∧
  s'.numLocked = s.numLocked ∧ s'.maxRecentlyConverged = s.maxRecentlyConverged ∧
  s'.availableBlockSize = s.availableBlockSize ∧ s'.basisSize = s.basisSize ∧
  s'.targetShiftIndex = s.targetShiftIndex ∧ s'.trace = s.trace ∧
  (s.primme.locking ≠ 0 → s'.evals = s.evals ∧ s'.resNorms = s.resNorms)

/-- The effect of one pass of the candidate loop on the block and on the
ghost list of ignored indices: either the block is unchanged (and the tested
index possibly ignored), or the tested index `iev[blki]` is appended to the
block. -/
def StepShape (blki : ℤ) (s t : MainState) : Prop :=
  (t.iev = s.iev ∧ t.blockSize = s.blockSize ∧
    (t.ignored = s.ignored ∨ t.ignored = s.ignored ++ [rd s.iev blki])) ∨
  (t.iev = wr s.iev s.blockSize (rd s.iev blki) ∧ t.blockSize = s.blockSize + 1 ∧
    t.ignored = s.ignored)
/-! ## Dense wrappers of `src/linalg/blaslapack.c`

`SCALAR` is modelled by `ℚ`.  A pointer is an array together with an offset.
The BLAS routines themselves are external; they are modelled from the BLAS
reference. -/

/-- Modelled from the BLAS reference: `XSCAL(&n, &alpha, x, &incx)` with `x`
the pointer `a + off`: the `n` entries `x[0], x[incx], …, x[(n-1)·incx]` are
multiplied by `alpha`. -/
def XSCAL (n : ℤ) (alpha : ℚ) (a : Arr) (off incx : ℤ) : Arr :=
  (List.range n.toNat).foldl
    (fun (a : Arr) (i : ℕ) =>
      wr a (off + (i : ℤ) * incx) (alpha * rd a (off + (i : ℤ) * incx))) a

/-- Modelled: the largest value of a BLAS integer (the header that defines
`PRIMME_BLASINT_MAX` is not included); 32-bit integers are assumed. -/
def PRIMME_BLASINT_MAX : ℤ := 2147483647

/-- The loop `while (n > 0) { ln = min(n, PRIMME_BLASINT_MAX-1); XSCAL(…);
n -= ln; x += ln; }` of `Num_scal_Sprimme`, with `fuel` passes allowed. -/
def scalLoop (alpha : ℚ) (incx : ℤ) : ℕ → ℤ → Arr → ℤ → Arr
  | 0, _, a, _ => a
  | fuel + 1, n, a, off =>
    if n > 0 then
      let ln := cmin n (PRIMME_BLASINT_MAX - 1)
      scalLoop alpha incx fuel (n - ln) (XSCAL ln alpha a off incx) (off + ln)
    else a

/-- The function `Num_scal_Sprimme(n, alpha, x, incx, ctx)` with `x` the
pointer `a + off` (every pass of its loop consumes at least one of the `n`
entries, so `n` passes suffice). -/
def Num_scal_Sprimme (n : ℤ) (alpha : ℚ) (a : Arr) (off incx : ℤ) : Arr :=
  scalLoop alpha incx n.toNat n a off

/-- The function `Num_zero_matrix_Sprimme(x, m, n, ldx, ctx)` with `x` the
pointer `a + off`: `for (i=0; i<n; i++) Num_scal_Sprimme(m, 0.0, &x[i*ldx],
1, ctx);`. -/
def Num_zero_matrix_Sprimme (a : Arr) (off m n ldx : ℤ) : Arr :=
  (List.range n.toNat).foldl
    (fun (a : Arr) (i : ℕ) => Num_scal_Sprimme m 0 a (off + (i : ℤ) * ldx) 1) a

/-- Whether the argument `transa` asks for the matrix itself (`transa[0] ==
'n' || transa[0] == 'N'`). -/
def isNoTrans (transa : Char) : Bool := transa = 'n' || transa = 'N'

/-- Modelled from the BLAS reference: `XGEMV(transa, &m, &n, &alpha, a,
&lda, x, &incx, &beta, y, &incy)`, `y ← alpha·op(A)·x + beta·y` for the `m ×
n` column-major matrix `A` at `a + aoff`. -/
def XGEMV (transa : Char) (m n : ℤ) (alpha : ℚ) (a : Arr) (aoff lda : ℤ) (x : Arr)
    (xoff incx : ℤ) (beta : ℚ) (y : Arr) (yoff incy : ℤ) : Arr :=
  if isNoTrans transa then
    (List.range m.toNat).foldl
      (fun (acc : Arr) (i : ℕ) => wr acc (yoff + i * incy)
        (alpha * ((List.range n.toNat).map
            (fun (j : ℕ) => rd a (aoff + i + j * lda) * rd x (xoff + j * incx))).sum
          + beta * rd y (yoff + i * incy))) y
  else
    (List.range n.toNat).foldl
      (fun (acc : Arr) (j : ℕ) => wr acc (yoff + j * incy)
        (alpha * ((List.range m.toNat).map
            (fun (i : ℕ) => rd a (aoff + i + j * lda) * rd x (xoff + i * incx))).sum
          + beta * rd y (yoff + j * incy))) y

/-- The loop `while (m > 0) { lm = min(m, PRIMME_BLASINT_MAX-1); XGEMV(…);
m -= lm; a += lm; … }` of `Num_gemv_Sprimme`, with `fuel` passes allowed. -/
def gemvLoop (transa : Char) (n : ℤ) (alpha : ℚ) (a : Arr) (lda : ℤ) (x : Arr)
    (incx incy : ℤ) : ℕ → ℤ → ℤ → ℤ → ℤ → ℚ → Arr → Arr
  | 0, _, _, _, _, _, y => y
  | fuel + 1, m, aoff, xoff, yoff, beta, y =>
    if m > 0 then
      let lm := cmin m (PRIMME_BLASINT_MAX - 1)
      let y := XGEMV transa lm n alpha a aoff lda x xoff incx beta y yoff incy
      if isNoTrans transa then
        gemvLoop transa n alpha a lda x incx incy fuel (m - lm) (aoff + lm) xoff
          (yoff + lm) beta y
      else
        gemvLoop transa n alpha a lda x incx incy fuel (m - lm) (aoff + lm) (xoff + lm)
          yoff 1 y
    else y

/-- The function `Num_gemv_Sprimme(transa, m, n, alpha, a, lda, x, incx,
beta, y, incy, ctx)` ("y = alpha*A*x + beta*y, with A size m x n"), with the
pointers `a + aoff`, `x + xoff`, `y + yoff`; the result is the array `y`. -/
def Num_gemv_Sprimme (transa : Char) (m n : ℤ) (alpha : ℚ) (a : Arr) (aoff lda : ℤ)
    (x : Arr) (xoff incx : ℤ) (beta : ℚ) (y : Arr) (yoff incy : ℤ) : Arr :=
  if n = 0 then y
  else if m = 0 then
    if |beta| = 0 then Num_zero_matrix_Sprimme y yoff 1 n incy
    else
      (List.range n.toNat).foldl
        (fun (y : Arr) (_ : ℕ) => Num_scal_Sprimme n beta y yoff incy) y
  else gemvLoop transa n alpha a lda x incx incy m.toNat m aoff xoff yoff beta y
/-! ## Ghost notions for the method coupling, the candidate block and the growth loop -/

/-- Coupling of the state of the dynamic switch with the inner-iteration
limit, for a pair `(dynamicMethodSwitch, maxInnerIterations)`: GD+k is
running (state 1 or 3, no inner iterations), JDQMR is running (state 2 or 4,
`maxInnerIterations = -1`), or GD+k was chosen for good (state -1, no inner
iterations). -/
def Coupled (a : ℤ × ℤ) : Prop :=
  a = (1, 0) ∨ a = (3, 0) ∨ a = (2, -1) ∨ a = (4, -1) ∨ a = (-1, 0)

/-- The block `iev[0..blockSize)` is well formed: at most `maxBlockSize`
strictly increasing Ritz indices, each of them a valid index below the
frontier `F` and below `basisSize`, and flagged UNCONVERGED. -/
def BlockOk (basisSize maxBlockSize : ℤ) (iev flags : IArr) (blockSize F : ℤ) : Prop :=
  0 ≤ blockSize ∧ blockSize ≤ maxBlockSize ∧ Increasing iev 0 blockSize ∧
  ∀ p : ℤ, 0 ≤ p → p < blockSize →
    0 ≤ rd iev p ∧ rd iev p < F ∧ rd iev p < basisSize ∧ rd flags (rd iev p) = UNCONVERGED

/-- The candidates still to be tested, `iev[blki..hi)`, are strictly
increasing Ritz indices below `basisSize` and not below the frontier `F`. -/
def PendingOk (basisSize : ℤ) (iev : IArr) (blki hi F : ℤ) : Prop :=
  0 ≤ F ∧ (∀ q : ℤ, blki ≤ q → q < hi → F ≤ rd iev q ∧ rd iev q < basisSize) ∧
  Increasing iev blki hi

/-- Ghost: the values of `blockNormsSize` at the head of the successive
passes of the `while (1)` loop of `prepare_candidates_dprimme` (the values
tested by `assert(blockNormsSize <= maxBlockSize)`), for the run of
`candidatesWhile` with the same arguments. -/
def candidatesSizes (env : Env) (nLocal basisSize ldV xOff rOff ldhVecs numEvals
    maxBlockSize numLocked targetShiftIndex : ℤ) (targetShift : ℚ) :
    ℕ → ℤ → Arr → MainState → List ℤ
  | 0, _, _, _ => []
  | fuel + 1, blockNormsSize, hValsBlock, s =>
    let c := candidatesCheck env ldV xOff rOff numLocked blockNormsSize hValsBlock s
    if c.1 ≠ 0 then [blockNormsSize]
    else
      let flagsBlock := c.2.iwork
      let r := candidateLoop nLocal ldV xOff rOff numEvals blockNormsSize maxBlockSize
        numLocked targetShift flagsBlock blockNormsSize.toNat 0 c.2.blockSize c.2
      let i : ℤ := candidatesResume r.1 r.2.iev
      let sc := candidatesScan basisSize maxBlockSize i
        (candidatesPrepareVecs env basisSize maxBlockSize targetShiftIndex i r.2)
      let blki := sc.1
      if blki = sc.2.blockSize ∨ sc.2.recentlyConverged ≥ numEvals then [blockNormsSize]
      else
        let blockNormsSize0 := blki - sc.2.blockSize
        let hValsBlock := Num_compact_vecs_dprimme sc.2.hVals 1 (ptr sc.2.iev sc.2.blockSize)
        let u := candidatesResiduals env nLocal basisSize ldV xOff rOff ldhVecs
          blockNormsSize0 sc.2
        if u.1 ≠ 0 then [blockNormsSize]
        else
          blockNormsSize ::
            candidatesSizes env nLocal basisSize ldV xOff rOff ldhVecs numEvals maxBlockSize
              numLocked targetShiftIndex targetShift fuel blockNormsSize0 hValsBlock
              (candidatesSmallest env blockNormsSize0 u.2)

/-- The state in which `prepare_candidates_dprimme` enters its `while (1)`
loop: `*blockSize = 0`, `smallestResNorm` set to the minimum of the
precomputed norms if there are any, and `*recentlyConverged = 0`. -/
def candidatesEntry (env : Env) (s : MainState) (blockNormsSize : ℤ) : MainState :=
  let s := { s with blockSize := 0 }
  let s :=
    if blockNormsSize > 0 then
      { s with smallestResNorm := minLoop s.blockNorms 0 blockNormsSize env.HUGE_VAL }
    else s
  { s with recentlyConverged := 0 }

/-- Ghost: the values of `blockNormsSize` tested by the assertion
`assert(blockNormsSize <= maxBlockSize)` during a call of
`prepare_candidates_dprimme`. -/
def prepare_candidates_sizes (env : Env) (fuel : ℕ) (s : MainState)
    (nLocal basisSize ldV xOff rOff ldhVecs numEvals blockNormsSize maxBlockSize
      numLocked targetShiftIndex : ℤ) : List ℤ :=
  candidatesSizes env nLocal basisSize ldV xOff rOff ldhVecs numEvals maxBlockSize
    numLocked targetShiftIndex
    (match s.primme.targetShifts with
      | some a => rd a targetShiftIndex
      | none => 0)
    fuel blockNormsSize (Num_compact_vecs_dprimme s.hVals 1 (ptr s.iev 0))
    (candidatesEntry env s blockNormsSize)

/-! ## Ghost definitions for `retain_previous_coefficients` -/

/-- The index at which the second phase of the retention loop starts to look
for unconverged coefficient vectors: `iev[blockSize-1] + 1`, and 0 when the
block is empty. -/
def retainStart (iev : IArr) (blockSize : ℤ) : ℤ :=
  if blockSize ≤ 0 then 0 else rd iev (blockSize - 1) + 1

/-- Invariant of the first loop of `retain_previous_coefficients` at the
loop variables `i`, `index` and the array `cols`. -/
def RetainInv (maxPrevRetain basisSize blockSize : ℤ) (iev flags : IArr)
    (i index : ℤ) (cols : IArr) : Prop :=
  0 ≤ i ∧ i ≤ maxPrevRetain ∧ i ≤ index ∧ index ≤ basisSize ∧
  (i < blockSize → index ≤ rd iev i) ∧
  (blockSize ≤ i → retainStart iev blockSize ≤ index) ∧
  (∀ p : ℤ, 0 ≤ p → p < i → p < blockSize → rd cols p = rd iev p) ∧
  (∀ p : ℤ, 0 ≤ p → blockSize ≤ p → p < i →
    rd flags (rd cols p) = UNCONVERGED ∧ retainStart iev blockSize ≤ rd cols p) ∧
  (∀ j : ℤ, retainStart iev blockSize ≤ j → j < index → rd flags j = UNCONVERGED →
    ∃ p : ℤ, 0 ≤ p ∧ blockSize ≤ p ∧ p < i ∧ rd cols p = j) ∧
  Increasing cols 0 i ∧
  (∀ p : ℤ, 0 ≤ p → p < i → 0 ≤ rd cols p ∧ rd cols p < index)

/-! ## Ghost definitions for the progress of the growth loop -/

/-- The sizes the growth loop works with: `basisSize`, `blockSize`,
`numLocked`, `numConverged` and `availableBlockSize`. -/
def MainState.dims (s : MainState) : ℤ × ℤ × ℤ × ℤ × ℤ :=
  (s.basisSize, s.blockSize, s.numLocked, s.numConverged, s.availableBlockSize)

/-- The block `iev[0..blockSize)` a growth step starts with is usable by
`prepare_candidates_dprimme`: it fits into the block size available to the
step, it is strictly increasing and its entries are indices of the basis.
An empty block satisfies this. -/
def EntryBlock (s : MainState) : Prop :=
  0 ≤ s.blockSize ∧
  (0 < (growthBlockSize s).availableBlockSize →
    s.blockSize ≤ (growthBlockSize s).availableBlockSize) ∧
  Increasing s.iev 0 s.blockSize ∧
  ∀ p : ℤ, 0 ≤ p → p < s.blockSize → 0 ≤ rd s.iev p ∧ rd s.iev p < s.basisSize
/-! ## Example configurations

A concrete environment and concrete inputs on which the definitions above can
be evaluated. -/

/-- The array of zeros. -/
def zeroArr : Arr := fun _ => 0
def zeroIArr : IArr := fun _ => 0

def demoEnv (flag restartRet restartConverged initBasisSize orthoRet : ℤ) : Env :=
  { HUGE_VAL := 1000000
    sqrt := fun x => x
    log := fun x => x
    exp := fun x => x
    A := fun x k => 7 * x k
    globalSumDouble := fun a _ => a
    wTimer := fun k => k
    init_basis := fun s =>
      { ret := 0, V := s.V, W := s.W, evecs := s.evecs, basisSize := initBasisSize,
        nextGuess := 0, numGuesses := 0, timeForMV := 1, mv := initBasisSize.toNat,
        sh := s.sh }
    update_Q := fun s _ _ _ => s.sh
    update_projection := fun s _ _ _ => s.sh
    solve_H := fun s _ _ =>
      { ret := 0, hU := s.hU, hVecs := s.hVecs, hVals := fun _ => 5, hSVals := s.hSVals,
        iwork := s.iwork, sh := s.sh }
    check_convergence := fun s _ _ _ _ _ _ _ _ _ r =>
      { ret := 0, flags := fun _ => flag, reset := r, sh := s.sh }
    prepare_vecs := fun s _ _ _ _ nav _ _ =>
      { hVecs := s.hVecs, numArbitraryVecs := nav, sh := s.sh }
    Num_update_VWXR := fun s _ _ _ _ =>
      { ret := 0, X := zeroArr, R := zeroArr, Rnorms := fun _ => 1, sh := s.sh }
    solve_correction := fun s _ _ =>
      { ret := 0, V := s.V, W := s.W, blockNorms := s.blockNorms,
        numPrevRitzVals := s.numPrevRitzVals, mv := 0, sh := s.sh }
    ortho := fun s _ _ _ => { ret := orthoRet, V := s.V, sh := s.sh }
    restart := fun s basisSize =>
      { ret := restartRet, V := s.V, W := s.W, hVals := s.hVals, hSVals := s.hSVals,
        flags := s.flags, iev := s.iev, blockSize := 0, blockNorms := s.blockNorms,
        evecs := s.evecs, perm := s.perm, evals := s.evals, resNorms := s.resNorms,
        numConverged := restartConverged,
        numLocked := if s.primme.locking ≠ 0 then restartConverged else 0,
        numConvergedStored := 0, previousHVecs := s.previousHVecs, numPrevRetained := 0,
        numPrevRitzVals := s.numPrevRitzVals, hU := s.hU, hVecs := s.hVecs,
        basisSize := cmin basisSize s.primme.minRestartSize,
        targetShiftIndex := s.targetShiftIndex, numArbitraryVecs := 0,
        previousHU := s.previousHU, prevhSvals := s.prevhSvals,
        restartsSinceReset := s.restartsSinceReset + 1, reset := 0, iwork := s.iwork,
        mv := 0, sh := s.sh } }

def demoCost : primme_CostModel :=
  ⟨0,0,0,0,0,0,0,0,0,0,0,0,0,0,0,0,0,0,0,0,0,0,0,0,0,0,0,0⟩

def demoShared : Shared :=
  ⟨0,0,0,0,0,zeroIArr,zeroArr,zeroArr,zeroArr,zeroArr,zeroArr,zeroArr,zeroArr,zeroArr,zeroIArr,zeroArr,zeroArr⟩

def demoParams (n numEvals locking maxOuterIterations : ℤ) : primme_params :=
  { n := n, nLocal := n, numProcs := 1, procID := 0, numEvals := numEvals,
    numOrthoConst := 0, maxBasisSize := 3, minRestartSize := 1, maxBlockSize := 1,
    maxMatvecs := 0, maxOuterIterations := maxOuterIterations, numTargetShifts := 0,
    targetShifts := none, target := primme_smallest, locking := locking,
    dynamicMethodSwitch := 0, initSize := 0, printLevel := 0, eps := 1, aNorm := 1,
    stats := ⟨0, 0, 0⟩, correctionParams := ⟨0, 0, ⟨0, 0⟩⟩, restartingParams := ⟨0⟩,
    projectionParams := ⟨primme_proj_RR⟩ }

def demoState (p : primme_params) : MainState :=
  { primme := p, machEps := 0, evals := zeroArr, perm := zeroIArr, evecs := zeroArr,
    resNorms := zeroArr, flags := zeroIArr, iev := zeroIArr, iwork := zeroIArr,
    V := zeroArr, W := zeroArr, hVecs := zeroArr, hU := zeroArr, previousHVecs := zeroArr,
    previousHU := zeroArr, hVals := zeroArr, hSVals := zeroArr, prevhSvals := zeroArr,
    blockNorms := zeroArr, sh := demoShared, blockSize := 0, availableBlockSize := 0,
    basisSize := 0, numLocked := 0, numGuesses := 0, nextGuess := 0, numConverged := 0,
    targetShiftIndex := 0, recentlyConverged := 0, maxRecentlyConverged := 0,
    numConvergedStored := 0, converged := 0, LockingProblem := 0, numPrevRetained := 0,
    numArbitraryVecs := 0, numPrevRitzVals := 0, tol := 0, smallestResNorm := 0,
    reset := 0, restartsSinceReset := 0, wholeSpace := 0, CostModel := demoCost,
    timeForMV := 0, tstart := 0, enforceRestart := 0, clock := 0, trace := [],
    ignored := [] }

/-- The state at the head of the restart loop in the example with `n = 2`,
`numEvals = 3` and a full initial basis. -/
def demoLoopState : MainState :=
  (outerStart (demoEnv 0 0 1 2 0)
    (entryState (demoEnv 0 0 1 2 0) (demoState (demoParams 2 3 0 0)))).state

/-! ## Example configurations with several target shifts -/

/-- Parameters of a run with the harmonic projection (so that `Q` is used),
target `primme_closest_geq`, `numTargetShifts` target shifts that are all
equal to 0, `n = 5`, a basis of at most 4 vectors and blocks of one
vector. -/
def demoParamsQ (numEvals numTargetShifts : ℤ) : primme_params :=
  { n := 5, nLocal := 5, numProcs := 1, procID := 0, numEvals := numEvals,
    numOrthoConst := 0, maxBasisSize := 4, minRestartSize := 1, maxBlockSize := 1,
    maxMatvecs := 0, maxOuterIterations := 0, numTargetShifts := numTargetShifts,
    targetShifts := some zeroArr, target := primme_closest_geq, locking := 0,
    dynamicMethodSwitch := 0, initSize := 0, printLevel := 0, eps := 1, aNorm := 1,
    stats := ⟨0, 0, 0⟩, correctionParams := ⟨0, 0, ⟨0, 0⟩⟩, restartingParams := ⟨0⟩,
    projectionParams := ⟨primme_proj_harmonic⟩ }

/-- The state in which the run of `main_iter_dprimme` on `demoParamsQ`, with
the environment `demoEnv 1 0 0 2 0` (every tested pair is reported
converged, the initial basis has two vectors), enters its first growth
step. -/
def demoStartQ (numEvals numTargetShifts : ℤ) : MainState :=
  (outerStart (demoEnv 1 0 0 2 0)
    (entryState (demoEnv 1 0 0 2 0) (demoState (demoParamsQ numEvals numTargetShifts)))).state
/-! ## Example configurations for `prepare_candidates_dprimme` -/

/-- The environment `demoEnv 0 0 0 1 0` in which `check_convergence_dprimme`
flags a pair CONVERGED exactly when its block norm is `convNorm`, and every
residual norm computed by `Num_update_VWXR_dprimme` is `norm`. -/
def demoEnvBlock (convNorm norm : ℚ) : Env :=
  { demoEnv 0 0 0 1 0 with
    check_convergence := fun s _ _ _ _ _ _ _ bn _ r =>
      { ret := 0, flags := fun i => if bn i = convNorm then CONVERGED else UNCONVERGED,
        reset := r, sh := s.sh }
    Num_update_VWXR := fun s _ _ _ _ =>
      { ret := 0, X := zeroArr, R := zeroArr, Rnorms := fun _ => norm, sh := s.sh } }

/-- The parameters `demoParams 3 numEvals 0 0` with blocks of up to
`maxBlockSize` vectors and the given target, the only target shift being
0. -/
def demoParamsBlock (numEvals maxBlockSize : ℤ) (target : primme_target) : primme_params :=
  { demoParams 3 numEvals 0 0 with
    maxBlockSize := maxBlockSize, target := target, numTargetShifts := 1,
    targetShifts := some zeroArr }

/-- A state in which `prepare_candidates_dprimme` can be called with a basis
of three vectors and a block of two candidates: the candidates are the Ritz
indices `iev0`, `iev1`, and the Ritz values and the two precomputed block
norms are as given. -/
def demoBlockState (p : primme_params) (iev0 iev1 : ℤ) (hVals : Arr) (norm0 norm1 : ℚ) :
    MainState :=
  { demoState p with
    iev := wr (wr zeroIArr 0 iev0) 1 iev1
    hVals := hVals
    blockNorms := wr (wr zeroArr 0 norm0) 1 norm1
    basisSize := 3 }
/-! ## Further example configurations -/

/-- The environment `demoEnv 0 0 0 1 0` in which `ortho_dprimme` records the
number of columns of `evecs` it was asked to orthogonalize against (its
argument `numLocked`) in every entry of the `V` it returns. -/
def demoEnvOrtho : Env :=
  { demoEnv 0 0 0 1 0 with
    ortho := fun s _ _ numLocked => { ret := 0, V := fun _ => (numLocked : ℚ), sh := s.sh } }

/-- A state right after a restart with locking: one constraint vector
(`numOrthoConst = 1`), no locked vector, a basis of one vector, `minRestartSize
= 2` and one initial guess left. -/
def demoGuessState : MainState :=
  { demoState { demoParams 3 1 1 0 with numOrthoConst := 1, minRestartSize := 2 } with
    basisSize := 1, numLocked := 0, numGuesses := 1, nextGuess := 0 }

/-- The environment `demoEnv 0 0 0 12 0` (initial basis of 12 vectors) in
which the Ritz values are `hVals[k] = k` and `check_convergence_dprimme` flags
a pair CONVERGED exactly when its Ritz value is below `basisSize - 2`: the ten
pairs `0..9` converge in the first growth step, and one more pair converges
with every vector added to the basis. -/
def demoEnvRates : Env :=
  { demoEnv 0 0 0 12 0 with
    solve_H := fun s _ _ =>
      { ret := 0, hU := s.hU, hVecs := s.hVecs, hVals := fun k => (k : ℚ),
        hSVals := s.hSVals, iwork := s.iwork, sh := s.sh }
    check_convergence := fun s _ _ _ _ _ _ _ _ hv r =>
      { ret := 0,
        flags := fun i => if hv i < (s.basisSize : ℚ) - 2 then CONVERGED else UNCONVERGED,
        reset := r, sh := s.sh } }

/-- Parameters of a run with dynamic method switching that asks for 12
eigenpairs of a matrix of dimension 20, with a basis of at most 15 vectors
and blocks of one vector. -/
def demoParamsRates : primme_params :=
  { demoParams 20 12 0 0 with maxBasisSize := 15, dynamicMethodSwitch := 1 }

/-- The state in which the run of `main_iter_dprimme` on `demoParamsRates`
with the environment `demoEnvRates` enters its first growth step. -/
def demoStartRates : MainState :=
  (outerStart demoEnvRates (entryState demoEnvRates (demoState demoParamsRates))).state

/-- Parameters with `maxPrevRetain = 2`. -/
def demoParamsRetain : primme_params :=
  { demoParams 3 1 0 0 with restartingParams := ⟨2⟩ }

/-- A block whose only entry is the Ritz index 1. -/
def demoRetainIev : IArr := fun k => (k : ℤ) + 1

/-- Coefficients whose cell `k` holds the number `k + 1`. -/
def demoRetainHVecs : Arr := fun k => (k : ℚ) + 1

/-- A state at the head of the growth loop: `n = 3`, `maxBasisSize = 3`,
`maxBlockSize = 1`, one basis vector, nothing converged, an empty block. -/
def demoGrowthState : MainState :=
  { demoState (demoParams 3 2 0 0) with basisSize := 1 }

/-- Parameters with locking and the target selector `interior`: `n = 5`,
`numEvals = 3`, `maxBasisSize = 3`, `maxBlockSize = 1`. -/
def demoParamsInterior : primme_params :=
  { demoParams 5 3 1 0 with target := primme_interior }

/-- The state in which the run on `demoParamsInterior`, with the environment
`demoEnv 1 0 0 2 0` (every tested pair is reported converged, the initial
basis has two vectors), enters its first growth step. -/
def demoStartInterior : MainState :=
  (outerStart (demoEnv 1 0 0 2 0)
    (entryState (demoEnv 1 0 0 2 0) (demoState demoParamsInterior))).state

/-- Parameters with the refined projection: `n = 4`, `numEvals = 2`,
`maxBasisSize = 3`, `minRestartSize = 1`, `maxBlockSize = 1`, target
closest_abs with the single target shift 0. -/
def demoParamsRefined : primme_params :=
  { demoParams 4 2 0 0 with
    projectionParams := ⟨primme_proj_refined⟩, target := primme_closest_abs,
    targetShifts := some zeroArr, numTargetShifts := 1 }

/-- The state in which the run of `main_iter_dprimme` on `demoParamsRefined`
(with `machEps = 1e-6` and the environment `demoEnv 0 0 0 1 0`: nothing
converges, `solve_H` returns `hVals = 5`, the initial basis has one vector)
enters the growth loop for the second time: the basis has grown from 1 to 3
vectors in two growth steps and has been restarted to 1 vector. -/
def demoResetRun : MainState :=
  ((afterGrowth (demoEnv 0 0 0 1 0)
    (growthLoop (demoEnv 0 0 0 1 0) 5 5
      ((outerStart (demoEnv 0 0 0 1 0)
        (entryState (demoEnv 0 0 0 1 0)
          { demoState demoParamsRefined with machEps := 1 / 1000000 })).state).resetRetained
      ).state).state).resetRetained

/-- The environment `demoEnv 0 0 0 1 0` with an `init_basis` that, besides
applying the operator to its one basis vector, stores 1 in `evecs[0]`. -/
def demoEnvInit : Env :=
  { demoEnv 0 0 0 1 0 with
    init_basis := fun s =>
      { ret := 0, V := s.V, W := s.W, evecs := wr s.evecs 0 1, basisSize := 1,
        nextGuess := 0, numGuesses := 0, timeForMV := 1, mv := 1, sh := s.sh } }

/-! ## The failure protocol: basic facts -/

theorem Clean_nil : Clean [] := by
  intro c hc
  cases hc

theorem Clean_single {c : Call} (h : failing c = none) : Clean [c] := by
  intro d hd
  rw [List.mem_singleton] at hd
  rw [hd]
  exact h

theorem Clean_append {t u : List Call} (ht : Clean t) (hu : Clean u) : Clean (t ++ u) := by
  intro c hc
  rcases List.mem_append.mp hc with h | h
  · exact ht c h
  · exact hu c h

theorem Ext_refl (s : MainState) : Ext s s :=
  ⟨rfl, [], by simp, Clean_nil⟩

theorem Ext_trans {a b c : MainState} (h1 : Ext a b) (h2 : Ext b c) : Ext a c := by
  obtain ⟨hc1, t1, ht1, hk1⟩ := h1
  obtain ⟨hc2, t2, ht2, hk2⟩ := h2
  refine ⟨hc2.trans hc1, t1 ++ t2, ?_, Clean_append hk1 hk2⟩
  rw [ht2, ht1, List.append_assoc]

theorem Ext_of_eq {s s' : MainState} (hc : s'.config = s.config)
    (ht : s'.trace = s.trace) : Ext s s' :=
  ⟨hc, [], by simp [ht], Clean_nil⟩

theorem Ext_of_log {s s' : MainState} {c : Call} (hc : s'.config = s.config)
    (ht : s'.trace = s.trace ++ [c]) (h : failing c = none) : Ext s s' :=
  ⟨hc, [c], ht, Clean_single h⟩

theorem Fatal_of_log {s s' : MainState} {c : Call} {code : ℤ}
    (hc : s'.config = s.config) (ht : s'.trace = s.trace ++ [c])
    (h : failing c = some code) : Fatal code s s' :=
  ⟨hc, [], c, by simp [ht], Clean_nil, h⟩

theorem Fatal_of_Ext {a b c : MainState} {code : ℤ} (h1 : Ext a b)
    (h2 : Fatal code b c) : Fatal code a c := by
  obtain ⟨hc1, t1, ht1, hk1⟩ := h1
  obtain ⟨hc2, t2, d, ht2, hk2, hd⟩ := h2
  refine ⟨hc2.trans hc1, t1 ++ t2, d, ?_, Clean_append hk1 hk2, hd⟩
  rw [ht2, ht1]
  simp [List.append_assoc]

theorem Good_of_Ext {a b : MainState} {fl : Flow} (h1 : Ext a b)
    (h2 : Flow.Good b fl) : Flow.Good a fl := by
  cases fl with
  | cont s => exact Ext_trans h1 h2
  | brk s => exact Ext_trans h1 h2
  | stuck s => exact Ext_trans h1 h2
  | ret code s =>
    rcases h2 with h | h
    · exact Or.inl (Ext_trans h1 h)
    · exact Or.inr (Fatal_of_Ext h1 h)

theorem Ext_config {s s' : MainState} (h : Ext s s') : s'.config = s.config := h.1

/-! ## The failure protocol: the pieces of a growth step -/

theorem wTimer_ext (env : Env) (s : MainState) : Ext s (s.wTimer env).2 :=
  Ext_of_eq rfl rfl

theorem addMatvecs_ext (s : MainState) (mv : ℕ) : Ext s (s.addMatvecs mv) :=
  Ext_of_eq rfl rfl

theorem matvec_ext (env : Env) (s : MainState) (b n : ℤ) : Ext s (s.matvec env b n) :=
  Ext_of_log rfl rfl rfl

theorem updateProjections_ext (env : Env) (s : MainState) (a b : ℤ) :
    Ext s (s.updateProjections env a b) := by
  unfold MainState.updateProjections
  dsimp only
  split_ifs
  · exact ⟨rfl, [Call.update_Q, Call.update_projection, Call.update_projection],
      by simp, by unfold Clean; decide⟩
  · exact ⟨rfl, [Call.update_Q, Call.update_projection], by simp, by unfold Clean; decide⟩
  · exact ⟨rfl, [Call.update_projection, Call.update_projection],
      by simp, by unfold Clean; decide⟩
  · exact ⟨rfl, [Call.update_projection], by simp, by unfold Clean; decide⟩

theorem solveH_ok (env : Env) (s : MainState) (h : (s.solveH env).1 = 0) :
    Ext s (s.solveH env).2 := by
  refine Ext_of_log (c := Call.solve_H (s.solveH env).1) rfl rfl ?_
  simp [failing, h]

theorem solveH_fail (env : Env) (s : MainState) (h : (s.solveH env).1 ≠ 0) :
    Fatal SOLVE_H_FAILURE s (s.solveH env).2 := by
  refine Fatal_of_log (c := Call.solve_H (s.solveH env).1) rfl rfl ?_
  simp [failing, h]

theorem orthoCall_ok (env : Env) (s : MainState) (b1 b2 nl : ℤ)
    (h : ¬ (s.orthoCall env b1 b2 nl).1 < 0) : Ext s (s.orthoCall env b1 b2 nl).2 := by
  refine Ext_of_log (c := Call.ortho (s.orthoCall env b1 b2 nl).1) rfl rfl ?_
  simp [failing, h]

theorem orthoCall_fail (env : Env) (s : MainState) (b1 b2 nl : ℤ)
    (h : (s.orthoCall env b1 b2 nl).1 < 0) :
    Fatal ORTHO_FAILURE s (s.orthoCall env b1 b2 nl).2 := by
  refine Fatal_of_log (c := Call.ortho (s.orthoCall env b1 b2 nl).1) rfl rfl ?_
  simp [failing, h]

theorem growthBlockSize_ext (s : MainState) : Ext s (growthBlockSize s) := by
  refine Ext_of_eq ?_ ?_
  · unfold growthBlockSize
    dsimp only
    split_ifs <;> rfl
  · unfold growthBlockSize
    dsimp only
    split_ifs <;> rfl

theorem switch_from_GDpk_primme (env : Env) (m : primme_CostModel) (p : primme_params) :
    ∃ d i, (switch_from_GDpk env m p).2 =
      { p with
        dynamicMethodSwitch := d
        correctionParams := { p.correctionParams with maxInnerIterations := i } } := by
  unfold switch_from_GDpk
  dsimp only
  split_ifs
  all_goals first
    | exact ⟨p.dynamicMethodSwitch, p.correctionParams.maxInnerIterations, rfl⟩
    | exact ⟨_, _, rfl⟩

theorem switch_from_JDQMR_primme (env : Env) (m : primme_CostModel) (p : primme_params) :
    ∃ d i, (switch_from_JDQMR env m p).2 =
      { p with
        dynamicMethodSwitch := d
        correctionParams := { p.correctionParams with maxInnerIterations := i } } := by
  unfold switch_from_JDQMR
  dsimp only
  split_ifs
  all_goals first
    | exact ⟨p.dynamicMethodSwitch, p.correctionParams.maxInnerIterations, rfl⟩
    | exact ⟨_, _, rfl⟩

theorem switchGDpk_ext (env : Env) (s : MainState) : Ext s (s.switchGDpk env) := by
  refine Ext_of_eq ?_ rfl
  obtain ⟨d, i, h⟩ := switch_from_GDpk_primme env s.CostModel s.primme
  simp only [MainState.switchGDpk, MainState.config, h]

theorem switchJDQMR_ext (env : Env) (s : MainState) : Ext s (s.switchJDQMR env) := by
  refine Ext_of_eq ?_ rfl
  obtain ⟨d, i, h⟩ := switch_from_JDQMR_primme env s.CostModel s.primme
  simp only [MainState.switchJDQMR, MainState.config, h]

theorem dynamicBeforeCorrection_ext (env : Env) (s : MainState) :
    Ext s (dynamicBeforeCorrection env s) := by
  unfold dynamicBeforeCorrection
  dsimp only [MainState.wTimer]
  split_ifs
  all_goals first
    | exact Ext_of_eq rfl rfl
    | exact Ext_trans (Ext_of_eq rfl rfl) (switchGDpk_ext env _)
    | exact Ext_trans (Ext_of_eq rfl rfl) (switchJDQMR_ext env _)

theorem growthRetain_ext (fuel : ℕ) (s s' : MainState)
    (h : growthRetain fuel s = some s') : Ext s s' := by
  unfold growthRetain at h
  dsimp only at h
  split at h
  · split at h
    · cases h
    · split at h
      · split at h
        · cases h
        · cases h
          exact Ext_of_eq rfl rfl
      · cases h
        exact Ext_of_eq rfl rfl
  · cases h
    exact Ext_refl s

theorem candidateLoop_ext (nLocal ldV xOff rOff numEvals blockNormsSize maxBlockSize
    numLocked : ℤ) (targetShift : ℚ) (flagsBlock : IArr) :
    ∀ (k : ℕ) (i blki : ℤ) (s : MainState),
      Ext s (candidateLoop nLocal ldV xOff rOff numEvals blockNormsSize maxBlockSize
        numLocked targetShift flagsBlock k i blki s).2
  | 0, _, _, s => Ext_refl s
  | k + 1, i, blki, s => by
    unfold candidateLoop
    dsimp only
    split_ifs
    all_goals first
      | exact Ext_refl s
      | exact Ext_trans (Ext_of_eq rfl rfl) (candidateLoop_ext nLocal ldV xOff rOff numEvals
          blockNormsSize maxBlockSize numLocked targetShift flagsBlock k _ _ _)

theorem candidatesCheck_ext (env : Env) (ldV xOff rOff numLocked blockNormsSize : ℤ)
    (hValsBlock : Arr) (s : MainState) :
    Ext s (candidatesCheck env ldV xOff rOff numLocked blockNormsSize hValsBlock s).2 :=
  Ext_of_eq rfl rfl

theorem candidatesPrepareVecs_ext (env : Env) (basisSize maxBlockSize targetShiftIndex i : ℤ)
    (s : MainState) :
    Ext s (candidatesPrepareVecs env basisSize maxBlockSize targetShiftIndex i s) :=
  Ext_of_eq rfl rfl

theorem candidatesScan_ext (basisSize maxBlockSize i : ℤ) (s : MainState) :
    Ext s (candidatesScan basisSize maxBlockSize i s).2 :=
  Ext_of_eq rfl rfl

theorem candidatesResiduals_ext (env : Env) (nLocal basisSize ldV xOff rOff ldhVecs
    blockNormsSize : ℤ) (s : MainState) :
    Ext s (candidatesResiduals env nLocal basisSize ldV xOff rOff ldhVecs blockNormsSize s).2 :=
  Ext_of_eq rfl rfl

theorem candidatesSmallest_ext (env : Env) (blockNormsSize : ℤ) (s : MainState) :
    Ext s (candidatesSmallest env blockNormsSize s) := by
  unfold candidatesSmallest
  dsimp only
  split_ifs <;> exact Ext_of_eq rfl rfl

theorem candidatesWhile_ext (env : Env) (nLocal basisSize ldV xOff rOff ldhVecs numEvals
    maxBlockSize numLocked targetShiftIndex : ℤ) (targetShift : ℚ) :
    ∀ (fuel : ℕ) (blockNormsSize : ℤ) (hValsBlock : Arr) (s : MainState) (r : ℤ × MainState),
      candidatesWhile env nLocal basisSize ldV xOff rOff ldhVecs numEvals maxBlockSize
        numLocked targetShiftIndex targetShift fuel blockNormsSize hValsBlock s = some r →
      Ext s r.2
  | 0, _, _, _, _, h => by
    unfold candidatesWhile at h
    cases h
  | fuel + 1, blockNormsSize, hValsBlock, s, r, h => by
    unfold candidatesWhile at h
    dsimp only at h
    have h1 := candidatesCheck_ext env ldV xOff rOff numLocked blockNormsSize hValsBlock s
    have h2 := Ext_trans h1 (candidateLoop_ext nLocal ldV xOff rOff numEvals blockNormsSize
        maxBlockSize numLocked targetShift
        (candidatesCheck env ldV xOff rOff numLocked blockNormsSize hValsBlock s).2.iwork
        blockNormsSize.toNat 0
        (candidatesCheck env ldV xOff rOff numLocked blockNormsSize hValsBlock s).2.blockSize
        (candidatesCheck env ldV xOff rOff numLocked blockNormsSize hValsBlock s).2)
    split at h
    · cases h
      exact h1
    · split at h
      · cases h
        exact Ext_trans h2 (Ext_trans (candidatesPrepareVecs_ext _ _ _ _ _ _)
          (candidatesScan_ext _ _ _ _))
      · split at h
        · cases h
          exact Ext_trans h2 (Ext_trans (candidatesPrepareVecs_ext _ _ _ _ _ _)
            (Ext_trans (candidatesScan_ext _ _ _ _) (candidatesResiduals_ext _ _ _ _ _ _ _ _ _)))
        · have ih := candidatesWhile_ext env nLocal basisSize ldV xOff rOff ldhVecs numEvals
            maxBlockSize numLocked targetShiftIndex targetShift fuel _ _ _ r h
          refine Ext_trans ?_ ih
          exact Ext_trans h2 (Ext_trans (candidatesPrepareVecs_ext _ _ _ _ _ _)
            (Ext_trans (candidatesScan_ext _ _ _ _)
              (Ext_trans (candidatesResiduals_ext _ _ _ _ _ _ _ _ _)
                (candidatesSmallest_ext _ _ _))))

theorem prepare_candidates_ext (env : Env) (fuel : ℕ) (s : MainState)
    (nLocal basisSize ldV xOff rOff ldhVecs numEvals blockNormsSize maxBlockSize
      numLocked targetShiftIndex : ℤ) (r : ℤ × MainState)
    (h : prepare_candidates_dprimme env fuel s nLocal basisSize ldV xOff rOff ldhVecs numEvals
      blockNormsSize maxBlockSize numLocked targetShiftIndex = some r) : Ext s r.2 := by
  unfold prepare_candidates_dprimme at h
  dsimp only at h
  refine Ext_trans ?_ (candidatesWhile_ext _ _ _ _ _ _ _ _ _ _ _ _ _ _ _ _ r h)
  split_ifs <;> exact Ext_of_eq rfl rfl

theorem growthPrepare_ext (env : Env) (fuel : ℕ) (s s' : MainState)
    (h : growthPrepare env fuel s = some s') : Ext s s' := by
  unfold growthPrepare at h
  split at h
  · split at h
    · cases h
    · rename_i r hr
      cases h
      exact Ext_trans (prepare_candidates_ext _ _ _ _ _ _ _ _ _ _ _ _ _ _ r hr)
        (Ext_of_log rfl rfl rfl)
  · cases h
    exact Ext_of_eq rfl rfl

theorem growthCandidates_ext (env : Env) (fuel : ℕ) (s s' : MainState)
    (h : growthCandidates env fuel s = some s') : Ext s s' := by
  unfold growthCandidates at h
  split at h
  · cases h
  · rename_i s1 h1
    cases h
    exact Ext_trans (growthPrepare_ext env fuel s s1 h1) (Ext_of_eq rfl rfl)

theorem solveCorrection_ok (env : Env) (s : MainState)
    (h : (s.solveCorrection env).1 = 0) : Ext s (s.solveCorrection env).2 := by
  refine Ext_of_log (c := Call.solve_correction (s.solveCorrection env).1) rfl rfl ?_
  simp [failing, h]

theorem solveCorrection_fail (env : Env) (s : MainState)
    (h : (s.solveCorrection env).1 ≠ 0) :
    Fatal SOLVE_CORRECTION_FAILURE s (s.solveCorrection env).2 := by
  refine Fatal_of_log (c := Call.solve_correction (s.solveCorrection env).1) rfl rfl ?_
  simp [failing, h]

theorem growthCorrection_good (env : Env) (s : MainState) :
    Flow.Good s (growthCorrection env s) := by
  unfold growthCorrection
  dsimp only
  have hd := dynamicBeforeCorrection_ext env s
  split_ifs with h0 h1 h2
  · exact Ext_of_eq rfl rfl
  · exact Or.inr (Fatal_of_Ext hd (solveCorrection_fail env _ h1))
  · have h1' : ((dynamicBeforeCorrection env s).solveCorrection env).1 = 0 := by
      by_contra hne
      exact h1 hne
    exact Ext_trans hd (Ext_trans (solveCorrection_ok env _ h1') (Ext_of_eq rfl rfl))
  · have h1' : ((dynamicBeforeCorrection env s).solveCorrection env).1 = 0 := by
      by_contra hne
      exact h1 hne
    exact Ext_trans hd (solveCorrection_ok env _ h1')

theorem extendBasis_ext (env : Env) (s : MainState) : Ext s (s.extendBasis env) := by
  unfold MainState.extendBasis
  dsimp only
  exact Ext_trans (matvec_ext env s _ _)
    (Ext_trans (updateProjections_ext env _ _ _) (Ext_of_eq rfl rfl))

theorem growthExtend_good (env : Env) (fuel : ℕ) (s : MainState) :
    Flow.Good s (growthExtend env fuel s) := by
  unfold growthExtend
  dsimp only
  split_ifs with h0 h1
  · exact Or.inr (orthoCall_fail env s _ _ _ h0)
  · have ho := orthoCall_ok env s _ _ _ h0
    exact Or.inr (Fatal_of_Ext (Ext_trans ho (extendBasis_ext env _)) (solveH_fail env _ h1))
  · have ho := orthoCall_ok env s (s.basisSize) (s.basisSize + s.blockSize - 1)
      (s.primme.numOrthoConst + s.numLocked) h0
    have h1' : ((((s.orthoCall env s.basisSize (s.basisSize + s.blockSize - 1)
        (s.primme.numOrthoConst + s.numLocked)).2).extendBasis env).solveH env).1 = 0 := by
      by_contra hne
      exact h1 hne
    have hs := Ext_trans (Ext_trans ho (extendBasis_ext env _))
      (Ext_trans (solveH_ok env _ h1') (Ext_of_eq rfl rfl :
        Ext _ (((((s.orthoCall env s.basisSize (s.basisSize + s.blockSize - 1)
        (s.primme.numOrthoConst + s.numLocked)).2).extendBasis env).solveH env).2).resetArbitrary))
    split
    · exact hs
    · rename_i s2 h2
      exact Ext_trans hs (growthRetain_ext fuel _ s2 h2)

theorem growthStep_good (env : Env) (fuel : ℕ) (s : MainState) :
    Flow.Good s (growthStep env fuel s) := by
  unfold growthStep
  have hb := growthBlockSize_ext s
  split
  · exact hb
  · rename_i s1 h1
    have hc := Ext_trans hb (growthCandidates_ext env fuel _ s1 h1)
    split_ifs with he
    · exact hc
    · have hg := growthCorrection_good env s1
      split
      · rename_i s2 h2
        rw [h2] at hg
        exact Good_of_Ext (Ext_trans hc hg) (growthExtend_good env fuel s2)
      · rename_i other hne
        exact Good_of_Ext hc hg

theorem growthLoop_good (env : Env) (inner : ℕ) :
    ∀ (fuel : ℕ) (s : MainState), Flow.Good s (growthLoop env inner fuel s)
  | fuel, s => by
    unfold growthLoop
    split_ifs with hg
    · cases fuel with
      | zero => exact Ext_refl s
      | succ f =>
        dsimp only
        have hs := growthStep_good env inner s
        split
        · rename_i s1 h1
          rw [h1] at hs
          exact Good_of_Ext hs (growthLoop_good env inner f s1)
        · rename_i s1 h1
          rw [h1] at hs
          exact hs
        · exact hs
    · exact Ext_refl s

/-! ## The failure protocol: restart, verification and the outer loop -/

theorem restartCall_ext (env : Env) (s : MainState) : Ext s (s.restartCall env) :=
  Ext_of_log (c := Call.restart (env.restart s s.basisSize).ret) rfl rfl rfl

theorem copyGuesses_ext (s : MainState) (k : ℤ) : Ext s (s.copyGuesses k) :=
  Ext_of_eq rfl rfl

theorem extendByGuesses_ext (env : Env) (s : MainState) (k : ℤ) :
    Ext s (s.extendByGuesses env k) := by
  unfold MainState.extendByGuesses
  dsimp only
  exact Ext_trans (matvec_ext env s _ _)
    (Ext_trans (updateProjections_ext env _ _ _) (Ext_of_eq rfl rfl))

theorem restartGuesses_good (env : Env) (s : MainState) :
    Flow.Good s (restartGuesses env s) := by
  unfold restartGuesses
  dsimp only
  have hc := copyGuesses_ext s s.numNew
  split_ifs with h0 h1 h2
  · exact Or.inr (Fatal_of_Ext hc (orthoCall_fail env _ _ _ _ h1))
  · exact Or.inr (Fatal_of_Ext
      (Ext_trans hc (Ext_trans (orthoCall_ok env _ _ _ _ h1) (extendByGuesses_ext env _ _)))
      (solveH_fail env _ h2))
  · have h2' : ((((s.copyGuesses s.numNew).orthoCall env s.basisSize
        (s.basisSize + s.numNew - 1) s.numLocked).2.extendByGuesses env s.numNew).solveH env).1
        = 0 := by
      by_contra hne
      exact h2 hne
    exact Ext_trans hc (Ext_trans (orthoCall_ok env _ _ _ _ h1)
      (Ext_trans (extendByGuesses_ext env _ _) (solveH_ok env _ h2')))
  · exact Ext_refl s

theorem prepareVecsCall_ext (env : Env) (s : MainState) : Ext s (s.prepareVecsCall env) := by
  unfold MainState.prepareVecsCall
  dsimp only
  split_ifs
  · exact Ext_of_log (c := Call.prepare_vecs) rfl rfl rfl
  · exact Ext_refl s

theorem dynamicAfterRestart_ext (env : Env) (s : MainState) :
    Ext s (dynamicAfterRestart env s) := by
  unfold dynamicAfterRestart
  dsimp only [MainState.wTimer]
  split_ifs
  · exact Ext_trans (Ext_of_eq rfl rfl) (switchGDpk_ext env _)
  · exact Ext_refl s

theorem afterGrowth_good (env : Env) (s : MainState) :
    Flow.Good s (afterGrowth env s) := by
  unfold afterGrowth
  have h1 : Ext s ((s.setWholeSpace.prepareVecsCall env).restartCall env) :=
    Ext_trans (Ext_of_eq rfl rfl : Ext s s.setWholeSpace)
      (Ext_trans (prepareVecsCall_ext env _) (restartCall_ext env _))
  have hg := restartGuesses_good env ((s.setWholeSpace.prepareVecsCall env).restartCall env)
  split
  · rename_i s1 hs1
    rw [hs1] at hg
    have h2 : Ext s (dynamicAfterRestart env s1.countRestart) :=
      Ext_trans h1 (Ext_trans hg
        (Ext_trans (Ext_of_eq rfl rfl : Ext s1 s1.countRestart) (dynamicAfterRestart_ext env _)))
    split_ifs
    · exact h2
    · exact h2
  · exact Good_of_Ext h1 hg

theorem restartLoop_good (env : Env) (inner : ℕ) :
    ∀ (fuel : ℕ) (s : MainState), Flow.Good s (restartLoop env inner fuel s)
  | fuel, s => by
    unfold restartLoop
    split_ifs with hg
    · cases fuel with
      | zero => exact Ext_refl s
      | succ f =>
        dsimp only
        have h0 : Ext s s.resetRetained := Ext_of_eq rfl rfl
        have hl := growthLoop_good env inner inner s.resetRetained
        split
        · rename_i s1 h1
          rw [h1] at hl
          have ha := afterGrowth_good env s1
          split
          · rename_i s2 h2
            rw [h2] at ha
            exact Good_of_Ext (Ext_trans h0 (Ext_trans hl ha)) (restartLoop_good env inner f s2)
          · rename_i s2 h2
            rw [h2] at ha
            exact Ext_trans h0 (Ext_trans hl ha)
          · exact Good_of_Ext (Ext_trans h0 hl) ha
        · exact Good_of_Ext h0 hl
    · exact Ext_refl s

theorem recommendMethod_ext (s : MainState) : Ext s (recommendMethod s) := by
  unfold recommendMethod
  split_ifs <;> exact Ext_of_eq rfl rfl

theorem setANorm_ext (s : MainState) : Ext s (setANorm s) := by
  unfold setANorm
  split_ifs <;> exact Ext_of_eq rfl rfl

theorem finishLocking_good (s : MainState) : Flow.Good s (finishLocking s) := by
  unfold finishLocking
  have h1 : Ext s (recommendMethod s).reportLockingProblem :=
    Ext_trans (recommendMethod_ext s) (Ext_of_eq rfl rfl)
  split_ifs
  · exact Or.inl (Ext_trans h1 (setANorm_ext _))
  · exact Or.inl h1

theorem verify_norms_ext (env : Env) (s : MainState) (k : ℤ) :
    Ext s (verify_norms env s k).2 := by
  unfold verify_norms
  dsimp only
  have h : Ext s ((s.verifyResidualNorms env k).verifyCheck env k).2 := Ext_of_eq rfl rfl
  split_ifs
  · exact h
  · exact Ext_trans h (Ext_of_eq rfl rfl)

theorem verifyStep_ext (env : Env) (s : MainState) (h0 : s.enforceRestart = 0) :
    Ext s (verifyStep env s).2 := by
  unfold verifyStep
  split_ifs with h
  · exact absurd h0 h
  · exact Ext_trans (verify_norms_ext env s _) (Ext_of_log rfl rfl rfl)

theorem finishNoLocking_good (env : Env) (limit : Prop) [Decidable limit] (s : MainState) :
    Flow.Good s (finishNoLocking env limit s) := by
  unfold finishNoLocking
  dsimp only
  have hc : Ext s (recommendMethod s.copyOut) :=
    Ext_trans (Ext_of_eq rfl rfl : Ext s s.copyOut) (recommendMethod_ext _)
  split_ifs with h1 h2 h3 h4
  · exact Or.inl (Ext_trans hc (setANorm_ext _))
  · exact Or.inl hc
  · exact Or.inr (orthoCall_fail env s _ _ _ h4)
  · exact Ext_trans (orthoCall_ok env s _ _ _ h4)
      (Ext_trans (matvec_ext env _ _ _) (Ext_of_eq rfl rfl))
  · exact Ext_refl s

theorem afterRestartLoop_good (env : Env) (s : MainState) (h0 : s.enforceRestart = 0) :
    Flow.Good s (afterRestartLoop env s) := by
  unfold afterRestartLoop
  have hv := verifyStep_ext env s h0
  split_ifs with h1 h2
  · exact finishLocking_good s
  · exact Or.inl hv
  · exact Good_of_Ext hv (finishNoLocking_good env _ _)

theorem resetOuter_ext (env : Env) (s : MainState) : Ext s (s.resetOuter env) := by
  unfold MainState.resetOuter
  dsimp only
  exact Ext_trans (Ext_of_eq rfl rfl) (updateProjections_ext env _ _ _)

theorem outerStart_good (env : Env) (s : MainState) : Flow.Good s (outerStart env s) := by
  unfold outerStart
  dsimp only
  have hr := resetOuter_ext env s
  split_ifs with h
  · exact Or.inr (Fatal_of_Ext hr (solveH_fail env _ h))
  · have h' : ((s.resetOuter env).solveH env).1 = 0 := by
      by_contra hne
      exact h hne
    exact Ext_trans hr (Ext_trans (solveH_ok env _ h') (Ext_of_eq rfl rfl))

theorem Ext_enforceRestart {s s' : MainState} (h : Ext s s') :
    s'.enforceRestart = s.enforceRestart :=
  congrArg Config.enforceRestart h.1

theorem outerLoop_good (env : Env) (inner : ℕ) :
    ∀ (fuel : ℕ) (s : MainState), s.enforceRestart = 0 →
      Flow.Good s (outerLoop env inner fuel s)
  | fuel, s, h0 => by
    unfold outerLoop
    split_ifs with hg
    · cases fuel with
      | zero => exact Ext_refl s
      | succ f =>
        dsimp only
        have hs := outerStart_good env s
        split
        · rename_i s1 h1
          rw [h1] at hs
          have hl := restartLoop_good env inner inner s1
          split
          · rename_i s2 h2
            rw [h2] at hl
            have h02 : s2.enforceRestart = 0 := by
              rw [Ext_enforceRestart (Ext_trans hs hl)]
              exact h0
            have ha := afterRestartLoop_good env s2 h02
            split
            · rename_i s3 h3
              rw [h3] at ha
              have h03 : s3.enforceRestart = 0 := by
                rw [Ext_enforceRestart ha]
                exact h02
              exact Good_of_Ext (Ext_trans hs (Ext_trans hl ha))
                (outerLoop_good env inner f s3 h03)
            · exact Good_of_Ext (Ext_trans hs hl) ha
          · exact Good_of_Ext hs hl
        · exact hs
    · exact Ext_refl s

/-! ## Fatal collaborator failures unwind immediately -/

theorem Clean_of_Ext {s s' : MainState} (h : Ext s s') (hs : Clean s.trace) :
    Clean s'.trace := by
  obtain ⟨_, t, ht, hk⟩ := h
  rw [ht]
  exact Clean_append hs hk

theorem last_call_of_clean_prefix {t p : List Call} {d : Call} {code : ℤ}
    (ht : t = p ++ [d]) (hp : Clean p) (hd : failing d = some code) :
    ∀ (pre : List Call) (c : Call) (post : List Call) (e : ℤ),
      t = pre ++ c :: post → failing c = some e → post = [] ∧ code = e := by
  intro pre c post e hsplit hc
  rcases List.eq_nil_or_concat post with hnil | ⟨L, b, hL⟩
  · subst hnil
    have h1 : pre ++ [c] = p ++ [d] := by rw [← hsplit, ht]
    have h2 := List.append_inj' h1 rfl
    have h3 : c = d := by
      have := h2.2
      simpa using this
    refine ⟨rfl, ?_⟩
    rw [h3, hd] at hc
    exact Option.some.inj hc
  · exfalso
    subst hL
    have h1 : (pre ++ c :: L) ++ [b] = p ++ [d] := by
      rw [← ht, hsplit]
      simp
    have h2 := (List.append_inj' h1 rfl).1
    have hmem : c ∈ p := by
      rw [← h2]
      simp
    rw [hp c hmem] at hc
    cases hc

theorem clean_has_no_failure {t : List Call} (ht : Clean t) :
    ∀ (pre : List Call) (c : Call) (post : List Call) (e : ℤ),
      t = pre ++ c :: post → failing c = some e → post = [] ∧ (0 : ℤ) = 1 := by
  intro pre c post e hsplit hc
  exfalso
  have hmem : c ∈ t := by
    rw [hsplit]
    simp
  rw [ht c hmem] at hc
  cases hc

theorem protocol_of_good {s0 s' : MainState} {code : ℤ} (h0 : Clean s0.trace)
    (h : Ext s0 s' ∨ Fatal code s0 s') :
    ∀ (pre : List Call) (c : Call) (post : List Call) (e : ℤ),
      s'.trace = pre ++ c :: post → failing c = some e → post = [] ∧ code = e := by
  rcases h with h | h
  · intro pre c post e hsplit hc
    exfalso
    have := (clean_has_no_failure (Clean_of_Ext h h0) pre c post e hsplit hc).2
    omega
  · obtain ⟨_, t, d, ht, hk, hd⟩ := h
    have ht' : s'.trace = (s0.trace ++ t) ++ [d] := by
      rw [ht]
      simp
    exact last_call_of_clean_prefix ht' (Clean_append h0 hk) hd

theorem initBasis_trace (env : Env) (s : MainState) :
    ((setupDim2 (initCounters env s)).initBasis env).2.trace =
      [Call.init_basis ((setupDim2 (initCounters env s)).initBasis env).1] := by
  unfold setupDim2
  split_ifs <;> rfl

theorem initBasis_enforceRestart (env : Env) (s : MainState) :
    ((setupDim2 (initCounters env s)).initBasis env).2.enforceRestart = 0 := by
  unfold setupDim2
  split_ifs <;> rfl

theorem initDynamic_ext (env : Env) (s : MainState) : Ext s (initDynamic env s) := by
  unfold initDynamic
  dsimp only [MainState.wTimer]
  split_ifs <;> exact Ext_of_eq rfl rfl

theorem entryState_trace (env : Env) (s : MainState)
    (h : ¬ ((setupDim2 (initCounters env s)).initBasis env).1 < 0) :
    Clean (entryState env s).trace := by
  unfold entryState
  dsimp only
  refine Clean_of_Ext (initDynamic_ext env _) ?_
  show Clean ((setupDim2 (initCounters env s)).initBasis env).2.trace
  rw [initBasis_trace]
  apply Clean_single
  simp [failing, h]

theorem entryState_enforceRestart (env : Env) (s : MainState) :
    (entryState env s).enforceRestart = 0 := by
  unfold entryState
  dsimp only
  rw [Ext_enforceRestart (initDynamic_ext env _)]
  exact initBasis_enforceRestart env s

theorem failure_protocol (env : Env) (fuel : ℕ) (s : MainState) :
    (∀ (code : ℤ) (s' : MainState), main_iter_dprimme env fuel s = Outcome.returned code s' →
      ∀ (pre : List Call) (c : Call) (post : List Call) (e : ℤ),
        s'.trace = pre ++ c :: post → failing c = some e → post = [] ∧ code = e) ∧
    (∀ (s' : MainState), main_iter_dprimme env fuel s = Outcome.outOfFuel s' →
      ∀ c ∈ s'.trace, failing c = none) := by
  unfold main_iter_dprimme
  dsimp only
  split_ifs with h1 h2
  · constructor
    · intro code s' h pre c post e hsplit hc
      exfalso
      have hq : (quickReturn env (initCounters env s)).state.trace = [Call.matrixMatvec 1] := rfl
      rw [h] at hq
      have hk : Clean s'.trace := by
        show Clean (Outcome.returned code s').state.trace
        rw [hq]
        exact Clean_single rfl
      have := (clean_has_no_failure hk pre c post e hsplit hc).2
      omega
    · intro s' h
      cases h
  · constructor
    · intro code s' h
      cases h
      refine last_call_of_clean_prefix (p := []) (d := Call.init_basis
        ((setupDim2 (initCounters env s)).initBasis env).1) ?_ Clean_nil ?_
      · rw [initBasis_trace]
        rfl
      · simp [failing, h2]
    · intro s' h
      cases h
  · have hclean := entryState_trace env s h2
    have hgood := outerLoop_good env fuel fuel (entryState env s) (entryState_enforceRestart env s)
    constructor
    · intro code s' h
      split at h
      · rename_i s1 h1'
        rw [h1'] at hgood
        cases h
        exact protocol_of_good hclean (Or.inl (Ext_trans hgood (setANorm_ext _)))
      · rename_i s1 h1'
        rw [h1'] at hgood
        cases h
        exact protocol_of_good hclean (Or.inl (Ext_trans hgood (setANorm_ext _)))
      · rename_i c1 s1 h1'
        rw [h1'] at hgood
        cases h
        exact protocol_of_good hclean hgood
      · cases h
    · intro s' h
      split at h
      · cases h
      · cases h
      · cases h
      · rename_i s1 h1'
        rw [h1'] at hgood
        cases h
        exact Clean_of_Ext hgood hclean

theorem Outcome.eq_of_code {o : Outcome} {c : ℤ} (h : o.code = some c) :
    o = Outcome.returned c o.state := by
  cases o <;> simp [Outcome.code] at h
  subst h
  rfl

/-- C8: in every run of `main_iter_dprimme`, complete or cut off by the fuel,
a collaborator call that reports a fatal failure (`init_basis` or `ortho`
returning a negative value, `solve_H` or `solve_correction` returning a
non-zero value) is the last call the driver makes (no call is logged after
it), and the run is a return of the corresponding code (`INIT_FAILURE`,
`ORTHO_FAILURE`, `SOLVE_H_FAILURE`, `SOLVE_CORRECTION_FAILURE`). -/
theorem fatal_failures_unwind (env : Env) (fuel : ℕ) (s : MainState)
    (pre : List Call) (c : Call) (post : List Call) (e : ℤ)
    (hsplit : (main_iter_dprimme env fuel s).state.trace = pre ++ c :: post)
    (hfail : failing c = some e) :
    post = [] ∧ (main_iter_dprimme env fuel s).code = some e := by
  have h := failure_protocol env fuel s
  cases ho : main_iter_dprimme env fuel s with
  | returned code s' =>
    rw [ho] at hsplit
    have := h.1 code s' ho pre c post e hsplit hfail
    exact ⟨this.1, by rw [this.2]; rfl⟩
  | outOfFuel s' =>
    exfalso
    rw [ho] at hsplit
    have hmem : c ∈ s'.trace := by
      have : s'.trace = pre ++ c :: post := hsplit
      rw [this]
      simp
    have := h.2 s' ho c hmem
    rw [this] at hfail
    cases hfail

/-- Witness for C8: `ortho` fails in the first growth step. -/
theorem fatal_failures_unwind_witness :
    (main_iter_dprimme (demoEnv 0 0 0 1 (-1)) 2 (demoState (demoParams 3 1 0 0))).code
      = some ORTHO_FAILURE :=
  (fatal_failures_unwind (demoEnv 0 0 0 1 (-1)) 2 (demoState (demoParams 3 1 0 0))
    [Call.init_basis 0, Call.update_projection, Call.solve_H 0, Call.prepare_candidates 0,
      Call.solve_correction 0]
    (Call.ortho (-1)) [] ORTHO_FAILURE (by decide!) (by decide!)).2

/-! ## The straight-line code around the loops -/

theorem Flow.eq_cont_of_isCont {fl : Flow} (h : fl.isCont = true) : fl = Flow.cont fl.state := by
  cases fl <;> simp [Flow.isCont] at h ⊢
  rfl

theorem Flow.eq_brk_of_isBrk {fl : Flow} (h : fl.isBrk = true) : fl = Flow.brk fl.state := by
  cases fl <;> simp [Flow.isBrk] at h ⊢
  rfl

theorem Good_state_ext {s : MainState} {fl : Flow} (h : Flow.Good s fl)
    (hr : fl.retCode = none) : Ext s fl.state := by
  cases fl with
  | cont s' => exact h
  | brk s' => exact h
  | stuck s' => exact h
  | ret c s' => simp [Flow.retCode] at hr

theorem main_iter_general (env : Env) (fuel : ℕ) (s : MainState) (hn : s.primme.n ≠ 1)
    (hinit : ¬ ((setupDim2 (initCounters env s)).initBasis env).1 < 0) :
    main_iter_dprimme env fuel s =
      match outerLoop env fuel fuel (entryState env s) with
      | Flow.cont s => Outcome.returned 0 (setANorm s)
      | Flow.brk s => Outcome.returned 0 (setANorm s)
      | Flow.ret code s => Outcome.returned code s
      | Flow.stuck s => Outcome.outOfFuel s := by
  unfold main_iter_dprimme
  have h1 : ¬ (initCounters env s).primme.n = 1 := hn
  rw [if_neg h1]
  rw [if_neg hinit]

theorem main_iter_of_ret (env : Env) (fuel : ℕ) (s : MainState) (hn : s.primme.n ≠ 1)
    (hinit : ¬ ((setupDim2 (initCounters env s)).initBasis env).1 < 0)
    (code : ℤ) (h : (outerLoop env fuel fuel (entryState env s)).retCode = some code) :
    main_iter_dprimme env fuel s =
      Outcome.returned code (outerLoop env fuel fuel (entryState env s)).state := by
  rw [main_iter_general env fuel s hn hinit]
  cases hfl : outerLoop env fuel fuel (entryState env s) with
  | cont s' => rw [hfl] at h; simp [Flow.retCode] at h
  | brk s' => rw [hfl] at h; simp [Flow.retCode] at h
  | stuck s' => rw [hfl] at h; simp [Flow.retCode] at h
  | ret c s' =>
    rw [hfl] at h
    simp only [Flow.retCode, Option.some.injEq] at h
    subst h
    rfl

theorem entryState_config (env : Env) (s : MainState) :
    (entryState env s).config = { s.config with LockingProblem := 0, enforceRestart := 0 } := by
  unfold entryState
  dsimp only
  rw [Ext_config (initDynamic_ext env _)]
  unfold setupDim2
  split_ifs <;> rfl

theorem entryState_converged (env : Env) (s : MainState) :
    (entryState env s).converged = 0 := by
  unfold entryState initDynamic
  dsimp only [MainState.wTimer]
  unfold setupDim2
  split_ifs <;> rfl

theorem recommendMethod_numConverged (s : MainState) :
    (recommendMethod s).numConverged = s.numConverged := by
  unfold recommendMethod
  split_ifs <;> rfl

theorem recommendMethod_wholeSpace (s : MainState) :
    (recommendMethod s).wholeSpace = s.wholeSpace := by
  unfold recommendMethod
  split_ifs <;> rfl

theorem recommendMethod_converged (s : MainState) :
    (recommendMethod s).converged = s.converged := by
  unfold recommendMethod
  split_ifs <;> rfl

theorem recommendMethod_LockingProblem (s : MainState) :
    (recommendMethod s).LockingProblem = s.LockingProblem := by
  unfold recommendMethod
  split_ifs <;> rfl

theorem finishLocking_retCode (s : MainState) :
    (finishLocking s).retCode =
      some (if s.numConverged = s.primme.numEvals ∨ s.wholeSpace ≠ 0 then 0
        else MAX_ITERATIONS_REACHED) := by
  unfold finishLocking
  have h1 : (recommendMethod s).reportLockingProblem.numConverged = s.numConverged :=
    recommendMethod_numConverged s
  have h2 : (recommendMethod s).reportLockingProblem.wholeSpace = s.wholeSpace :=
    recommendMethod_wholeSpace s
  rw [h1, h2]
  split_ifs <;> rfl

theorem outerLoop_pass (env : Env) (inner f : ℕ) (s : MainState) (hg : s.outerGuard)
    (hstart : (outerStart env s).isCont = true)
    (hloop : (restartLoop env inner inner (outerStart env s).state).isCont = true) :
    outerLoop env inner (f + 1) s =
      match afterRestartLoop env (restartLoop env inner inner (outerStart env s).state).state with
      | Flow.cont s => outerLoop env inner f s
      | other => other := by
  rw [outerLoop]
  rw [if_pos hg]
  have e1 := Flow.eq_cont_of_isCont hstart
  have e2 := Flow.eq_cont_of_isCont hloop
  generalize (outerStart env s).state = s1 at e1 e2 hloop ⊢
  rw [e1]
  dsimp only
  generalize (restartLoop env inner inner s1).state = s2 at e2 ⊢
  rw [e2]

theorem Flow.eq_ret_of_retCode {fl : Flow} {c : ℤ} (h : fl.retCode = some c) :
    fl = Flow.ret c fl.state := by
  cases fl <;> simp [Flow.retCode] at h
  subst h
  rfl

theorem match_of_retCode (fl : Flow) (c : ℤ) (k : MainState → Flow) :
    fl.retCode = some c →
    (match fl with
      | Flow.cont s => k s
      | other => other) = fl := by
  intro h
  cases fl <;> simp [Flow.retCode] at h
  rfl

theorem Ext_after_start_and_loop (env : Env) (inner : ℕ) (s : MainState)
    (hstart : (outerStart env s).isCont = true)
    (hloop : (restartLoop env inner inner (outerStart env s).state).isCont = true) :
    Ext s (restartLoop env inner inner (outerStart env s).state).state := by
  have h1 := outerStart_good env s
  have h2 := restartLoop_good env inner inner (outerStart env s).state
  have e1 := Flow.eq_cont_of_isCont hstart
  have e2 := Flow.eq_cont_of_isCont hloop
  rw [e1] at h1
  rw [e2] at h2
  exact Ext_trans h1 h2

/-! ## Pieces that neither call matvec nor write the output arrays -/

theorem Untouched_refl (s : MainState) : Untouched s s :=
  ⟨rfl, rfl, rfl, rfl, fun _ h => h⟩

theorem Untouched_trans {a b c : MainState} (h1 : Untouched a b) (h2 : Untouched b c) :
    Untouched a c :=
  ⟨h2.1.trans h1.1, h2.2.1.trans h1.2.1, h2.2.2.1.trans h1.2.2.1,
    h2.2.2.2.1.trans h1.2.2.2.1, fun b h => h1.2.2.2.2 b (h2.2.2.2.2 b h)⟩

theorem wrRange_zero {α : Type} (a : ℕ → α) (off : ℤ) (f : ℤ → α) : wrRange a off 0 f = a := by
  funext k
  unfold wrRange
  have : ¬ (off ≤ (k : ℤ) ∧ (k : ℤ) < off + 0) := by omega
  rw [if_neg this]

theorem initDynamic_untouched (env : Env) (s : MainState) : Untouched s (initDynamic env s) := by
  unfold initDynamic
  dsimp only [MainState.wTimer]
  split_ifs <;> exact ⟨rfl, rfl, rfl, rfl, fun _ h => h⟩

theorem updateProjections_untouched (env : Env) (s : MainState) (a b : ℤ) :
    Untouched s (s.updateProjections env a b) := by
  unfold MainState.updateProjections
  dsimp only
  split_ifs
  all_goals
    refine ⟨rfl, rfl, rfl, rfl, ?_⟩
    intro c hc
    simpa using hc

theorem resetOuter_untouched (env : Env) (s : MainState) : Untouched s (s.resetOuter env) := by
  unfold MainState.resetOuter
  dsimp only
  exact Untouched_trans ⟨rfl, rfl, rfl, rfl, fun _ h => h⟩ (updateProjections_untouched env _ _ _)

theorem solveH_untouched (env : Env) (s : MainState) : Untouched s (s.solveH env).2 := by
  refine ⟨rfl, rfl, rfl, rfl, ?_⟩
  intro c hc
  have : (s.solveH env).2.trace = s.trace ++ [Call.solve_H (env.solve_H s s.basisSize
    s.numConverged).ret] := rfl
  rw [this] at hc
  simpa using hc

theorem outerStart_untouched (env : Env) (s : MainState) :
    Untouched s (outerStart env s).state := by
  unfold outerStart
  dsimp only
  have h := Untouched_trans (resetOuter_untouched env s) (solveH_untouched env _)
  split_ifs
  · exact h
  · exact Untouched_trans h ⟨rfl, rfl, rfl, rfl, fun _ h => h⟩

theorem recommendMethod_untouched (s : MainState) : Untouched s (recommendMethod s) := by
  unfold recommendMethod
  split_ifs <;> exact ⟨rfl, rfl, rfl, rfl, fun _ h => h⟩

theorem setANorm_untouched (s : MainState) : Untouched s (setANorm s) := by
  unfold setANorm
  split_ifs <;> exact ⟨rfl, rfl, rfl, rfl, fun _ h => h⟩

theorem finishLocking_untouched (s : MainState) : Untouched s (finishLocking s).state := by
  unfold finishLocking
  have h : Untouched s (recommendMethod s).reportLockingProblem :=
    Untouched_trans (recommendMethod_untouched s) ⟨rfl, rfl, rfl, rfl, fun _ h => h⟩
  split_ifs
  · exact Untouched_trans h (setANorm_untouched _)
  · exact h

theorem verifyResiduals_zero (nLocal : ℤ) (V hVals W dwork : Arr) :
    verifyResiduals nLocal V hVals 0 W dwork = (W, dwork) := rfl

theorem verifyResidualNorms_zero (env : Env) (s : MainState) :
    Untouched s (s.verifyResidualNorms env 0) := by
  unfold MainState.verifyResidualNorms
  dsimp only
  simp only [wrRange_zero]
  exact ⟨rfl, rfl, rfl, rfl, fun _ h => h⟩

theorem verify_norms_zero_untouched (env : Env) (s : MainState) :
    Untouched s (verify_norms env s 0).2 := by
  unfold verify_norms
  dsimp only
  have h : Untouched s ((s.verifyResidualNorms env 0).verifyCheck env 0).2 :=
    Untouched_trans (verifyResidualNorms_zero env s) ⟨rfl, rfl, rfl, rfl, fun _ h => h⟩
  split_ifs
  · exact h
  · exact Untouched_trans h ⟨rfl, rfl, rfl, rfl, fun _ h => h⟩

theorem verify_norms_zero_converged (env : Env) (s : MainState)
    (h : (verify_norms env s 0).1 = 0) : (verify_norms env s 0).2.converged = 1 := by
  unfold verify_norms at h ⊢
  dsimp only at h ⊢
  split_ifs with h1
  · rw [if_pos h1] at h
    exact absurd h h1
  · rfl

theorem verifyStep_zero_untouched (env : Env) (s : MainState) (h0 : s.enforceRestart = 0)
    (hc : s.numConverged = 0) : Untouched s (verifyStep env s).2 := by
  unfold verifyStep
  rw [if_neg (by rw [h0]; simp), hc]
  refine Untouched_trans (verify_norms_zero_untouched env s) ⟨rfl, rfl, rfl, rfl, ?_⟩
  intro b hb
  have : ((verify_norms env s 0).2.log (Call.verify_norms (verify_norms env s 0).1)).trace
    = (verify_norms env s 0).2.trace ++ [Call.verify_norms (verify_norms env s 0).1] := rfl
  rw [this] at hb
  simpa using hb

theorem verifyStep_zero_converged (env : Env) (s : MainState) (h0 : s.enforceRestart = 0)
    (hc : s.numConverged = 0) (h : (verifyStep env s).1 = 0) :
    (verifyStep env s).2.converged = 1 := by
  unfold verifyStep at h ⊢
  rw [if_neg (by rw [h0]; simp), hc] at h ⊢
  exact verify_norms_zero_converged env s h

theorem copyOut_zero_untouched (s : MainState) (h : s.primme.numEvals = 0) :
    Untouched s s.copyOut := by
  unfold MainState.copyOut Num_dcopy_dprimme
  dsimp only
  simp only [h, mul_zero, wrRange_zero]
  exact ⟨rfl, rfl, rfl, rfl, fun _ h => h⟩

theorem finishNoLocking_zero (env : Env) (limit : Prop) [Decidable limit] (s : MainState)
    (he : s.primme.numEvals = 0) (hc : s.converged ≠ 0) :
    (finishNoLocking env limit s).retCode.isSome = true ∧
      Untouched s (finishNoLocking env limit s).state := by
  unfold finishNoLocking
  have h1 : limit ∨ s.converged ≠ 0 ∨ s.wholeSpace ≠ 0 := Or.inr (Or.inl hc)
  rw [if_pos h1]
  have hu : Untouched s (recommendMethod s.copyOut) :=
    Untouched_trans (copyOut_zero_untouched s he) (recommendMethod_untouched _)
  split_ifs
  · exact ⟨rfl, Untouched_trans hu (setANorm_untouched _)⟩
  · exact ⟨rfl, hu⟩

theorem finishLocking_isRet (s : MainState) : (finishLocking s).retCode.isSome = true := by
  rw [finishLocking_retCode]
  rfl

theorem afterRestartLoop_zero (env : Env) (s : MainState) (he : s.primme.numEvals = 0)
    (hc : s.numConverged = 0) (h0 : s.enforceRestart = 0) :
    (afterRestartLoop env s).retCode.isSome = true ∧
      Untouched s (afterRestartLoop env s).state := by
  unfold afterRestartLoop
  split_ifs with h1 h2
  · exact ⟨finishLocking_isRet s, finishLocking_untouched s⟩
  · exact ⟨rfl, verifyStep_zero_untouched env s h0 hc⟩
  · have h2' : (verifyStep env s).1 = 0 := by
      by_contra hne
      exact h2 hne
    have hconv := verifyStep_zero_converged env s h0 hc h2'
    have hne : (verifyStep env s).2.primme.numEvals = 0 := by
      have := congrArg Config.numEvals (Ext_config (verifyStep_ext env s h0))
      exact this.trans he
    have hf := finishNoLocking_zero env s.restartLimitReached (verifyStep env s).2 hne
      (by rw [hconv]; decide)
    exact ⟨hf.1, Untouched_trans (verifyStep_zero_untouched env s h0 hc) hf.2⟩

theorem restartLoop_skip (env : Env) (inner fuel : ℕ) (s : MainState) (h : ¬ s.restartGuard) :
    restartLoop env inner fuel s = Flow.cont s := by
  unfold restartLoop
  rw [if_neg h]

theorem outerLoop_skip (env : Env) (inner fuel : ℕ) (s : MainState) (h : ¬ s.outerGuard) :
    outerLoop env inner fuel s = Flow.cont s := by
  unfold outerLoop
  rw [if_neg h]

theorem outerStart_cases (env : Env) (s : MainState) :
    (outerStart env s).isCont = true ∨ (outerStart env s).retCode = some SOLVE_H_FAILURE := by
  unfold outerStart
  dsimp only
  split_ifs
  · exact Or.inr rfl
  · exact Or.inl rfl

theorem outerStart_numConverged (env : Env) (s : MainState) :
    (outerStart env s).state.numConverged = 0 := by
  unfold outerStart MainState.resetOuter MainState.updateProjections
  dsimp only
  split_ifs <;> rfl

theorem outerLoop_zero (env : Env) (inner f : ℕ) (s : MainState)
    (he : s.primme.numEvals = 0) (h0 : s.enforceRestart = 0) :
    (outerLoop env inner (f + 1) s).isCont = true ∨
      (outerLoop env inner (f + 1) s).retCode.isSome = true := by
  by_cases hg : s.outerGuard
  · rcases outerStart_cases env s with hs | hs
    · have hext : Ext s (outerStart env s).state := by
        have := outerStart_good env s
        rw [Flow.eq_cont_of_isCont hs] at this
        exact this
      have he1 : (outerStart env s).state.primme.numEvals = 0 :=
        (congrArg Config.numEvals (Ext_config hext)).trans he
      have h01 : (outerStart env s).state.enforceRestart = 0 :=
        (Ext_enforceRestart hext).trans h0
      have hc1 := outerStart_numConverged env s
      have hskip : ¬ (outerStart env s).state.restartGuard := by
        intro hh
        have := hh.1
        rw [hc1, he1] at this
        omega
      have hl := restartLoop_skip env inner inner _ hskip
      have hloop : (restartLoop env inner inner (outerStart env s).state).isCont = true := by
        rw [hl]
        rfl
      have hpass := outerLoop_pass env inner f s hg hs hloop
      rw [hl] at hpass
      have ha := afterRestartLoop_zero env (outerStart env s).state he1 hc1 h01
      right
      rw [hpass]
      obtain ⟨c, hc⟩ := Option.isSome_iff_exists.mp ha.1
      rw [show (Flow.cont (outerStart env s).state).state = (outerStart env s).state from rfl]
      rw [match_of_retCode _ _ _ hc]
      exact ha.1
    · right
      rw [outerLoop, if_pos hg]
      rw [Flow.eq_ret_of_retCode hs]
      rfl
  · left
    rw [outerLoop_skip env inner _ s hg]
    rfl

theorem outerLoop_zero_untouched (env : Env) (inner f : ℕ) (s : MainState)
    (he : s.primme.numEvals = 0) (h0 : s.enforceRestart = 0) :
    Untouched s (outerLoop env inner (f + 1) s).state := by
  by_cases hg : s.outerGuard
  · rcases outerStart_cases env s with hs | hs
    · have hext : Ext s (outerStart env s).state := by
        have := outerStart_good env s
        rw [Flow.eq_cont_of_isCont hs] at this
        exact this
      have he1 : (outerStart env s).state.primme.numEvals = 0 :=
        (congrArg Config.numEvals (Ext_config hext)).trans he
      have h01 : (outerStart env s).state.enforceRestart = 0 :=
        (Ext_enforceRestart hext).trans h0
      have hc1 := outerStart_numConverged env s
      have hskip : ¬ (outerStart env s).state.restartGuard := by
        intro hh
        have := hh.1
        rw [hc1, he1] at this
        omega
      have hl := restartLoop_skip env inner inner _ hskip
      have hloop : (restartLoop env inner inner (outerStart env s).state).isCont = true := by
        rw [hl]
        rfl
      have hpass := outerLoop_pass env inner f s hg hs hloop
      rw [hl] at hpass
      have ha := afterRestartLoop_zero env (outerStart env s).state he1 hc1 h01
      rw [hpass]
      obtain ⟨c, hc⟩ := Option.isSome_iff_exists.mp ha.1
      rw [show (Flow.cont (outerStart env s).state).state = (outerStart env s).state from rfl]
      rw [match_of_retCode _ _ _ hc]
      exact Untouched_trans (outerStart_untouched env s) ha.2
    · rw [outerLoop, if_pos hg]
      have hu := outerStart_untouched env s
      rw [Flow.eq_ret_of_retCode hs] at hu ⊢
      exact hu
  · rw [outerLoop_skip env inner _ s hg]
    exact Untouched_refl s

/-! ## Properties of the quick return for dimension 1 -/

theorem initCounters_primme_n (env : Env) (s : MainState) :
    (initCounters env s).primme.n = s.primme.n := rfl

theorem initCounters_nLocal (env : Env) (s : MainState) :
    (initCounters env s).primme.nLocal = s.primme.nLocal := rfl

/-- C4: with locking enabled and `n ≠ 1` (in particular `n ≥ 2`), once the
restart loop has been left without a fatal error, `main_iter_dprimme` returns
0 if `numConverged == numEvals` or `wholeSpace` is set and
`MAX_ITERATIONS_REACHED` in every other case.  (With locking the outer loop
is passed at most once, so the restart loop in question is the one started
from the entry state.) -/
theorem locking_return_code (env : Env) (f : ℕ) (s : MainState)
    (hn : s.primme.n ≠ 1) (hlock : s.primme.locking ≠ 0)
    (hinit : ¬ ((setupDim2 (initCounters env s)).initBasis env).1 < 0)
    (hbudget : (entryState env s).withinBudget)
    (hstart : (outerStart env (entryState env s)).isCont = true)
    (hloop : (restartLoop env (f + 1) (f + 1)
      (outerStart env (entryState env s)).state).isCont = true) :
    (main_iter_dprimme env (f + 1) s).code =
      some (if (restartLoop env (f + 1) (f + 1)
                (outerStart env (entryState env s)).state).state.numConverged
                  = s.primme.numEvals ∨
               (restartLoop env (f + 1) (f + 1)
                (outerStart env (entryState env s)).state).state.wholeSpace ≠ 0
            then 0 else MAX_ITERATIONS_REACHED) := by
  have hg : (entryState env s).outerGuard := ⟨entryState_converged env s, hbudget⟩
  have hpass := outerLoop_pass env (f + 1) f (entryState env s) hg hstart hloop
  have hext := Ext_after_start_and_loop env (f + 1) (entryState env s) hstart hloop
  have hcfg := (Ext_config hext).trans (entryState_config env s)
  generalize (restartLoop env (f + 1) (f + 1) (outerStart env (entryState env s)).state).state
    = s2 at hpass hext hcfg ⊢
  have hl2 : s2.primme.locking ≠ 0 := by
    have : s2.primme.locking = s.primme.locking := congrArg Config.locking hcfg
    rw [this]
    exact hlock
  have hn2 : s2.primme.numEvals = s.primme.numEvals := congrArg Config.numEvals hcfg
  have hafter : afterRestartLoop env s2 = finishLocking s2 := by
    unfold afterRestartLoop
    rw [if_pos hl2]
  have hcode := finishLocking_retCode s2
  rw [hn2] at hcode
  rw [hafter, match_of_retCode _ _ _ hcode] at hpass
  rw [← hpass] at hcode
  rw [main_iter_of_ret env (f + 1) s hn hinit _ hcode]
  rfl

/-- Witness for C4: a run with locking in which one pair converges in the
first growth step and is locked by the restart. -/
theorem locking_return_code_witness :
    (main_iter_dprimme (demoEnv 1 0 1 1 0) 2 (demoState (demoParams 3 1 1 0))).code = some 0 := by
  have h := locking_return_code (demoEnv 1 0 1 1 0) 1 (demoState (demoParams 3 1 1 0))
    (by decide!) (by decide!) (by decide!) (by decide!) (by decide!) (by decide!)
  rw [h]
  decide!

/-! ## No eigenpairs requested -/

theorem initBasis_outputs (env : Env) (s : MainState) :
    ((setupDim2 (initCounters env s)).initBasis env).2.evals = s.evals ∧
    ((setupDim2 (initCounters env s)).initBasis env).2.resNorms = s.resNorms ∧
    ((setupDim2 (initCounters env s)).initBasis env).2.evecs
      = (env.init_basis (setupDim2 (initCounters env s))).evecs ∧
    ((setupDim2 (initCounters env s)).initBasis env).2.primme.stats.numMatvecs
      = (env.init_basis (setupDim2 (initCounters env s))).mv := by
  refine ⟨?_, ?_, rfl, ?_⟩
  · unfold setupDim2
    split_ifs <;> rfl
  · unfold setupDim2
    split_ifs <;> rfl
  · unfold setupDim2
    split_ifs <;> simp [MainState.initBasis, MainState.addMatvecs, initCounters]

theorem entryState_untouched (env : Env) (s : MainState) :
    Untouched ((setupDim2 (initCounters env s)).initBasis env).2 (entryState env s) := by
  unfold entryState
  dsimp only
  exact Untouched_trans ⟨rfl, rfl, rfl, rfl, fun _ h => h⟩ (initDynamic_untouched env _)

theorem entryState_numEvals (env : Env) (s : MainState) :
    (entryState env s).primme.numEvals = s.primme.numEvals :=
  congrArg Config.numEvals (entryState_config env s)

/-- C3 (amended): for `n ≠ 1` and `numEvals = 0`, with fuel for one pass of the
outer loop, `main_iter_dprimme` returns; it makes no matvec call of its own
and writes none of `evals`, `evecs`, `resNorms` itself.  On return `evals`
and `resNorms` are as on entry, `stats.numMatvecs` is the number of columns
`init_basis` pushed through the adapter and `evecs` is as `init_basis` left
it: `stats.numMatvecs = 0` if `init_basis` applied the operator to nothing,
and `evecs` is as on entry if `init_basis` did not write it. -/
theorem no_eigenpairs_requested (env : Env) (f : ℕ) (s : MainState)
    (hn : s.primme.n ≠ 1) (he : s.primme.numEvals = 0) :
    (main_iter_dprimme env (f + 1) s).code.isSome = true ∧
    (main_iter_dprimme env (f + 1) s).state.primme.stats.numMatvecs
      = (env.init_basis (setupDim2 (initCounters env s))).mv ∧
    (∀ b, Call.matrixMatvec b ∉ (main_iter_dprimme env (f + 1) s).state.trace) ∧
    (main_iter_dprimme env (f + 1) s).state.evals = s.evals ∧
    (main_iter_dprimme env (f + 1) s).state.resNorms = s.resNorms ∧
    (main_iter_dprimme env (f + 1) s).state.evecs
      = (env.init_basis (setupDim2 (initCounters env s))).evecs ∧
    ((env.init_basis (setupDim2 (initCounters env s))).mv = 0 →
      (main_iter_dprimme env (f + 1) s).state.primme.stats.numMatvecs = 0) ∧
    ((env.init_basis (setupDim2 (initCounters env s))).evecs = s.evecs →
      (main_iter_dprimme env (f + 1) s).state.evecs = s.evecs) := by
  obtain ⟨o1, o2, o3, o4⟩ := initBasis_outputs env s
  have htr := initBasis_trace env s
  have key : (main_iter_dprimme env (f + 1) s).code.isSome = true ∧
      Untouched ((setupDim2 (initCounters env s)).initBasis env).2
        (main_iter_dprimme env (f + 1) s).state := by
    by_cases hinit : ((setupDim2 (initCounters env s)).initBasis env).1 < 0
    · have hm : main_iter_dprimme env (f + 1) s = Outcome.returned INIT_FAILURE
          ((setupDim2 (initCounters env s)).initBasis env).2 := by
        unfold main_iter_dprimme
        have h1 : ¬ (initCounters env s).primme.n = 1 := hn
        rw [if_neg h1, if_pos hinit]
      rw [hm]
      exact ⟨rfl, Untouched_refl _⟩
    · rw [main_iter_general env (f + 1) s hn hinit]
      have heE : (entryState env s).primme.numEvals = 0 := (entryState_numEvals env s).trans he
      have hz := outerLoop_zero env (f + 1) f (entryState env s) heE
        (entryState_enforceRestart env s)
      have hu := Untouched_trans (entryState_untouched env s)
        (outerLoop_zero_untouched env (f + 1) f (entryState env s) heE
          (entryState_enforceRestart env s))
      cases hfl : outerLoop env (f + 1) (f + 1) (entryState env s) with
      | cont s' =>
        rw [hfl] at hu
        exact ⟨rfl, Untouched_trans hu (setANorm_untouched s')⟩
      | brk s' =>
        rw [hfl] at hu
        exact ⟨rfl, Untouched_trans hu (setANorm_untouched s')⟩
      | ret c s' =>
        rw [hfl] at hu
        exact ⟨rfl, hu⟩
      | stuck s' =>
        rw [hfl] at hz
        simp [Flow.isCont, Flow.retCode] at hz
  obtain ⟨hcode, h1, h2, h3, h4, h5⟩ := key
  refine ⟨hcode, h4.trans o4, ?_, h1.trans o1, h2.trans o2, h3.trans o3, ?_, ?_⟩
  · intro b hb
    have := h5 b hb
    rw [htr] at this
    simp at this
  · intro hmv
    rw [h4.trans o4, hmv]
    rfl
  · intro hev
    rw [h3.trans o3, hev]

/-- Witness for C3 (amended): `n = 3`, `numEvals = 0`. -/
theorem no_eigenpairs_requested_witness :
    (demoState (demoParams 3 0 0 0)).primme.n ≠ 1 ∧
    (demoState (demoParams 3 0 0 0)).primme.numEvals = 0 ∧
    (main_iter_dprimme (demoEnv 0 0 0 1 0) 1 (demoState (demoParams 3 0 0 0))).code.isSome = true :=
  ⟨by decide, rfl,
    (no_eigenpairs_requested (demoEnv 0 0 0 1 0) 0 (demoState (demoParams 3 0 0 0))
      (by decide) rfl).1⟩
/-! ## Spanning the whole space -/

theorem updateProjections_wholeSpace (env : Env) (s : MainState) (a b : ℤ) :
    (s.updateProjections env a b).wholeSpace = s.wholeSpace := by
  unfold MainState.updateProjections
  dsimp only
  split_ifs <;> rfl

theorem prepareVecsCall_wholeSpace (env : Env) (s : MainState) :
    (s.prepareVecsCall env).wholeSpace = s.wholeSpace := by
  unfold MainState.prepareVecsCall
  dsimp only
  split_ifs <;> rfl

theorem extendByGuesses_wholeSpace (env : Env) (s : MainState) (k : ℤ) :
    (s.extendByGuesses env k).wholeSpace = s.wholeSpace := by
  unfold MainState.extendByGuesses
  dsimp only
  exact updateProjections_wholeSpace env _ _ _

theorem restartGuesses_wholeSpace (env : Env) (s : MainState) :
    (restartGuesses env s).state.wholeSpace = s.wholeSpace := by
  unfold restartGuesses
  dsimp only
  split_ifs
  · rfl
  · exact extendByGuesses_wholeSpace env _ _
  · exact extendByGuesses_wholeSpace env _ _
  · rfl

theorem restartGuesses_cases (env : Env) (s : MainState) :
    (restartGuesses env s).isCont = true ∨ (restartGuesses env s).retCode.isSome = true := by
  unfold restartGuesses
  dsimp only
  split_ifs
  · exact Or.inr rfl
  · exact Or.inr rfl
  · exact Or.inl rfl
  · exact Or.inl rfl

theorem dynamicAfterRestart_wholeSpace (env : Env) (s : MainState) :
    (dynamicAfterRestart env s).wholeSpace = s.wholeSpace := by
  unfold dynamicAfterRestart
  dsimp only [MainState.wTimer]
  split_ifs <;> rfl

theorem setWholeSpace_of_spanned (s : MainState)
    (h : s.basisSize ≥ s.primme.n - s.primme.numOrthoConst - s.numLocked) :
    s.setWholeSpace.wholeSpace = 1 := by
  unfold MainState.setWholeSpace
  dsimp only
  rw [if_pos h]

theorem afterGrowth_whole (env : Env) (s : MainState)
    (h : s.basisSize ≥ s.primme.n - s.primme.numOrthoConst - s.numLocked)
    (hr : (afterGrowth env s).retCode = none) :
    (afterGrowth env s).isBrk = true ∧ (afterGrowth env s).state.wholeSpace = 1 := by
  have hw : ((s.setWholeSpace.prepareVecsCall env).restartCall env).wholeSpace = 1 := by
    have h1 : ((s.setWholeSpace.prepareVecsCall env).restartCall env).wholeSpace
        = (s.setWholeSpace.prepareVecsCall env).wholeSpace := rfl
    rw [h1, prepareVecsCall_wholeSpace, setWholeSpace_of_spanned s h]
  have hg := restartGuesses_wholeSpace env ((s.setWholeSpace.prepareVecsCall env).restartCall env)
  rw [hw] at hg
  unfold afterGrowth at hr ⊢
  rcases restartGuesses_cases env ((s.setWholeSpace.prepareVecsCall env).restartCall env)
    with hc | hc
  · have e := Flow.eq_cont_of_isCont hc
    generalize (restartGuesses env ((s.setWholeSpace.prepareVecsCall env).restartCall
      env)).state = s1 at e hg
    rw [e]
    dsimp only
    have hw1 : (dynamicAfterRestart env s1.countRestart).wholeSpace = 1 := by
      rw [dynamicAfterRestart_wholeSpace]
      exact hg
    have hne : (dynamicAfterRestart env s1.countRestart).wholeSpace ≠ 0 := by
      rw [hw1]
      decide
    rw [if_pos hne]
    exact ⟨rfl, hw1⟩
  · exfalso
    obtain ⟨c, hc'⟩ := Option.isSome_iff_exists.mp hc
    have e := Flow.eq_ret_of_retCode hc'
    generalize (restartGuesses env ((s.setWholeSpace.prepareVecsCall env).restartCall
      env)).state = s1 at e
    rw [e] at hr
    simp [Flow.retCode] at hr

theorem restartLoop_break (env : Env) (inner f : ℕ) (s : MainState) (hguard : s.restartGuard)
    (hgrow : (growthLoop env inner inner s.resetRetained).isCont = true)
    (hbrk : (afterGrowth env (growthLoop env inner inner s.resetRetained).state).isBrk = true) :
    restartLoop env inner (f + 1) s =
      Flow.cont (afterGrowth env (growthLoop env inner inner s.resetRetained).state).state := by
  rw [restartLoop, if_pos hguard]
  have e1 := Flow.eq_cont_of_isCont hgrow
  generalize (growthLoop env inner inner s.resetRetained).state = s1 at e1 hbrk ⊢
  rw [e1]
  dsimp only
  have e2 := Flow.eq_brk_of_isBrk hbrk
  generalize (afterGrowth env s1).state = s2 at e2 ⊢
  rw [e2]

theorem verify_norms_wholeSpace (env : Env) (s : MainState) (k : ℤ) :
    (verify_norms env s k).2.wholeSpace = s.wholeSpace := by
  unfold verify_norms
  dsimp only
  split_ifs <;> rfl

theorem verifyStep_wholeSpace (env : Env) (s : MainState) (h0 : s.enforceRestart = 0) :
    (verifyStep env s).2.wholeSpace = s.wholeSpace := by
  unfold verifyStep
  rw [if_neg (by rw [h0]; simp)]
  exact verify_norms_wholeSpace env s _

theorem finishNoLocking_whole (env : Env) (limit : Prop) [Decidable limit] (s : MainState)
    (hw : s.wholeSpace ≠ 0) :
    (finishNoLocking env limit s).retCode =
      some (if s.converged ≠ 0 then 0 else MAX_ITERATIONS_REACHED) := by
  unfold finishNoLocking
  rw [if_pos (Or.inr (Or.inr hw))]
  have hc : (recommendMethod s.copyOut).converged = s.converged := recommendMethod_converged _
  rw [hc]
  split_ifs <;> rfl

theorem afterRestartLoop_whole (env : Env) (s : MainState) (hw : s.wholeSpace = 1)
    (h0 : s.enforceRestart = 0) :
    (s.primme.locking ≠ 0 → (afterRestartLoop env s).retCode = some 0) ∧
    (s.primme.locking = 0 →
      (afterRestartLoop env s).retCode =
        some (if (verifyStep env s).1 ≠ 0 then (verifyStep env s).1
          else if (verifyStep env s).2.converged ≠ 0 then 0 else MAX_ITERATIONS_REACHED)) := by
  constructor
  · intro hl
    unfold afterRestartLoop
    rw [if_pos hl, finishLocking_retCode]
    have : s.numConverged = s.primme.numEvals ∨ s.wholeSpace ≠ 0 := by
      right
      rw [hw]
      decide
    rw [if_pos this]
  · intro hl
    unfold afterRestartLoop
    rw [if_neg (by rw [hl]; simp)]
    by_cases h1 : (verifyStep env s).1 ≠ 0
    · rw [if_pos h1, if_pos h1]
      rfl
    · rw [if_neg h1, if_neg h1]
      have hw2 : (verifyStep env s).2.wholeSpace ≠ 0 := by
        rw [verifyStep_wholeSpace env s h0, hw]
        decide
      exact finishNoLocking_whole env _ _ hw2

/-- C7 (amended): when the growth loop of a restart pass ends with
`basisSize ≥ n − numOrthoConst − numLocked` and the restart and the loading
of the initial guesses that follow do not fail, `main_iter_dprimme` sets
`wholeSpace` and leaves the restart loop after that restart.  With locking
it then returns 0.  Without locking it returns the error code of
`verify_norms` if there is one, 0 if `verify_norms` reports the converged
pairs still converged, and `MAX_ITERATIONS_REACHED` otherwise. -/
theorem whole_space_exit (env : Env) (inner f : ℕ) (s : MainState)
    (h0 : s.enforceRestart = 0) (hguard : s.restartGuard)
    (hgrow : (growthLoop env inner inner s.resetRetained).isCont = true)
    (hwhole : (growthLoop env inner inner s.resetRetained).state.basisSize ≥
      (growthLoop env inner inner s.resetRetained).state.primme.n
        - (growthLoop env inner inner s.resetRetained).state.primme.numOrthoConst
        - (growthLoop env inner inner s.resetRetained).state.numLocked)
    (hrestart : (afterGrowth env (growthLoop env inner inner s.resetRetained).state).retCode
      = none) :
    (restartLoop env inner (f + 1) s).isCont = true ∧
    (restartLoop env inner (f + 1) s).state.wholeSpace = 1 ∧
    ((restartLoop env inner (f + 1) s).state.primme.locking ≠ 0 →
      (afterRestartLoop env (restartLoop env inner (f + 1) s).state).retCode = some 0) ∧
    ((restartLoop env inner (f + 1) s).state.primme.locking = 0 →
      (afterRestartLoop env (restartLoop env inner (f + 1) s).state).retCode =
        some (if (verifyStep env (restartLoop env inner (f + 1) s).state).1 ≠ 0 then
            (verifyStep env (restartLoop env inner (f + 1) s).state).1
          else if (verifyStep env (restartLoop env inner (f + 1) s).state).2.converged ≠ 0
            then 0
          else MAX_ITERATIONS_REACHED)) := by
  have ha := afterGrowth_whole env _ hwhole hrestart
  have hl := restartLoop_break env inner f s hguard hgrow ha.1
  have hgood := restartLoop_good env inner (f + 1) s
  rw [hl] at hgood ⊢
  have h02 : (afterGrowth env (growthLoop env inner inner s.resetRetained).state).state.enforceRestart
      = 0 := (Ext_enforceRestart hgood).trans h0
  exact ⟨rfl, ha.2, afterRestartLoop_whole env _ ha.2 h02⟩

/-- Witness for C7 (amended): `n = 2`, `numEvals = 3`, the initial basis
already spans the space. -/
theorem whole_space_exit_witness :
    (restartLoop (demoEnv 0 0 1 2 0) 2 1 demoLoopState).isCont = true ∧
    (restartLoop (demoEnv 0 0 1 2 0) 2 1 demoLoopState).state.wholeSpace = 1 :=
  ⟨(whole_space_exit (demoEnv 0 0 1 2 0) 2 0 demoLoopState (by decide!) (by decide!)
      (by decide!) (by decide!) (by decide!)).1,
    (whole_space_exit (demoEnv 0 0 1 2 0) 2 0 demoLoopState (by decide!) (by decide!)
      (by decide!) (by decide!) (by decide!)).2.1⟩

/-! ## Evaluations on the example configurations -/

/-- C2 (evaluation at the failing input `n = 1`): the quick return calls the
matvec adapter once, with block size 1, and then increments the counter a
second time, so `stats.numMatvecs` is 2 on return although the sum of the
block sizes passed to matvec is 1. -/
theorem quick_return_counts_matvec_twice :
    (main_iter_dprimme (demoEnv 0 0 0 1 0) 0 (demoState (demoParams 1 1 0 0))).code = some 0 ∧
    (main_iter_dprimme (demoEnv 0 0 0 1 0) 0 (demoState (demoParams 1 1 0 0))).state.trace
      = [Call.matrixMatvec 1] ∧
    (main_iter_dprimme (demoEnv 0 0 0 1 0) 0
      (demoState (demoParams 1 1 0 0))).state.primme.stats.numMatvecs = 2 := by
  decide!

/-- C3 (counterexample): three runs with `numEvals = 0`.  (1) `n = 1`: the
driver takes the quick return; on return `stats.numMatvecs` is 2, not 0, and
`evals[0]`, `evecs[0]` have been overwritten (here with 7 and 1, both 0 on
entry).  (2) `n = 3`, with an `init_basis` that applies the operator to its
one basis vector (as it must for `W = A·V`): the driver returns 0 with
`stats.numMatvecs = 1`, although it makes no matvec call of its own (the
calls it logs are `init_basis`, `update_projection`, `solve_H` and
`verify_norms`).  (3) `n = 3`, with an `init_basis` that also stores 1 in
`evecs[0]`: on return `evecs[0]` is 1, not the 0 of the entry. -/
theorem no_eigenpairs_counterexample :
    ((demoState (demoParams 1 0 0 0)).primme.numEvals = 0 ∧
    (demoState (demoParams 1 0 0 0)).primme.n ≥ 1 ∧
    (main_iter_dprimme (demoEnv 0 0 0 1 0) 1 (demoState (demoParams 1 0 0 0))).code = some 0 ∧
    (main_iter_dprimme (demoEnv 0 0 0 1 0) 1
      (demoState (demoParams 1 0 0 0))).state.primme.stats.numMatvecs ≠ 0 ∧
    rd (demoState (demoParams 1 0 0 0)).evals 0 = 0 ∧
    rd (main_iter_dprimme (demoEnv 0 0 0 1 0) 1 (demoState (demoParams 1 0 0 0))).state.evals 0
      = 7 ∧
    rd (demoState (demoParams 1 0 0 0)).evecs 0 = 0 ∧
    rd (main_iter_dprimme (demoEnv 0 0 0 1 0) 1 (demoState (demoParams 1 0 0 0))).state.evecs 0
      = 1) ∧
    ((demoState (demoParams 3 0 0 0)).primme.numEvals = 0 ∧
    (demoState (demoParams 3 0 0 0)).primme.n = 3 ∧
    (main_iter_dprimme (demoEnv 0 0 0 1 0) 1 (demoState (demoParams 3 0 0 0))).code = some 0 ∧
    (main_iter_dprimme (demoEnv 0 0 0 1 0) 1
      (demoState (demoParams 3 0 0 0))).state.primme.stats.numMatvecs = 1 ∧
    (main_iter_dprimme (demoEnv 0 0 0 1 0) 1 (demoState (demoParams 3 0 0 0))).state.trace
      = [Call.init_basis 0, Call.update_projection, Call.solve_H 0, Call.verify_norms 0]) ∧
    ((main_iter_dprimme demoEnvInit 1 (demoState (demoParams 3 0 0 0))).code = some 0 ∧
    rd (demoState (demoParams 3 0 0 0)).evecs 0 = 0 ∧
    rd (main_iter_dprimme demoEnvInit 1 (demoState (demoParams 3 0 0 0))).state.evecs 0
      = 1) := by
  refine ⟨?_, ⟨?_, ?_, ?_, ?_, ?_⟩, ?_, ?_, ?_⟩ <;> decide!

/-- C5 (evaluation at a failing input): locking off, `n = 3`, `numEvals = 1`,
`maxOuterIterations = 1`.  The outer-iteration budget stops the iteration
after one growth step with `numConverged = 0 < numEvals` and `wholeSpace`
false; `verify_norms` has nothing to check, reports `converged`, and the
driver returns 0 instead of `MAX_ITERATIONS_REACHED`. -/
theorem budget_exhaustion_returns_success :
    (demoState (demoParams 3 1 0 1)).primme.locking = 0 ∧
    (main_iter_dprimme (demoEnv 0 0 0 1 0) 2 (demoState (demoParams 3 1 0 1))).code = some 0 ∧
    (main_iter_dprimme (demoEnv 0 0 0 1 0) 2
      (demoState (demoParams 3 1 0 1))).state.primme.stats.numOuterIterations = 1 ∧
    (main_iter_dprimme (demoEnv 0 0 0 1 0) 2
      (demoState (demoParams 3 1 0 1))).state.primme.maxOuterIterations = 1 ∧
    (main_iter_dprimme (demoEnv 0 0 0 1 0) 2 (demoState (demoParams 3 1 0 1))).state.numConverged
      = 0 ∧
    (main_iter_dprimme (demoEnv 0 0 0 1 0) 2
      (demoState (demoParams 3 1 0 1))).state.primme.numEvals = 1 ∧
    (main_iter_dprimme (demoEnv 0 0 0 1 0) 2 (demoState (demoParams 3 1 0 1))).state.wholeSpace
      = 0 := by
  decide!

/-- C6 (evaluation at a failing input): locking off, `n = 3`, `numEvals = 2`,
`maxOuterIterations = 1`, one pair counted as converged by the restart.  The
outer-iteration budget is hit, `verify_norms` finds the pair unconverged, and
the driver re-orthogonalizes, leaves the outer loop on the budget and returns
0 without copying: `evals[0]` is still 0 while `hVals[0]` is 5, and
`perm[1]` is still 0. -/
theorem outer_budget_skips_copy :
    (demoState (demoParams 3 2 0 1)).primme.locking = 0 ∧
    (main_iter_dprimme (demoEnv 0 0 1 1 0) 2 (demoState (demoParams 3 2 0 1))).code = some 0 ∧
    (main_iter_dprimme (demoEnv 0 0 1 1 0) 2
      (demoState (demoParams 3 2 0 1))).state.primme.stats.numOuterIterations = 1 ∧
    (main_iter_dprimme (demoEnv 0 0 1 1 0) 2
      (demoState (demoParams 3 2 0 1))).state.primme.maxOuterIterations = 1 ∧
    rd (main_iter_dprimme (demoEnv 0 0 1 1 0) 2 (demoState (demoParams 3 2 0 1))).state.hVals 0
      = 5 ∧
    rd (main_iter_dprimme (demoEnv 0 0 1 1 0) 2 (demoState (demoParams 3 2 0 1))).state.evals 0
      = 0 ∧
    rd (main_iter_dprimme (demoEnv 0 0 1 1 0) 2 (demoState (demoParams 3 2 0 1))).state.perm 1
      = 0 := by
  decide!

/-- C7 (counterexample): locking off, `n = 2`, `numEvals = 3`.  The basis
spans the whole space (`basisSize = 2 = n`), `wholeSpace` is set and the
restart loop is left, but `verify_norms` finds the one converged pair
unconverged and the driver returns `MAX_ITERATIONS_REACHED`, not 0. -/
theorem whole_space_without_locking_counterexample :
    (demoState (demoParams 2 3 0 0)).primme.locking = 0 ∧
    (main_iter_dprimme (demoEnv 0 0 1 2 0) 2 (demoState (demoParams 2 3 0 0))).code
      = some MAX_ITERATIONS_REACHED ∧
    (main_iter_dprimme (demoEnv 0 0 1 2 0) 2 (demoState (demoParams 2 3 0 0))).state.wholeSpace
      = 1 ∧
    (main_iter_dprimme (demoEnv 0 0 1 2 0) 2 (demoState (demoParams 2 3 0 0))).state.basisSize
      = 2 ∧
    (main_iter_dprimme (demoEnv 0 0 1 2 0) 2 (demoState (demoParams 2 3 0 0))).state.numConverged
      = 1 ∧
    (main_iter_dprimme (demoEnv 0 0 1 2 0) 2
      (demoState (demoParams 2 3 0 0))).state.primme.numEvals = 3 := by
  decide!

/-- C9 (evaluation at a failing input): the restart engine returns the
non-zero value -6; the value is dropped and the driver goes on to return
0. -/
theorem restart_failure_is_ignored :
    Call.restart (-6) ∈
      (main_iter_dprimme (demoEnv 0 (-6) 0 1 0) 2 (demoState (demoParams 3 1 0 1))).state.trace ∧
    (main_iter_dprimme (demoEnv 0 (-6) 0 1 0) 2 (demoState (demoParams 3 1 0 1))).code
      = some 0 := by
  decide!

/-- C10 (evaluation at a failing input): locking on, `numEvals = 1`; the
convergence test flags the first pair PRACTICALLY_CONVERGED, the growth step
counts it as converged, the restart locks it, and the driver returns 0 with
`intWork[0] = 0`. -/
theorem locking_problem_never_reported :
    rd (growthLoop (demoEnv 2 0 1 1 0) 2 2
      (outerStart (demoEnv 2 0 1 1 0)
        (entryState (demoEnv 2 0 1 1 0) (demoState (demoParams 3 1 1 0)))).state).state.flags 0
      = PRACTICALLY_CONVERGED ∧
    (growthLoop (demoEnv 2 0 1 1 0) 2 2
      (outerStart (demoEnv 2 0 1 1 0)
        (entryState (demoEnv 2 0 1 1 0)
          (demoState (demoParams 3 1 1 0)))).state).state.recentlyConverged = 1 ∧
    (main_iter_dprimme (demoEnv 2 0 1 1 0) 2 (demoState (demoParams 3 1 1 0))).code = some 0 ∧
    (main_iter_dprimme (demoEnv 2 0 1 1 0) 2 (demoState (demoParams 3 1 1 0))).state.numLocked
      = 1 ∧
    rd (main_iter_dprimme (demoEnv 2 0 1 1 0) 2 (demoState (demoParams 3 1 1 0))).state.flags 0
      = 0 := by
  decide!

/-! ## The cost model: range of `JDQMR_slowdown` -/

theorem cmax_eq_max {α : Type} [LinearOrder α] (a b : α) : cmax a b = max a b := by
  unfold cmax
  split_ifs with h
  · exact (max_eq_left (le_of_lt h)).symm
  · exact (max_eq_right (not_lt.mp h)).symm

theorem cmin_eq_min {α : Type} [LinearOrder α] (a b : α) : cmin a b = min a b := by
  unfold cmin
  split_ifs with h
  · exact (min_eq_left (le_of_lt h)).symm
  · exact (min_eq_right (not_lt.mp h)).symm

theorem update_slowdown_eq (env : Env) (model : primme_CostModel) :
    (update_slowdown env model).JDQMR_slowdown =
      max (11 / 10) (min (max (model.ratio_MV_outer / (model.ratio_MV_outer - 1))
        (min (rawSlowdown env model) model.ratio_MV_outer)) (5 / 2)) := by
  unfold update_slowdown
  simp only [cmax_eq_max, cmin_eq_min]

theorem update_slowdown_range (env : Env) (model : primme_CostModel) :
    11 / 10 ≤ (update_slowdown env model).JDQMR_slowdown ∧
      (update_slowdown env model).JDQMR_slowdown ≤ 5 / 2 := by
  rw [update_slowdown_eq]
  constructor
  · exact le_max_left _ _
  · exact max_le (by norm_num) (min_le_right _ _)

theorem update_statistics_slowdown (env : Env) (model : primme_CostModel)
    (primme : primme_params) (t : ℚ) (rc car nc : ℤ) (res aN : ℚ)
    (h : 11 / 10 ≤ model.JDQMR_slowdown ∧ model.JDQMR_slowdown ≤ 5 / 2) :
    11 / 10 ≤ (update_statistics env model primme t rc car nc res aN).2.JDQMR_slowdown ∧
      (update_statistics env model primme t rc car nc res aN).2.JDQMR_slowdown ≤ 5 / 2 := by
  unfold update_statistics
  lift_lets
  intros
  split_ifs
  all_goals first
    | exact h
    | exact update_slowdown_range env _

theorem accumulate_slowdown (model : primme_CostModel) (r : ℚ) :
    (accumulate model r).JDQMR_slowdown = model.JDQMR_slowdown := rfl

theorem switch_from_GDpk_slowdown (env : Env) (model : primme_CostModel)
    (primme : primme_params) :
    (switch_from_GDpk env model primme).1.JDQMR_slowdown = model.JDQMR_slowdown := by
  unfold switch_from_GDpk
  dsimp only
  split_ifs <;> rfl

theorem switch_from_JDQMR_slowdown (env : Env) (model : primme_CostModel)
    (primme : primme_params) :
    (switch_from_JDQMR env model primme).1.JDQMR_slowdown = model.JDQMR_slowdown := by
  unfold switch_from_JDQMR
  dsimp only
  split_ifs <;> rfl

/-- C13: the slowdown of the cost model stays in `[1.1, 2.5]`:
`initializeModel` sets `JDQMR_slowdown` to 1.5, `update_slowdown` stores a
value of the closed interval `[1.1, 2.5]` whatever the convergence rates,
`ratio_MV_outer` and the values of `log` are, `update_statistics` keeps the
field in the interval, and the two switch functions do not change it. -/
theorem slowdown_stays_in_range (env : Env) (timer : ℚ) (primme : primme_params)
    (model : primme_CostModel) :
    (initializeModel timer primme).JDQMR_slowdown = 3 / 2 ∧
    (11 / 10 ≤ (update_slowdown env model).JDQMR_slowdown ∧
      (update_slowdown env model).JDQMR_slowdown ≤ 5 / 2) ∧
    (∀ (t : ℚ) (rc car nc : ℤ) (res aN : ℚ),
      11 / 10 ≤ model.JDQMR_slowdown ∧ model.JDQMR_slowdown ≤ 5 / 2 →
      11 / 10 ≤ (update_statistics env model primme t rc car nc res aN).2.JDQMR_slowdown ∧
        (update_statistics env model primme t rc car nc res aN).2.JDQMR_slowdown ≤ 5 / 2) ∧
    (switch_from_GDpk env model primme).1.JDQMR_slowdown = model.JDQMR_slowdown ∧
    (switch_from_JDQMR env model primme).1.JDQMR_slowdown = model.JDQMR_slowdown :=
  ⟨rfl, update_slowdown_range env model,
    fun t rc car nc res aN h => update_statistics_slowdown env model primme t rc car nc res aN h,
    switch_from_GDpk_slowdown env model primme, switch_from_JDQMR_slowdown env model primme⟩

/-- C14 (counterexample): with `ratio_MV_outer = 3/2` (and `gdk_conv_rate =
1`, so that the raw slowdown is 1.1) `update_slowdown` stores 2.5, which is
below the claimed lower bound `max(1.1, r/(r-1)) = 3` and above the claimed
upper bound `min(2.5, r) = 3/2`. -/
theorem slowdown_small_ratio_counterexample :
    (update_slowdown (demoEnv 0 0 0 1 0)
        { demoCost with ratio_MV_outer := 3 / 2, gdk_conv_rate := 1 }).JDQMR_slowdown = 5 / 2 ∧
      ¬ (max (11 / 10 : ℚ) ((3 / 2) / (3 / 2 - 1)) ≤ 5 / 2) ∧
      ¬ ((5 / 2 : ℚ) ≤ min (5 / 2) (3 / 2)) := by
  refine ⟨by decide!, ?_, ?_⟩
  · norm_num
  · norm_num

/-- C14 (amended): for every `ratio_MV_outer = r ≥ 2` the interval
`[max(1.1, r/(r-1)), min(2.5, r)]` is not empty and the value stored by
`update_slowdown` is the raw slowdown (the ratio of the logarithms of the
convergence rates) clamped into it. -/
theorem slowdown_clamped (env : Env) (model : primme_CostModel)
    (hr : 2 ≤ model.ratio_MV_outer) :
    max (11 / 10) (model.ratio_MV_outer / (model.ratio_MV_outer - 1))
        ≤ min (5 / 2) model.ratio_MV_outer ∧
      max (11 / 10) (model.ratio_MV_outer / (model.ratio_MV_outer - 1))
        ≤ (update_slowdown env model).JDQMR_slowdown ∧
      (update_slowdown env model).JDQMR_slowdown ≤ min (5 / 2) model.ratio_MV_outer ∧
      (update_slowdown env model).JDQMR_slowdown =
        max (max (11 / 10) (model.ratio_MV_outer / (model.ratio_MV_outer - 1)))
          (min (rawSlowdown env model) (min (5 / 2) model.ratio_MV_outer)) := by
  rw [update_slowdown_eq]
  generalize rawSlowdown env model = raw
  generalize hrr : model.ratio_MV_outer = r at hr
  have hpos : (0 : ℚ) < r - 1 := by linarith
  have ha2 : r / (r - 1) ≤ 2 := by
    rw [div_le_iff₀ hpos]
    linarith
  have ha1 : 1 < r / (r - 1) := by
    rw [lt_div_iff₀ hpos]
    linarith
  generalize r / (r - 1) = a at ha2 ha1
  have hlo : max (11 / 10) a ≤ min (5 / 2) r :=
    max_le (le_min (by norm_num) (by linarith)) (le_min (by linarith) (by linarith))
  have key : max (11 / 10) (min (max a (min raw r)) (5 / 2))
      = max (max (11 / 10) a) (min raw (min (5 / 2) r)) := by
    rcases le_total raw a with h | h
    · have h1 : min raw r ≤ a := le_trans (min_le_left _ _) h
      rw [max_eq_left h1, min_eq_left (by linarith : a ≤ 5 / 2)]
      have h2 : min raw (min (5 / 2) r) ≤ max (11 / 10) a :=
        le_trans (min_le_left _ _) (le_trans h (le_max_right _ _))
      rw [max_eq_left h2]
    · have h1 : a ≤ min raw r := le_min h (by linarith)
      rw [max_eq_right h1]
      have h3 : min (min raw r) (5 / 2) = min raw (min (5 / 2) r) := by
        rw [min_assoc, min_comm r (5 / 2)]
      rw [h3]
      have h4 : a ≤ min raw (min (5 / 2) r) := le_min h (le_min (by linarith) (by linarith))
      rw [max_assoc, max_eq_right h4]
  rw [key]
  exact ⟨hlo, le_max_left _ _, max_le hlo (min_le_right _ _), rfl⟩

theorem slowdown_clamped_witness :
    (2 : ℚ) ≤ 4 ∧
      (update_slowdown (demoEnv 0 0 0 1 0)
        { demoCost with ratio_MV_outer := 4, gdk_conv_rate := 1 }).JDQMR_slowdown ≤
        min (5 / 2) 4 :=
  ⟨by norm_num,
    (slowdown_clamped (demoEnv 0 0 0 1 0)
      { demoCost with ratio_MV_outer := 4, gdk_conv_rate := 1 } (by norm_num)).2.2.1⟩
/-! ## The block size of a growth step -/

/-- C15 (counterexample): the run on `demoParamsRefined` (refined projection,
`Q` used, one target shift, nothing converges) reaches, after two growth
steps and one restart, the head of the growth loop in the state
`demoResetRun` (`basisSize = 1`, `restartsSinceReset = 1`, both loop guards
hold).  There the formula of the claim gives `min(maxBlockSize, maxBasisSize
- basisSize, numEvals - numConverged + 1, n - basisSize) = min(1, 2, 3, 3) =
1`, while the growth step works with `availableBlockSize = 0`: the reset
heuristic of the refined projection fires (`|0 - hVals[0]| - 1·machEps >
hSVals[0] = 0`), sets `availableBlockSize = 0`, `targetShiftIndex = -1`,
`reset = 2`, and the step leaves the growth loop. -/
theorem reset_heuristic_counterexample :
    (demoResetRun.basisSize, demoResetRun.restartsSinceReset, demoResetRun.numConverged,
      demoResetRun.numLocked, demoResetRun.targetShiftIndex,
      demoResetRun.primme.stats.numOuterIterations,
      demoResetRun.primme.stats.numRestarts) = (1, 1, 0, 0, 0, 2, 1) ∧
    (demoResetRun.restartGuard ∧ demoResetRun.growthGuard) ∧
    demoResetRun.resetHeuristic ∧
    min (min (min
      (if demoResetRun.primme.numTargetShifts > demoResetRun.numConverged + 1 ∧
          demoResetRun.primme.projectionParams.projection ≠ primme_proj_RR
        then 1 else demoResetRun.primme.maxBlockSize)
      (demoResetRun.primme.maxBasisSize - demoResetRun.basisSize))
      ((if demoResetRun.primme.numTargetShifts > demoResetRun.numConverged + 1 ∧
          demoResetRun.primme.projectionParams.projection ≠ primme_proj_RR
        then demoResetRun.numConverged - demoResetRun.numLocked + 1
        else demoResetRun.primme.numEvals - demoResetRun.numConverged) + 1))
      (demoResetRun.primme.n - demoResetRun.basisSize) = 1 ∧
    (growthBlockSize demoResetRun).availableBlockSize = 0 ∧
    (growthBlockSize demoResetRun).targetShiftIndex = -1 ∧
    (growthBlockSize demoResetRun).reset = 2 ∧
    (growthStep (demoEnv 0 0 0 1 0) 5 demoResetRun).isBrk = true ∧
    (growthStep (demoEnv 0 0 0 1 0) 5 demoResetRun).state.availableBlockSize = 0 := by
  refine ⟨?_, ?_, ?_, ?_, ?_, ?_, ?_, ?_, ?_⟩ <;> decide!

/-- C15 (amended): at each growth step `availableBlockSize` equals `min(B0,
maxBasisSize - basisSize, maxRecentlyConverged + 1, n - basisSize)`, where
`B0 = 1` and `maxRecentlyConverged = numConverged - numLocked + 1` if `Q` is
used (the projection is not RR) and `numTargetShifts > numConverged + 1`,
and `B0 = maxBlockSize`, `maxRecentlyConverged = numEvals - numConverged`
otherwise, unless the reset heuristic of the refined projection fires in
that step (refined projection, `basisSize > 0`, `restartsSinceReset > 0` and
`|targetShifts[targetShiftIndex] - hVals[0]| - max(aNorm,
estimateLargestSVal)·machEps > hSVals[0]`): then `availableBlockSize` is 0,
`targetShiftIndex` is -1 and `reset` is 2. -/
theorem available_block_size (s : MainState) :
    (growthBlockSize s).maxRecentlyConverged =
      (if s.primme.numTargetShifts > s.numConverged + 1 ∧
          s.primme.projectionParams.projection ≠ primme_proj_RR
        then s.numConverged - s.numLocked + 1 else s.primme.numEvals - s.numConverged) ∧
    (growthBlockSize s).availableBlockSize =
      (if s.primme.projectionParams.projection = primme_proj_refined ∧
          s.basisSize > 0 ∧ s.restartsSinceReset > 0 ∧
          |s.primme.targetShift s.targetShiftIndex - rd s.hVals 0|
            - max s.primme.aNorm s.sh.estimateLargestSVal * s.machEps > rd s.hSVals 0
        then 0
        else
          min (min (min
            (if s.primme.numTargetShifts > s.numConverged + 1 ∧
                s.primme.projectionParams.projection ≠ primme_proj_RR
              then 1 else s.primme.maxBlockSize)
            (s.primme.maxBasisSize - s.basisSize))
            ((if s.primme.numTargetShifts > s.numConverged + 1 ∧
                s.primme.projectionParams.projection ≠ primme_proj_RR
              then s.numConverged - s.numLocked + 1
              else s.primme.numEvals - s.numConverged) + 1))
            (s.primme.n - s.basisSize)) ∧
    (s.resetHeuristic →
      (growthBlockSize s).targetShiftIndex = -1 ∧ (growthBlockSize s).reset = 2) ∧
    (¬ s.resetHeuristic →
      (growthBlockSize s).targetShiftIndex = s.targetShiftIndex ∧
      (growthBlockSize s).reset = s.reset) ∧
    (growthBlockSize s).basisSize = s.basisSize := by
  have hres : s.resetHeuristic ↔
      (s.primme.projectionParams.projection = primme_proj_refined ∧
        s.basisSize > 0 ∧ s.restartsSinceReset > 0 ∧
        |s.primme.targetShift s.targetShiftIndex - rd s.hVals 0|
          - max s.primme.aNorm s.sh.estimateLargestSVal * s.machEps > rd s.hSVals 0) := by
    unfold MainState.resetHeuristic
    rw [cmax_eq_max]
  have hb : growthBlockSize s =
      (if s.resetHeuristic then
        { growthClamp s with availableBlockSize := 0, targetShiftIndex := -1, reset := 2 }
       else growthClamp s) := by
    unfold growthBlockSize growthClamp MainState.resetHeuristic
    dsimp only
    split_ifs
    all_goals first
      | rfl
      | (exfalso; tauto)
  have hm : (growthClamp s).maxRecentlyConverged =
      (if s.primme.numTargetShifts > s.numConverged + 1 ∧
          s.primme.projectionParams.projection ≠ primme_proj_RR
        then s.numConverged - s.numLocked + 1 else s.primme.numEvals - s.numConverged) := by
    unfold growthClamp
    dsimp only
    split_ifs <;> rfl
  have ha : (growthClamp s).availableBlockSize =
      min (min (min
        (if s.primme.numTargetShifts > s.numConverged + 1 ∧
            s.primme.projectionParams.projection ≠ primme_proj_RR
          then 1 else s.primme.maxBlockSize)
        (s.primme.maxBasisSize - s.basisSize))
        ((if s.primme.numTargetShifts > s.numConverged + 1 ∧
            s.primme.projectionParams.projection ≠ primme_proj_RR
          then s.numConverged - s.numLocked + 1
          else s.primme.numEvals - s.numConverged) + 1))
        (s.primme.n - s.basisSize) := by
    unfold growthClamp
    dsimp only
    simp only [cmin_eq_min]
    split_ifs <;> rfl
  have ht : (growthClamp s).targetShiftIndex = s.targetShiftIndex ∧
      (growthClamp s).reset = s.reset ∧ (growthClamp s).basisSize = s.basisSize := by
    unfold growthClamp
    dsimp only
    split_ifs <;> exact ⟨rfl, rfl, rfl⟩
  refine ⟨?_, ?_, ?_, ?_, ?_⟩
  · rw [hb]
    by_cases hr : s.resetHeuristic
    · rw [if_pos hr]
      exact hm
    · rw [if_neg hr]
      exact hm
  · rw [hb]
    by_cases hr : s.resetHeuristic
    · rw [if_pos hr, if_pos (hres.mp hr)]
    · rw [if_neg hr, if_neg (fun h => hr (hres.mpr h))]
      exact ha
  · intro hr
    rw [hb, if_pos hr]
    exact ⟨rfl, rfl⟩
  · intro hr
    rw [hb, if_neg hr]
    exact ⟨ht.1, ht.2.1⟩
  · rw [hb]
    by_cases hr : s.resetHeuristic
    · rw [if_pos hr]
      exact ht.2.2
    · rw [if_neg hr]
      exact ht.2.2
/-! ## The early-restart decision of a growth step -/

theorem eq_some_getD {α : Type} (o : Option α) (d : α) (h : o.isSome = true) :
    o = some (o.getD d) := by
  cases o with
  | none => cases h
  | some a => rfl

theorem growthCorrection_not_brk (env : Env) (s : MainState) :
    (growthCorrection env s).isBrk = false := by
  unfold growthCorrection
  dsimp only
  split_ifs <;> rfl

theorem growthExtend_not_brk (env : Env) (fuel : ℕ) (s : MainState) :
    (growthExtend env fuel s).isBrk = false := by
  unfold growthExtend
  dsimp only
  split_ifs
  · rfl
  · rfl
  · split <;> rfl

/-- C16 (counterexample): two runs in which the decision of the code is not
the one claimed.  (1) In the run on `demoParamsQ 3 2` (`Q` is used, two
target shifts with the same value 0) the first growth step counts one
converged pair, so that the shift index that corresponds to `numConverged`,
`min(numTargetShifts - 1, numConverged) = 1`, differs from
`targetShiftIndex = 0`; the growth loop is nevertheless not left, because
the code compares the two shift values, which are equal.  (2) In the run on
`demoParamsInterior` (locking on, target selector `interior`, which is none
of closest_abs, closest_leq, closest_geq) two pairs converge in the first
growth step, with `numConverged = 2 < numEvals = 3`, `targetShiftIndex = 0`
and no `Q`; the growth loop is left, because the code tests that the target
is neither `primme_smallest` nor `primme_largest`. -/
theorem early_restart_counterexample :
    ((growthCandidates (demoEnv 1 0 0 2 0) 5 (growthBlockSize (demoStartQ 3 2))).map
        (fun s1 => (s1.numConverged, s1.targetShiftIndex,
          min (s1.primme.numTargetShifts - 1) s1.numConverged,
          decide (s1.primme.projectionParams.projection ≠ primme_proj_RR)))
      = some (1, 0, 1, true) ∧
    (growthStep (demoEnv 1 0 0 2 0) 5 (demoStartQ 3 2)).isBrk = false ∧
    (growthStep (demoEnv 1 0 0 2 0) 5 (demoStartQ 3 2)).isCont = true) ∧
    ((growthCandidates (demoEnv 1 0 0 2 0) 5 (growthBlockSize demoStartInterior)).map
        (fun s1 => (s1.primme.locking, s1.recentlyConverged, s1.numConverged,
          s1.primme.numEvals, s1.targetShiftIndex))
      = some (1, 2, 2, 3, 0) ∧
    (growthCandidates (demoEnv 1 0 0 2 0) 5 (growthBlockSize demoStartInterior)).map
        (fun s1 => (s1.primme.target,
          decide (s1.primme.projectionParams.projection ≠ primme_proj_RR)))
      = some (primme_interior, false) ∧
    (growthStep (demoEnv 1 0 0 2 0) 5 demoStartInterior).isBrk = true) := by
  refine ⟨⟨?_, ?_, ?_⟩, ?_, ?_, ?_⟩ <;> decide!

/-- C16 (amended): after candidate preparation and `numConverged +=
recentlyConverged` (state `s1`) the growth loop is left if and only if
`numConverged >= numEvals`, or locking is on, `recentlyConverged > 0` and the
target is neither smallest nor largest (that is, one of closest_abs,
closest_leq, closest_geq, interior), or `targetShiftIndex < 0`, or `Q` is
used and the target shift `targetShifts[min(numTargetShifts - 1,
numConverged)]` differs in value from the current shift
`targetShifts[targetShiftIndex]`; when the loop is left the step ends in the
state `s1` itself, so that no correction solve, orthogonalization or matvec
of that step has taken place. -/
theorem early_restart_decision (env : Env) (fuel : ℕ) (s s1 : MainState)
    (h : growthCandidates env fuel (growthBlockSize s) = some s1) :
    ((growthStep env fuel s).isBrk = true ↔
      (s1.numConverged ≥ s1.primme.numEvals ∨
        (s1.primme.locking ≠ 0 ∧ s1.recentlyConverged > 0 ∧
          s1.primme.target ≠ primme_smallest ∧ s1.primme.target ≠ primme_largest) ∨
        s1.targetShiftIndex < 0 ∨
        (s1.primme.projectionParams.projection ≠ primme_proj_RR ∧
          s1.primme.targetShift (min (s1.primme.numTargetShifts - 1) s1.numConverged) ≠
            s1.primme.targetShift s1.targetShiftIndex))) ∧
    ((s1.primme.target ≠ primme_smallest ∧ s1.primme.target ≠ primme_largest) ↔
      (s1.primme.target = primme_closest_abs ∨ s1.primme.target = primme_closest_leq ∨
        s1.primme.target = primme_closest_geq ∨ s1.primme.target = primme_interior)) ∧
    ((growthStep env fuel s).isBrk = true → growthStep env fuel s = Flow.brk s1) := by
  have key : s1.earlyRestart ↔
      (s1.numConverged ≥ s1.primme.numEvals ∨
        (s1.primme.locking ≠ 0 ∧ s1.recentlyConverged > 0 ∧
          s1.primme.target ≠ primme_smallest ∧ s1.primme.target ≠ primme_largest) ∨
        s1.targetShiftIndex < 0 ∨
        (s1.primme.projectionParams.projection ≠ primme_proj_RR ∧
          s1.primme.targetShift (min (s1.primme.numTargetShifts - 1) s1.numConverged) ≠
            s1.primme.targetShift s1.targetShiftIndex)) := by
    unfold MainState.earlyRestart MainState.useQ
    rw [cmin_eq_min]
    constructor
    · rintro (h1 | h2 | h6 | ⟨h7, h8⟩)
      · exact Or.inl h1
      · exact Or.inr (Or.inl h2)
      · exact Or.inr (Or.inr (Or.inl h6))
      · exact Or.inr (Or.inr (Or.inr ⟨h7, fun e => h8 e.symm⟩))
    · rintro (h1 | h2 | h6 | ⟨h7, h8⟩)
      · exact Or.inl h1
      · exact Or.inr (Or.inl h2)
      · exact Or.inr (Or.inr (Or.inl h6))
      · exact Or.inr (Or.inr (Or.inr ⟨h7, fun e => h8 e.symm⟩))
  have ht : (s1.primme.target ≠ primme_smallest ∧ s1.primme.target ≠ primme_largest) ↔
      (s1.primme.target = primme_closest_abs ∨ s1.primme.target = primme_closest_leq ∨
        s1.primme.target = primme_closest_geq ∨ s1.primme.target = primme_interior) := by
    cases s1.primme.target <;> simp
  have hstep : growthStep env fuel s =
      if s1.earlyRestart then Flow.brk s1
      else
        match growthCorrection env s1 with
        | Flow.cont s => growthExtend env fuel s
        | other => other := by
    unfold growthStep
    simp only [h]
  by_cases he : s1.earlyRestart
  · rw [hstep, if_pos he]
    exact ⟨⟨fun _ => key.mp he, fun _ => rfl⟩, ht, fun _ => rfl⟩
  · rw [hstep, if_neg he]
    have hnb : (match growthCorrection env s1 with
        | Flow.cont s => growthExtend env fuel s
        | other => other).isBrk = false := by
      have hc := growthCorrection_not_brk env s1
      split
      · exact growthExtend_not_brk env fuel _
      · exact hc
    rw [hnb]
    exact ⟨⟨fun hf => absurd hf (by simp), fun hk => absurd (key.mpr hk) he⟩, ht,
      fun hf => absurd hf (by simp)⟩

theorem early_restart_decision_witness :
    (growthStep (demoEnv 1 0 0 2 0) 5 (demoStartQ 1 2)).isBrk = true :=
  (early_restart_decision (demoEnv 1 0 0 2 0) 5 (demoStartQ 1 2)
    ((growthCandidates (demoEnv 1 0 0 2 0) 5 (growthBlockSize (demoStartQ 1 2))).getD
      (demoStartQ 1 2))
    (eq_some_getD _ _ (by decide!))).1.mpr (Or.inl (by decide!))
/-! ## Frame facts: the outer-iteration counter and the dynamic switch -/

theorem DynReach_refl (a : ℤ × ℤ) : DynReach a a := Relation.ReflTransGen.refl

theorem DynReach_trans {a b c : ℤ × ℤ} (h1 : DynReach a b) (h2 : DynReach b c) :
    DynReach a c := Relation.ReflTransGen.trans h1 h2

theorem DynReach_switch {a b : ℤ × ℤ} (h : SwitchStep a b) : DynReach a b :=
  Relation.ReflTransGen.single (Or.inl h)

theorem DynReach_advice {a b : ℤ × ℤ} (h : AdviceStep a b) : DynReach a b :=
  Relation.ReflTransGen.single (Or.inr h)

theorem DynReach_of_eq {a b : ℤ × ℤ} (h : b = a) : DynReach a b := by
  rw [h]
  exact DynReach_refl a

theorem DynReach_ok {a b : ℤ × ℤ} (h : DynReach a b) (ha : DynOk a.1) : DynOk b.1 := by
  induction h with
  | refl => exact ha
  | tail _ hstep ih =>
    rcases hstep with hs | hs
    · rcases hs with ⟨_, e⟩ | ⟨_, e⟩ | ⟨_, e⟩ | ⟨_, e⟩ | ⟨_, e⟩
      all_goals rw [e]; unfold DynOk Recommended; simp
    · obtain ⟨_, _, h3⟩ := hs
      exact Or.inr (Or.inr (Or.inr (Or.inr h3)))

theorem DynReach_inactive {a b : ℤ × ℤ} (h : DynReach a b) (ha : a.1 ≤ 0) : b = a := by
  induction h with
  | refl => rfl
  | tail _ hstep ih =>
    rw [ih] at hstep
    rcases hstep with hs | hs
    · rcases hs with ⟨e, _⟩ | ⟨e, _⟩ | ⟨e, _⟩ | ⟨e, _⟩ | ⟨e, _⟩
      all_goals rw [e] at ha; exact absurd ha (by norm_num)
    · exact absurd hs.1 (not_lt.mpr ha)

theorem Kept_refl (s : MainState) : Kept s s := ⟨rfl, rfl, DynReach_refl _⟩

theorem Kept_trans {a b c : MainState} (h1 : Kept a b) (h2 : Kept b c) : Kept a c :=
  ⟨h2.1.trans h1.1, h2.2.1.trans h1.2.1, DynReach_trans h1.2.2 h2.2.2⟩

theorem Kept_of_eq {s s' : MainState}
    (h0 : s'.primme.maxOuterIterations = s.primme.maxOuterIterations)
    (h1 : s'.primme.stats.numOuterIterations = s.primme.stats.numOuterIterations)
    (h2 : s'.dyn = s.dyn) : Kept s s' :=
  ⟨h0, h1, DynReach_of_eq h2⟩

theorem Kept_of_primme {s s' : MainState} (h : s'.primme = s.primme) : Kept s s' := by
  refine Kept_of_eq ?_ ?_ ?_
  · rw [h]
  · rw [h]
  · unfold MainState.dyn
    rw [h]

theorem Loose_refl (s : MainState) : Loose s s := ⟨rfl, fun _ h => h, DynReach_refl _⟩

theorem Loose_trans {a b c : MainState} (h1 : Loose a b) (h2 : Loose b c) : Loose a c := by
  refine ⟨h2.1.trans h1.1, ?_, DynReach_trans h1.2.2 h2.2.2⟩
  intro hp hle
  have hb := h1.2.1 hp hle
  have hc := h2.2.1 (by rw [h1.1]; exact hp) (by rw [h1.1]; exact hb)
  rw [h1.1] at hc
  exact hc

theorem Loose_of_Kept {s s' : MainState} (h : Kept s s') : Loose s s' := by
  refine ⟨h.1, ?_, h.2.2⟩
  intro _ hle
  rw [h.2.1]
  exact hle

/-! ### The pieces of a growth step -/

theorem wTimer_kept (env : Env) (s : MainState) : Kept s (s.wTimer env).2 :=
  Kept_of_primme rfl

theorem addMatvecs_kept (s : MainState) (mv : ℕ) : Kept s (s.addMatvecs mv) :=
  Kept_of_eq rfl rfl rfl

theorem matvec_kept (env : Env) (s : MainState) (b n : ℤ) : Kept s (s.matvec env b n) :=
  Kept_of_eq rfl rfl rfl

theorem updateProjections_primme (env : Env) (s : MainState) (a b : ℤ) :
    (s.updateProjections env a b).primme = s.primme := by
  unfold MainState.updateProjections
  dsimp only
  split_ifs <;> rfl

theorem updateProjections_kept (env : Env) (s : MainState) (a b : ℤ) :
    Kept s (s.updateProjections env a b) :=
  Kept_of_primme (updateProjections_primme env s a b)

theorem solveH_kept (env : Env) (s : MainState) : Kept s (s.solveH env).2 :=
  Kept_of_primme rfl

theorem orthoCall_kept (env : Env) (s : MainState) (b1 b2 nl : ℤ) :
    Kept s (s.orthoCall env b1 b2 nl).2 :=
  Kept_of_primme rfl

theorem switch_from_GDpk_dyn (env : Env) (m : primme_CostModel) (p : primme_params)
    (h : p.dynamicMethodSwitch = 1 ∨ p.dynamicMethodSwitch = 3) :
    DynReach (p.dynamicMethodSwitch, p.correctionParams.maxInnerIterations)
      ((switch_from_GDpk env m p).2.dynamicMethodSwitch,
        (switch_from_GDpk env m p).2.correctionParams.maxInnerIterations) := by
  unfold switch_from_GDpk
  dsimp only
  rcases h with h | h
  · split_ifs
    all_goals first
      | exact DynReach_refl _
      | exact DynReach_switch (Or.inl ⟨h, rfl⟩)
      | (exfalso; omega)
  · split_ifs
    all_goals first
      | exact DynReach_refl _
      | exact DynReach_switch (Or.inr (Or.inl ⟨h, rfl⟩))
      | (exfalso; omega)

theorem switch_from_JDQMR_dyn (env : Env) (m : primme_CostModel) (p : primme_params)
    (h : p.dynamicMethodSwitch = 2 ∨ p.dynamicMethodSwitch = 4) :
    DynReach (p.dynamicMethodSwitch, p.correctionParams.maxInnerIterations)
      ((switch_from_JDQMR env m p).2.dynamicMethodSwitch,
        (switch_from_JDQMR env m p).2.correctionParams.maxInnerIterations) := by
  unfold switch_from_JDQMR
  dsimp only
  rcases h with h | h
  · split_ifs
    all_goals first
      | exact DynReach_refl _
      | exact DynReach_switch (Or.inr (Or.inr (Or.inl ⟨h, rfl⟩)))
      | exact DynReach_switch (Or.inr (Or.inr (Or.inr (Or.inr ⟨h, rfl⟩))))
      | (exfalso; omega)
  · split_ifs
    all_goals first
      | exact DynReach_refl _
      | exact DynReach_switch (Or.inr (Or.inr (Or.inr (Or.inl ⟨h, rfl⟩))))
      | (exfalso; omega)

theorem switchGDpk_kept (env : Env) (s : MainState)
    (h : s.primme.dynamicMethodSwitch = 1 ∨ s.primme.dynamicMethodSwitch = 3) :
    Kept s (s.switchGDpk env) := by
  obtain ⟨d, i, hp⟩ := switch_from_GDpk_primme env s.CostModel s.primme
  refine ⟨?_, ?_, ?_⟩
  · simp only [MainState.switchGDpk, hp]
  · simp only [MainState.switchGDpk, hp]
  · exact switch_from_GDpk_dyn env s.CostModel s.primme h

theorem switchJDQMR_kept (env : Env) (s : MainState)
    (h : s.primme.dynamicMethodSwitch = 2 ∨ s.primme.dynamicMethodSwitch = 4) :
    Kept s (s.switchJDQMR env) := by
  obtain ⟨d, i, hp⟩ := switch_from_JDQMR_primme env s.CostModel s.primme
  refine ⟨?_, ?_, ?_⟩
  · simp only [MainState.switchJDQMR, hp]
  · simp only [MainState.switchJDQMR, hp]
  · exact switch_from_JDQMR_dyn env s.CostModel s.primme h

theorem dynamicBeforeCorrection_kept (env : Env) (s : MainState) :
    Kept s (dynamicBeforeCorrection env s) := by
  unfold dynamicBeforeCorrection
  dsimp only [MainState.wTimer]
  split_ifs with h1 h2 h3 h4 h5 h6 h7 h8 h9 h10
  all_goals first
    | exact Kept_of_primme rfl
    | exact Kept_trans (Kept_of_primme rfl) (switchGDpk_kept env _ (Or.inr (by assumption)))
    | exact Kept_trans (Kept_of_primme rfl) (switchJDQMR_kept env _ (by assumption))

theorem growthRetain_primme (fuel : ℕ) (s s' : MainState)
    (h : growthRetain fuel s = some s') : s'.primme = s.primme := by
  unfold growthRetain at h
  dsimp only at h
  split at h
  · split at h
    · cases h
    · split at h
      · split at h
        · cases h
        · cases h
          rfl
      · cases h
        rfl
  · cases h
    rfl

theorem candidateLoop_primme (nLocal ldV xOff rOff numEvals blockNormsSize maxBlockSize
    numLocked : ℤ) (targetShift : ℚ) (flagsBlock : IArr) :
    ∀ (k : ℕ) (i blki : ℤ) (s : MainState),
      (candidateLoop nLocal ldV xOff rOff numEvals blockNormsSize maxBlockSize
        numLocked targetShift flagsBlock k i blki s).2.primme = s.primme
  | 0, _, _, s => rfl
  | k + 1, i, blki, s => by
    unfold candidateLoop
    dsimp only
    split_ifs
    all_goals first
      | rfl
      | exact (candidateLoop_primme nLocal ldV xOff rOff numEvals
          blockNormsSize maxBlockSize numLocked targetShift flagsBlock k _ _ _).trans rfl

theorem candidatesSmallest_primme (env : Env) (blockNormsSize : ℤ) (s : MainState) :
    (candidatesSmallest env blockNormsSize s).primme = s.primme := by
  unfold candidatesSmallest
  dsimp only
  split_ifs <;> rfl

theorem candidatesWhile_primme (env : Env) (nLocal basisSize ldV xOff rOff ldhVecs numEvals
    maxBlockSize numLocked targetShiftIndex : ℤ) (targetShift : ℚ) :
    ∀ (fuel : ℕ) (blockNormsSize : ℤ) (hValsBlock : Arr) (s : MainState) (r : ℤ × MainState),
      candidatesWhile env nLocal basisSize ldV xOff rOff ldhVecs numEvals maxBlockSize
        numLocked targetShiftIndex targetShift fuel blockNormsSize hValsBlock s = some r →
      r.2.primme = s.primme
  | 0, _, _, _, _, h => by
    unfold candidatesWhile at h
    cases h
  | fuel + 1, blockNormsSize, hValsBlock, s, r, h => by
    unfold candidatesWhile at h
    dsimp only at h
    have h2 : (candidateLoop nLocal ldV xOff rOff numEvals blockNormsSize
        maxBlockSize numLocked targetShift
        (candidatesCheck env ldV xOff rOff numLocked blockNormsSize hValsBlock s).2.iwork
        blockNormsSize.toNat 0
        (candidatesCheck env ldV xOff rOff numLocked blockNormsSize hValsBlock s).2.blockSize
        (candidatesCheck env ldV xOff rOff numLocked blockNormsSize hValsBlock s).2).2.primme
        = s.primme :=
      (candidateLoop_primme _ _ _ _ _ _ _ _ _ _ _ _ _ _).trans rfl
    split at h
    · cases h
      rfl
    · split at h
      · cases h
        exact h2
      · split at h
        · cases h
          exact h2
        · have ih := candidatesWhile_primme env nLocal basisSize ldV xOff rOff ldhVecs numEvals
            maxBlockSize numLocked targetShiftIndex targetShift fuel _ _ _ r h
          rw [ih, candidatesSmallest_primme]
          exact h2

theorem prepare_candidates_primme (env : Env) (fuel : ℕ) (s : MainState)
    (nLocal basisSize ldV xOff rOff ldhVecs numEvals blockNormsSize maxBlockSize
      numLocked targetShiftIndex : ℤ) (r : ℤ × MainState)
    (h : prepare_candidates_dprimme env fuel s nLocal basisSize ldV xOff rOff ldhVecs numEvals
      blockNormsSize maxBlockSize numLocked targetShiftIndex = some r) :
    r.2.primme = s.primme := by
  unfold prepare_candidates_dprimme at h
  dsimp only at h
  rw [candidatesWhile_primme _ _ _ _ _ _ _ _ _ _ _ _ _ _ _ _ r h]
  split_ifs <;> rfl

theorem growthPrepare_primme (env : Env) (fuel : ℕ) (s s' : MainState)
    (h : growthPrepare env fuel s = some s') : s'.primme = s.primme := by
  unfold growthPrepare at h
  split at h
  · split at h
    · cases h
    · rename_i r hr
      cases h
      exact prepare_candidates_primme _ _ _ _ _ _ _ _ _ _ _ _ _ _ r hr
  · cases h
    rfl

theorem growthCandidates_primme (env : Env) (fuel : ℕ) (s s' : MainState)
    (h : growthCandidates env fuel s = some s') : s'.primme = s.primme := by
  unfold growthCandidates at h
  split at h
  · cases h
  · rename_i s1 h1
    cases h
    exact growthPrepare_primme env fuel s s1 h1

theorem solveCorrection_kept (env : Env) (s : MainState) :
    Kept s (s.solveCorrection env).2 :=
  Kept_of_eq rfl rfl rfl

theorem growthCorrection_kept (env : Env) (s : MainState) :
    Kept s (growthCorrection env s).state := by
  unfold growthCorrection
  dsimp only
  have hd := dynamicBeforeCorrection_kept env s
  split_ifs
  · exact Kept_of_primme rfl
  · exact Kept_trans hd (solveCorrection_kept env _)
  · exact Kept_trans hd (Kept_trans (solveCorrection_kept env _) (Kept_of_primme rfl))
  · exact Kept_trans hd (solveCorrection_kept env _)

theorem extendBasis_kept (env : Env) (s : MainState) : Kept s (s.extendBasis env) := by
  unfold MainState.extendBasis
  dsimp only
  exact Kept_trans (matvec_kept env s _ _)
    (Kept_trans (updateProjections_kept env _ _ _) (Kept_of_primme rfl))

theorem growthExtend_kept (env : Env) (fuel : ℕ) (s : MainState) :
    Kept s (growthExtend env fuel s).state := by
  unfold growthExtend
  dsimp only
  have ho := orthoCall_kept env s s.basisSize (s.basisSize + s.blockSize - 1)
    (s.primme.numOrthoConst + s.numLocked)
  have hs := Kept_trans (Kept_trans ho (extendBasis_kept env _)) (solveH_kept env _)
  split_ifs
  · exact ho
  · exact hs
  · have hr := Kept_trans hs (Kept_of_primme rfl :
      Kept _ (((((s.orthoCall env s.basisSize (s.basisSize + s.blockSize - 1)
        (s.primme.numOrthoConst + s.numLocked)).2).extendBasis env).solveH env).2).resetArbitrary)
    split
    · exact hr
    · rename_i s2 h2
      exact Kept_trans hr (Kept_of_primme (growthRetain_primme fuel _ s2 h2))

theorem growthBlockSize_counts (s : MainState) :
    (growthBlockSize s).primme.maxOuterIterations = s.primme.maxOuterIterations ∧
    (growthBlockSize s).primme.stats.numOuterIterations =
      s.primme.stats.numOuterIterations + 1 ∧
    (growthBlockSize s).dyn = s.dyn := by
  unfold growthBlockSize
  dsimp only
  split_ifs <;> exact ⟨rfl, rfl, rfl⟩

/-- Every pass through the body of the growth loop increments
`stats.numOuterIterations` exactly once. -/
theorem growthStep_counts (env : Env) (fuel : ℕ) (s : MainState) :
    (growthStep env fuel s).state.primme.maxOuterIterations = s.primme.maxOuterIterations ∧
    (growthStep env fuel s).state.primme.stats.numOuterIterations =
      s.primme.stats.numOuterIterations + 1 ∧
    DynReach s.dyn (growthStep env fuel s).state.dyn := by
  have hb := growthBlockSize_counts s
  have lift : ∀ s' : MainState, Kept (growthBlockSize s) s' →
      s'.primme.maxOuterIterations = s.primme.maxOuterIterations ∧
      s'.primme.stats.numOuterIterations = s.primme.stats.numOuterIterations + 1 ∧
      DynReach s.dyn s'.dyn := by
    intro s' hk
    refine ⟨hk.1.trans hb.1, hk.2.1.trans hb.2.1, ?_⟩
    rw [← hb.2.2]
    exact hk.2.2
  unfold growthStep
  split
  · exact lift _ (Kept_refl _)
  · rename_i s1 h1
    have hc : Kept (growthBlockSize s) s1 :=
      Kept_of_primme (growthCandidates_primme env fuel _ s1 h1)
    split_ifs with he
    · exact lift _ hc
    · have hg := growthCorrection_kept env s1
      split
      · rename_i s2 h2
        rw [h2] at hg
        exact lift _ (Kept_trans hc (Kept_trans hg (growthExtend_kept env fuel s2)))
      · exact lift _ (Kept_trans hc hg)

theorem growthStep_loose (env : Env) (fuel : ℕ) (s : MainState) (hg : s.growthGuard) :
    Loose s (growthStep env fuel s).state := by
  obtain ⟨h0, h1, h2⟩ := growthStep_counts env fuel s
  refine ⟨h0, ?_, h2⟩
  intro hp _
  rw [h1]
  rcases hg.2.2.2 with h | h
  · omega
  · omega

theorem growthLoop_loose (env : Env) (inner : ℕ) :
    ∀ (fuel : ℕ) (s : MainState), Loose s (growthLoop env inner fuel s).state
  | fuel, s => by
    unfold growthLoop
    split_ifs with hg
    · cases fuel with
      | zero => exact Loose_refl s
      | succ f =>
        dsimp only
        have hs := growthStep_loose env inner s hg
        split
        · rename_i s1 h1
          rw [h1] at hs
          exact Loose_trans hs (growthLoop_loose env inner f s1)
        · rename_i s1 h1
          rw [h1] at hs
          exact hs
        · exact hs
    · exact Loose_refl s

/-! ### Restart, verification and the outer loop -/

theorem restartCall_kept (env : Env) (s : MainState) : Kept s (s.restartCall env) :=
  Kept_of_eq rfl rfl rfl

theorem copyGuesses_kept (s : MainState) (k : ℤ) : Kept s (s.copyGuesses k) :=
  Kept_of_primme rfl

theorem extendByGuesses_kept (env : Env) (s : MainState) (k : ℤ) :
    Kept s (s.extendByGuesses env k) := by
  unfold MainState.extendByGuesses
  dsimp only
  exact Kept_trans (matvec_kept env s _ _)
    (Kept_trans (updateProjections_kept env _ _ _) (Kept_of_primme rfl))

theorem restartGuesses_kept (env : Env) (s : MainState) :
    Kept s (restartGuesses env s).state := by
  unfold restartGuesses
  dsimp only
  have hc := copyGuesses_kept s s.numNew
  have ho := Kept_trans hc (orthoCall_kept env (s.copyGuesses s.numNew) s.basisSize
    (s.basisSize + s.numNew - 1) s.numLocked)
  have hh := Kept_trans ho (Kept_trans (extendByGuesses_kept env _ s.numNew)
    (solveH_kept env _))
  split_ifs
  · exact ho
  · exact hh
  · exact hh
  · exact Kept_refl s

theorem prepareVecsCall_kept (env : Env) (s : MainState) : Kept s (s.prepareVecsCall env) := by
  unfold MainState.prepareVecsCall
  dsimp only
  split_ifs <;> exact Kept_of_primme rfl

theorem countRestart_kept (s : MainState) : Kept s s.countRestart :=
  Kept_of_eq rfl rfl rfl

theorem dynamicAfterRestart_kept (env : Env) (s : MainState) :
    Kept s (dynamicAfterRestart env s) := by
  unfold dynamicAfterRestart
  dsimp only [MainState.wTimer]
  split_ifs with h
  · exact Kept_trans (Kept_of_primme rfl) (switchGDpk_kept env _ (Or.inl h))
  · exact Kept_refl s

theorem afterGrowth_kept (env : Env) (s : MainState) :
    Kept s (afterGrowth env s).state := by
  unfold afterGrowth
  have h1 : Kept s ((s.setWholeSpace.prepareVecsCall env).restartCall env) :=
    Kept_trans (Kept_of_primme rfl : Kept s s.setWholeSpace)
      (Kept_trans (prepareVecsCall_kept env _) (restartCall_kept env _))
  have hg := restartGuesses_kept env ((s.setWholeSpace.prepareVecsCall env).restartCall env)
  split
  · rename_i s1 hs1
    rw [hs1] at hg
    have h2 : Kept s (dynamicAfterRestart env s1.countRestart) :=
      Kept_trans h1 (Kept_trans hg
        (Kept_trans (countRestart_kept s1) (dynamicAfterRestart_kept env _)))
    split_ifs
    · exact h2
    · exact h2
  · exact Kept_trans h1 hg

theorem restartLoop_loose (env : Env) (inner : ℕ) :
    ∀ (fuel : ℕ) (s : MainState), Loose s (restartLoop env inner fuel s).state
  | fuel, s => by
    unfold restartLoop
    split_ifs with hg
    · cases fuel with
      | zero => exact Loose_refl s
      | succ f =>
        dsimp only
        have h0 : Loose s s.resetRetained := Loose_of_Kept (Kept_of_primme rfl)
        have hl := Loose_trans h0 (growthLoop_loose env inner inner s.resetRetained)
        split
        · rename_i s1 h1
          rw [h1] at hl
          have ha := Loose_trans hl (Loose_of_Kept (afterGrowth_kept env s1))
          split
          · rename_i s2 h2
            rw [h2] at ha
            exact Loose_trans ha (restartLoop_loose env inner f s2)
          · rename_i s2 h2
            rw [h2] at ha
            exact ha
          · exact ha
        · exact hl
    · exact Loose_refl s

theorem recommendMethod_kept (s : MainState) : Kept s (recommendMethod s) := by
  unfold recommendMethod
  split_ifs with h
  · exact ⟨rfl, rfl, DynReach_advice ⟨h, rfl, Or.inr (Or.inl rfl)⟩⟩
  · exact ⟨rfl, rfl, DynReach_advice ⟨h, rfl, Or.inl rfl⟩⟩
  · exact ⟨rfl, rfl, DynReach_advice ⟨h, rfl, Or.inr (Or.inr rfl)⟩⟩
  · exact Kept_refl s

theorem setANorm_kept (s : MainState) : Kept s (setANorm s) := by
  unfold setANorm
  split_ifs <;> exact Kept_of_eq rfl rfl rfl

theorem finishLocking_kept (s : MainState) : Kept s (finishLocking s).state := by
  unfold finishLocking
  have h1 : Kept s (recommendMethod s).reportLockingProblem :=
    Kept_trans (recommendMethod_kept s) (Kept_of_primme rfl)
  split_ifs
  · exact Kept_trans h1 (setANorm_kept _)
  · exact h1

theorem verify_norms_primme (env : Env) (s : MainState) (k : ℤ) :
    (verify_norms env s k).2.primme = s.primme := by
  unfold verify_norms
  dsimp only
  split_ifs <;> rfl

theorem verifyStep_kept (env : Env) (s : MainState) : Kept s (verifyStep env s).2 := by
  unfold verifyStep
  split_ifs with h
  · exact Kept_of_primme rfl
  · exact Kept_of_primme ((rfl : ((verify_norms env s s.numConverged).2.log
      (Call.verify_norms (verify_norms env s s.numConverged).1)).primme =
        (verify_norms env s s.numConverged).2.primme).trans (verify_norms_primme env s _))

theorem finishNoLocking_kept (env : Env) (limit : Prop) [Decidable limit] (s : MainState) :
    Kept s (finishNoLocking env limit s).state := by
  unfold finishNoLocking
  dsimp only
  have hc : Kept s (recommendMethod s.copyOut) :=
    Kept_trans (Kept_of_eq rfl rfl rfl : Kept s s.copyOut) (recommendMethod_kept _)
  have ho := orthoCall_kept env s 0 (s.basisSize - 1) (s.primme.numOrthoConst + s.numLocked)
  split_ifs
  · exact Kept_trans hc (setANorm_kept _)
  · exact hc
  · exact ho
  · exact Kept_trans ho (Kept_trans (matvec_kept env _ _ _) (Kept_of_primme rfl))
  · exact Kept_refl s

theorem afterRestartLoop_kept (env : Env) (s : MainState) :
    Kept s (afterRestartLoop env s).state := by
  unfold afterRestartLoop
  have hv := verifyStep_kept env s
  split_ifs
  · exact finishLocking_kept s
  · exact hv
  · exact Kept_trans hv (finishNoLocking_kept env _ _)

theorem resetOuter_kept (env : Env) (s : MainState) : Kept s (s.resetOuter env) := by
  unfold MainState.resetOuter
  dsimp only
  exact Kept_trans (Kept_of_eq rfl rfl rfl) (updateProjections_kept env _ _ _)

theorem outerStart_kept (env : Env) (s : MainState) : Kept s (outerStart env s).state := by
  unfold outerStart
  dsimp only
  have hr := Kept_trans (resetOuter_kept env s) (solveH_kept env _)
  split_ifs
  · exact hr
  · exact Kept_trans hr (Kept_of_primme rfl)

theorem outerLoop_loose (env : Env) (inner : ℕ) :
    ∀ (fuel : ℕ) (s : MainState), Loose s (outerLoop env inner fuel s).state
  | fuel, s => by
    unfold outerLoop
    split_ifs with hg
    · cases fuel with
      | zero => exact Loose_refl s
      | succ f =>
        dsimp only
        have hs := Loose_of_Kept (outerStart_kept env s)
        split
        · rename_i s1 h1
          rw [h1] at hs
          have hl := Loose_trans hs (restartLoop_loose env inner inner s1)
          split
          · rename_i s2 h2
            rw [h2] at hl
            have ha := Loose_trans hl (Loose_of_Kept (afterRestartLoop_kept env s2))
            split
            · rename_i s3 h3
              rw [h3] at ha
              exact Loose_trans ha (outerLoop_loose env inner f s3)
            · exact ha
          · exact hl
        · exact hs
    · exact Loose_refl s

/-! ### The state at the outer loop -/

theorem initCounters_outer (env : Env) (s : MainState) :
    (initCounters env s).primme.stats.numOuterIterations = 0 ∧
    (initCounters env s).primme.maxOuterIterations = s.primme.maxOuterIterations ∧
    (initCounters env s).primme.dynamicMethodSwitch = s.primme.dynamicMethodSwitch :=
  ⟨rfl, rfl, rfl⟩

theorem initBasis_outer (env : Env) (s : MainState) :
    ((setupDim2 (initCounters env s)).initBasis env).2.primme.stats.numOuterIterations = 0 ∧
    ((setupDim2 (initCounters env s)).initBasis env).2.primme.maxOuterIterations
      = s.primme.maxOuterIterations ∧
    ((setupDim2 (initCounters env s)).initBasis env).2.primme.dynamicMethodSwitch
      = s.primme.dynamicMethodSwitch := by
  unfold setupDim2
  split_ifs <;> exact ⟨rfl, rfl, rfl⟩

theorem entryState_outer (env : Env) (s : MainState) :
    (entryState env s).primme.stats.numOuterIterations = 0 ∧
    (entryState env s).primme.maxOuterIterations = s.primme.maxOuterIterations ∧
    (0 < s.primme.dynamicMethodSwitch →
      (entryState env s).primme.dynamicMethodSwitch = 1 ∨
        (entryState env s).primme.dynamicMethodSwitch = 3) := by
  have hi := initBasis_outer env s
  unfold entryState initDynamic
  dsimp only [MainState.wTimer]
  split_ifs with h1 h2
  · exact ⟨hi.1, hi.2.1, fun _ => Or.inl rfl⟩
  · exact ⟨hi.1, hi.2.1, fun _ => Or.inr rfl⟩
  · refine ⟨hi.1, hi.2.1, fun hp => ?_⟩
    exfalso
    apply h1
    show 0 < ((setupDim2 (initCounters env s)).initBasis env).2.primme.dynamicMethodSwitch
    rw [hi.2.2]
    exact hp
/-! ## The budget of outer iterations -/

theorem quickReturn_outer (env : Env) (s : MainState) :
    (quickReturn env s).state.primme.stats.numOuterIterations
      = s.primme.stats.numOuterIterations ∧
    (quickReturn env s).state.primme.maxOuterIterations = s.primme.maxOuterIterations ∧
    (quickReturn env s).state.primme.dynamicMethodSwitch = s.primme.dynamicMethodSwitch :=
  ⟨rfl, rfl, rfl⟩

/-- C12: the outer-iteration budget is respected.  For every environment,
every input with `maxOuterIterations > 0` and every amount of fuel, the run of
`main_iter_dprimme` ends (or is cut off) in a state with
`stats.numOuterIterations <= maxOuterIterations`, the budget itself being
unchanged; every pass through the body of the growth loop increments the
counter exactly once, and the growth loop makes no pass when the budget is
not zero and the counter is not strictly below it. -/
theorem outer_iteration_budget (env : Env) (fuel : ℕ) (s : MainState)
    (hmax : 0 < s.primme.maxOuterIterations) :
    (main_iter_dprimme env fuel s).state.primme.maxOuterIterations
      = s.primme.maxOuterIterations ∧
    (main_iter_dprimme env fuel s).state.primme.stats.numOuterIterations
      ≤ s.primme.maxOuterIterations ∧
    (∀ (inner : ℕ) (st : MainState),
      (growthStep env inner st).state.primme.stats.numOuterIterations
        = st.primme.stats.numOuterIterations + 1) ∧
    (∀ (inner f : ℕ) (st : MainState), st.primme.maxOuterIterations ≠ 0 →
      ¬ st.primme.stats.numOuterIterations < st.primme.maxOuterIterations →
      growthLoop env inner f st = Flow.cont st) := by
  refine ⟨?_, ?_, fun inner st => (growthStep_counts env inner st).2.1, ?_⟩
  · unfold main_iter_dprimme
    dsimp only
    split_ifs with h1 h2
    · exact (quickReturn_outer env _).2.1
    · exact (initBasis_outer env s).2.1
    · have hl := outerLoop_loose env fuel fuel (entryState env s)
      have he := entryState_outer env s
      split
      all_goals rename_i s1 h1
      all_goals rw [h1] at hl
      · exact ((setANorm_kept s1).1.trans hl.1).trans he.2.1
      · exact ((setANorm_kept s1).1.trans hl.1).trans he.2.1
      · exact hl.1.trans he.2.1
      · exact hl.1.trans he.2.1
  · unfold main_iter_dprimme
    dsimp only
    split_ifs with h1 h2
    · rw [(quickReturn_outer env _).1, (initCounters_outer env s).1]
      exact le_of_lt hmax
    · exact le_of_eq_of_le (initBasis_outer env s).1 (le_of_lt hmax)
    · have hl := outerLoop_loose env fuel fuel (entryState env s)
      have he := entryState_outer env s
      have hb := hl.2.1 (by rw [he.2.1]; exact hmax)
        (by rw [he.1, he.2.1]; exact le_of_lt hmax)
      rw [he.2.1] at hb
      split
      all_goals rename_i s1 h1
      all_goals rw [h1] at hb
      · exact le_of_eq_of_le (setANorm_kept s1).2.1 hb
      · exact le_of_eq_of_le (setANorm_kept s1).2.1 hb
      · exact hb
      · exact hb
  · intro inner f st h0 hlt
    unfold growthLoop
    rw [if_neg]
    intro hg
    rcases hg.2.2.2 with h | h
    · exact h0 h
    · exact hlt h

theorem outer_iteration_budget_witness :
    (main_iter_dprimme (demoEnv 0 0 0 1 0) 5
        (demoState (demoParams 3 1 0 2))).state.primme.stats.numOuterIterations ≤ 2 :=
  (outer_iteration_budget (demoEnv 0 0 0 1 0) 5 (demoState (demoParams 3 1 0 2))
    (by decide)).2.1
/-! ## The recommendation left in `dynamicMethodSwitch` -/

theorem recommendMethod_recommended (s : MainState)
    (h : DynOk s.primme.dynamicMethodSwitch) :
    Recommended (recommendMethod s).primme.dynamicMethodSwitch := by
  unfold recommendMethod
  split_ifs with h1 h2 h3
  · exact Or.inr (Or.inl rfl)
  · exact Or.inl rfl
  · exact Or.inr (Or.inr rfl)
  · rcases h with h | h | h | h | h
    · exact absurd (by rw [h]; norm_num : 0 < s.primme.dynamicMethodSwitch) h1
    · exact absurd (by rw [h]; norm_num : 0 < s.primme.dynamicMethodSwitch) h1
    · exact absurd (by rw [h]; norm_num : 0 < s.primme.dynamicMethodSwitch) h1
    · exact absurd (by rw [h]; norm_num : 0 < s.primme.dynamicMethodSwitch) h1
    · exact h

theorem setANorm_dyn (s : MainState) :
    (setANorm s).primme.dynamicMethodSwitch = s.primme.dynamicMethodSwitch := by
  unfold setANorm
  split_ifs <;> rfl

theorem growthCorrection_advised (env : Env) (s : MainState) :
    (growthCorrection env s).Advised := by
  unfold growthCorrection
  dsimp only
  split_ifs
  · trivial
  · exact Or.inr (Or.inr (Or.inr (Or.inl rfl)))
  · trivial
  · trivial

theorem growthExtend_advised (env : Env) (fuel : ℕ) (s : MainState) :
    (growthExtend env fuel s).Advised := by
  unfold growthExtend
  dsimp only
  split_ifs
  · exact Or.inr (Or.inl rfl)
  · exact Or.inr (Or.inr (Or.inl rfl))
  · split <;> trivial

theorem growthStep_advised (env : Env) (fuel : ℕ) (s : MainState) :
    (growthStep env fuel s).Advised := by
  unfold growthStep
  split
  · trivial
  · split_ifs
    · trivial
    · have hg := growthCorrection_advised env ‹MainState›
      split
      · exact growthExtend_advised env fuel _
      · exact hg

theorem growthLoop_advised (env : Env) (inner : ℕ) :
    ∀ (fuel : ℕ) (s : MainState), (growthLoop env inner fuel s).Advised
  | fuel, s => by
    unfold growthLoop
    split_ifs
    · cases fuel with
      | zero => trivial
      | succ f =>
        dsimp only
        have hs := growthStep_advised env inner s
        split
        · exact growthLoop_advised env inner f _
        · trivial
        · exact hs
    · trivial

theorem restartGuesses_advised (env : Env) (s : MainState) :
    (restartGuesses env s).Advised := by
  unfold restartGuesses
  dsimp only
  split_ifs
  · exact Or.inr (Or.inl rfl)
  · exact Or.inr (Or.inr (Or.inl rfl))
  · trivial
  · trivial

theorem afterGrowth_advised (env : Env) (s : MainState) : (afterGrowth env s).Advised := by
  unfold afterGrowth
  have hg := restartGuesses_advised env ((s.setWholeSpace.prepareVecsCall env).restartCall env)
  split
  · split_ifs <;> trivial
  · exact hg

theorem restartLoop_advised (env : Env) (inner : ℕ) :
    ∀ (fuel : ℕ) (s : MainState), (restartLoop env inner fuel s).Advised
  | fuel, s => by
    unfold restartLoop
    split_ifs
    · cases fuel with
      | zero => trivial
      | succ f =>
        dsimp only
        have hl := growthLoop_advised env inner inner s.resetRetained
        split
        · have ha := afterGrowth_advised env ‹MainState›
          split
          · exact restartLoop_advised env inner f _
          · trivial
          · exact ha
        · exact hl
    · trivial

theorem finishLocking_advised (s : MainState) (h : DynOk s.primme.dynamicMethodSwitch) :
    (finishLocking s).Advised := by
  unfold finishLocking
  have hr := recommendMethod_recommended s h
  split_ifs
  · refine Or.inl ?_
    rw [setANorm_dyn]
    exact hr
  · exact Or.inl hr

theorem finishNoLocking_advised (env : Env) (limit : Prop) [Decidable limit] (s : MainState)
    (h : DynOk s.primme.dynamicMethodSwitch) : (finishNoLocking env limit s).Advised := by
  unfold finishNoLocking
  dsimp only
  have hr := recommendMethod_recommended s.copyOut h
  split_ifs
  · refine Or.inl ?_
    rw [setANorm_dyn]
    exact hr
  · exact Or.inl hr
  · exact Or.inr (Or.inl rfl)
  · trivial
  · trivial

theorem verifyStep_trace (env : Env) (s : MainState) (h : (verifyStep env s).1 ≠ 0) :
    Call.verify_norms (verifyStep env s).1 ∈ (verifyStep env s).2.trace := by
  unfold verifyStep at h ⊢
  split_ifs at h ⊢ with h0
  · exact absurd rfl h
  · simp [MainState.log]

theorem afterRestartLoop_advised (env : Env) (s : MainState)
    (h : DynOk s.primme.dynamicMethodSwitch) : (afterRestartLoop env s).Advised := by
  unfold afterRestartLoop
  split_ifs with h1 h2
  · exact finishLocking_advised s h
  · exact Or.inr (Or.inr (Or.inr (Or.inr ⟨h2, verifyStep_trace env s h2⟩)))
  · refine finishNoLocking_advised env _ _ ?_
    exact DynReach_ok (verifyStep_kept env s).2.2 h

theorem outerStart_advised (env : Env) (s : MainState) : (outerStart env s).Advised := by
  unfold outerStart
  dsimp only
  split_ifs
  · exact Or.inr (Or.inr (Or.inl rfl))
  · trivial

theorem outerLoop_advised (env : Env) (inner : ℕ) :
    ∀ (fuel : ℕ) (s : MainState), DynOk s.primme.dynamicMethodSwitch →
      (outerLoop env inner fuel s).Advised
  | fuel, s, hd => by
    unfold outerLoop
    split_ifs
    · cases fuel with
      | zero => trivial
      | succ f =>
        dsimp only
        have hs := outerStart_advised env s
        have ks := outerStart_kept env s
        split
        · rename_i s1 h1
          rw [h1] at ks
          have hl := restartLoop_advised env inner inner s1
          have kl := restartLoop_loose env inner inner s1
          split
          · rename_i s2 h2
            rw [h2] at kl
            have hd2 : DynOk s2.primme.dynamicMethodSwitch :=
              DynReach_ok kl.2.2 (DynReach_ok ks.2.2 hd)
            have ha := afterRestartLoop_advised env s2 hd2
            have ka := afterRestartLoop_kept env s2
            split
            · rename_i s3 h3
              rw [h3] at ka
              exact outerLoop_advised env inner f s3 (DynReach_ok ka.2.2 hd2)
            · exact ha
          · exact hl
        · exact hs
    · trivial

/-- For a matrix of dimension 1 the quick return precedes all switching
code: with `dynamicMethodSwitch = 1` on entry the run returns 0 with
`dynamicMethodSwitch` still 1. -/
theorem quick_return_keeps_method :
    (main_iter_dprimme (demoEnv 0 0 0 1 0) 5
      (demoState { demoParams 1 1 0 0 with dynamicMethodSwitch := 1 })).code = some 0 ∧
    (main_iter_dprimme (demoEnv 0 0 0 1 0) 5
      (demoState { demoParams 1 1 0 0 with dynamicMethodSwitch := 1
        })).state.primme.dynamicMethodSwitch = 1 := by
  decide!

/-- C11 (evaluation at a failing input): `n = 3`, `numEvals = 2`, no locking,
`maxOuterIterations = 1`, `dynamicMethodSwitch = 1` on entry.  After one
growth step and one restart (after which `switch_from_GDpk` selects JDQMR,
state 2) one pair is converged and the final verification fails.  The
budget test of the outer loop ends the loop (`restartLimitReached` looks at
`maxMatvecs` only), and the driver returns 0 through the last `return 0` of
the function, which is not preceded by the recommendation statements:
`dynamicMethodSwitch` is 2 on return, not -1, -2 or -3.  A run that returns
0 from inside the outer loop ends with the recommendation -3. -/
theorem outer_budget_gives_no_recommendation :
    (demoState { demoParams 3 2 0 1 with dynamicMethodSwitch := 1
      }).primme.dynamicMethodSwitch = 1 ∧
    (outerLoop (demoEnv 0 0 1 1 0) 5 5 (entryState (demoEnv 0 0 1 1 0)
      (demoState { demoParams 3 2 0 1 with dynamicMethodSwitch := 1 }))).isCont = true ∧
    (main_iter_dprimme (demoEnv 0 0 1 1 0) 5
      (demoState { demoParams 3 2 0 1 with dynamicMethodSwitch := 1 })).code = some 0 ∧
    (main_iter_dprimme (demoEnv 0 0 1 1 0) 5
      (demoState { demoParams 3 2 0 1 with dynamicMethodSwitch := 1
        })).state.primme.dynamicMethodSwitch = 2 ∧
    ((main_iter_dprimme (demoEnv 0 0 1 1 0) 5
        (demoState { demoParams 3 2 0 1 with dynamicMethodSwitch := 1
          })).state.primme.stats.numOuterIterations,
      (main_iter_dprimme (demoEnv 0 0 1 1 0) 5
        (demoState { demoParams 3 2 0 1 with dynamicMethodSwitch := 1
          })).state.primme.stats.numRestarts,
      (main_iter_dprimme (demoEnv 0 0 1 1 0) 5
        (demoState { demoParams 3 2 0 1 with dynamicMethodSwitch := 1
          })).state.numConverged) = (1, 1, 1) ∧
    (main_iter_dprimme (demoEnv 1 0 1 1 0) 5
      (demoState { demoParams 3 1 0 0 with dynamicMethodSwitch := 1 })).code = some 0 ∧
    (main_iter_dprimme (demoEnv 1 0 1 1 0) 5
      (demoState { demoParams 3 1 0 0 with dynamicMethodSwitch := 1
        })).state.primme.dynamicMethodSwitch = -3 := by
  refine ⟨?_, ?_, ?_, ?_, ?_, ?_, ?_⟩ <;> decide!

/-- The return statements inside the outer loop give the recommendation: if
`dynamicMethodSwitch > 0` on entry and `n ≠ 1`, then whenever
`main_iter_dprimme` returns 0 or MAX_ITERATIONS_REACHED through a `return`
statement inside its outer loop (the code that follows the restart loop),
and the value MAX_ITERATIONS_REACHED is not an error code of `verify_norms`
handed on, `dynamicMethodSwitch` holds a terminal recommendation: -1, -2 or
-3. -/
theorem dynamic_recommendation (env : Env) (fuel : ℕ) (s : MainState) (c : ℤ)
    (hn : s.primme.n ≠ 1) (hdyn : 0 < s.primme.dynamicMethodSwitch)
    (hinit : ¬ ((setupDim2 (initCounters env s)).initBasis env).1 < 0)
    (hret : (outerLoop env fuel fuel (entryState env s)).retCode = some c)
    (hc : c = 0 ∨ c = MAX_ITERATIONS_REACHED)
    (hv : Call.verify_norms MAX_ITERATIONS_REACHED ∉
      (main_iter_dprimme env fuel s).state.trace) :
    (main_iter_dprimme env fuel s).code = some c ∧
    ((main_iter_dprimme env fuel s).state.primme.dynamicMethodSwitch = -1 ∨
      (main_iter_dprimme env fuel s).state.primme.dynamicMethodSwitch = -2 ∨
      (main_iter_dprimme env fuel s).state.primme.dynamicMethodSwitch = -3) := by
  have he := (entryState_outer env s).2.2 hdyn
  have hd : DynOk (entryState env s).primme.dynamicMethodSwitch := by
    rcases he with h | h
    · exact Or.inl h
    · exact Or.inr (Or.inr (Or.inl h))
  have ha := outerLoop_advised env fuel fuel (entryState env s) hd
  have hm : main_iter_dprimme env fuel s =
      match outerLoop env fuel fuel (entryState env s) with
      | Flow.cont s => Outcome.returned 0 (setANorm s)
      | Flow.brk s => Outcome.returned 0 (setANorm s)
      | Flow.ret code s => Outcome.returned code s
      | Flow.stuck s => Outcome.outOfFuel s := by
    unfold main_iter_dprimme
    dsimp only
    rw [if_neg (show ¬ (initCounters env s).primme.n = 1 from hn), if_neg hinit]
    all_goals rfl
  rw [hm] at hv ⊢
  cases hfl : outerLoop env fuel fuel (entryState env s) with
  | cont s1 => rw [hfl] at hret; cases hret
  | brk s1 => rw [hfl] at hret; cases hret
  | stuck s1 => rw [hfl] at hret; cases hret
  | ret code s1 =>
    rw [hfl] at hret ha hv
    have hcode : code = c := by
      cases hret
      rfl
    subst hcode
    refine ⟨rfl, ?_⟩
    rcases ha with h | h | h | h | ⟨hne, h⟩
    · exact h
    · rcases hc with e | e <;> rw [e] at h <;> exact absurd h (by decide)
    · rcases hc with e | e <;> rw [e] at h <;> exact absurd h (by decide)
    · rcases hc with e | e <;> rw [e] at h <;> exact absurd h (by decide)
    · rcases hc with e | e
      · exact absurd e hne
      · rw [e] at h
        exact absurd h hv

/-- A run of `dynamic_recommendation`: the driver returns 0 from inside the
outer loop with a recommendation. -/
theorem dynamic_recommendation_witness :
    (main_iter_dprimme (demoEnv 1 0 1 1 0) 5
      (demoState { demoParams 3 1 0 0 with dynamicMethodSwitch := 1 })).code = some 0 ∧
    ((main_iter_dprimme (demoEnv 1 0 1 1 0) 5
        (demoState { demoParams 3 1 0 0 with dynamicMethodSwitch := 1
          })).state.primme.dynamicMethodSwitch = -1 ∨
      (main_iter_dprimme (demoEnv 1 0 1 1 0) 5
        (demoState { demoParams 3 1 0 0 with dynamicMethodSwitch := 1
          })).state.primme.dynamicMethodSwitch = -2 ∨
      (main_iter_dprimme (demoEnv 1 0 1 1 0) 5
        (demoState { demoParams 3 1 0 0 with dynamicMethodSwitch := 1
          })).state.primme.dynamicMethodSwitch = -3) :=
  dynamic_recommendation (demoEnv 1 0 1 1 0) 5
    (demoState { demoParams 3 1 0 0 with dynamicMethodSwitch := 1 }) 0
    (by decide) (by decide) (by decide!) (by decide!) (Or.inl rfl) (by decide!)
/-! ## The candidate loop of `prepare_candidates_dprimme` -/

theorem rd_wr {α : Type} (a : ℕ → α) (b : ℤ) (v : α) (p : ℤ) (hp : 0 ≤ p) :
    rd (wr a b v) p = if p = b then v else rd a p := by
  unfold rd wr
  have h : ((p.toNat : ℕ) : ℤ) = p := Int.toNat_of_nonneg hp
  rw [h]

/-- The candidate loop with `k + 1` passes allowed is one pass of its body
followed by the loop with `k` passes allowed. -/
theorem candidateLoop_succ (nLocal ldV xOff rOff numEvals blockNormsSize maxBlockSize
    numLocked : ℤ) (targetShift : ℚ) (flagsBlock : IArr) (k : ℕ) (i blki : ℤ)
    (s : MainState) :
    candidateLoop nLocal ldV xOff rOff numEvals blockNormsSize maxBlockSize numLocked
        targetShift flagsBlock (k + 1) i blki s =
      if i < blockNormsSize ∧ s.blockSize < maxBlockSize then
        candidateLoop nLocal ldV xOff rOff numEvals blockNormsSize maxBlockSize numLocked
          targetShift flagsBlock k (i + 1) (blki + 1)
          (candidateStep nLocal ldV xOff rOff numEvals blockNormsSize maxBlockSize numLocked
            targetShift flagsBlock i blki s)
      else (blki, s) := by
  unfold candidateStep
  by_cases hg : i < blockNormsSize ∧ s.blockSize < maxBlockSize
  · rw [if_pos hg]
    rw [candidateLoop]
    rw [if_pos hg]
    show _ = candidateLoop nLocal ldV xOff rOff numEvals blockNormsSize maxBlockSize numLocked
      targetShift flagsBlock k (i + 1) (blki + 1)
      (candidateLoop nLocal ldV xOff rOff numEvals blockNormsSize maxBlockSize numLocked
        targetShift flagsBlock (0 + 1) i blki s).2
    rw [candidateLoop, if_pos hg, candidateLoop]
  · rw [if_neg hg]
    rw [candidateLoop]
    rw [if_neg hg]

theorem candidateStep_idle (nLocal ldV xOff rOff numEvals blockNormsSize maxBlockSize
    numLocked : ℤ) (targetShift : ℚ) (flagsBlock : IArr) (i blki : ℤ) (s : MainState)
    (hg : ¬ (i < blockNormsSize ∧ s.blockSize < maxBlockSize)) :
    candidateStep nLocal ldV xOff rOff numEvals blockNormsSize maxBlockSize numLocked
      targetShift flagsBlock i blki s = s := by
  unfold candidateStep
  rw [candidateLoop, if_neg hg]

/-- The body of the candidate loop on a candidate of the "Ignore some cases"
branch: only its flag is written back (and the ghost list extended). -/
theorem candidateStep_ignored (nLocal ldV xOff rOff numEvals blockNormsSize maxBlockSize
    numLocked : ℤ) (targetShift : ℚ) (flagsBlock : IArr) (i blki : ℤ) (s : MainState)
    (hg : i < blockNormsSize ∧ s.blockSize < maxBlockSize)
    (hign : (s.primme.target = primme_closest_leq
        ∧ rd s.hVals (rd s.iev blki) - rd s.blockNorms blki > targetShift) ∨
      (s.primme.target = primme_closest_geq
        ∧ rd s.hVals (rd s.iev blki) + rd s.blockNorms blki < targetShift)) :
    candidateStep nLocal ldV xOff rOff numEvals blockNormsSize maxBlockSize numLocked
        targetShift flagsBlock i blki s =
      { s with
        flags := wr s.flags (rd s.iev blki) (rd flagsBlock i)
        ignored := s.ignored ++ [rd s.iev blki] } := by
  unfold candidateStep
  rw [candidateLoop, if_pos hg, candidateLoop]
  dsimp only
  rw [if_pos hign]

/-- The body of the candidate loop on a candidate that is counted as newly
converged, when locking is off. -/
theorem candidateStep_counted (nLocal ldV xOff rOff numEvals blockNormsSize maxBlockSize
    numLocked : ℤ) (targetShift : ℚ) (flagsBlock : IArr) (i blki : ℤ) (s : MainState)
    (hg : i < blockNormsSize ∧ s.blockSize < maxBlockSize)
    (hign : ¬ ((s.primme.target = primme_closest_leq
        ∧ rd s.hVals (rd s.iev blki) - rd s.blockNorms blki > targetShift) ∨
      (s.primme.target = primme_closest_geq
        ∧ rd s.hVals (rd s.iev blki) + rd s.blockNorms blki < targetShift)))
    (hcnt : rd flagsBlock i ≠ UNCONVERGED ∧ s.recentlyConverged < numEvals ∧
      (rd s.iev blki < s.primme.numEvals - numLocked
        ∨ s.primme.target = primme_closest_geq ∨ s.primme.target = primme_closest_leq))
    (hl : s.primme.locking = 0) :
    candidateStep nLocal ldV xOff rOff numEvals blockNormsSize maxBlockSize numLocked
        targetShift flagsBlock i blki s =
      { s with
        flags := wr s.flags (rd s.iev blki) (rd flagsBlock i)
        evals := wr s.evals (rd s.iev blki) (rd s.hVals (rd s.iev blki))
        resNorms := wr s.resNorms (rd s.iev blki) (rd s.blockNorms blki)
        sh := { s.sh with maxConvTol := cmax s.sh.maxConvTol (rd s.blockNorms blki) }
        recentlyConverged := s.recentlyConverged + 1 } := by
  unfold candidateStep
  rw [candidateLoop, if_pos hg, candidateLoop]
  dsimp only
  rw [if_neg hign, if_pos hcnt, if_pos hl]

/-- The body of the candidate loop on a candidate that is counted as newly
converged, when locking is on. -/
theorem candidateStep_counted_locking (nLocal ldV xOff rOff numEvals blockNormsSize
    maxBlockSize numLocked : ℤ) (targetShift : ℚ) (flagsBlock : IArr) (i blki : ℤ)
    (s : MainState)
    (hg : i < blockNormsSize ∧ s.blockSize < maxBlockSize)
    (hign : ¬ ((s.primme.target = primme_closest_leq
        ∧ rd s.hVals (rd s.iev blki) - rd s.blockNorms blki > targetShift) ∨
      (s.primme.target = primme_closest_geq
        ∧ rd s.hVals (rd s.iev blki) + rd s.blockNorms blki < targetShift)))
    (hcnt : rd flagsBlock i ≠ UNCONVERGED ∧ s.recentlyConverged < numEvals ∧
      (rd s.iev blki < s.primme.numEvals - numLocked
        ∨ s.primme.target = primme_closest_geq ∨ s.primme.target = primme_closest_leq))
    (hl : s.primme.locking ≠ 0) :
    candidateStep nLocal ldV xOff rOff numEvals blockNormsSize maxBlockSize numLocked
        targetShift flagsBlock i blki s =
      { s with
        flags := wr s.flags (rd s.iev blki) (rd flagsBlock i)
        recentlyConverged := s.recentlyConverged + 1 } := by
  unfold candidateStep
  rw [candidateLoop, if_pos hg, candidateLoop]
  dsimp only
  rw [if_neg hign, if_pos hcnt, if_neg hl]

/-- The body of the candidate loop on an unconverged candidate that is
neither ignored nor counted: it is kept in the block. -/
theorem candidateStep_kept (nLocal ldV xOff rOff numEvals blockNormsSize maxBlockSize
    numLocked : ℤ) (targetShift : ℚ) (flagsBlock : IArr) (i blki : ℤ) (s : MainState)
    (hg : i < blockNormsSize ∧ s.blockSize < maxBlockSize)
    (hign : ¬ ((s.primme.target = primme_closest_leq
        ∧ rd s.hVals (rd s.iev blki) - rd s.blockNorms blki > targetShift) ∨
      (s.primme.target = primme_closest_geq
        ∧ rd s.hVals (rd s.iev blki) + rd s.blockNorms blki < targetShift)))
    (hcnt : ¬ (rd flagsBlock i ≠ UNCONVERGED ∧ s.recentlyConverged < numEvals ∧
      (rd s.iev blki < s.primme.numEvals - numLocked
        ∨ s.primme.target = primme_closest_geq ∨ s.primme.target = primme_closest_leq)))
    (hu : rd flagsBlock i = UNCONVERGED) :
    candidateStep nLocal ldV xOff rOff numEvals blockNormsSize maxBlockSize numLocked
        targetShift flagsBlock i blki s =
      { s with
        flags := wr s.flags (rd s.iev blki) (rd flagsBlock i)
        blockNorms := wr s.blockNorms s.blockSize (rd s.blockNorms blki)
        iev := wr s.iev s.blockSize (rd s.iev blki)
        V := Num_copy_matrix_dprimme s.V (xOff + blki * ldV) nLocal 1 ldV
          s.V (xOff + s.blockSize * ldV) ldV
        W := Num_copy_matrix_dprimme s.W (rOff + blki * ldV) nLocal 1 ldV
          s.W (rOff + s.blockSize * ldV) ldV
        blockSize := s.blockSize + 1 } := by
  unfold candidateStep
  rw [candidateLoop, if_pos hg, candidateLoop]
  dsimp only
  rw [if_neg hign, if_neg hcnt, if_pos hu]

/-- The body of the candidate loop on a converged candidate that is neither
ignored nor counted: only its flag is written back. -/
theorem candidateStep_dropped (nLocal ldV xOff rOff numEvals blockNormsSize maxBlockSize
    numLocked : ℤ) (targetShift : ℚ) (flagsBlock : IArr) (i blki : ℤ) (s : MainState)
    (hg : i < blockNormsSize ∧ s.blockSize < maxBlockSize)
    (hign : ¬ ((s.primme.target = primme_closest_leq
        ∧ rd s.hVals (rd s.iev blki) - rd s.blockNorms blki > targetShift) ∨
      (s.primme.target = primme_closest_geq
        ∧ rd s.hVals (rd s.iev blki) + rd s.blockNorms blki < targetShift)))
    (hcnt : ¬ (rd flagsBlock i ≠ UNCONVERGED ∧ s.recentlyConverged < numEvals ∧
      (rd s.iev blki < s.primme.numEvals - numLocked
        ∨ s.primme.target = primme_closest_geq ∨ s.primme.target = primme_closest_leq)))
    (hu : rd flagsBlock i ≠ UNCONVERGED) :
    candidateStep nLocal ldV xOff rOff numEvals blockNormsSize maxBlockSize numLocked
        targetShift flagsBlock i blki s =
      { s with flags := wr s.flags (rd s.iev blki) (rd flagsBlock i) } := by
  unfold candidateStep
  rw [candidateLoop, if_pos hg, candidateLoop]
  dsimp only
  rw [if_neg hign, if_neg hcnt, if_neg hu]

theorem CandFrame_refl (s : MainState) : CandFrame s s :=
  ⟨rfl, rfl, rfl, rfl, rfl, rfl, rfl, rfl, rfl, fun _ => ⟨rfl, rfl⟩⟩

theorem CandFrame_trans {a b c : MainState} (h1 : CandFrame a b) (h2 : CandFrame b c) :
    CandFrame a c := by
  obtain ⟨a1, a2, a3, a4, a5, a6, a7, a8, a9, a10⟩ := h1
  obtain ⟨b1, b2, b3, b4, b5, b6, b7, b8, b9, b10⟩ := h2
  refine ⟨b1.trans a1, b2.trans a2, b3.trans a3, b4.trans a4, b5.trans a5, b6.trans a6,
    b7.trans a7, b8.trans a8, b9.trans a9, ?_⟩
  intro hl
  have hl' : b.primme.locking ≠ 0 := by
    rw [a1]
    exact hl
  exact ⟨(b10 hl').1.trans (a10 hl).1, (b10 hl').2.trans (a10 hl).2⟩

/-- Summary of one pass of the candidate loop. -/
theorem candidateStep_summary (nLocal ldV xOff rOff numEvals blockNormsSize maxBlockSize
    numLocked : ℤ) (targetShift : ℚ) (flagsBlock : IArr) (i blki : ℤ) (s : MainState)
    (hg : i < blockNormsSize ∧ s.blockSize < maxBlockSize) :
    CandFrame s (candidateStep nLocal ldV xOff rOff numEvals blockNormsSize maxBlockSize
      numLocked targetShift flagsBlock i blki s) ∧
    ((candidateStep nLocal ldV xOff rOff numEvals blockNormsSize maxBlockSize
        numLocked targetShift flagsBlock i blki s).recentlyConverged = s.recentlyConverged ∨
      (s.recentlyConverged < numEvals ∧
        (candidateStep nLocal ldV xOff rOff numEvals blockNormsSize maxBlockSize
          numLocked targetShift flagsBlock i blki s).recentlyConverged
            = s.recentlyConverged + 1)) ∧
    StepShape blki s (candidateStep nLocal ldV xOff rOff numEvals blockNormsSize maxBlockSize
      numLocked targetShift flagsBlock i blki s) := by
  by_cases hign : (s.primme.target = primme_closest_leq
        ∧ rd s.hVals (rd s.iev blki) - rd s.blockNorms blki > targetShift) ∨
      (s.primme.target = primme_closest_geq
        ∧ rd s.hVals (rd s.iev blki) + rd s.blockNorms blki < targetShift)
  · rw [candidateStep_ignored _ _ _ _ _ _ _ _ _ _ _ _ _ hg hign]
    exact ⟨⟨rfl, rfl, rfl, rfl, rfl, rfl, rfl, rfl, rfl, fun _ => ⟨rfl, rfl⟩⟩, Or.inl rfl,
      Or.inl ⟨rfl, rfl, Or.inr rfl⟩⟩
  · by_cases hcnt : rd flagsBlock i ≠ UNCONVERGED ∧ s.recentlyConverged < numEvals ∧
      (rd s.iev blki < s.primme.numEvals - numLocked
        ∨ s.primme.target = primme_closest_geq ∨ s.primme.target = primme_closest_leq)
    · by_cases hl : s.primme.locking = 0
      · rw [candidateStep_counted _ _ _ _ _ _ _ _ _ _ _ _ _ hg hign hcnt hl]
        exact ⟨⟨rfl, rfl, rfl, rfl, rfl, rfl, rfl, rfl, rfl, fun h => absurd hl h⟩,
          Or.inr ⟨hcnt.2.1, rfl⟩, Or.inl ⟨rfl, rfl, Or.inl rfl⟩⟩
      · rw [candidateStep_counted_locking _ _ _ _ _ _ _ _ _ _ _ _ _ hg hign hcnt hl]
        exact ⟨⟨rfl, rfl, rfl, rfl, rfl, rfl, rfl, rfl, rfl, fun _ => ⟨rfl, rfl⟩⟩,
          Or.inr ⟨hcnt.2.1, rfl⟩, Or.inl ⟨rfl, rfl, Or.inl rfl⟩⟩
    · by_cases hu : rd flagsBlock i = UNCONVERGED
      · rw [candidateStep_kept _ _ _ _ _ _ _ _ _ _ _ _ _ hg hign hcnt hu]
        exact ⟨⟨rfl, rfl, rfl, rfl, rfl, rfl, rfl, rfl, rfl, fun _ => ⟨rfl, rfl⟩⟩, Or.inl rfl,
          Or.inr ⟨rfl, rfl, rfl⟩⟩
      · rw [candidateStep_dropped _ _ _ _ _ _ _ _ _ _ _ _ _ hg hign hcnt hu]
        exact ⟨⟨rfl, rfl, rfl, rfl, rfl, rfl, rfl, rfl, rfl, fun _ => ⟨rfl, rfl⟩⟩, Or.inl rfl,
          Or.inl ⟨rfl, rfl, Or.inl rfl⟩⟩

theorem candidateLoop_frame (nLocal ldV xOff rOff numEvals blockNormsSize maxBlockSize
    numLocked : ℤ) (targetShift : ℚ) (flagsBlock : IArr) :
    ∀ (k : ℕ) (i blki : ℤ) (s : MainState),
      CandFrame s (candidateLoop nLocal ldV xOff rOff numEvals blockNormsSize maxBlockSize
        numLocked targetShift flagsBlock k i blki s).2 ∧
      (s.recentlyConverged ≤ max 0 numEvals →
        (candidateLoop nLocal ldV xOff rOff numEvals blockNormsSize maxBlockSize
          numLocked targetShift flagsBlock k i blki s).2.recentlyConverged ≤ max 0 numEvals)
  | 0, _, _, s => by
    rw [candidateLoop]
    exact ⟨CandFrame_refl s, fun h => h⟩
  | k + 1, i, blki, s => by
    rw [candidateLoop_succ]
    split_ifs with hg
    · obtain ⟨hf, hrc, _⟩ := candidateStep_summary nLocal ldV xOff rOff numEvals
        blockNormsSize maxBlockSize numLocked targetShift flagsBlock i blki s hg
      obtain ⟨ihf, ihrc⟩ := candidateLoop_frame nLocal ldV xOff rOff numEvals
        blockNormsSize maxBlockSize numLocked targetShift flagsBlock k (i + 1) (blki + 1)
        (candidateStep nLocal ldV xOff rOff numEvals blockNormsSize maxBlockSize
          numLocked targetShift flagsBlock i blki s)
      refine ⟨CandFrame_trans hf ihf, fun h => ihrc ?_⟩
      rcases hrc with e | ⟨hlt, e⟩
      · rw [e]
        exact h
      · rw [e]
        exact le_max_of_le_right (by omega)
    · exact ⟨CandFrame_refl s, fun h => h⟩

theorem CandFrame_of_eq {s s' : MainState} (h1 : s'.primme = s.primme)
    (h2 : s'.hVals = s.hVals) (h3 : s'.numConverged = s.numConverged)
    (h4 : s'.numLocked = s.numLocked)
    (h5 : s'.maxRecentlyConverged = s.maxRecentlyConverged)
    (h6 : s'.availableBlockSize = s.availableBlockSize) (h7 : s'.basisSize = s.basisSize)
    (h8 : s'.targetShiftIndex = s.targetShiftIndex) (h9 : s'.trace = s.trace)
    (h10 : s'.evals = s.evals) (h11 : s'.resNorms = s.resNorms) : CandFrame s s' :=
  ⟨h1, h2, h3, h4, h5, h6, h7, h8, h9, fun _ => ⟨h10, h11⟩⟩

theorem candidatesCheck_frame (env : Env) (ldV xOff rOff numLocked blockNormsSize : ℤ)
    (hValsBlock : Arr) (s : MainState) :
    CandFrame s (candidatesCheck env ldV xOff rOff numLocked blockNormsSize hValsBlock s).2 :=
  CandFrame_of_eq rfl rfl rfl rfl rfl rfl rfl rfl rfl rfl rfl

theorem candidatesPrepareVecs_frame (env : Env) (basisSize maxBlockSize targetShiftIndex i : ℤ)
    (s : MainState) :
    CandFrame s (candidatesPrepareVecs env basisSize maxBlockSize targetShiftIndex i s) :=
  CandFrame_of_eq rfl rfl rfl rfl rfl rfl rfl rfl rfl rfl rfl

theorem candidatesScan_frame (basisSize maxBlockSize i : ℤ) (s : MainState) :
    CandFrame s (candidatesScan basisSize maxBlockSize i s).2 :=
  CandFrame_of_eq rfl rfl rfl rfl rfl rfl rfl rfl rfl rfl rfl

theorem candidatesResiduals_frame (env : Env) (nLocal basisSize ldV xOff rOff ldhVecs
    blockNormsSize : ℤ) (s : MainState) :
    CandFrame s
      (candidatesResiduals env nLocal basisSize ldV xOff rOff ldhVecs blockNormsSize s).2 :=
  CandFrame_of_eq rfl rfl rfl rfl rfl rfl rfl rfl rfl rfl rfl

theorem candidatesSmallest_frame (env : Env) (blockNormsSize : ℤ) (s : MainState) :
    CandFrame s (candidatesSmallest env blockNormsSize s) ∧
    (candidatesSmallest env blockNormsSize s).recentlyConverged = s.recentlyConverged ∧
    (candidatesSmallest env blockNormsSize s).iev = s.iev ∧
    (candidatesSmallest env blockNormsSize s).blockSize = s.blockSize ∧
    (candidatesSmallest env blockNormsSize s).ignored = s.ignored ∧
    (candidatesSmallest env blockNormsSize s).blockNorms = s.blockNorms := by
  unfold candidatesSmallest
  dsimp only
  split_ifs <;>
    exact ⟨CandFrame_of_eq rfl rfl rfl rfl rfl rfl rfl rfl rfl rfl rfl, rfl, rfl, rfl, rfl, rfl⟩

theorem candidatesWhile_frame (env : Env) (nLocal basisSize ldV xOff rOff ldhVecs numEvals
    maxBlockSize numLocked targetShiftIndex : ℤ) (targetShift : ℚ) :
    ∀ (fuel : ℕ) (blockNormsSize : ℤ) (hValsBlock : Arr) (s : MainState) (r : ℤ × MainState),
      candidatesWhile env nLocal basisSize ldV xOff rOff ldhVecs numEvals maxBlockSize
        numLocked targetShiftIndex targetShift fuel blockNormsSize hValsBlock s = some r →
      CandFrame s r.2 ∧
        (s.recentlyConverged ≤ max 0 numEvals → r.2.recentlyConverged ≤ max 0 numEvals)
  | 0, _, _, _, _, h => by
    unfold candidatesWhile at h
    cases h
  | fuel + 1, blockNormsSize, hValsBlock, s, r, h => by
    unfold candidatesWhile at h
    dsimp only at h
    have h1 := candidatesCheck_frame env ldV xOff rOff numLocked blockNormsSize hValsBlock s
    have hh0 : s.recentlyConverged ≤ max 0 numEvals →
        (candidatesCheck env ldV xOff rOff numLocked blockNormsSize hValsBlock
          s).2.recentlyConverged ≤ max 0 numEvals := fun hh => hh
    generalize candidatesCheck env ldV xOff rOff numLocked blockNormsSize hValsBlock s = c
      at h h1 hh0
    have hl := candidateLoop_frame nLocal ldV xOff rOff numEvals blockNormsSize
        maxBlockSize numLocked targetShift c.2.iwork blockNormsSize.toNat 0 c.2.blockSize c.2
    generalize candidateLoop nLocal ldV xOff rOff numEvals blockNormsSize
        maxBlockSize numLocked targetShift c.2.iwork blockNormsSize.toNat 0 c.2.blockSize c.2
        = rr at h hl
    have hp := candidatesPrepareVecs_frame env basisSize maxBlockSize targetShiftIndex
      (candidatesResume rr.1 rr.2.iev) rr.2
    have hpr : (candidatesPrepareVecs env basisSize maxBlockSize targetShiftIndex
      (candidatesResume rr.1 rr.2.iev) rr.2).recentlyConverged = rr.2.recentlyConverged := rfl
    generalize candidatesPrepareVecs env basisSize maxBlockSize targetShiftIndex
      (candidatesResume rr.1 rr.2.iev) rr.2 = pv at h hp hpr
    have hs := candidatesScan_frame basisSize maxBlockSize (candidatesResume rr.1 rr.2.iev) pv
    have hsr : (candidatesScan basisSize maxBlockSize (candidatesResume rr.1 rr.2.iev)
      pv).2.recentlyConverged = pv.recentlyConverged := rfl
    generalize candidatesScan basisSize maxBlockSize (candidatesResume rr.1 rr.2.iev) pv = sc
      at h hs hsr
    have hu := candidatesResiduals_frame env nLocal basisSize ldV xOff rOff ldhVecs
      (sc.1 - sc.2.blockSize) sc.2
    have hur : (candidatesResiduals env nLocal basisSize ldV xOff rOff ldhVecs
      (sc.1 - sc.2.blockSize) sc.2).2.recentlyConverged = sc.2.recentlyConverged := rfl
    generalize candidatesResiduals env nLocal basisSize ldV xOff rOff ldhVecs
      (sc.1 - sc.2.blockSize) sc.2 = u at h hu hur
    have h2 := CandFrame_trans h1 hl.1
    have h3 := CandFrame_trans h2 (CandFrame_trans hp hs)
    have h4 := CandFrame_trans h3 hu
    split at h
    · cases h
      exact ⟨h1, fun hh => hh0 hh⟩
    · split at h
      · cases h
        exact ⟨h3, fun hh => by rw [hsr, hpr]; exact hl.2 (hh0 hh)⟩
      · split at h
        · cases h
          exact ⟨h4, fun hh => by rw [hur, hsr, hpr]; exact hl.2 (hh0 hh)⟩
        · have ih := candidatesWhile_frame env nLocal basisSize ldV xOff rOff ldhVecs numEvals
            maxBlockSize numLocked targetShiftIndex targetShift fuel _ _ _ r h
          refine ⟨CandFrame_trans (CandFrame_trans h4 (candidatesSmallest_frame _ _ _).1) ih.1,
            fun hh => ih.2 ?_⟩
          rw [(candidatesSmallest_frame _ _ _).2.1, hur, hsr, hpr]
          exact hl.2 (hh0 hh)

/-- Frame of `prepare_candidates_dprimme`, and the bound `recentlyConverged ≤
max(0, numEvals)` on the number of pairs it counts (`numEvals` being its own
parameter, the remaining number of pairs wanted). -/
theorem prepare_candidates_frame (env : Env) (fuel : ℕ) (s : MainState)
    (nLocal basisSize ldV xOff rOff ldhVecs numEvals blockNormsSize maxBlockSize
      numLocked targetShiftIndex : ℤ) (r : ℤ × MainState)
    (h : prepare_candidates_dprimme env fuel s nLocal basisSize ldV xOff rOff ldhVecs numEvals
      blockNormsSize maxBlockSize numLocked targetShiftIndex = some r) :
    CandFrame s r.2 ∧ r.2.recentlyConverged ≤ max 0 numEvals := by
  unfold prepare_candidates_dprimme at h
  dsimp only at h
  have hw := candidatesWhile_frame _ _ _ _ _ _ _ _ _ _ _ _ _ _ _ _ r h
  constructor
  · refine CandFrame_trans ?_ hw.1
    split_ifs <;> exact CandFrame_of_eq rfl rfl rfl rfl rfl rfl rfl rfl rfl rfl rfl
  · apply hw.2
    split_ifs <;> exact le_max_left _ _
/-! ## The block of `prepare_candidates_dprimme` and the ignored candidates -/

theorem CandInv_step {L0 : List ℤ} {iev : IArr} {b : ℤ} {ign : List ℤ} {blki hi F : ℤ}
    (h : CandInv L0 iev b ign blki hi F) (hlt : blki < hi)
    {iev' : IArr} {b' : ℤ} {ign' : List ℤ}
    (hs : (iev' = iev ∧ b' = b ∧ (ign' = ign ∨ ign' = ign ++ [rd iev blki])) ∨
      (iev' = wr iev b (rd iev blki) ∧ b' = b + 1 ∧ ign' = ign)) :
    CandInv L0 iev' b' ign' (blki + 1) hi (rd iev blki + 1) ∧ rd iev' blki = rd iev blki := by
  obtain ⟨⟨hb0, hkept, l, hl, hlF, hfree⟩, hble, hreg, hinc⟩ := h
  have hF : F ≤ rd iev blki := hreg blki le_rfl hlt
  have hreg' : ∀ q : ℤ, blki + 1 ≤ q → q < hi → rd iev blki + 1 ≤ rd iev q := by
    intro q h1 h2
    have := hinc blki q le_rfl (by omega) h2
    omega
  have hinc' : Increasing iev (blki + 1) hi := by
    intro p q h1 h2 h3
    exact hinc p q (by omega) h2 h3
  rcases hs with ⟨e1, e2, e3⟩ | ⟨e1, e2, e3⟩
  · subst e1 e2
    refine ⟨⟨⟨hb0, ?_, ?_⟩, by omega, hreg', hinc'⟩, rfl⟩
    · intro p h1 h2
      have := hkept p h1 h2
      omega
    · rcases e3 with e3 | e3
      · subst e3
        refine ⟨l, hl, ?_, hfree⟩
        intro j hj
        have := hlF j hj
        omega
      · subst e3
        refine ⟨l ++ [rd iev' blki], by rw [hl, List.append_assoc], ?_, ?_⟩
        · intro j hj
          rcases List.mem_append.mp hj with hj | hj
          · have := hlF j hj
            omega
          · rw [List.mem_singleton] at hj
            omega
        · intro j hj p h1 h2
          rcases List.mem_append.mp hj with hj | hj
          · exact hfree j hj p h1 h2
          · rw [List.mem_singleton] at hj
            have := hkept p h1 h2
            omega
  · subst e1 e2 e3
    have hrd : ∀ p : ℤ, 0 ≤ p → rd (wr iev b (rd iev blki)) p
        = if p = b then rd iev blki else rd iev p := fun p hp => rd_wr iev b _ p hp
    refine ⟨⟨⟨by omega, ?_, l, hl, ?_, ?_⟩, by omega, ?_, ?_⟩, ?_⟩
    · intro p h1 h2
      rw [hrd p h1]
      split_ifs with hp
      · omega
      · have := hkept p h1 (by omega)
        omega
    · intro j hj
      have := hlF j hj
      omega
    · intro j hj p h1 h2
      rw [hrd p h1]
      split_ifs with hp
      · have := hlF j hj
        omega
      · exact hfree j hj p h1 (by omega)
    · intro q h1 h2
      rw [hrd q (by omega), if_neg (by omega)]
      exact hreg' q h1 h2
    · intro p q h1 h2 h3
      rw [hrd p (by omega), if_neg (by omega), hrd q (by omega), if_neg (by omega)]
      exact hinc' p q h1 h2 h3
    · rw [hrd blki (by omega)]
      split_ifs <;> rfl

theorem candidateLoop_inv (nLocal ldV xOff rOff numEvals blockNormsSize maxBlockSize
    numLocked : ℤ) (targetShift : ℚ) (flagsBlock : IArr) (L0 : List ℤ) (hi : ℤ) :
    ∀ (k : ℕ) (i blki : ℤ) (s : MainState) (F : ℤ),
      hi = blki + (blockNormsSize - i) →
      CandInv L0 s.iev s.blockSize s.ignored blki hi F →
      (((candidateLoop nLocal ldV xOff rOff numEvals blockNormsSize maxBlockSize numLocked
            targetShift flagsBlock k i blki s).1 = blki ∧
          (candidateLoop nLocal ldV xOff rOff numEvals blockNormsSize maxBlockSize numLocked
            targetShift flagsBlock k i blki s).2.iev = s.iev ∧
          (candidateLoop nLocal ldV xOff rOff numEvals blockNormsSize maxBlockSize numLocked
            targetShift flagsBlock k i blki s).2.blockSize = s.blockSize ∧
          (candidateLoop nLocal ldV xOff rOff numEvals blockNormsSize maxBlockSize numLocked
            targetShift flagsBlock k i blki s).2.ignored = s.ignored) ∨
        (blki < (candidateLoop nLocal ldV xOff rOff numEvals blockNormsSize maxBlockSize
            numLocked targetShift flagsBlock k i blki s).1 ∧
          CandInv L0
            (candidateLoop nLocal ldV xOff rOff numEvals blockNormsSize maxBlockSize numLocked
              targetShift flagsBlock k i blki s).2.iev
            (candidateLoop nLocal ldV xOff rOff numEvals blockNormsSize maxBlockSize numLocked
              targetShift flagsBlock k i blki s).2.blockSize
            (candidateLoop nLocal ldV xOff rOff numEvals blockNormsSize maxBlockSize numLocked
              targetShift flagsBlock k i blki s).2.ignored
            (candidateLoop nLocal ldV xOff rOff numEvals blockNormsSize maxBlockSize numLocked
              targetShift flagsBlock k i blki s).1 hi
            (rd (candidateLoop nLocal ldV xOff rOff numEvals blockNormsSize maxBlockSize
                numLocked targetShift flagsBlock k i blki s).2.iev
              ((candidateLoop nLocal ldV xOff rOff numEvals blockNormsSize maxBlockSize
                numLocked targetShift flagsBlock k i blki s).1 - 1) + 1))) ∧
      (0 < k → i < blockNormsSize → s.blockSize < maxBlockSize →
        blki < (candidateLoop nLocal ldV xOff rOff numEvals blockNormsSize maxBlockSize
          numLocked targetShift flagsBlock k i blki s).1)
  | 0, i, blki, s, F, _, _ => by
    rw [candidateLoop]
    exact ⟨Or.inl ⟨rfl, rfl, rfl, rfl⟩, fun h => absurd h (lt_irrefl 0)⟩
  | k + 1, i, blki, s, F, hhi, hinv => by
    rw [candidateLoop_succ]
    split_ifs with hg
    · obtain ⟨_, _, hshape⟩ := candidateStep_summary nLocal ldV xOff rOff numEvals
        blockNormsSize maxBlockSize numLocked targetShift flagsBlock i blki s hg
      have hlt : blki < hi := by
        have := hg.1
        omega
      obtain ⟨hinv', hlast⟩ := CandInv_step hinv hlt hshape
      obtain ⟨ih, _⟩ := candidateLoop_inv nLocal ldV xOff rOff numEvals
        blockNormsSize maxBlockSize numLocked targetShift flagsBlock L0 hi k (i + 1) (blki + 1)
        (candidateStep nLocal ldV xOff rOff numEvals blockNormsSize maxBlockSize
          numLocked targetShift flagsBlock i blki s) (rd s.iev blki + 1) (by omega) hinv'
      generalize candidateLoop nLocal ldV xOff rOff numEvals blockNormsSize maxBlockSize
        numLocked targetShift flagsBlock k (i + 1) (blki + 1)
        (candidateStep nLocal ldV xOff rOff numEvals blockNormsSize maxBlockSize
          numLocked targetShift flagsBlock i blki s) = r at ih
      generalize candidateStep nLocal ldV xOff rOff numEvals blockNormsSize maxBlockSize
          numLocked targetShift flagsBlock i blki s = t at ih hinv' hlast
      rcases ih with ⟨e1, e2, e3, e4⟩ | ⟨h1, h2⟩
      · refine ⟨Or.inr ⟨by omega, ?_⟩, fun _ _ _ => by omega⟩
        rw [e1, e2, e3, e4]
        have : blki + 1 - 1 = blki := by omega
        rw [this, hlast]
        exact hinv'
      · exact ⟨Or.inr ⟨by omega, h2⟩, fun _ _ _ => by omega⟩
    · refine ⟨Or.inl ⟨rfl, rfl, rfl, rfl⟩, fun _ h1 h2 => absurd ⟨h1, h2⟩ hg⟩

/-- The scan for the next candidates: it appends, from position `blki` on,
strictly increasing indices not below `i`, each of them below `basisSize` and
flagged UNCONVERGED, and leaves the positions before `blki` alone. -/
theorem scanLoop_spec (basisSize maxBlockSize : ℤ) (flags : IArr) :
    ∀ (k : ℕ) (i blki : ℤ) (iev : IArr), 0 ≤ blki →
      blki ≤ (scanLoop basisSize maxBlockSize flags k i blki iev).1 ∧
      (blki < (scanLoop basisSize maxBlockSize flags k i blki iev).1 → blki < maxBlockSize) ∧
      (blki ≤ maxBlockSize →
        (scanLoop basisSize maxBlockSize flags k i blki iev).1 ≤ maxBlockSize) ∧
      (∀ p : ℤ, 0 ≤ p → p < blki →
        rd (scanLoop basisSize maxBlockSize flags k i blki iev).2 p = rd iev p) ∧
      (∀ q : ℤ, blki ≤ q → q < (scanLoop basisSize maxBlockSize flags k i blki iev).1 →
        i ≤ rd (scanLoop basisSize maxBlockSize flags k i blki iev).2 q ∧
        rd (scanLoop basisSize maxBlockSize flags k i blki iev).2 q < basisSize ∧
        rd flags (rd (scanLoop basisSize maxBlockSize flags k i blki iev).2 q) = UNCONVERGED) ∧
      Increasing (scanLoop basisSize maxBlockSize flags k i blki iev).2 blki
        (scanLoop basisSize maxBlockSize flags k i blki iev).1
  | 0, i, blki, iev, _ => by
    rw [scanLoop]
    refine ⟨le_rfl, fun h => absurd h (lt_irrefl _), fun h => h, fun _ _ _ => rfl, ?_, ?_⟩
    · intro q h1 h2
      omega
    · intro p q h1 h2 h3
      omega
  | k + 1, i, blki, iev, hb => by
    rw [scanLoop]
    split_ifs with hg hf
    · obtain ⟨a1, a2, a3, a4, a5, a6⟩ :=
        scanLoop_spec basisSize maxBlockSize flags k (i + 1) (blki + 1) (wr iev blki i)
          (by omega)
      generalize scanLoop basisSize maxBlockSize flags k (i + 1) (blki + 1) (wr iev blki i) = r
        at a1 a2 a3 a4 a5 a6
      have hat : rd r.2 blki = i := by
        rw [a4 blki hb (by omega), rd_wr iev blki i blki hb, if_pos rfl]
      refine ⟨by omega, fun _ => hg.2, fun _ => a3 (by omega), ?_, ?_, ?_⟩
      · intro p h1 h2
        rw [a4 p h1 (by omega), rd_wr iev blki i p h1, if_neg (by omega)]
      · intro q h1 h2
        by_cases hq : q = blki
        · rw [hq, hat]
          exact ⟨le_rfl, hg.1, hf⟩
        · obtain ⟨b1, b2, b3⟩ := a5 q (by omega) h2
          exact ⟨by omega, b2, b3⟩
      · intro p q h1 h2 h3
        by_cases hp : p = blki
        · rw [hp, hat]
          have := (a5 q (by omega) h3).1
          omega
        · exact a6 p q (by omega) h2 h3
    · obtain ⟨a1, a2, a3, a4, a5, a6⟩ :=
        scanLoop_spec basisSize maxBlockSize flags k (i + 1) blki iev hb
      refine ⟨a1, a2, a3, a4, ?_, a6⟩
      intro q h1 h2
      obtain ⟨b1, b2, b3⟩ := a5 q h1 h2
      exact ⟨by omega, b2, b3⟩
    · refine ⟨le_rfl, fun h => absurd h (lt_irrefl _), fun h => h, fun _ _ _ => rfl, ?_, ?_⟩
      · intro q h1 h2
        omega
      · intro p q h1 h2 h3
        omega

theorem BlockInv_mono {L0 : List ℤ} {iev : IArr} {b : ℤ} {ign : List ℤ} {F F' : ℤ}
    (h : BlockInv L0 iev b ign F) (hF : F ≤ F') : BlockInv L0 iev b ign F' := by
  obtain ⟨h0, hk, l, hl, hlF, hfree⟩ := h
  refine ⟨h0, fun p h1 h2 => lt_of_lt_of_le (hk p h1 h2) hF, l, hl, ?_, hfree⟩
  intro j hj
  exact lt_of_lt_of_le (hlF j hj) hF

theorem BlockInv_scan {L0 : List ℤ} {iev iev' : IArr} {b : ℤ} {ign : List ℤ} {F : ℤ}
    (h : BlockInv L0 iev b ign F) (he : ∀ p : ℤ, 0 ≤ p → p < b → rd iev' p = rd iev p) :
    BlockInv L0 iev' b ign F := by
  obtain ⟨h0, hk, l, hl, hlF, hfree⟩ := h
  refine ⟨h0, ?_, l, hl, hlF, ?_⟩
  · intro p h1 h2
    rw [he p h1 h2]
    exact hk p h1 h2
  · intro j hj p h1 h2
    rw [he p h1 h2]
    exact hfree j hj p h1 h2

theorem candidatesWhile_inv (env : Env) (nLocal basisSize ldV xOff rOff ldhVecs numEvals
    maxBlockSize numLocked targetShiftIndex : ℤ) (targetShift : ℚ) (L0 : List ℤ) :
    ∀ (fuel : ℕ) (blockNormsSize : ℤ) (hValsBlock : Arr) (s : MainState) (F : ℤ)
      (r : ℤ × MainState),
      CandInv L0 s.iev s.blockSize s.ignored s.blockSize (s.blockSize + blockNormsSize) F →
      ((s.blockSize = 0 ∧ F ≤ 0) ∨ (1 ≤ blockNormsSize ∧ s.blockSize < maxBlockSize)) →
      candidatesWhile env nLocal basisSize ldV xOff rOff ldhVecs numEvals maxBlockSize
        numLocked targetShiftIndex targetShift fuel blockNormsSize hValsBlock s = some r →
      ∃ F', BlockInv L0 r.2.iev r.2.blockSize r.2.ignored F'
  | 0, _, _, _, _, _, _, _, h => by
    unfold candidatesWhile at h
    cases h
  | fuel + 1, blockNormsSize, hValsBlock, s, F, r, hinv, hfirst, h => by
    unfold candidatesWhile at h
    dsimp only at h
    have c1 : (candidatesCheck env ldV xOff rOff numLocked blockNormsSize hValsBlock s).2.iev
      = s.iev := rfl
    have c2 : (candidatesCheck env ldV xOff rOff numLocked blockNormsSize hValsBlock
      s).2.blockSize = s.blockSize := rfl
    have c3 : (candidatesCheck env ldV xOff rOff numLocked blockNormsSize hValsBlock
      s).2.ignored = s.ignored := rfl
    generalize candidatesCheck env ldV xOff rOff numLocked blockNormsSize hValsBlock s = c
      at h c1 c2 c3
    rw [← c1, ← c2, ← c3] at hinv
    rw [← c2] at hfirst
    have hl := candidateLoop_inv nLocal ldV xOff rOff numEvals blockNormsSize
        maxBlockSize numLocked targetShift c.2.iwork L0 (c.2.blockSize + blockNormsSize)
        blockNormsSize.toNat 0 c.2.blockSize c.2 F (by omega) hinv
    generalize candidateLoop nLocal ldV xOff rOff numEvals blockNormsSize
        maxBlockSize numLocked targetShift c.2.iwork blockNormsSize.toNat 0 c.2.blockSize c.2
        = rr at h hl
    -- the frontier after the candidate loop
    have hfront : ∃ F1, BlockInv L0 rr.2.iev rr.2.blockSize rr.2.ignored F1 ∧
        F1 ≤ candidatesResume rr.1 rr.2.iev := by
      obtain ⟨halt, hprog⟩ := hl
      rcases halt with ⟨e1, e2, e3, e4⟩ | ⟨h1, h2⟩
      · rcases hfirst with ⟨hb, hF⟩ | ⟨hb1, hb2⟩
        · refine ⟨F, ?_, ?_⟩
          · rw [e2, e3, e4]
            exact hinv.1
          · unfold candidatesResume
            rw [e1, hb, if_neg (lt_irrefl 0)]
            exact hF
        · have := hprog (by omega) (by omega) hb2
          omega
      · refine ⟨_, h2.1, ?_⟩
        unfold candidatesResume
        have hpos : rr.1 > 0 := by
          have := hinv.1.1
          omega
        rw [if_pos hpos]
    obtain ⟨F1, hB1, hF1⟩ := hfront
    have p1 : (candidatesPrepareVecs env basisSize maxBlockSize targetShiftIndex
      (candidatesResume rr.1 rr.2.iev) rr.2).iev = rr.2.iev := rfl
    have p2 : (candidatesPrepareVecs env basisSize maxBlockSize targetShiftIndex
      (candidatesResume rr.1 rr.2.iev) rr.2).blockSize = rr.2.blockSize := rfl
    have p3 : (candidatesPrepareVecs env basisSize maxBlockSize targetShiftIndex
      (candidatesResume rr.1 rr.2.iev) rr.2).ignored = rr.2.ignored := rfl
    generalize candidatesPrepareVecs env basisSize maxBlockSize targetShiftIndex
      (candidatesResume rr.1 rr.2.iev) rr.2 = pv at h p1 p2 p3
    rw [← p1, ← p2, ← p3] at hB1
    have hsc := scanLoop_spec basisSize maxBlockSize pv.flags
      (basisSize - candidatesResume rr.1 rr.2.iev).toNat (candidatesResume rr.1 rr.2.iev)
      pv.blockSize pv.iev hB1.1
    have s1 : (candidatesScan basisSize maxBlockSize (candidatesResume rr.1 rr.2.iev) pv).1
      = (scanLoop basisSize maxBlockSize pv.flags
          (basisSize - candidatesResume rr.1 rr.2.iev).toNat (candidatesResume rr.1 rr.2.iev)
          pv.blockSize pv.iev).1 := rfl
    have s2 : (candidatesScan basisSize maxBlockSize (candidatesResume rr.1 rr.2.iev) pv).2.iev
      = (scanLoop basisSize maxBlockSize pv.flags
          (basisSize - candidatesResume rr.1 rr.2.iev).toNat (candidatesResume rr.1 rr.2.iev)
          pv.blockSize pv.iev).2 := rfl
    have s3 : (candidatesScan basisSize maxBlockSize (candidatesResume rr.1 rr.2.iev)
      pv).2.blockSize = pv.blockSize := rfl
    have s4 : (candidatesScan basisSize maxBlockSize (candidatesResume rr.1 rr.2.iev)
      pv).2.ignored = pv.ignored := rfl
    rw [← s1, ← s2] at hsc
    generalize candidatesScan basisSize maxBlockSize (candidatesResume rr.1 rr.2.iev) pv = sc
      at h hsc s3 s4
    obtain ⟨a1, a2, a3, a4, a5, a6⟩ := hsc
    have hB2 : BlockInv L0 sc.2.iev sc.2.blockSize sc.2.ignored F1 := by
      rw [s3, s4]
      exact BlockInv_scan hB1 a4
    split at h
    · cases h
      exact ⟨F, by rw [c1, c2, c3]; rw [c1, c2, c3] at hinv; exact hinv.1⟩
    · split at h
      · cases h
        exact ⟨F1, hB2⟩
      · rename_i hcont
        have u1 : (candidatesResiduals env nLocal basisSize ldV xOff rOff ldhVecs
          (sc.1 - sc.2.blockSize) sc.2).2.iev = sc.2.iev := rfl
        have u2 : (candidatesResiduals env nLocal basisSize ldV xOff rOff ldhVecs
          (sc.1 - sc.2.blockSize) sc.2).2.blockSize = sc.2.blockSize := rfl
        have u3 : (candidatesResiduals env nLocal basisSize ldV xOff rOff ldhVecs
          (sc.1 - sc.2.blockSize) sc.2).2.ignored = sc.2.ignored := rfl
        generalize candidatesResiduals env nLocal basisSize ldV xOff rOff ldhVecs
          (sc.1 - sc.2.blockSize) sc.2 = u at h u1 u2 u3
        split at h
        · cases h
          exact ⟨F1, by rw [u1, u2, u3]; exact hB2⟩
        · obtain ⟨_, m1, m2, m3, m4, _⟩ :=
            candidatesSmallest_frame env (sc.1 - sc.2.blockSize) u.2
          refine candidatesWhile_inv env nLocal basisSize ldV xOff rOff ldhVecs numEvals
            maxBlockSize numLocked targetShiftIndex targetShift L0 fuel _ _ _ F1 r ?_ ?_ h
          · rw [m2, m3, m4, u1, u2, u3]
            refine ⟨hB2, le_rfl, ?_, ?_⟩
            · intro q h1 h2
              have := (a5 q (by rw [← s3]; exact h1) (by omega)).1
              omega
            · intro p q h1 h2 h3
              exact a6 p q (by rw [← s3]; exact h1) h2 (by omega)
          · rw [m3, u2]
            have hne : sc.1 ≠ sc.2.blockSize := fun e => hcont (Or.inl e)
            refine Or.inr ⟨by omega, ?_⟩
            rw [s3]
            exact a2 (by omega)
/-! ## The count of converged pairs -/

/-- The candidate preparation of a growth step adds `recentlyConverged` to
`numConverged`, and `recentlyConverged` is at most the limit
`maxRecentlyConverged` handed to `prepare_candidates_dprimme` (or 0 if that
is negative). -/
theorem growthCandidates_count (env : Env) (fuel : ℕ) (s s1 : MainState)
    (h : growthCandidates env fuel s = some s1) :
    s1.numConverged = s.numConverged + s1.recentlyConverged ∧
    s1.recentlyConverged ≤ max 0 s.maxRecentlyConverged := by
  unfold growthCandidates at h
  split at h
  · cases h
  · rename_i s2 h2
    cases h
    unfold growthPrepare at h2
    split at h2
    · split at h2
      · cases h2
      · rename_i r hr
        cases h2
        obtain ⟨hf, hrc⟩ := prepare_candidates_frame _ _ _ _ _ _ _ _ _ _ _ _ _ _ r hr
        obtain ⟨-, -, hnc, -⟩ := hf
        refine ⟨?_, hrc⟩
        show r.2.numConverged + r.2.recentlyConverged = _
        rw [hnc]
        all_goals rfl
    · cases h2
      exact ⟨rfl, le_max_left _ _⟩

/-- In the branch of a growth step that is not restricted to one target
shift (`Q` is not used, or `numTargetShifts <= numConverged + 1`) the count
stays within `numEvals`. -/
theorem single_shift_count_bounded (env : Env) (fuel : ℕ) (s s1 : MainState)
    (hb : ¬ (s.primme.numTargetShifts > s.numConverged + 1 ∧
      s.primme.projectionParams.projection ≠ primme_proj_RR))
    (hle : s.numConverged ≤ s.primme.numEvals)
    (h : growthCandidates env fuel (growthBlockSize s) = some s1) :
    s1.numConverged ≤ s.primme.numEvals := by
  obtain ⟨h1, h2⟩ := growthCandidates_count env fuel _ s1 h
  have hn : (growthBlockSize s).numConverged = s.numConverged := by
    unfold growthBlockSize
    dsimp only
    split_ifs <;> rfl
  have hm : (growthBlockSize s).maxRecentlyConverged = s.primme.numEvals - s.numConverged := by
    unfold growthBlockSize
    dsimp only
    split_ifs
    all_goals first
      | rfl
      | (exfalso; tauto)
  rw [hn] at h1
  rw [hm] at h2
  rw [h1]
  rcases le_max_iff.mp (le_refl (max 0 (s.primme.numEvals - s.numConverged))) with h3 | h3
  · have := le_trans h2 h3
    omega
  · have := le_trans h2 h3
    omega

/-- C17: `numConverged` can exceed `numEvals`.  In the run on `demoParamsQ 2
3` (`numEvals = 2`, `Q` is used, three target shifts, every tested pair is
reported converged) the second growth step is entered with `numConverged = 1
<= numEvals`; since `numTargetShifts = 3 > numConverged + 1` the limit handed
to `prepare_candidates_dprimme` is `maxRecentlyConverged = numConverged -
numLocked + 1 = 2`, two more pairs are counted, and the step ends with
`numConverged = 3 > numEvals = 2` (and with `evals[2]` written). -/
theorem converged_count_exceeds_numEvals :
    (growthStep (demoEnv 1 0 0 2 0) 5 (demoStartQ 2 3)).isCont = true ∧
    (growthStep (demoEnv 1 0 0 2 0) 5 (demoStartQ 2 3)).state.numConverged = 1 ∧
    (growthStep (demoEnv 1 0 0 2 0) 5 (demoStartQ 2 3)).state.numLocked = 0 ∧
    (growthStep (demoEnv 1 0 0 2 0) 5 (demoStartQ 2 3)).state.primme.numEvals = 2 ∧
    (growthStep (demoEnv 1 0 0 2 0) 5 (demoStartQ 2 3)).state.primme.numTargetShifts = 3 ∧
    (growthBlockSize
      (growthStep (demoEnv 1 0 0 2 0) 5 (demoStartQ 2 3)).state).maxRecentlyConverged = 2 ∧
    (growthStep (demoEnv 1 0 0 2 0) 5
      (growthStep (demoEnv 1 0 0 2 0) 5 (demoStartQ 2 3)).state).state.recentlyConverged = 2 ∧
    (growthStep (demoEnv 1 0 0 2 0) 5
      (growthStep (demoEnv 1 0 0 2 0) 5 (demoStartQ 2 3)).state).state.numConverged = 3 ∧
    rd (growthStep (demoEnv 1 0 0 2 0) 5
      (growthStep (demoEnv 1 0 0 2 0) 5 (demoStartQ 2 3)).state).state.evals 2 = 5 := by
  decide!
/-! ## Candidates counted as newly converged -/

/-- C18: a pass of the candidate loop of `prepare_candidates_dprimme` over a
tested candidate (loop condition `hg`) that is not ignored (`hign`), whose
flag is not UNCONVERGED (that is CONVERGED or PRACTICALLY_CONVERGED), with
`recentlyConverged < numEvals`, and whose index is among the first
`primme.numEvals - numLocked` or the target is closest_leq/geq, increments
`recentlyConverged` by exactly one and is the step that the loop takes;
without locking it writes `evals[iev] = hVals[iev]`, `resNorms[iev] =` the
block norm and `maxConvTol = max(maxConvTol, block norm)`; with locking it
does not change `evals` and `resNorms`, and a whole call of
`prepare_candidates_dprimme` leaves both arrays unchanged. -/
theorem counted_candidate (nLocal ldV xOff rOff numEvals blockNormsSize maxBlockSize
    numLocked : ℤ) (targetShift : ℚ) (flagsBlock : IArr) (k : ℕ) (i blki : ℤ)
    (s : MainState)
    (hg : i < blockNormsSize ∧ s.blockSize < maxBlockSize)
    (hign : ¬ ((s.primme.target = primme_closest_leq
        ∧ rd s.hVals (rd s.iev blki) - rd s.blockNorms blki > targetShift) ∨
      (s.primme.target = primme_closest_geq
        ∧ rd s.hVals (rd s.iev blki) + rd s.blockNorms blki < targetShift)))
    (hflag : rd flagsBlock i ≠ UNCONVERGED)
    (hrc : s.recentlyConverged < numEvals)
    (hidx : rd s.iev blki < s.primme.numEvals - numLocked
        ∨ s.primme.target = primme_closest_geq ∨ s.primme.target = primme_closest_leq) :
    (candidateStep nLocal ldV xOff rOff numEvals blockNormsSize maxBlockSize numLocked
      targetShift flagsBlock i blki s).recentlyConverged = s.recentlyConverged + 1 ∧
    candidateLoop nLocal ldV xOff rOff numEvals blockNormsSize maxBlockSize numLocked
        targetShift flagsBlock (k + 1) i blki s =
      candidateLoop nLocal ldV xOff rOff numEvals blockNormsSize maxBlockSize numLocked
        targetShift flagsBlock k (i + 1) (blki + 1)
        (candidateStep nLocal ldV xOff rOff numEvals blockNormsSize maxBlockSize numLocked
          targetShift flagsBlock i blki s) ∧
    (s.primme.locking = 0 →
      (candidateStep nLocal ldV xOff rOff numEvals blockNormsSize maxBlockSize numLocked
        targetShift flagsBlock i blki s).evals =
          wr s.evals (rd s.iev blki) (rd s.hVals (rd s.iev blki)) ∧
      (candidateStep nLocal ldV xOff rOff numEvals blockNormsSize maxBlockSize numLocked
        targetShift flagsBlock i blki s).resNorms =
          wr s.resNorms (rd s.iev blki) (rd s.blockNorms blki) ∧
      (candidateStep nLocal ldV xOff rOff numEvals blockNormsSize maxBlockSize numLocked
        targetShift flagsBlock i blki s).sh.maxConvTol =
          max s.sh.maxConvTol (rd s.blockNorms blki)) ∧
    (s.primme.locking ≠ 0 →
      (candidateStep nLocal ldV xOff rOff numEvals blockNormsSize maxBlockSize numLocked
        targetShift flagsBlock i blki s).evals = s.evals ∧
      (candidateStep nLocal ldV xOff rOff numEvals blockNormsSize maxBlockSize numLocked
        targetShift flagsBlock i blki s).resNorms = s.resNorms) ∧
    (∀ (env : Env) (fuel : ℕ) (s0 : MainState) (basisSize ldhVecs blockNormsSize0
        targetShiftIndex : ℤ) (r : ℤ × MainState),
      s0.primme.locking ≠ 0 →
      prepare_candidates_dprimme env fuel s0 nLocal basisSize ldV xOff rOff ldhVecs numEvals
        blockNormsSize0 maxBlockSize numLocked targetShiftIndex = some r →
      r.2.evals = s0.evals ∧ r.2.resNorms = s0.resNorms) := by
  have hcnt : rd flagsBlock i ≠ UNCONVERGED ∧ s.recentlyConverged < numEvals ∧
      (rd s.iev blki < s.primme.numEvals - numLocked
        ∨ s.primme.target = primme_closest_geq ∨ s.primme.target = primme_closest_leq) :=
    ⟨hflag, hrc, hidx⟩
  refine ⟨?_, ?_, ?_, ?_, ?_⟩
  · by_cases hl : s.primme.locking = 0
    · rw [candidateStep_counted _ _ _ _ _ _ _ _ _ _ _ _ _ hg hign hcnt hl]
    · rw [candidateStep_counted_locking _ _ _ _ _ _ _ _ _ _ _ _ _ hg hign hcnt hl]
  · rw [candidateLoop_succ, if_pos hg]
  · intro hl
    rw [candidateStep_counted _ _ _ _ _ _ _ _ _ _ _ _ _ hg hign hcnt hl]
    exact ⟨rfl, rfl, cmax_eq_max _ _⟩
  · intro hl
    rw [candidateStep_counted_locking _ _ _ _ _ _ _ _ _ _ _ _ _ hg hign hcnt hl]
    exact ⟨rfl, rfl⟩
  · intro env fuel s0 basisSize ldhVecs blockNormsSize0 targetShiftIndex r hl h
    obtain ⟨hf, -⟩ := prepare_candidates_frame _ _ _ _ _ _ _ _ _ _ _ _ _ _ r h
    exact hf.2.2.2.2.2.2.2.2.2 hl

theorem counted_candidate_witness :
    (candidateStep 3 3 9 9 1 1 1 0 0 (fun _ => CONVERGED) 0 0
      (demoState (demoParams 3 1 0 0))).recentlyConverged =
        (demoState (demoParams 3 1 0 0)).recentlyConverged + 1 :=
  (counted_candidate 3 3 9 9 1 1 1 0 0 (fun _ => CONVERGED) 0 0 0
    (demoState (demoParams 3 1 0 0)) (by decide!) (by decide!) (by decide!) (by decide!)
    (by decide!)).1
/-! ## Ignored candidates -/

/-- C19 (counterexample): `prepare_candidates_dprimme` called with target
closest_leq and shift 0 on a block whose two candidates are the Ritz indices
2 and 0, in this order.  The candidate 2 is tested first with the
precomputed norm 1: its band `hVals[2] - 1 = 4 > 0` lies above the shift and
it is ignored.  The candidate 0 is kept, the search for new candidates
resumes at index `iev[1] + 1 = 1` and appends the indices 1 and 2, whose
recomputed norm is 10; both are kept, so that the call returns 0 with the
ignored index 2 in the block `iev[0..3)`. -/
theorem ignored_candidate_kept_counterexample :
    (demoParamsBlock 1 3 primme_closest_leq).target = primme_closest_leq ∧
    rd (wr zeroArr 2 5) 2 - 1 > (0 : ℚ) ∧
    (prepare_candidates_dprimme (demoEnvBlock (-1) 10) 5
        (demoBlockState (demoParamsBlock 1 3 primme_closest_leq) 2 0 (wr zeroArr 2 5) 1 1)
        3 3 3 9 9 3 1 2 3 0 0).map
      (fun r => (r.1, r.2.ignored, r.2.blockSize, rd r.2.iev 0, rd r.2.iev 1, rd r.2.iev 2))
      = some (0, [2], 3, 0, 1, 2) := by
  decide!

/-- C19 (amended): when `prepare_candidates_dprimme` is called with the
candidates `iev[0..blockNormsSize)` in strictly increasing order, the Ritz
indices that the call ignores (the list `l` appended to the ghost field
`ignored`) do not occur in `iev[0..blockSize)` when the call returns.  A pass
of the candidate loop over a tested candidate whose band lies entirely above
the shift (target closest_leq) or entirely below it (target closest_geq)
ignores it whatever its flag: it only writes the flag back and records the
index in `ignored`, so that `recentlyConverged`, `evals`, `resNorms`, `iev`
and `blockSize` are unchanged. -/
theorem ignored_candidates_not_in_block (env : Env) (fuel : ℕ) (s : MainState)
    (nLocal basisSize ldV xOff rOff ldhVecs numEvals blockNormsSize maxBlockSize
      numLocked targetShiftIndex : ℤ) (r : ℤ × MainState)
    (hinc : Increasing s.iev 0 blockNormsSize)
    (h : prepare_candidates_dprimme env fuel s nLocal basisSize ldV xOff rOff ldhVecs numEvals
      blockNormsSize maxBlockSize numLocked targetShiftIndex = some r) :
    (∃ l, r.2.ignored = s.ignored ++ l ∧ BlockFree r.2.iev r.2.blockSize l) ∧
    (∀ (targetShift : ℚ) (flagsBlock : IArr) (bns i blki : ℤ) (t : MainState),
      i < bns ∧ t.blockSize < maxBlockSize →
      ((t.primme.target = primme_closest_leq
          ∧ rd t.hVals (rd t.iev blki) - rd t.blockNorms blki > targetShift) ∨
        (t.primme.target = primme_closest_geq
          ∧ rd t.hVals (rd t.iev blki) + rd t.blockNorms blki < targetShift)) →
      candidateStep nLocal ldV xOff rOff numEvals bns maxBlockSize numLocked
          targetShift flagsBlock i blki t =
        { t with
          flags := wr t.flags (rd t.iev blki) (rd flagsBlock i)
          ignored := t.ignored ++ [rd t.iev blki] }) := by
  constructor
  · unfold prepare_candidates_dprimme at h
    dsimp only at h
    have key : ∃ F, BlockInv s.ignored r.2.iev r.2.blockSize r.2.ignored F := by
      refine candidatesWhile_inv env nLocal basisSize ldV xOff rOff ldhVecs numEvals
        maxBlockSize numLocked targetShiftIndex _ s.ignored fuel blockNormsSize _ _
        (min 0 (rd s.iev 0)) r ?_ ?_ h
      · have hI : CandInv s.ignored s.iev 0 s.ignored 0 (0 + blockNormsSize)
            (min 0 (rd s.iev 0)) := by
          refine ⟨⟨le_rfl, ?_, [], by simp, by simp, ?_⟩, le_rfl, ?_, ?_⟩
          · intro p h1 h2
            exact absurd h2 (not_lt.mpr h1)
          · intro j hj
            cases hj
          · intro q h1 h2
            rcases eq_or_lt_of_le h1 with e | hlt
            · rw [← e]
              exact min_le_right _ _
            · exact le_trans (min_le_right _ _)
                (le_of_lt (hinc 0 q le_rfl hlt (by simpa using h2)))
          · intro p q h1 h2 h3
            exact hinc p q h1 h2 (by simpa using h3)
        split_ifs <;> exact hI
      · left
        constructor
        · split_ifs <;> rfl
        · exact min_le_left _ _
    obtain ⟨F, h0, -, l, hl, -, hfree⟩ := key
    exact ⟨l, hl, hfree⟩
  · intro targetShift flagsBlock bns i blki t hg hign
    exact candidateStep_ignored _ _ _ _ _ _ _ _ _ _ _ _ _ hg hign

theorem ignored_candidates_not_in_block_witness :
    (prepare_candidates_dprimme (demoEnvBlock (-1) 10) 5
        (demoBlockState (demoParamsBlock 1 3 primme_closest_leq) 0 2 (wr zeroArr 2 5) 1 1)
        3 3 3 9 9 3 1 2 3 0 0).map
      (fun r => (r.1, r.2.ignored, r.2.blockSize, rd r.2.iev 0)) = some (0, [2], 1, 0) ∧
    ∃ l, ((prepare_candidates_dprimme (demoEnvBlock (-1) 10) 5
        (demoBlockState (demoParamsBlock 1 3 primme_closest_leq) 0 2 (wr zeroArr 2 5) 1 1)
        3 3 3 9 9 3 1 2 3 0 0).getD
          (0, demoBlockState (demoParamsBlock 1 3 primme_closest_leq) 0 2
            (wr zeroArr 2 5) 1 1)).2.ignored =
        (demoBlockState (demoParamsBlock 1 3 primme_closest_leq) 0 2
          (wr zeroArr 2 5) 1 1).ignored ++ l ∧
      BlockFree
        ((prepare_candidates_dprimme (demoEnvBlock (-1) 10) 5
          (demoBlockState (demoParamsBlock 1 3 primme_closest_leq) 0 2 (wr zeroArr 2 5) 1 1)
          3 3 3 9 9 3 1 2 3 0 0).getD
            (0, demoBlockState (demoParamsBlock 1 3 primme_closest_leq) 0 2
              (wr zeroArr 2 5) 1 1)).2.iev
        ((prepare_candidates_dprimme (demoEnvBlock (-1) 10) 5
          (demoBlockState (demoParamsBlock 1 3 primme_closest_leq) 0 2 (wr zeroArr 2 5) 1 1)
          3 3 3 9 9 3 1 2 3 0 0).getD
            (0, demoBlockState (demoParamsBlock 1 3 primme_closest_leq) 0 2
              (wr zeroArr 2 5) 1 1)).2.blockSize l :=
  ⟨by decide!,
   (ignored_candidates_not_in_block (demoEnvBlock (-1) 10) 5
    (demoBlockState (demoParamsBlock 1 3 primme_closest_leq) 0 2 (wr zeroArr 2 5) 1 1)
    3 3 3 9 9 3 1 2 3 0 0 _
    (fun p q h1 h2 h3 => by
      have hp : p = 0 := by omega
      have hq : q = 1 := by omega
      subst hp hq
      decide)
    (eq_some_getD _ _ (by decide!))).1⟩
/-! ## The smallest residual norm of the block -/

/-- The statements at the head of `prepare_candidates_dprimme` set
`smallestResNorm` to the minimum of the precomputed norms if `blockNormsSize
> 0` and keep the incoming value otherwise; the update after newly computed
norms is the loop `for (i = blockSize; i < blockNormsSize; i++)`, started
from `HUGE_VAL` if the block is empty. -/
theorem candidatesSmallest_eq (env : Env) (blockNormsSize : ℤ) (s : MainState) :
    (candidatesSmallest env blockNormsSize s).smallestResNorm =
      minLoop s.blockNorms s.blockSize blockNormsSize
        (if s.blockSize = 0 ∧ blockNormsSize > 0 then env.HUGE_VAL else s.smallestResNorm) := by
  unfold candidatesSmallest
  dsimp only
  split_ifs <;> rfl

/-- C20: `smallestResNorm` can be larger than a residual norm computed
during the call.  `prepare_candidates_dprimme` is called on a block of two
candidates (Ritz indices 0 and 1) with the precomputed norms 5 and 4, so that
`smallestResNorm` is first set to 4.  The candidate 0 is kept (`blockSize =
1`), the candidate 1 is counted as converged, and the index 2 is appended;
its norm is computed as 3 and stored in `blockNorms[1]`.  The update loop
`for (i = blockSize; i < blockNormsSize; i++)` runs from 1 to
`blockNormsSize = 1`, that is not at all, and the call returns 0 with
`smallestResNorm = 4 > 3 = blockNorms[1]`, the index 2 being in the
block. -/
theorem smallest_norm_misses_new_candidates :
    ((prepare_candidates_dprimme (demoEnvBlock 4 3) 5
        (demoBlockState (demoParamsBlock 3 2 primme_smallest) 0 1 zeroArr 5 4)
        3 3 3 9 9 3 3 2 2 0 0).map
      (fun r => (r.1, r.2.blockSize, r.2.recentlyConverged, rd r.2.iev 0, rd r.2.iev 1)))
      = some (0, 2, 1, 0, 2) ∧
    ((prepare_candidates_dprimme (demoEnvBlock 4 3) 5
        (demoBlockState (demoParamsBlock 3 2 primme_smallest) 0 1 zeroArr 5 4)
        3 3 3 9 9 3 3 2 2 0 0).map
      (fun r => (r.2.smallestResNorm, rd r.2.blockNorms 0, rd r.2.blockNorms 1)))
      = some (4, 5, 3) := by
  decide!
/-! ## The two switch functions -/

theorem averageOverProcs_single (env : Env) (primme : primme_params) (r : ℚ)
    (hp : primme.numProcs = 1) : averageOverProcs env primme r = r := by
  unfold averageOverProcs
  rw [if_neg (by rw [hp]; decide)]

/-- C22: `switch_from_GDpk` on a single process, called in the state
`dynamicMethodSwitch = s` with `s = 1` or `s = 3`.  If `stats.numRestarts ==
0` nothing changes.  Otherwise, if `qmr_only == 0`, the state becomes `s + 1`
with `maxInnerIterations = -1` and the model is untouched.  Otherwise the
accumulators of the model are updated with the ratio
`ratio_JDQMR_GDpk(model, 0, JDQMR_slowdown, ratio_MV_outer)`, and the state
becomes `s + 1` with `maxInnerIterations = -1` if the ratio is below 0.95 and
the parameters are unchanged if it is not. -/
theorem switch_from_GDpk_cases (env : Env) (model : primme_CostModel)
    (primme : primme_params) (hp : primme.numProcs = 1)
    (hs : primme.dynamicMethodSwitch = 1 ∨ primme.dynamicMethodSwitch = 3) :
    (primme.stats.numRestarts = 0 →
      switch_from_GDpk env model primme = (model, primme)) ∧
    (primme.stats.numRestarts ≠ 0 → model.qmr_only = 0 →
      switch_from_GDpk env model primme =
        (model,
          { primme with
            dynamicMethodSwitch := primme.dynamicMethodSwitch + 1
            correctionParams :=
              { primme.correctionParams with maxInnerIterations := -1 } })) ∧
    (primme.stats.numRestarts ≠ 0 → model.qmr_only ≠ 0 →
      ratio_JDQMR_GDpk model 0 model.JDQMR_slowdown model.ratio_MV_outer < 95 / 100 →
      switch_from_GDpk env model primme =
        (accumulate model
            (ratio_JDQMR_GDpk model 0 model.JDQMR_slowdown model.ratio_MV_outer),
          { primme with
            dynamicMethodSwitch := primme.dynamicMethodSwitch + 1
            correctionParams :=
              { primme.correctionParams with maxInnerIterations := -1 } })) ∧
    (primme.stats.numRestarts ≠ 0 → model.qmr_only ≠ 0 →
      ¬ ratio_JDQMR_GDpk model 0 model.JDQMR_slowdown model.ratio_MV_outer < 95 / 100 →
      switch_from_GDpk env model primme =
        (accumulate model
            (ratio_JDQMR_GDpk model 0 model.JDQMR_slowdown model.ratio_MV_outer),
          primme)) := by
  have hto : (if primme.dynamicMethodSwitch = 1 then (2 : ℤ)
      else if primme.dynamicMethodSwitch = 3 then 4 else 0)
      = primme.dynamicMethodSwitch + 1 := by
    rcases hs with h | h <;> rw [h] <;> rfl
  refine ⟨?_, ?_, ?_, ?_⟩
  · intro h0
    unfold switch_from_GDpk
    rw [if_pos h0]
  · intro h0 hq
    unfold switch_from_GDpk
    rw [if_neg h0]
    dsimp only
    rw [if_pos hq, hto]
  · intro h0 hq hr
    unfold switch_from_GDpk
    rw [if_neg h0]
    dsimp only
    rw [if_neg hq, averageOverProcs_single env primme _ hp, if_pos hr, hto]
  · intro h0 hq hr
    unfold switch_from_GDpk
    rw [if_neg h0]
    dsimp only
    rw [if_neg hq, averageOverProcs_single env primme _ hp, if_neg hr]

theorem switch_from_GDpk_cases_witness :
    switch_from_GDpk (demoEnv 0 0 0 1 0) demoCost
        { demoParams 3 1 0 0 with
          dynamicMethodSwitch := 1
          stats := ⟨0, 1, 0⟩ } =
      (demoCost,
        { ({ demoParams 3 1 0 0 with
              dynamicMethodSwitch := 1
              stats := ⟨0, 1, 0⟩ } : primme_params) with
          dynamicMethodSwitch := 1 + 1
          correctionParams :=
            { (demoParams 3 1 0 0).correctionParams with maxInnerIterations := -1 } }) :=
  (switch_from_GDpk_cases (demoEnv 0 0 0 1 0) demoCost
    { demoParams 3 1 0 0 with dynamicMethodSwitch := 1, stats := ⟨0, 1, 0⟩ }
    rfl (Or.inl rfl)).2.1 (by decide) rfl

/-- C23: `switch_from_JDQMR` on a single process, called in the state
`dynamicMethodSwitch = s` with `s = 2` or `s = 4`.  In state 2, if the
best-case ratio `ratio_JDQMR_GDpk(model, 0, 1.1, 1000)` exceeds 1.05, the
state becomes -1 with `maxInnerIterations = 0` and the model (so the
accumulators) is not changed.  Otherwise the accumulators are updated with
the ratio `ratio_JDQMR_GDpk(model, 0, JDQMR_slowdown, ratio_MV_outer)`, and
the state becomes `s - 1` with `maxInnerIterations = 0` if that ratio exceeds
1.05 and the parameters are unchanged if it does not.  The state on return is
therefore -1, `s - 1` or `s`. -/
theorem switch_from_JDQMR_cases (env : Env) (model : primme_CostModel)
    (primme : primme_params) (hp : primme.numProcs = 1)
    (hs : primme.dynamicMethodSwitch = 2 ∨ primme.dynamicMethodSwitch = 4) :
    (primme.dynamicMethodSwitch = 2 →
      ratio_JDQMR_GDpk model 0 (11 / 10) 1000 > 105 / 100 →
      switch_from_JDQMR env model primme =
        (model,
          { primme with
            dynamicMethodSwitch := -1
            correctionParams :=
              { primme.correctionParams with maxInnerIterations := 0 } })) ∧
    (¬ (primme.dynamicMethodSwitch = 2 ∧
        ratio_JDQMR_GDpk model 0 (11 / 10) 1000 > 105 / 100) →
      ratio_JDQMR_GDpk model 0 model.JDQMR_slowdown model.ratio_MV_outer > 105 / 100 →
      switch_from_JDQMR env model primme =
        (accumulate model
            (ratio_JDQMR_GDpk model 0 model.JDQMR_slowdown model.ratio_MV_outer),
          { primme with
            dynamicMethodSwitch := primme.dynamicMethodSwitch - 1
            correctionParams :=
              { primme.correctionParams with maxInnerIterations := 0 } })) ∧
    (¬ (primme.dynamicMethodSwitch = 2 ∧
        ratio_JDQMR_GDpk model 0 (11 / 10) 1000 > 105 / 100) →
      ¬ ratio_JDQMR_GDpk model 0 model.JDQMR_slowdown model.ratio_MV_outer > 105 / 100 →
      switch_from_JDQMR env model primme =
        (accumulate model
            (ratio_JDQMR_GDpk model 0 model.JDQMR_slowdown model.ratio_MV_outer),
          primme)) ∧
    ((switch_from_JDQMR env model primme).2.dynamicMethodSwitch = -1 ∨
      (switch_from_JDQMR env model primme).2.dynamicMethodSwitch
        = primme.dynamicMethodSwitch - 1 ∨
      (switch_from_JDQMR env model primme).2.dynamicMethodSwitch
        = primme.dynamicMethodSwitch) := by
  have hto : (if primme.dynamicMethodSwitch = 2 then (1 : ℤ)
      else if primme.dynamicMethodSwitch = 4 then 3 else 0)
      = primme.dynamicMethodSwitch - 1 := by
    rcases hs with h | h <;> rw [h] <;> rfl
  have h1 : primme.dynamicMethodSwitch = 2 →
      ratio_JDQMR_GDpk model 0 (11 / 10) 1000 > 105 / 100 →
      switch_from_JDQMR env model primme =
        (model,
          { primme with
            dynamicMethodSwitch := -1
            correctionParams :=
              { primme.correctionParams with maxInnerIterations := 0 } }) := by
    intro h2 hb
    unfold switch_from_JDQMR
    dsimp only
    rw [averageOverProcs_single env primme _ hp, if_pos ⟨h2, hb⟩]
  have h2 : ¬ (primme.dynamicMethodSwitch = 2 ∧
        ratio_JDQMR_GDpk model 0 (11 / 10) 1000 > 105 / 100) →
      ratio_JDQMR_GDpk model 0 model.JDQMR_slowdown model.ratio_MV_outer > 105 / 100 →
      switch_from_JDQMR env model primme =
        (accumulate model
            (ratio_JDQMR_GDpk model 0 model.JDQMR_slowdown model.ratio_MV_outer),
          { primme with
            dynamicMethodSwitch := primme.dynamicMethodSwitch - 1
            correctionParams :=
              { primme.correctionParams with maxInnerIterations := 0 } }) := by
    intro hn hr
    unfold switch_from_JDQMR
    dsimp only
    rw [averageOverProcs_single env primme _ hp, if_neg hn,
      averageOverProcs_single env primme _ hp, if_pos hr, hto]
  have h3 : ¬ (primme.dynamicMethodSwitch = 2 ∧
        ratio_JDQMR_GDpk model 0 (11 / 10) 1000 > 105 / 100) →
      ¬ ratio_JDQMR_GDpk model 0 model.JDQMR_slowdown model.ratio_MV_outer > 105 / 100 →
      switch_from_JDQMR env model primme =
        (accumulate model
            (ratio_JDQMR_GDpk model 0 model.JDQMR_slowdown model.ratio_MV_outer),
          primme) := by
    intro hn hr
    unfold switch_from_JDQMR
    dsimp only
    rw [averageOverProcs_single env primme _ hp, if_neg hn,
      averageOverProcs_single env primme _ hp, if_neg hr]
  refine ⟨h1, h2, h3, ?_⟩
  by_cases hb : primme.dynamicMethodSwitch = 2 ∧
      ratio_JDQMR_GDpk model 0 (11 / 10) 1000 > 105 / 100
  · rw [h1 hb.1 hb.2]
    exact Or.inl rfl
  · by_cases hr :
      ratio_JDQMR_GDpk model 0 model.JDQMR_slowdown model.ratio_MV_outer > 105 / 100
    · rw [h2 hb hr]
      exact Or.inr (Or.inl rfl)
    · rw [h3 hb hr]
      exact Or.inr (Or.inr rfl)

theorem switch_from_JDQMR_cases_witness :
    (switch_from_JDQMR (demoEnv 0 0 0 1 0) demoCost
        { demoParams 3 1 0 0 with dynamicMethodSwitch := 2 }).2.dynamicMethodSwitch = -1 ∨
    (switch_from_JDQMR (demoEnv 0 0 0 1 0) demoCost
        { demoParams 3 1 0 0 with dynamicMethodSwitch := 2 }).2.dynamicMethodSwitch
      = ({ demoParams 3 1 0 0 with dynamicMethodSwitch := 2 }
          : primme_params).dynamicMethodSwitch - 1 ∨
    (switch_from_JDQMR (demoEnv 0 0 0 1 0) demoCost
        { demoParams 3 1 0 0 with dynamicMethodSwitch := 2 }).2.dynamicMethodSwitch
      = ({ demoParams 3 1 0 0 with dynamicMethodSwitch := 2 }
          : primme_params).dynamicMethodSwitch :=
  (switch_from_JDQMR_cases (demoEnv 0 0 0 1 0) demoCost
    { demoParams 3 1 0 0 with dynamicMethodSwitch := 2 } rfl (Or.inl rfl)).2.2.2
/-! ## The arrays written by `verify_norms` -/

theorem ediv_eq_iff_bounds {n k m : ℤ} (hn : 0 < n) :
    k / n = m ↔ (n * m ≤ k ∧ k < n * m + n) := by
  constructor
  · intro h
    have h1 := Int.ediv_add_emod k n
    have h2 := Int.emod_nonneg k (ne_of_gt hn)
    have h3 := Int.emod_lt_of_pos k hn
    rw [h] at h1
    constructor <;> omega
  · rintro ⟨h1, h2⟩
    apply le_antisymm
    · have : k / n < m + 1 := Int.ediv_lt_of_lt_mul hn (by linarith)
      omega
    · exact Int.le_ediv_of_mul_le hn (by linarith)

/-- The residual loop of `verify_norms` after `m` columns: the entries of
the columns `0..m-1` of `W` are `W - hVals·V`, the rest of `W` is as
before. -/
theorem verifyResiduals_fold (nLocal : ℤ) (V hVals W dwork : Arr) (m : ℕ) (k : ℕ) :
    ((List.range m).foldl
      (fun (acc : Arr × Arr) (i : ℕ) =>
        let W := Num_axpy_dprimme nLocal (-(rd hVals i)) V (nLocal * i) acc.1 (nLocal * i)
        (W, wr acc.2 i (Num_dot_dprimme nLocal W (nLocal * i) W (nLocal * i))))
      (W, dwork)).1 k =
      if 0 < nLocal ∧ (k : ℤ) / nLocal < m then
        W k - rd hVals ((k : ℤ) / nLocal) * V k
      else W k := by
  induction m with
  | zero =>
    have h0 : ¬ (0 < nLocal ∧ (k : ℤ) / nLocal < ((0 : ℕ) : ℤ)) := by
      rintro ⟨h1, h2⟩
      have := Int.ediv_nonneg (Int.ofNat_nonneg k) (le_of_lt h1)
      simp at h2
      omega
    rw [if_neg h0]
    rfl
  | succ m ih =>
    rw [List.range_succ, List.foldl_append]
    generalize hacc : (List.range m).foldl
      (fun (acc : Arr × Arr) (i : ℕ) =>
        let W := Num_axpy_dprimme nLocal (-(rd hVals i)) V (nLocal * i) acc.1 (nLocal * i)
        (W, wr acc.2 i (Num_dot_dprimme nLocal W (nLocal * i) W (nLocal * i))))
      (W, dwork) = acc at ih
    show Num_axpy_dprimme nLocal (-(rd hVals m)) V (nLocal * m) acc.1 (nLocal * m) k = _
    unfold Num_axpy_dprimme wrRange
    have hrd : ∀ (a : Arr), rd a (nLocal * m + ((k : ℤ) - nLocal * m)) = a k := by
      intro a
      unfold rd
      congr 1
      have : nLocal * m + ((k : ℤ) - nLocal * m) = (k : ℤ) := by ring
      rw [this]
      exact Int.toNat_natCast k
    have hm : rd hVals (m : ℤ) = hVals m := by
      unfold rd
      rw [Int.toNat_natCast]
    by_cases hn : 0 < nLocal
    · by_cases hc : nLocal * (m : ℤ) ≤ (k : ℤ) ∧ (k : ℤ) < nLocal * m + nLocal
      · have hq : (k : ℤ) / nLocal = m := (ediv_eq_iff_bounds hn).mpr hc
        rw [if_pos hc]
        show rd acc.1 (nLocal * m + ((k : ℤ) - nLocal * m))
          + -rd hVals (m : ℤ) * rd V (nLocal * m + ((k : ℤ) - nLocal * m)) = _
        rw [hrd, hrd, ih, hq, if_neg (by simp), if_pos ⟨hn, by push_cast; omega⟩]
        ring
      · have hq : (k : ℤ) / nLocal ≠ m := fun h => hc ((ediv_eq_iff_bounds hn).mp h)
        rw [if_neg hc, ih]
        by_cases hl : (k : ℤ) / nLocal < m
        · rw [if_pos ⟨hn, hl⟩, if_pos ⟨hn, by push_cast; omega⟩]
        · rw [if_neg (fun h => hl h.2), if_neg (fun h => hl (by have := h.2; push_cast at this; omega))]
    · have hc : ¬ (nLocal * (m : ℤ) ≤ (k : ℤ) ∧ (k : ℤ) < nLocal * m + nLocal) := by
        rintro ⟨h1, h2⟩
        omega
      rw [if_neg hc, ih, if_neg (fun h => hn h.1), if_neg (fun h => hn h.1)]

theorem verifyResiduals_entry (nLocal : ℤ) (V hVals : Arr) (basisSize : ℤ) (W dwork : Arr)
    (k : ℕ) :
    (verifyResiduals nLocal V hVals basisSize W dwork).1 k =
      if 0 < nLocal ∧ (k : ℤ) / nLocal < basisSize then
        W k - rd hVals ((k : ℤ) / nLocal) * V k
      else W k := by
  unfold verifyResiduals
  rw [verifyResiduals_fold]
  by_cases hn : 0 < nLocal
  · have hq := Int.ediv_nonneg (Int.ofNat_nonneg k) (le_of_lt hn)
    by_cases hl : (k : ℤ) / nLocal < basisSize
    · rw [if_pos ⟨hn, by omega⟩, if_pos ⟨hn, hl⟩]
    · rw [if_neg (fun h => hl (by have := h.2; omega)), if_neg (fun h => hl h.2)]
  · rw [if_neg (fun h => hn h.1), if_neg (fun h => hn h.1)]

/-- C21 (counterexample): `verify_norms` called on one pair with `nLocal =
3`, `V[0] = 1`, `W[0] = 7` and `hVals[0] = 5` returns with `W[0] = 7 - 5·1 =
2`: the residual is formed in `W` itself. -/
theorem verify_norms_overwrites_W_counterexample :
    rd ({ demoState (demoParams 3 1 0 0) with
          V := fun _ => 1, W := fun _ => 7, hVals := fun _ => 5 } : MainState).W 0 = 7 ∧
    (verify_norms (demoEnv 1 0 0 1 0)
      { demoState (demoParams 3 1 0 0) with
        V := fun _ => 1, W := fun _ => 7, hVals := fun _ => 5 } 1).1 = 0 ∧
    rd (verify_norms (demoEnv 1 0 0 1 0)
      { demoState (demoParams 3 1 0 0) with
        V := fun _ => 1, W := fun _ => 7, hVals := fun _ => 5 } 1).2.W 0 = 2 := by
  decide!

/-- C21 (amended): `verify_norms` forms the residuals in place.  For every
input it leaves `V` unchanged and overwrites the first `basisSize` columns of
`W` with `W[:,j] - hVals[j]·V[:,j]` (the other entries of `W` are unchanged);
besides `W` it writes only `resNorms`, `flags`, `converged` and the work
arrays: the parameters, `hVals`, `evals`, `evecs`, `perm`, `iev`,
`blockNorms`, `hVecs`, the cost model and the counters of the driver are
unchanged. -/
theorem verify_norms_effect (env : Env) (s : MainState) (basisSize : ℤ) :
    (verify_norms env s basisSize).2.V = s.V ∧
    (∀ k : ℕ, (verify_norms env s basisSize).2.W k =
      if 0 < s.primme.nLocal ∧ (k : ℤ) / s.primme.nLocal < basisSize then
        s.W k - rd s.hVals ((k : ℤ) / s.primme.nLocal) * s.V k
      else s.W k) ∧
    (verify_norms env s basisSize).2.primme = s.primme ∧
    (verify_norms env s basisSize).2.hVals = s.hVals ∧
    (verify_norms env s basisSize).2.evals = s.evals ∧
    (verify_norms env s basisSize).2.evecs = s.evecs ∧
    (verify_norms env s basisSize).2.perm = s.perm ∧
    (verify_norms env s basisSize).2.iev = s.iev ∧
    (verify_norms env s basisSize).2.blockNorms = s.blockNorms ∧
    (verify_norms env s basisSize).2.hVecs = s.hVecs ∧
    (verify_norms env s basisSize).2.CostModel = s.CostModel ∧
    (verify_norms env s basisSize).2.basisSize = s.basisSize ∧
    (verify_norms env s basisSize).2.numConverged = s.numConverged ∧
    (verify_norms env s basisSize).2.numLocked = s.numLocked := by
  have hW : (verify_norms env s basisSize).2.W =
      (verifyResiduals s.primme.nLocal s.V s.hVals basisSize s.W s.sh.rwork).1 := by
    unfold verify_norms
    dsimp only
    split_ifs <;> rfl
  refine ⟨?_, ?_, ?_, ?_, ?_, ?_, ?_, ?_, ?_, ?_, ?_, ?_, ?_, ?_⟩
  · unfold verify_norms
    dsimp only
    split_ifs <;> rfl
  · intro k
    rw [hW, verifyResiduals_entry]
  all_goals
    unfold verify_norms
    dsimp only
    split_ifs <;> rfl
/-! ## The quick exit of `Num_gemv_Sprimme` -/

/-- The routine `XSCAL` with unit stride multiplies the `m` cells from `off`
on by `alpha`. -/
theorem XSCAL_fold (alpha : ℚ) (a : Arr) (off : ℤ) (hoff : 0 ≤ off) (m : ℕ) :
    ∀ k : ℕ, ((List.range m).foldl
      (fun (a : Arr) (i : ℕ) => wr a (off + (i : ℤ) * 1) (alpha * rd a (off + (i : ℤ) * 1)))
      a) k =
      if off ≤ (k : ℤ) ∧ (k : ℤ) < off + m then alpha * a k else a k := by
  induction m with
  | zero =>
    intro k
    rw [if_neg (by push_cast; omega)]
    rfl
  | succ m ih =>
    intro k
    rw [List.range_succ, List.foldl_append, List.foldl_cons, List.foldl_nil]
    generalize (List.range m).foldl
      (fun (a : Arr) (i : ℕ) => wr a (off + (i : ℤ) * 1) (alpha * rd a (off + (i : ℤ) * 1)))
      a = acc at ih
    unfold wr rd
    by_cases hk : (k : ℤ) = off + (m : ℤ) * 1
    · rw [if_pos hk]
      have e : (off + (m : ℤ) * 1).toNat = k := by omega
      rw [e, ih k, if_neg (by omega), if_pos (by push_cast; omega)]
    · rw [if_neg hk, ih]
      by_cases hc : off ≤ (k : ℤ) ∧ (k : ℤ) < off + m
      · rw [if_pos hc, if_pos (by push_cast; omega)]
      · rw [if_neg hc, if_neg (by push_cast; omega)]

/-- A call `Num_scal_Sprimme(n, alpha, x, 1)` with `0 < n < PRIMME_BLASINT_MAX`
multiplies the `n` cells from `off` on by `alpha`, once. -/
theorem Num_scal_unit (n : ℤ) (alpha : ℚ) (a : Arr) (off : ℤ) (hoff : 0 ≤ off)
    (hn : 0 < n) (hmax : n ≤ PRIMME_BLASINT_MAX - 1) (k : ℕ) :
    Num_scal_Sprimme n alpha a off 1 k =
      if off ≤ (k : ℤ) ∧ (k : ℤ) < off + n then alpha * a k else a k := by
  unfold Num_scal_Sprimme
  obtain ⟨f, hf⟩ : ∃ f : ℕ, n.toNat = f + 1 := ⟨n.toNat - 1, by omega⟩
  rw [hf]
  have hc : cmin n (PRIMME_BLASINT_MAX - 1) = n := by
    rw [cmin_eq_min]
    exact min_eq_left hmax
  rw [scalLoop, if_pos hn]
  rw [hc]
  have hrest : ∀ (b : Arr) (o : ℤ), scalLoop alpha 1 f (n - n) b o = b := by
    intro b o
    cases f with
    | zero => rw [scalLoop]
    | succ g => rw [scalLoop, if_neg (by omega)]
  rw [hrest]
  unfold XSCAL
  rw [XSCAL_fold alpha a off hoff n.toNat k]
  have e : ((n.toNat : ℕ) : ℤ) = n := Int.toNat_of_nonneg (le_of_lt hn)
  rw [e]

/-- Repeating the scaling `m` times multiplies the cells by `alpha ^ m`. -/
theorem Num_scal_repeated (n : ℤ) (alpha : ℚ) (off : ℤ) (hoff : 0 ≤ off)
    (hn : 0 < n) (hmax : n ≤ PRIMME_BLASINT_MAX - 1) (m : ℕ) (a : Arr) (k : ℕ) :
    ((List.range m).foldl (fun (y : Arr) (_ : ℕ) => Num_scal_Sprimme n alpha y off 1) a) k =
      if off ≤ (k : ℤ) ∧ (k : ℤ) < off + n then alpha ^ m * a k else a k := by
  induction m with
  | zero =>
    simp
  | succ m ih =>
    rw [List.range_succ, List.foldl_append, List.foldl_cons, List.foldl_nil,
      Num_scal_unit n alpha _ off hoff hn hmax k, ih]
    split_ifs
    · ring
    · rfl

/-- C27: the quick exit of `Num_gemv_Sprimme` for `m = 0` scales `y` by
`beta` once per entry instead of once.  For every `0 < n <
PRIMME_BLASINT_MAX`, every `beta != 0`, every `y` (with unit stride) and
every `transa`, the call with `m = 0` multiplies each of the `n` entries of
`y` by `beta ^ n`, not by `beta`; the other cells are unchanged. -/
theorem gemv_quick_exit_scales_repeatedly (transa : Char) (n : ℤ) (alpha beta : ℚ)
    (a x y : Arr) (aoff lda xoff incx yoff : ℤ)
    (hn : 0 < n) (hmax : n ≤ PRIMME_BLASINT_MAX - 1) (hb : beta ≠ 0) (hoff : 0 ≤ yoff)
    (k : ℕ) :
    Num_gemv_Sprimme transa 0 n alpha a aoff lda x xoff incx beta y yoff 1 k =
      if yoff ≤ (k : ℤ) ∧ (k : ℤ) < yoff + n then beta ^ n.toNat * y k else y k := by
  unfold Num_gemv_Sprimme
  rw [if_neg (by omega), if_pos rfl, if_neg (by simpa using hb)]
  exact Num_scal_repeated n beta yoff hoff hn hmax n.toNat y k

/-- With a transposed `A`, `m = 0`, `n = 2`, `beta = 2` and `y = (1, 1)`
the call returns `y[0] = 2^2·1 = 4`, while `alpha·op(A)·x + beta·y` has the
entry `2·1 = 2`. -/
theorem gemv_quick_exit_scales_repeatedly_witness :
    Num_gemv_Sprimme 'T' 0 2 1 zeroArr 0 1 zeroArr 0 1 2 (fun _ => 1) 0 1 0 = 4 ∧
    (2 : ℚ) * (fun _ => (1 : ℚ)) 0 = 2 := by
  constructor
  · rw [gemv_quick_exit_scales_repeatedly 'T' 2 1 2 zeroArr zeroArr (fun _ => 1)
      0 1 0 1 0 (by decide) (by decide) (by norm_num) (by decide) 0]
    decide!
  · norm_num

/-- The same calls evaluated: `y = (4, 4)` for `n = 2`, the factor 8 for `n =
3`; for `n = 1`, and for `beta = 0`, the result is the documented one. -/
theorem gemv_quick_exit_demo_run :
    rd (Num_gemv_Sprimme 'T' 0 2 1 zeroArr 0 1 zeroArr 0 1 2 (fun _ => 1) 0 1) 0 = 4 ∧
    rd (Num_gemv_Sprimme 'T' 0 2 1 zeroArr 0 1 zeroArr 0 1 2 (fun _ => 1) 0 1) 1 = 4 ∧
    2 * rd (fun _ => (1 : ℚ)) 0 = 2 ∧
    rd (Num_gemv_Sprimme 'T' 0 3 1 zeroArr 0 1 zeroArr 0 1 2 (fun _ => 1) 0 1) 2 = 8 ∧
    rd (Num_gemv_Sprimme 'T' 0 1 1 zeroArr 0 1 zeroArr 0 1 2 (fun _ => 1) 0 1) 0 = 2 ∧
    rd (Num_gemv_Sprimme 'T' 0 2 1 zeroArr 0 1 zeroArr 0 1 0 (fun _ => 1) 0 1) 1 = 0 := by
  decide!
/-! ## Initial guesses pulled in after a restart -/

/-- The count of the guesses pulled in after a restart: `numNew = max(0,
min(minRestartSize - basisSize, numGuesses))`; `nextGuess` grows and
`numGuesses` shrinks by `numNew`, so that their sum is constant and
`numGuesses` stays non-negative. -/
theorem copyGuesses_counts (s : MainState) :
    s.numNew = max 0 (min (s.primme.minRestartSize - s.basisSize) s.numGuesses) ∧
    (s.copyGuesses s.numNew).nextGuess = s.nextGuess + s.numNew ∧
    (s.copyGuesses s.numNew).numGuesses = s.numGuesses - s.numNew ∧
    (s.copyGuesses s.numNew).nextGuess + (s.copyGuesses s.numNew).numGuesses
      = s.nextGuess + s.numGuesses ∧
    (0 ≤ s.numGuesses → 0 ≤ (s.copyGuesses s.numNew).numGuesses) := by
  have hn : s.numNew = max 0 (min (s.primme.minRestartSize - s.basisSize) s.numGuesses) := by
    unfold MainState.numNew
    rw [cmax_eq_max, cmin_eq_min]
  refine ⟨hn, rfl, rfl, ?_, ?_⟩
  · show s.nextGuess + s.numNew + (s.numGuesses - s.numNew) = _
    ring
  · intro h
    show 0 ≤ s.numGuesses - s.numNew
    rw [hn]
    rcases le_total 0 (min (s.primme.minRestartSize - s.basisSize) s.numGuesses) with h1 | h1
    · rw [max_eq_right h1]
      have := min_le_right (s.primme.minRestartSize - s.basisSize) s.numGuesses
      omega
    · rw [max_eq_left h1]
      omega

/-- C25: the guesses pulled in after a restart are not orthogonalized
against the first `numOrthoConst + numLocked` columns of `evecs`.  In the
state `demoGuessState` (`numOrthoConst = 1`, `numLocked = 0`, one guess left)
one guess is pulled in (`numNew = 1`, `nextGuess` becomes 1, `numGuesses`
becomes 0) and `ortho_dprimme` is called with the count `numLocked = 0`: the
environment `demoEnvOrtho` records the count it receives in `V`, and `V[0]`
is 0 after the block.  The orthogonalization of a growth step in the same
state passes `numOrthoConst + numLocked = 1`. -/
theorem guesses_orthogonalized_against_numLocked :
    demoGuessState.primme.numOrthoConst + demoGuessState.numLocked = 1 ∧
    demoGuessState.numNew = 1 ∧
    (restartGuesses demoEnvOrtho demoGuessState).isCont = true ∧
    (restartGuesses demoEnvOrtho demoGuessState).state.nextGuess = 1 ∧
    (restartGuesses demoEnvOrtho demoGuessState).state.numGuesses = 0 ∧
    (restartGuesses demoEnvOrtho demoGuessState).state.basisSize = 2 ∧
    rd (restartGuesses demoEnvOrtho demoGuessState).state.V 0 = 0 ∧
    rd (growthExtend demoEnvOrtho 5
      { demoGuessState with blockSize := 1 }).state.V 0 = 1 := by
  decide!
/-! ## The reset of the rate-averaging window -/

/-- C24: `update_statistics` resets the averaging window with a count that is
zero.  In the run on `demoParamsRates` (dynamic switching, 12 eigenpairs
wanted, so that the run starts in state 3) ten pairs converge in the first
growth step, where `update_statistics` returns early (`kout == 0`) without
counting them.  In the second growth step one more pair converges
(`numConverged = 11`) and the block is not empty, so `update_statistics` is
called with `recentConv = 1`, `maxInnerIterations = 0` and a model that
still has `nevals_by_gdk = nevals_by_jdq = 0` and `nextReset = 1`.  The call
adds the pair to `nevals_by_gdk` only, and since `11/10 >= nextReset` it
resets the window (`nextReset` becomes 2, both counts become 1): the two
JDQMR accumulators are divided by `nevals_by_jdq = 0`. -/
theorem window_reset_divides_by_zero :
    (growthStep demoEnvRates 40 demoStartRates).isCont = true ∧
    (growthStep demoEnvRates 40 demoStartRates).state.numConverged = 10 ∧
    (growthStep demoEnvRates 40 demoStartRates).state.CostModel.nevals_by_gdk = 0 ∧
    (growthCandidates demoEnvRates 40
      (growthBlockSize (growthStep demoEnvRates 40 demoStartRates).state)).map
      (fun c => (c.numConverged, c.recentlyConverged, c.blockSize,
        c.primme.dynamicMethodSwitch, c.primme.correctionParams.maxInnerIterations))
      = some (11, 1, 1, 3, 0) ∧
    (growthCandidates demoEnvRates 40
      (growthBlockSize (growthStep demoEnvRates 40 demoStartRates).state)).map
      (fun c => (c.CostModel.nevals_by_gdk, c.CostModel.nevals_by_jdq, c.CostModel.nextReset))
      = some (0, 0, 1) ∧
    (growthCandidates demoEnvRates 40
      (growthBlockSize (growthStep demoEnvRates 40 demoStartRates).state)).map
      (fun c => ((dynamicBeforeCorrection demoEnvRates c).CostModel.nextReset,
        (dynamicBeforeCorrection demoEnvRates c).CostModel.nevals_by_gdk,
        (dynamicBeforeCorrection demoEnvRates c).CostModel.nevals_by_jdq))
      = some (2, 1, 1) := by
  decide!
/-! ## The coupling of the method state and the inner-iteration limit -/

theorem Coupled_of_DynReach {a b : ℤ × ℤ} (h : DynReach a b) (ha : Coupled a) :
    Coupled b ∨ Recommended b.1 := by
  induction h with
  | refl => exact Or.inl ha
  | tail _ hstep ih =>
    rcases hstep with hs | hs
    · rcases hs with ⟨_, e⟩ | ⟨_, e⟩ | ⟨_, e⟩ | ⟨_, e⟩ | ⟨_, e⟩
      all_goals rw [e]; unfold Coupled; simp
    · exact Or.inr hs.2.2

theorem switch_from_GDpk_coupled (env : Env) (m : primme_CostModel) (p : primme_params)
    (hc : Coupled (p.dynamicMethodSwitch, p.correctionParams.maxInnerIterations))
    (h : p.dynamicMethodSwitch = 1 ∨ p.dynamicMethodSwitch = 3) :
    Coupled ((switch_from_GDpk env m p).2.dynamicMethodSwitch,
      (switch_from_GDpk env m p).2.correctionParams.maxInnerIterations) ∧
    (switch_from_GDpk env m p).2.dynamicMethodSwitch ≠ -1 := by
  unfold switch_from_GDpk
  dsimp only
  rcases h with h | h
  · split_ifs
    all_goals first
      | exact ⟨hc, by rw [h]; decide⟩
      | (refine ⟨?_, ?_⟩
         · show Coupled (_, -1)
           simp only [h]
           unfold Coupled
           simp
         · show ¬ (_ : ℤ) = -1
           simp only [h]
           decide)
  · split_ifs
    all_goals first
      | exact ⟨hc, by rw [h]; decide⟩
      | (refine ⟨?_, ?_⟩
         · show Coupled (_, -1)
           simp only [h]
           unfold Coupled
           simp
         · show ¬ (_ : ℤ) = -1
           simp only [h]
           decide)

theorem switch_from_JDQMR_coupled (env : Env) (m : primme_CostModel) (p : primme_params)
    (hc : Coupled (p.dynamicMethodSwitch, p.correctionParams.maxInnerIterations))
    (h : p.dynamicMethodSwitch = 2 ∨ p.dynamicMethodSwitch = 4) :
    Coupled ((switch_from_JDQMR env m p).2.dynamicMethodSwitch,
      (switch_from_JDQMR env m p).2.correctionParams.maxInnerIterations) := by
  unfold switch_from_JDQMR
  dsimp only
  rcases h with h | h
  · split_ifs
    all_goals first
      | exact hc
      | (show Coupled (_, 0)
         simp only [h]
         unfold Coupled
         simp)
  · split_ifs
    all_goals first
      | exact hc
      | (show Coupled (_, 0)
         simp only [h]
         unfold Coupled
         simp)

/-- C30: the state of the dynamic switch and the inner-iteration limit are
coupled.  The initialisation of `main_iter_dprimme` (entered with
`dynamicMethodSwitch > 0`) leaves the pair `(dynamicMethodSwitch,
maxInnerIterations)` equal to `(1, 0)` or `(3, 0)`.  `switch_from_GDpk`,
entered in state 1 or 3 with a coupled pair, and `switch_from_JDQMR`, entered
in state 2 or 4 with a coupled pair, return a coupled pair: `(1, 0)`, `(3,
0)`, `(2, -1)`, `(4, -1)`, or, from `switch_from_JDQMR` only, `(-1, 0)`.  In
a run the two functions are entered in these states only, so that a coupled
pair stays coupled through the growth loop, the restart loop and the outer
loop until a recommendation (-1, -2 or -3) is stored at a return.  Once
`dynamicMethodSwitch <= 0`, the two blocks of `main_iter_dprimme` that call
`update_statistics` and the switch functions do nothing, and neither
`dynamicMethodSwitch` nor `maxInnerIterations` changes any more. -/
theorem method_state_coupling (env : Env) :
    (∀ s : MainState, 0 < s.primme.dynamicMethodSwitch →
      (initDynamic env s).dyn = (1, 0) ∨ (initDynamic env s).dyn = (3, 0)) ∧
    (∀ (m : primme_CostModel) (p : primme_params),
      Coupled (p.dynamicMethodSwitch, p.correctionParams.maxInnerIterations) →
      p.dynamicMethodSwitch = 1 ∨ p.dynamicMethodSwitch = 3 →
      Coupled ((switch_from_GDpk env m p).2.dynamicMethodSwitch,
        (switch_from_GDpk env m p).2.correctionParams.maxInnerIterations) ∧
      (switch_from_GDpk env m p).2.dynamicMethodSwitch ≠ -1) ∧
    (∀ (m : primme_CostModel) (p : primme_params),
      Coupled (p.dynamicMethodSwitch, p.correctionParams.maxInnerIterations) →
      p.dynamicMethodSwitch = 2 ∨ p.dynamicMethodSwitch = 4 →
      Coupled ((switch_from_JDQMR env m p).2.dynamicMethodSwitch,
        (switch_from_JDQMR env m p).2.correctionParams.maxInnerIterations)) ∧
    (∀ (inner fuel : ℕ) (s : MainState), Coupled s.dyn →
      (Coupled (growthStep env inner s).state.dyn ∨
        Recommended (growthStep env inner s).state.primme.dynamicMethodSwitch) ∧
      (Coupled (growthLoop env inner fuel s).state.dyn ∨
        Recommended (growthLoop env inner fuel s).state.primme.dynamicMethodSwitch) ∧
      (Coupled (restartLoop env inner fuel s).state.dyn ∨
        Recommended (restartLoop env inner fuel s).state.primme.dynamicMethodSwitch) ∧
      (Coupled (outerLoop env inner fuel s).state.dyn ∨
        Recommended (outerLoop env inner fuel s).state.primme.dynamicMethodSwitch)) ∧
    (∀ (inner fuel : ℕ) (s : MainState), s.primme.dynamicMethodSwitch ≤ 0 →
      dynamicBeforeCorrection env s = s ∧
      dynamicAfterRestart env s = s ∧
      (growthStep env inner s).state.dyn = s.dyn ∧
      (growthLoop env inner fuel s).state.dyn = s.dyn ∧
      (afterGrowth env s).state.dyn = s.dyn ∧
      (restartLoop env inner fuel s).state.dyn = s.dyn ∧
      (afterRestartLoop env s).state.dyn = s.dyn ∧
      (outerLoop env inner fuel s).state.dyn = s.dyn) := by
  refine ⟨?_, fun m p hc h => switch_from_GDpk_coupled env m p hc h,
    fun m p hc h => switch_from_JDQMR_coupled env m p hc h, ?_, ?_⟩
  · intro s h
    unfold initDynamic
    rw [if_pos h]
    dsimp only
    split_ifs
    · exact Or.inl rfl
    · exact Or.inr rfl
  · intro inner fuel s hc
    exact ⟨Coupled_of_DynReach (growthStep_counts env inner s).2.2 hc,
      Coupled_of_DynReach (growthLoop_loose env inner fuel s).2.2 hc,
      Coupled_of_DynReach (restartLoop_loose env inner fuel s).2.2 hc,
      Coupled_of_DynReach (outerLoop_loose env inner fuel s).2.2 hc⟩
  · intro inner fuel s h
    refine ⟨?_, ?_, ?_, ?_, ?_, ?_, ?_, ?_⟩
    · unfold dynamicBeforeCorrection
      rw [if_neg (not_lt.mpr h)]
    · unfold dynamicAfterRestart
      rw [if_neg (by omega)]
    · exact DynReach_inactive (growthStep_counts env inner s).2.2 h
    · exact DynReach_inactive (growthLoop_loose env inner fuel s).2.2 h
    · exact DynReach_inactive (afterGrowth_kept env s).2.2 h
    · exact DynReach_inactive (restartLoop_loose env inner fuel s).2.2 h
    · exact DynReach_inactive (afterRestartLoop_kept env s).2.2 h
    · exact DynReach_inactive (outerLoop_loose env inner fuel s).2.2 h
/-! ## The block postcondition of `prepare_candidates_dprimme` -/

/-- What one pass of the candidate loop does to the flags, the block and the
count of converged pairs. -/
theorem candidateStep_shape (nLocal ldV xOff rOff numEvals blockNormsSize maxBlockSize
    numLocked : ℤ) (targetShift : ℚ) (flagsBlock : IArr) (i blki : ℤ) (s : MainState)
    (hg : i < blockNormsSize ∧ s.blockSize < maxBlockSize) :
    (candidateStep nLocal ldV xOff rOff numEvals blockNormsSize maxBlockSize
      numLocked targetShift flagsBlock i blki s).flags
        = wr s.flags (rd s.iev blki) (rd flagsBlock i) ∧
    (((candidateStep nLocal ldV xOff rOff numEvals blockNormsSize maxBlockSize
          numLocked targetShift flagsBlock i blki s).iev = s.iev ∧
        (candidateStep nLocal ldV xOff rOff numEvals blockNormsSize maxBlockSize
          numLocked targetShift flagsBlock i blki s).blockSize = s.blockSize) ∨
      (rd flagsBlock i = UNCONVERGED ∧
        (candidateStep nLocal ldV xOff rOff numEvals blockNormsSize maxBlockSize
          numLocked targetShift flagsBlock i blki s).iev
            = wr s.iev s.blockSize (rd s.iev blki) ∧
        (candidateStep nLocal ldV xOff rOff numEvals blockNormsSize maxBlockSize
          numLocked targetShift flagsBlock i blki s).blockSize = s.blockSize + 1)) ∧
    s.recentlyConverged ≤ (candidateStep nLocal ldV xOff rOff numEvals blockNormsSize
      maxBlockSize numLocked targetShift flagsBlock i blki s).recentlyConverged := by
  by_cases hign : (s.primme.target = primme_closest_leq
        ∧ rd s.hVals (rd s.iev blki) - rd s.blockNorms blki > targetShift) ∨
      (s.primme.target = primme_closest_geq
        ∧ rd s.hVals (rd s.iev blki) + rd s.blockNorms blki < targetShift)
  · rw [candidateStep_ignored _ _ _ _ _ _ _ _ _ _ _ _ _ hg hign]
    exact ⟨rfl, Or.inl ⟨rfl, rfl⟩, le_rfl⟩
  · by_cases hcnt : rd flagsBlock i ≠ UNCONVERGED ∧ s.recentlyConverged < numEvals ∧
      (rd s.iev blki < s.primme.numEvals - numLocked
        ∨ s.primme.target = primme_closest_geq ∨ s.primme.target = primme_closest_leq)
    · by_cases hl : s.primme.locking = 0
      · rw [candidateStep_counted _ _ _ _ _ _ _ _ _ _ _ _ _ hg hign hcnt hl]
        exact ⟨rfl, Or.inl ⟨rfl, rfl⟩, by show s.recentlyConverged ≤ s.recentlyConverged + 1; omega⟩
      · rw [candidateStep_counted_locking _ _ _ _ _ _ _ _ _ _ _ _ _ hg hign hcnt hl]
        exact ⟨rfl, Or.inl ⟨rfl, rfl⟩, by show s.recentlyConverged ≤ s.recentlyConverged + 1; omega⟩
    · by_cases hu : rd flagsBlock i = UNCONVERGED
      · rw [candidateStep_kept _ _ _ _ _ _ _ _ _ _ _ _ _ hg hign hcnt hu]
        exact ⟨rfl, Or.inr ⟨hu, rfl, rfl⟩, le_rfl⟩
      · rw [candidateStep_dropped _ _ _ _ _ _ _ _ _ _ _ _ _ hg hign hcnt hu]
        exact ⟨rfl, Or.inl ⟨rfl, rfl⟩, le_rfl⟩

/-- One tested candidate keeps the block well formed and moves the frontier
past the tested index. -/
theorem BlockOk_step {basisSize maxBlockSize : ℤ} {iev flags : IArr} {b blki hi F : ℤ}
    (hok : BlockOk basisSize maxBlockSize iev flags b F) (hble : b ≤ blki)
    (hpend : PendingOk basisSize iev blki hi F) (hlt : blki < hi) (hroom : b < maxBlockSize)
    {iev' flags' : IArr} {b' : ℤ} {fl : ℤ}
    (hf : flags' = wr flags (rd iev blki) fl)
    (hs : (iev' = iev ∧ b' = b) ∨
      (fl = UNCONVERGED ∧ iev' = wr iev b (rd iev blki) ∧ b' = b + 1)) :
    BlockOk basisSize maxBlockSize iev' flags' b' (rd iev blki + 1) ∧ b' ≤ blki + 1 ∧
      PendingOk basisSize iev' (blki + 1) hi (rd iev blki + 1) ∧
      rd iev' blki = rd iev blki ∧ F < rd iev blki + 1 ∧ rd iev blki + 1 ≤ basisSize ∧
      b ≤ b' ∧ b' ≤ b + 1 := by
  obtain ⟨hb0, hbm, hinc0, hkept⟩ := hok
  obtain ⟨hF0, hreg, hinc⟩ := hpend
  obtain ⟨hFi, hib⟩ := hreg blki le_rfl hlt
  have hreg' : ∀ q : ℤ, blki + 1 ≤ q → q < hi →
      rd iev blki + 1 ≤ rd iev q ∧ rd iev q < basisSize := by
    intro q h1 h2
    have := hinc blki q le_rfl (by omega) h2
    exact ⟨by omega, (hreg q (by omega) h2).2⟩
  have hinc' : Increasing iev (blki + 1) hi := by
    intro p q h1 h2 h3
    exact hinc p q (by omega) h2 h3
  have hflag : ∀ j : ℤ, 0 ≤ j → j < rd iev blki →
      rd (wr flags (rd iev blki) fl) j = rd flags j := by
    intro j h1 h2
    rw [rd_wr flags _ fl j h1, if_neg (by omega)]
  subst hf
  rcases hs with ⟨e1, e2⟩ | ⟨e0, e1, e2⟩
  · subst e1 e2
    refine ⟨⟨hb0, hbm, hinc0, ?_⟩, by omega, ⟨by omega, hreg', hinc'⟩, rfl, by omega,
      by omega, le_rfl, by omega⟩
    intro p h1 h2
    obtain ⟨k1, k2, k3, k4⟩ := hkept p h1 h2
    refine ⟨k1, by omega, k3, ?_⟩
    rw [hflag _ k1 (by omega)]
    exact k4
  · subst e1 e2
    have hrd : ∀ p : ℤ, 0 ≤ p → rd (wr iev b (rd iev blki)) p
        = if p = b then rd iev blki else rd iev p := fun p hp => rd_wr iev b _ p hp
    refine ⟨⟨by omega, by omega, ?_, ?_⟩, by omega, ⟨by omega, ?_, ?_⟩, ?_, by omega,
      by omega, by omega, le_rfl⟩
    · intro p q h1 h2 h3
      rw [hrd p h1, hrd q (by omega), if_neg (by omega)]
      split_ifs with hq
      · have := (hkept p h1 (by omega)).2.1
        omega
      · exact hinc0 p q h1 h2 (by omega)
    · intro p h1 h2
      rw [hrd p h1]
      split_ifs with hp
      · refine ⟨by omega, by omega, hib, ?_⟩
        rw [rd_wr flags _ fl _ (by omega), if_pos rfl]
        exact e0
      · obtain ⟨k1, k2, k3, k4⟩ := hkept p h1 (by omega)
        refine ⟨k1, by omega, k3, ?_⟩
        rw [hflag _ k1 (by omega)]
        exact k4
    · intro q h1 h2
      rw [hrd q (by omega), if_neg (by omega)]
      exact hreg' q h1 h2
    · intro p q h1 h2 h3
      rw [hrd p (by omega), if_neg (by omega), hrd q (by omega), if_neg (by omega)]
      exact hinc' p q h1 h2 h3
    · rw [hrd blki (by omega)]
      split_ifs <;> rfl

/-- The candidate loop, run on pending candidates that all fit into the
block: every candidate is tested, the count of converged pairs does not
decrease, and the block stays well formed with a frontier just past the last
tested index. -/
theorem candidateLoop_post (nLocal basisSize ldV xOff rOff numEvals blockNormsSize
    maxBlockSize numLocked : ℤ) (targetShift : ℚ) (flagsBlock : IArr) (hi : ℤ) :
    ∀ (k : ℕ) (i blki : ℤ) (s : MainState) (F : ℤ),
      hi = blki + (blockNormsSize - i) → i ≤ blockNormsSize →
      (blockNormsSize - i).toNat ≤ k →
      BlockOk basisSize maxBlockSize s.iev s.flags s.blockSize F → s.blockSize ≤ blki →
      PendingOk basisSize s.iev blki hi F →
      s.blockSize + (blockNormsSize - i) ≤ maxBlockSize →
      (candidateLoop nLocal ldV xOff rOff numEvals blockNormsSize maxBlockSize numLocked
        targetShift flagsBlock k i blki s).1 = hi ∧
      s.recentlyConverged ≤ (candidateLoop nLocal ldV xOff rOff numEvals blockNormsSize
        maxBlockSize numLocked targetShift flagsBlock k i blki s).2.recentlyConverged ∧
      (candidateLoop nLocal ldV xOff rOff numEvals blockNormsSize maxBlockSize numLocked
        targetShift flagsBlock k i blki s).2.blockSize ≤ hi ∧
      s.blockSize ≤ (candidateLoop nLocal ldV xOff rOff numEvals blockNormsSize maxBlockSize
        numLocked targetShift flagsBlock k i blki s).2.blockSize ∧
      ∃ F', F ≤ F' ∧
        BlockOk basisSize maxBlockSize
          (candidateLoop nLocal ldV xOff rOff numEvals blockNormsSize maxBlockSize numLocked
            targetShift flagsBlock k i blki s).2.iev
          (candidateLoop nLocal ldV xOff rOff numEvals blockNormsSize maxBlockSize numLocked
            targetShift flagsBlock k i blki s).2.flags
          (candidateLoop nLocal ldV xOff rOff numEvals blockNormsSize maxBlockSize numLocked
            targetShift flagsBlock k i blki s).2.blockSize F' ∧
        (i < blockNormsSize → F < F' ∧ F' ≤ basisSize ∧
          rd (candidateLoop nLocal ldV xOff rOff numEvals blockNormsSize maxBlockSize
            numLocked targetShift flagsBlock k i blki s).2.iev (hi - 1) + 1 = F') ∧
        (i = blockNormsSize → F' = F ∧
          (candidateLoop nLocal ldV xOff rOff numEvals blockNormsSize maxBlockSize
            numLocked targetShift flagsBlock k i blki s).2.iev = s.iev)
  | 0, i, blki, s, F, hhi, hle, hk, hok, hb, _, _ => by
    rw [candidateLoop]
    have hi0 : i = blockNormsSize := by omega
    refine ⟨by omega, le_rfl, by show s.blockSize ≤ hi; omega, le_rfl, F, le_rfl, hok,
      fun h => by omega, fun _ => ⟨rfl, rfl⟩⟩
  | k + 1, i, blki, s, F, hhi, hle, hk, hok, hb, hpend, hfit => by
    rw [candidateLoop_succ]
    by_cases hlt : i < blockNormsSize
    · have hroom : s.blockSize < maxBlockSize := by omega
      rw [if_pos ⟨hlt, hroom⟩]
      obtain ⟨hfl, hshape, hrc⟩ := candidateStep_shape nLocal ldV xOff rOff numEvals
        blockNormsSize maxBlockSize numLocked targetShift flagsBlock i blki s ⟨hlt, hroom⟩
      obtain ⟨hok', hb', hpend', hlast, hF1, hF2, hmono, hgrow⟩ :=
        BlockOk_step hok hb hpend (by omega : blki < hi) hroom hfl hshape
      obtain ⟨a1, a2, a3, a4, F', a5, a6, a7, a8⟩ :=
        candidateLoop_post nLocal basisSize ldV xOff rOff numEvals blockNormsSize
          maxBlockSize numLocked targetShift flagsBlock hi k (i + 1) (blki + 1)
          (candidateStep nLocal ldV xOff rOff numEvals blockNormsSize maxBlockSize
            numLocked targetShift flagsBlock i blki s) (rd s.iev blki + 1) (by omega)
          (by omega) (by omega) hok' hb' hpend' (by omega)
      generalize candidateLoop nLocal ldV xOff rOff numEvals blockNormsSize maxBlockSize
        numLocked targetShift flagsBlock k (i + 1) (blki + 1)
        (candidateStep nLocal ldV xOff rOff numEvals blockNormsSize maxBlockSize
          numLocked targetShift flagsBlock i blki s) = r at a1 a2 a3 a4 a5 a6 a7 a8
      generalize candidateStep nLocal ldV xOff rOff numEvals blockNormsSize maxBlockSize
          numLocked targetShift flagsBlock i blki s = t
          at hrc hok' hb' hpend' hlast hmono hgrow a2 a4 a8
      refine ⟨a1, by omega, a3, by omega, F', by omega, a6, fun _ => ?_, fun h => by omega⟩
      by_cases hn : i + 1 < blockNormsSize
      · obtain ⟨b1, b2, b3⟩ := a7 hn
        exact ⟨by omega, b2, b3⟩
      · obtain ⟨b1, b2⟩ := a8 (by omega)
        refine ⟨by omega, by omega, ?_⟩
        rw [b1, b2]
        have : hi - 1 = blki := by omega
        rw [this, hlast]
    · have hi0 : i = blockNormsSize := by omega
      rw [if_neg (fun h => hlt h.1)]
      exact ⟨by omega, le_rfl, by show s.blockSize ≤ hi; omega, le_rfl, F, le_rfl, hok,
        fun h => absurd h hlt, fun _ => ⟨rfl, rfl⟩⟩

theorem BlockOk_scan {basisSize maxBlockSize : ℤ} {iev iev' flags : IArr} {b F : ℤ}
    (h : BlockOk basisSize maxBlockSize iev flags b F)
    (he : ∀ p : ℤ, 0 ≤ p → p < b → rd iev' p = rd iev p) :
    BlockOk basisSize maxBlockSize iev' flags b F := by
  obtain ⟨h0, h1, hinc, hk⟩ := h
  refine ⟨h0, h1, ?_, ?_⟩
  · intro p q a1 a2 a3
    rw [he p a1 (by omega), he q (by omega) a3]
    exact hinc p q a1 a2 a3
  · intro p a1 a2
    rw [he p a1 a2]
    exact hk p a1 a2

/-- The `while (1)` loop of `prepare_candidates_dprimme` terminates: started
with a well-formed block and pending candidates that fit into it, it returns
within `basisSize - F + 1` passes (`basisSize + 2` for the first pass of a
call without precomputed candidates), the block it returns is well formed,
and `blockNormsSize <= maxBlockSize` holds at the head of every pass. -/
theorem candidatesWhile_post (env : Env) (nLocal basisSize ldV xOff rOff ldhVecs numEvals
    maxBlockSize numLocked targetShiftIndex : ℤ) (targetShift : ℚ) :
    ∀ (fuel : ℕ) (blockNormsSize : ℤ) (hValsBlock : Arr) (s : MainState) (F : ℤ),
      0 ≤ blockNormsSize → s.blockSize + blockNormsSize ≤ maxBlockSize →
      BlockOk basisSize maxBlockSize s.iev s.flags s.blockSize F →
      PendingOk basisSize s.iev s.blockSize (s.blockSize + blockNormsSize) F →
      ((blockNormsSize = 0 ∧ s.blockSize = 0 ∧ F = 0 ∧ basisSize.toNat + 2 ≤ fuel) ∨
        (1 ≤ blockNormsSize ∧ (basisSize - F).toNat + 1 ≤ fuel)) →
      (∃ r, candidatesWhile env nLocal basisSize ldV xOff rOff ldhVecs numEvals maxBlockSize
          numLocked targetShiftIndex targetShift fuel blockNormsSize hValsBlock s = some r ∧
        ∃ F', BlockOk basisSize maxBlockSize r.2.iev r.2.flags r.2.blockSize F') ∧
      ∀ b ∈ candidatesSizes env nLocal basisSize ldV xOff rOff ldhVecs numEvals maxBlockSize
          numLocked targetShiftIndex targetShift fuel blockNormsSize hValsBlock s,
        b ≤ maxBlockSize
  | 0, _, _, _, _, _, _, _, _, hv => by
    exfalso
    rcases hv with ⟨_, _, _, h⟩ | ⟨_, h⟩ <;> omega
  | fuel + 1, blockNormsSize, hValsBlock, s, F, hn0, hfit, hok, hpend, hv => by
    have hbm : blockNormsSize ≤ maxBlockSize := by
      have := hok.1
      omega
    unfold candidatesWhile candidatesSizes
    dsimp only
    have c1 : (candidatesCheck env ldV xOff rOff numLocked blockNormsSize hValsBlock s).2.iev
      = s.iev := rfl
    have c2 : (candidatesCheck env ldV xOff rOff numLocked blockNormsSize hValsBlock
      s).2.blockSize = s.blockSize := rfl
    have c3 : (candidatesCheck env ldV xOff rOff numLocked blockNormsSize hValsBlock
      s).2.flags = s.flags := rfl
    generalize candidatesCheck env ldV xOff rOff numLocked blockNormsSize hValsBlock s = c
      at c1 c2 c3
    rw [← c1, ← c2, ← c3] at hok
    rw [← c1, ← c2] at hpend
    rw [← c2] at hfit hv
    by_cases h1 : c.1 ≠ 0
    · rw [if_pos h1, if_pos h1]
      refine ⟨⟨c, rfl, F, hok⟩, ?_⟩
      intro b hb
      rw [List.mem_singleton] at hb
      omega
    · rw [if_neg h1, if_neg h1]
      obtain ⟨a1, a2, a3, a4, F', a5, a6, a7, a8⟩ :=
        candidateLoop_post nLocal basisSize ldV xOff rOff numEvals blockNormsSize
          maxBlockSize numLocked targetShift c.2.iwork (c.2.blockSize + blockNormsSize)
          blockNormsSize.toNat 0 c.2.blockSize c.2 F (by omega) hn0 (by omega) hok le_rfl
          hpend (by omega)
      generalize candidateLoop nLocal ldV xOff rOff numEvals blockNormsSize
        maxBlockSize numLocked targetShift c.2.iwork blockNormsSize.toNat 0 c.2.blockSize c.2
        = rr at a1 a2 a3 a4 a6 a7 a8
      have hres : candidatesResume rr.1 rr.2.iev = F' := by
        unfold candidatesResume
        rcases hv with ⟨e1, e2, e3, _⟩ | ⟨e1, _⟩
        · rw [a1, e1, e2, if_neg (by norm_num), (a8 e1.symm).1, e3]
        · have hb0 := hok.1
          rw [a1, if_pos (by omega)]
          exact (a7 (by omega)).2.2
      rw [hres]
      have hF0 : 0 ≤ F' := by
        have := hpend.1
        omega
      have p1 : (candidatesPrepareVecs env basisSize maxBlockSize targetShiftIndex
        F' rr.2).iev = rr.2.iev := rfl
      have p2 : (candidatesPrepareVecs env basisSize maxBlockSize targetShiftIndex
        F' rr.2).blockSize = rr.2.blockSize := rfl
      have p3 : (candidatesPrepareVecs env basisSize maxBlockSize targetShiftIndex
        F' rr.2).flags = rr.2.flags := rfl
      generalize candidatesPrepareVecs env basisSize maxBlockSize targetShiftIndex
        F' rr.2 = pv at p1 p2 p3
      rw [← p1, ← p2, ← p3] at a6
      have hsc := scanLoop_spec basisSize maxBlockSize pv.flags
        (basisSize - F').toNat F' pv.blockSize pv.iev a6.1
      have s1 : (candidatesScan basisSize maxBlockSize F' pv).1
        = (scanLoop basisSize maxBlockSize pv.flags (basisSize - F').toNat F'
            pv.blockSize pv.iev).1 := rfl
      have s2 : (candidatesScan basisSize maxBlockSize F' pv).2.iev
        = (scanLoop basisSize maxBlockSize pv.flags (basisSize - F').toNat F'
            pv.blockSize pv.iev).2 := rfl
      have s3 : (candidatesScan basisSize maxBlockSize F' pv).2.blockSize
        = pv.blockSize := rfl
      have s4 : (candidatesScan basisSize maxBlockSize F' pv).2.flags = pv.flags := rfl
      rw [← s1, ← s2] at hsc
      generalize candidatesScan basisSize maxBlockSize F' pv = sc at hsc s3 s4
      obtain ⟨b1, b2, b3, b4, b5, b6⟩ := hsc
      have hok2 : BlockOk basisSize maxBlockSize sc.2.iev sc.2.flags sc.2.blockSize F' := by
        rw [s3, s4]
        exact BlockOk_scan a6 b4
      by_cases h2 : sc.1 = sc.2.blockSize ∨ sc.2.recentlyConverged ≥ numEvals
      · rw [if_pos h2, if_pos h2]
        refine ⟨⟨(0, sc.2), rfl, F', hok2⟩, ?_⟩
        intro b hb
        rw [List.mem_singleton] at hb
        omega
      · rw [if_neg h2, if_neg h2]
        have u1 : (candidatesResiduals env nLocal basisSize ldV xOff rOff ldhVecs
          (sc.1 - sc.2.blockSize) sc.2).2.iev = sc.2.iev := rfl
        have u2 : (candidatesResiduals env nLocal basisSize ldV xOff rOff ldhVecs
          (sc.1 - sc.2.blockSize) sc.2).2.blockSize = sc.2.blockSize := rfl
        have u3 : (candidatesResiduals env nLocal basisSize ldV xOff rOff ldhVecs
          (sc.1 - sc.2.blockSize) sc.2).2.flags = sc.2.flags := rfl
        generalize candidatesResiduals env nLocal basisSize ldV xOff rOff ldhVecs
          (sc.1 - sc.2.blockSize) sc.2 = u at u1 u2 u3
        by_cases h3 : u.1 ≠ 0
        · rw [if_pos h3, if_pos h3]
          refine ⟨⟨u, rfl, F', by rw [u1, u2, u3]; exact hok2⟩, ?_⟩
          intro b hb
          rw [List.mem_singleton] at hb
          omega
        · rw [if_neg h3, if_neg h3]
          have m1 : (candidatesSmallest env (sc.1 - sc.2.blockSize) u.2).iev = u.2.iev :=
            (candidatesSmallest_frame env _ u.2).2.2.1
          have m2 : (candidatesSmallest env (sc.1 - sc.2.blockSize) u.2).blockSize
              = u.2.blockSize := (candidatesSmallest_frame env _ u.2).2.2.2.1
          have m3 : (candidatesSmallest env (sc.1 - sc.2.blockSize) u.2).flags
              = u.2.flags := by
            unfold candidatesSmallest
            dsimp only
            split_ifs <;> rfl
          have hne : sc.1 ≠ sc.2.blockSize := fun e => h2 (Or.inl e)
          have hnew := b5 sc.2.blockSize (by rw [s3]) (by rw [s3] at hne ⊢; omega)
          obtain ⟨ih1, ih2⟩ := candidatesWhile_post env nLocal basisSize ldV xOff rOff
            ldhVecs numEvals maxBlockSize numLocked targetShiftIndex targetShift fuel
            (sc.1 - sc.2.blockSize)
            (Num_compact_vecs_dprimme sc.2.hVals 1 (ptr sc.2.iev sc.2.blockSize))
            (candidatesSmallest env (sc.1 - sc.2.blockSize) u.2) F'
            (by rw [s3]; omega)
            (by rw [m2, u2]
                have := b3 a6.2.1
                omega)
            (by rw [m1, m2, m3, u1, u2, u3]; exact hok2)
            (by rw [m1, m2, u1, u2]
                refine ⟨hF0, ?_, ?_⟩
                · intro q q1 q2
                  have := b5 q (by rw [← s3]; exact q1) (by omega)
                  exact ⟨this.1, this.2.1⟩
                · intro p q q1 q2 q3
                  exact b6 p q (by rw [← s3]; exact q1) q2 (by omega))
            (by right
                refine ⟨by rw [s3] at hne ⊢; omega, ?_⟩
                rcases hv with ⟨e1, e2, e3, e4⟩ | ⟨e1, e4⟩
                · have := (a8 e1.symm).1
                  rw [this, e3]
                  simp only [sub_zero]
                  omega
                · have := (a7 (by omega)).1
                  have := hnew.1
                  have := hnew.2.1
                  omega)
          refine ⟨ih1, ?_⟩
          intro b hb
          rcases List.mem_cons.mp hb with e | hb'
          · omega
          · exact ih2 b hb'

theorem prepare_candidates_eq (env : Env) (fuel : ℕ) (s : MainState)
    (nLocal basisSize ldV xOff rOff ldhVecs numEvals blockNormsSize maxBlockSize
      numLocked targetShiftIndex : ℤ) :
    prepare_candidates_dprimme env fuel s nLocal basisSize ldV xOff rOff ldhVecs numEvals
        blockNormsSize maxBlockSize numLocked targetShiftIndex =
      candidatesWhile env nLocal basisSize ldV xOff rOff ldhVecs numEvals maxBlockSize
        numLocked targetShiftIndex
        (match s.primme.targetShifts with
          | some a => rd a targetShiftIndex
          | none => 0)
        fuel blockNormsSize (Num_compact_vecs_dprimme s.hVals 1 (ptr s.iev 0))
        (candidatesEntry env s blockNormsSize) := by
  unfold prepare_candidates_dprimme candidatesEntry
  rfl

theorem candidatesEntry_fields (env : Env) (s : MainState) (blockNormsSize : ℤ) :
    (candidatesEntry env s blockNormsSize).iev = s.iev ∧
    (candidatesEntry env s blockNormsSize).flags = s.flags ∧
    (candidatesEntry env s blockNormsSize).blockSize = 0 ∧
    (candidatesEntry env s blockNormsSize).recentlyConverged = 0 := by
  unfold candidatesEntry
  dsimp only
  split_ifs <;> exact ⟨rfl, rfl, rfl, rfl⟩

/-- The block that `prepare_candidates_dprimme` returns, and the sizes it
works with in its passes. -/
theorem prepare_candidates_post (env : Env) (fuel : ℕ) (s : MainState)
    (nLocal basisSize ldV xOff rOff ldhVecs numEvals blockNormsSize maxBlockSize
      numLocked targetShiftIndex : ℤ)
    (h0 : 0 ≤ blockNormsSize) (hb : blockNormsSize ≤ maxBlockSize)
    (hinc : Increasing s.iev 0 blockNormsSize)
    (hidx : ∀ p : ℤ, 0 ≤ p → p < blockNormsSize → 0 ≤ rd s.iev p ∧ rd s.iev p < basisSize)
    (hfuel : basisSize.toNat + 2 ≤ fuel) :
    (∃ r, prepare_candidates_dprimme env fuel s nLocal basisSize ldV xOff rOff ldhVecs
        numEvals blockNormsSize maxBlockSize numLocked targetShiftIndex = some r ∧
      0 ≤ r.2.blockSize ∧ r.2.blockSize ≤ maxBlockSize ∧
      r.2.recentlyConverged ≤ max 0 numEvals ∧
      Increasing r.2.iev 0 r.2.blockSize ∧
      ∀ p : ℤ, 0 ≤ p → p < r.2.blockSize →
        0 ≤ rd r.2.iev p ∧ rd r.2.iev p < basisSize ∧
        rd r.2.flags (rd r.2.iev p) = UNCONVERGED) ∧
    ∀ b ∈ prepare_candidates_sizes env fuel s nLocal basisSize ldV xOff rOff ldhVecs
        numEvals blockNormsSize maxBlockSize numLocked targetShiftIndex,
      b ≤ maxBlockSize := by
  obtain ⟨e1, e2, e3, e4⟩ := candidatesEntry_fields env s blockNormsSize
  have key := candidatesWhile_post env nLocal basisSize ldV xOff rOff ldhVecs numEvals
    maxBlockSize numLocked targetShiftIndex
    (match s.primme.targetShifts with
      | some a => rd a targetShiftIndex
      | none => 0)
    fuel blockNormsSize (Num_compact_vecs_dprimme s.hVals 1 (ptr s.iev 0))
    (candidatesEntry env s blockNormsSize) 0 h0 (by rw [e3]; omega)
    (by rw [e1, e2, e3]
        refine ⟨le_rfl, by omega, ?_, ?_⟩
        · intro p q q1 q2 q3
          omega
        · intro p q1 q2
          omega)
    (by rw [e1, e3]
        refine ⟨le_rfl, ?_, ?_⟩
        · intro q q1 q2
          exact hidx q q1 (by omega)
        · intro p q q1 q2 q3
          exact hinc p q q1 q2 (by omega))
    (by rw [e3]
        rcases eq_or_lt_of_le h0 with e | hl
        · exact Or.inl ⟨e.symm, rfl, rfl, hfuel⟩
        · refine Or.inr ⟨by omega, ?_⟩
          simp only [sub_zero]
          omega)
  obtain ⟨⟨r, hr, F', hok⟩, hsz⟩ := key
  refine ⟨⟨r, ?_, hok.1, hok.2.1, ?_, hok.2.2.1, ?_⟩, hsz⟩
  · rw [prepare_candidates_eq]
    exact hr
  · have hf := (prepare_candidates_frame env fuel s nLocal basisSize ldV xOff rOff ldhVecs
      numEvals blockNormsSize maxBlockSize numLocked targetShiftIndex r
      (by rw [prepare_candidates_eq]; exact hr)).2
    exact hf
  · intro p q1 q2
    obtain ⟨k1, _, k3, k4⟩ := hok.2.2.2 p q1 q2
    exact ⟨k1, k3, k4⟩

/-- C28: block postcondition of `prepare_candidates_dprimme`.  For every
input with `0 <= blockNormsSize <= maxBlockSize`, `numEvals >= 0` and
`iev[0..blockNormsSize)` strictly increasing with entries that are indices
below `basisSize`, the `while (1)` loop terminates (`basisSize + 2` passes
suffice): the call returns, and on return `0 <= blockSize <= maxBlockSize`,
`recentlyConverged <= numEvals`, and `iev[0..blockSize)` is strictly
increasing with every entry an index below `basisSize` that is flagged
UNCONVERGED; the value of `blockNormsSize` is at most `maxBlockSize` at the
head of every pass of the loop (the internal assertion holds). -/
theorem prepare_candidates_block_postcondition (env : Env) (fuel : ℕ) (s : MainState)
    (nLocal basisSize ldV xOff rOff ldhVecs numEvals blockNormsSize maxBlockSize
      numLocked targetShiftIndex : ℤ)
    (h0 : 0 ≤ blockNormsSize) (hb : blockNormsSize ≤ maxBlockSize) (hne : 0 ≤ numEvals)
    (hinc : Increasing s.iev 0 blockNormsSize)
    (hidx : ∀ p : ℤ, 0 ≤ p → p < blockNormsSize → 0 ≤ rd s.iev p ∧ rd s.iev p < basisSize)
    (hfuel : basisSize.toNat + 2 ≤ fuel) :
    (∃ r, prepare_candidates_dprimme env fuel s nLocal basisSize ldV xOff rOff ldhVecs
        numEvals blockNormsSize maxBlockSize numLocked targetShiftIndex = some r ∧
      0 ≤ r.2.blockSize ∧ r.2.blockSize ≤ maxBlockSize ∧
      r.2.recentlyConverged ≤ numEvals ∧
      Increasing r.2.iev 0 r.2.blockSize ∧
      ∀ p : ℤ, 0 ≤ p → p < r.2.blockSize →
        0 ≤ rd r.2.iev p ∧ rd r.2.iev p < basisSize ∧
        rd r.2.flags (rd r.2.iev p) = UNCONVERGED) ∧
    ∀ b ∈ prepare_candidates_sizes env fuel s nLocal basisSize ldV xOff rOff ldhVecs
        numEvals blockNormsSize maxBlockSize numLocked targetShiftIndex,
      b ≤ maxBlockSize := by
  have key := prepare_candidates_post env fuel s nLocal basisSize ldV xOff rOff ldhVecs
    numEvals blockNormsSize maxBlockSize numLocked targetShiftIndex h0 hb hinc hidx hfuel
  rw [max_eq_right hne] at key
  exact key

theorem prepare_candidates_block_postcondition_witness :
    ∃ r, prepare_candidates_dprimme (demoEnvBlock 4 3) 5
        (demoBlockState (demoParamsBlock 3 2 primme_smallest) 0 1 zeroArr 5 4)
        3 3 3 9 9 3 3 2 2 0 0 = some r ∧
      0 ≤ r.2.blockSize ∧ r.2.blockSize ≤ 2 ∧
      r.2.recentlyConverged ≤ 3 ∧
      Increasing r.2.iev 0 r.2.blockSize ∧
      ∀ p : ℤ, 0 ≤ p → p < r.2.blockSize →
        0 ≤ rd r.2.iev p ∧ rd r.2.iev p < 3 ∧
        rd r.2.flags (rd r.2.iev p) = UNCONVERGED :=
  (prepare_candidates_block_postcondition (demoEnvBlock 4 3) 5
    (demoBlockState (demoParamsBlock 3 2 primme_smallest) 0 1 zeroArr 5 4)
    3 3 3 9 9 3 3 2 2 0 0 (by decide) (by decide) (by decide)
    (fun p q h1 h2 h3 => by
      have hp : p = 0 := by omega
      have hq : q = 1 := by omega
      subst hp hq
      decide)
    (fun p h1 h2 => by
      have hp : p = 0 ∨ p = 1 := by omega
      rcases hp with hp | hp <;> subst hp <;> decide)
    (by decide)).1
/-! ## `retain_previous_coefficients` -/

theorem retainLoop_succ (mp B bs : ℤ) (iev flags : IArr) (f : ℕ) (i index : ℤ) (cols : IArr)
    (hg : i < mp ∧ index < B) :
    retainLoop mp B bs iev flags (f + 1) i index cols =
      if i < bs then
        retainLoop mp B bs iev flags f (i + 1) (rd iev i + 1) (wr cols i (rd iev i))
      else if rd flags index = UNCONVERGED then
        retainLoop mp B bs iev flags f (i + 1) (index + 1) (wr cols i index)
      else retainLoop mp B bs iev flags f i (index + 1) cols := by
  rw [retainLoop.eq_def]
  dsimp only
  rw [if_pos hg]

theorem retainLoop_exit (mp B bs : ℤ) (iev flags : IArr) (f : ℕ) (i index : ℤ) (cols : IArr)
    (hg : ¬ (i < mp ∧ index < B)) :
    retainLoop mp B bs iev flags f i index cols = some (i, cols) := by
  rw [retainLoop.eq_def]
  dsimp only
  rw [if_neg hg]

theorem retainStart_last (iev : IArr) (bs i : ℤ) (h0 : 0 ≤ i) (h : bs = i + 1) :
    retainStart iev bs = rd iev i + 1 := by
  unfold retainStart
  rw [if_neg (by omega)]
  have : bs - 1 = i := by omega
  rw [this]

theorem retainStart_above (iev : IArr) (bs i : ℤ) (hinc : Increasing iev 0 bs)
    (h0 : 0 ≤ i) (h : i < bs) : rd iev i < retainStart iev bs := by
  unfold retainStart
  rw [if_neg (by omega)]
  rcases eq_or_lt_of_le (show i ≤ bs - 1 by omega) with e | hl
  · rw [e]
    omega
  · have := hinc i (bs - 1) h0 hl (by omega)
    omega

theorem retainStart_nonneg (iev : IArr) (bs B : ℤ)
    (hidx : ∀ p : ℤ, 0 ≤ p → p < bs → 0 ≤ rd iev p ∧ rd iev p < B) :
    0 ≤ retainStart iev bs := by
  unfold retainStart
  split_ifs with h
  · exact le_rfl
  · have := (hidx (bs - 1) (by omega) (by omega)).1
    omega

/-- The retention loop terminates within `basisSize - index` passes and
keeps its invariant. -/
theorem retainLoop_spec (mp B bs : ℤ) (iev flags : IArr)
    (hinc : Increasing iev 0 bs)
    (hidx : ∀ p : ℤ, 0 ≤ p → p < bs → 0 ≤ rd iev p ∧ rd iev p < B) :
    ∀ (fuel : ℕ) (i index : ℤ) (cols : IArr),
      RetainInv mp B bs iev flags i index cols → (B - index).toNat ≤ fuel →
      ∃ k cols', retainLoop mp B bs iev flags fuel i index cols = some (k, cols') ∧
        ∃ index', RetainInv mp B bs iev flags k index' cols' ∧ ¬ (k < mp ∧ index' < B)
  | fuel, i, index, cols, hinv, hfuel => by
    by_cases hg : i < mp ∧ index < B
    swap
    · exact ⟨i, cols, retainLoop_exit mp B bs iev flags fuel i index cols hg, index, hinv, hg⟩
    obtain ⟨h1, h2, h3, h4, h5, h6, h7, h8, h9, h10, h11⟩ := hinv
    cases fuel with
    | zero =>
      exfalso
      omega
    | succ f =>
      rw [retainLoop_succ mp B bs iev flags f i index cols hg]
      split_ifs with hlt hf
      · have hv := hidx i h1 hlt
        have hI := h5 hlt
        refine retainLoop_spec mp B bs iev flags hinc hidx f _ _ _
          ⟨by omega, by omega, by omega, by omega, ?_, ?_, ?_, ?_, ?_, ?_, ?_⟩ (by omega)
        · intro h
          have := hinc i (i + 1) h1 (by omega) h
          omega
        · intro h
          rw [retainStart_last iev bs i h1 (by omega)]
        · intro p p0 p1 p2
          rw [rd_wr _ _ _ _ p0]
          split_ifs with e
          · rw [e]
          · exact h7 p p0 (by omega) p2
        · intro p p0 p1 p2
          omega
        · intro j j1 j2 _
          have := retainStart_above iev bs i hinc h1 hlt
          omega
        · intro p q p0 pq q1
          rw [rd_wr _ _ _ _ p0, rd_wr _ _ _ _ (by omega : (0 : ℤ) ≤ q)]
          rw [if_neg (by omega : ¬ p = i)]
          split_ifs with e
          · have := (h11 p p0 (by omega)).2
            omega
          · exact h10 p q p0 pq (by omega)
        · intro p p0 p1
          rw [rd_wr _ _ _ _ p0]
          split_ifs with e
          · omega
          · have := h11 p p0 (by omega)
            omega
      · have hs := h6 (by omega)
        refine retainLoop_spec mp B bs iev flags hinc hidx f _ _ _
          ⟨by omega, by omega, by omega, by omega, ?_, ?_, ?_, ?_, ?_, ?_, ?_⟩ (by omega)
        · intro h
          omega
        · intro _
          omega
        · intro p p0 p1 p2
          rw [rd_wr _ _ _ _ p0, if_neg (by omega : ¬ p = i)]
          exact h7 p p0 (by omega) p2
        · intro p p0 p1 p2
          rw [rd_wr _ _ _ _ p0]
          split_ifs with e
          · exact ⟨hf, hs⟩
          · exact h8 p p0 p1 (by omega)
        · intro j j1 j2 j3
          rcases eq_or_lt_of_le (show j ≤ index by omega) with e | hl
          · refine ⟨i, h1, by omega, by omega, ?_⟩
            rw [rd_wr _ _ _ _ h1, if_pos rfl, e]
          · obtain ⟨p, p0, p1, p2, p3⟩ := h9 j j1 hl j3
            refine ⟨p, p0, p1, by omega, ?_⟩
            rw [rd_wr _ _ _ _ p0, if_neg (by omega : ¬ p = i)]
            exact p3
        · intro p q p0 pq q1
          rw [rd_wr _ _ _ _ p0, rd_wr _ _ _ _ (by omega : (0 : ℤ) ≤ q)]
          rw [if_neg (by omega : ¬ p = i)]
          split_ifs with e
          · exact (h11 p p0 (by omega)).2
          · exact h10 p q p0 pq (by omega)
        · intro p p0 p1
          rw [rd_wr _ _ _ _ p0]
          split_ifs with e
          · omega
          · have := h11 p p0 (by omega)
            omega
      · have hs := h6 (by omega)
        refine retainLoop_spec mp B bs iev flags hinc hidx f _ _ _
          ⟨h1, h2, by omega, by omega, ?_, ?_, h7, h8, ?_, h10, ?_⟩ (by omega)
        · intro h
          omega
        · intro _
          omega
        · intro j j1 j2 j3
          rcases eq_or_lt_of_le (show j ≤ index by omega) with e | hl
          · rw [e] at j3
            exact absurd j3 hf
          · exact h9 j j1 hl j3
        · intro p p0 p1
          have := h11 p p0 p1
          omega

/-- The invariant holds at the entry of the retention loop. -/
theorem RetainInv_entry (mp B bs : ℤ) (iev flags cols : IArr) (hmp : 0 ≤ mp) (hB : 0 ≤ B)
    (hidx : ∀ p : ℤ, 0 ≤ p → p < bs → 0 ≤ rd iev p ∧ rd iev p < B) :
    RetainInv mp B bs iev flags 0 0 cols := by
  have hs := retainStart_nonneg iev bs B hidx
  refine ⟨le_rfl, hmp, le_rfl, hB, ?_, ?_, ?_, ?_, ?_, ?_, ?_⟩
  · intro h
    exact (hidx 0 le_rfl h).1
  · intro h
    unfold retainStart
    rw [if_pos h]
  · intro p p0 p1
    omega
  · intro p p0 _ p1
    omega
  · intro j j1 j2
    omega
  · intro p q p0 pq q1
    omega
  · intro p p0 p1
    omega

theorem cell_ediv (ld p j : ℤ) (hj0 : 0 ≤ j) (hj : j < ld) :
    (ld * p + j) / ld = p ∧ (ld * p + j) % ld = j := by
  have hne : ld ≠ 0 := by omega
  constructor
  · rw [add_comm, Int.add_mul_ediv_left _ _ hne, Int.ediv_eq_zero_of_lt hj0 hj, zero_add]
  · rw [add_comm, Int.add_mul_emod_self_left, Int.emod_eq_of_lt hj0 hj]

theorem cell_nonneg (ld p j : ℤ) (hld : 0 ≤ ld) (hp : 0 ≤ p) (hj0 : 0 ≤ j) :
    (((ld * p + j).toNat : ℕ) : ℤ) = ld * p + j :=
  Int.toNat_of_nonneg (add_nonneg (mul_nonneg hld hp) hj0)

/-- The zeroing loop of `retain_previous_coefficients` does not touch the
rows below `basisSize` of the retained columns. -/
theorem retain_zeroing_misses (K : ℕ) (B m ld p j : ℤ) (hj0 : 0 ≤ j) (hjB : j < B)
    (hld : B ≤ ld) (hm : m ≤ ld) :
    (List.range K).any (fun i =>
      decide (B ≤ (ld * p + j) - ld * (i : ℤ) ∧ (ld * p + j) - ld * (i : ℤ) < m)) = false := by
  rw [List.any_eq_false]
  intro i _
  simp only [decide_eq_true_eq]
  rintro ⟨a, b⟩
  have e : ld * p + j - ld * (i : ℤ) = ld * (p - i) + j := by ring
  rw [e] at a b
  rcases lt_trichotomy (i : ℤ) p with h | h | h
  · have : ld * 1 ≤ ld * (p - i) := mul_le_mul_of_nonneg_left (by omega) (by omega)
    omega
  · rw [h] at a
    simp at a
    omega
  · have e2 : ld * (p - (i : ℤ)) = -(ld * ((i : ℤ) - p)) := by ring
    have : ld * 1 ≤ ld * ((i : ℤ) - p) := mul_le_mul_of_nonneg_left (by omega) (by omega)
    omega

/-- The zeroing loop of `retain_previous_coefficients` reaches the rows
`basisSize..mpreviousHVecs-1` of the retained columns. -/
theorem retain_zeroing_hits (K B m ld p j : ℤ) (hp : 0 ≤ p) (hpK : p < K)
    (hjB : B ≤ j) (hjm : j < m) :
    (List.range K.toNat).any (fun i =>
      decide (B ≤ (ld * p + j) - ld * (i : ℤ) ∧ (ld * p + j) - ld * (i : ℤ) < m)) = true := by
  rw [List.any_eq_true]
  refine ⟨p.toNat, List.mem_range.mpr (by omega), ?_⟩
  have hc : ((p.toNat : ℕ) : ℤ) = p := Int.toNat_of_nonneg hp
  rw [hc]
  simp only [decide_eq_true_eq]
  constructor <;> omega

/-- What `retain_previous_coefficients` returns, for a strictly increasing
block of indices below `basisSize`. -/
theorem retain_previous_post (fuel : ℕ) (hVecs : Arr) (ldhVecs : ℤ)
    (previousHVecs : Arr) (mpreviousHVecs ldpreviousHVecs basisSize : ℤ) (iev : IArr)
    (blockSize : ℤ) (flags cols : IArr) (primme : primme_params)
    (hmp : 0 ≤ primme.restartingParams.maxPrevRetain) (hB : 0 ≤ basisSize)
    (hinc : Increasing iev 0 blockSize)
    (hidx : ∀ p : ℤ, 0 ≤ p → p < blockSize → 0 ≤ rd iev p ∧ rd iev p < basisSize)
    (hld : basisSize ≤ ldpreviousHVecs) (hm : mpreviousHVecs ≤ ldpreviousHVecs)
    (hfuel : basisSize.toNat ≤ fuel) :
    ∃ (k : ℤ) (P : Arr) (cols' : IArr),
      retain_previous_coefficients fuel hVecs ldhVecs previousHVecs mpreviousHVecs
        ldpreviousHVecs basisSize iev blockSize flags cols primme = some (k, P, cols') ∧
      0 ≤ k ∧ min blockSize primme.restartingParams.maxPrevRetain ≤ k ∧
      k ≤ primme.restartingParams.maxPrevRetain ∧ k ≤ basisSize ∧
      (∀ p : ℤ, 0 ≤ p → p < k → p < blockSize → rd cols' p = rd iev p) ∧
      (∀ p : ℤ, 0 ≤ p → blockSize ≤ p → p < k →
        rd flags (rd cols' p) = UNCONVERGED ∧ retainStart iev blockSize ≤ rd cols' p) ∧
      (∀ j : ℤ, retainStart iev blockSize ≤ j → j < basisSize → rd flags j = UNCONVERGED →
        (∃ p : ℤ, 0 ≤ p ∧ blockSize ≤ p ∧ p < k ∧ rd cols' p = j) ∨
        (k = primme.restartingParams.maxPrevRetain ∧
          ∀ p : ℤ, 0 ≤ p → p < k → rd cols' p < j)) ∧
      Increasing cols' 0 k ∧
      (∀ p q : ℤ, 0 ≤ p → p < k → 0 ≤ q → q < k → p ≠ q → rd cols' p ≠ rd cols' q) ∧
      (∀ p : ℤ, 0 ≤ p → p < k → 0 ≤ rd cols' p ∧ rd cols' p < basisSize) ∧
      (∀ p j : ℤ, 0 ≤ p → p < k → 0 ≤ j → j < basisSize →
        rd P (ldpreviousHVecs * p + j) = rd hVecs (rd cols' p * ldhVecs + j)) ∧
      (∀ p j : ℤ, 0 ≤ p → p < k → basisSize ≤ j → j < mpreviousHVecs →
        rd P (ldpreviousHVecs * p + j) = 0) := by
  obtain ⟨k, cols', hr, index', hinv, hex⟩ := retainLoop_spec
    primme.restartingParams.maxPrevRetain basisSize blockSize iev flags hinc hidx fuel 0 0 cols
    (RetainInv_entry _ _ _ _ _ _ hmp hB hidx) (by simpa using hfuel)
  obtain ⟨h1, h2, h3, h4, h5, h6, h7, h8, h9, h10, h11⟩ := hinv
  unfold retain_previous_coefficients
  rw [hr]
  dsimp only
  refine ⟨k, _, cols', rfl, h1, ?_, h2, by omega, h7, h8, ?_, h10, ?_, ?_, ?_, ?_⟩
  · by_contra hc
    have hlt : k < blockSize := by
      rcases le_or_lt blockSize k with h | h
      · exact absurd (le_trans (min_le_left _ _) h) hc
      · exact h
    have hk : k < primme.restartingParams.maxPrevRetain := by
      rcases le_or_lt primme.restartingParams.maxPrevRetain k with h | h
      · exact absurd (le_trans (min_le_right _ _) h) hc
      · exact h
    have := h5 hlt
    have := (hidx k h1 hlt).2
    exact hex ⟨hk, by omega⟩
  · intro j j1 j2 j3
    rcases lt_or_le j index' with h | h
    · exact Or.inl (h9 j j1 h j3)
    · refine Or.inr ⟨?_, ?_⟩
      · by_contra hne
        exact hex ⟨by omega, by omega⟩
      · intro p p0 p1
        have := (h11 p p0 p1).2
        omega
  · intro p q p0 p1 q0 q1 hpq
    rcases lt_or_gt_of_ne hpq with h | h
    · exact ne_of_lt (h10 p q p0 h q1)
    · exact ne_of_gt (h10 q p q0 h p1)
  · intro p p0 p1
    have := h11 p p0 p1
    exact ⟨this.1, by omega⟩
  · intro p j p0 p1 j0 j1
    have hz := cell_nonneg ldpreviousHVecs p j (by omega) p0 j0
    obtain ⟨d1, d2⟩ := cell_ediv ldpreviousHVecs p j j0 (by omega)
    unfold rd Num_copy_matrix_columns_dprimme
    dsimp only
    rw [hz, retain_zeroing_misses k.toNat basisSize mpreviousHVecs ldpreviousHVecs p j j0 j1
      hld hm]
    rw [if_neg Bool.false_ne_true, d1, d2, if_pos ⟨by omega, p1, j1⟩]
    rfl
  · intro p j p0 p1 j0 j1
    have hz := cell_nonneg ldpreviousHVecs p j (by omega) p0 (by omega)
    unfold rd
    dsimp only
    rw [hz, retain_zeroing_hits k basisSize mpreviousHVecs ldpreviousHVecs p j p0 p1 j0 j1,
      if_pos rfl]

/-- C26: `retain_previous_coefficients` on a block `iev[0..blockSize)` that is
strictly increasing with entries in `[0, basisSize)`, with `maxPrevRetain >= 0`,
`basisSize >= 0` and a buffer whose leading dimension covers `basisSize` and
`mpreviousHVecs` (both are `maxBasisSize` at the call).  With `basisSize`
passes allowed the loop terminates with a count `k`, `min(blockSize,
maxPrevRetain) <= k <= maxPrevRetain`, `k <= basisSize`; `cols[p] = iev[p]`
for the positions `p < blockSize`; the later positions hold indices from
`iev[blockSize-1] + 1` on (from 0 for an empty block) whose flag is
UNCONVERGED, and no such index is skipped unless `k = maxPrevRetain` has been
reached before it; `cols[0..k)` is strictly increasing, hence pairwise
distinct, with entries in `[0, basisSize)`; column `p < k` of `previousHVecs`
holds the rows `0..basisSize-1` of column `cols[p]` of `hVecs` followed by
zeros in the rows `basisSize..mpreviousHVecs-1`. -/
theorem retain_previous_coefficients_spec (fuel : ℕ) (hVecs : Arr) (ldhVecs : ℤ)
    (previousHVecs : Arr) (mpreviousHVecs ldpreviousHVecs basisSize : ℤ) (iev : IArr)
    (blockSize : ℤ) (flags cols : IArr) (primme : primme_params)
    (hmp : 0 ≤ primme.restartingParams.maxPrevRetain) (hB : 0 ≤ basisSize)
    (hinc : Increasing iev 0 blockSize)
    (hidx : ∀ p : ℤ, 0 ≤ p → p < blockSize → 0 ≤ rd iev p ∧ rd iev p < basisSize)
    (hld : basisSize ≤ ldpreviousHVecs) (hm : mpreviousHVecs ≤ ldpreviousHVecs)
    (hfuel : basisSize.toNat ≤ fuel) :
    ∃ (k : ℤ) (P : Arr) (cols' : IArr),
      retain_previous_coefficients fuel hVecs ldhVecs previousHVecs mpreviousHVecs
        ldpreviousHVecs basisSize iev blockSize flags cols primme = some (k, P, cols') ∧
      0 ≤ k ∧ min blockSize primme.restartingParams.maxPrevRetain ≤ k ∧
      k ≤ primme.restartingParams.maxPrevRetain ∧ k ≤ basisSize ∧
      (∀ p : ℤ, 0 ≤ p → p < k → p < blockSize → rd cols' p = rd iev p) ∧
      (∀ p : ℤ, 0 ≤ p → blockSize ≤ p → p < k →
        rd flags (rd cols' p) = UNCONVERGED ∧ retainStart iev blockSize ≤ rd cols' p) ∧
      (∀ j : ℤ, retainStart iev blockSize ≤ j → j < basisSize → rd flags j = UNCONVERGED →
        (∃ p : ℤ, 0 ≤ p ∧ blockSize ≤ p ∧ p < k ∧ rd cols' p = j) ∨
        (k = primme.restartingParams.maxPrevRetain ∧
          ∀ p : ℤ, 0 ≤ p → p < k → rd cols' p < j)) ∧
      Increasing cols' 0 k ∧
      (∀ p q : ℤ, 0 ≤ p → p < k → 0 ≤ q → q < k → p ≠ q → rd cols' p ≠ rd cols' q) ∧
      (∀ p : ℤ, 0 ≤ p → p < k → 0 ≤ rd cols' p ∧ rd cols' p < basisSize) ∧
      (∀ p j : ℤ, 0 ≤ p → p < k → 0 ≤ j → j < basisSize →
        rd P (ldpreviousHVecs * p + j) = rd hVecs (rd cols' p * ldhVecs + j)) ∧
      (∀ p j : ℤ, 0 ≤ p → p < k → basisSize ≤ j → j < mpreviousHVecs →
        rd P (ldpreviousHVecs * p + j) = 0) :=
  retain_previous_post fuel hVecs ldhVecs previousHVecs mpreviousHVecs ldpreviousHVecs
    basisSize iev blockSize flags cols primme hmp hB hinc hidx hld hm hfuel

theorem retain_previous_coefficients_spec_witness :
    ∃ (k : ℤ) (P : Arr) (cols' : IArr),
      retain_previous_coefficients 3 demoRetainHVecs 3 zeroArr 4 4 3 demoRetainIev 1
        zeroIArr zeroIArr demoParamsRetain = some (k, P, cols') ∧
      0 ≤ k ∧ min 1 demoParamsRetain.restartingParams.maxPrevRetain ≤ k ∧
      k ≤ demoParamsRetain.restartingParams.maxPrevRetain ∧ k ≤ 3 ∧
      (∀ p : ℤ, 0 ≤ p → p < k → p < 1 → rd cols' p = rd demoRetainIev p) ∧
      (∀ p : ℤ, 0 ≤ p → 1 ≤ p → p < k →
        rd zeroIArr (rd cols' p) = UNCONVERGED ∧ retainStart demoRetainIev 1 ≤ rd cols' p) ∧
      (∀ j : ℤ, retainStart demoRetainIev 1 ≤ j → j < 3 → rd zeroIArr j = UNCONVERGED →
        (∃ p : ℤ, 0 ≤ p ∧ 1 ≤ p ∧ p < k ∧ rd cols' p = j) ∨
        (k = demoParamsRetain.restartingParams.maxPrevRetain ∧
          ∀ p : ℤ, 0 ≤ p → p < k → rd cols' p < j)) ∧
      Increasing cols' 0 k ∧
      (∀ p q : ℤ, 0 ≤ p → p < k → 0 ≤ q → q < k → p ≠ q → rd cols' p ≠ rd cols' q) ∧
      (∀ p : ℤ, 0 ≤ p → p < k → 0 ≤ rd cols' p ∧ rd cols' p < 3) ∧
      (∀ p j : ℤ, 0 ≤ p → p < k → 0 ≤ j → j < 3 →
        rd P (4 * p + j) = rd demoRetainHVecs (rd cols' p * 3 + j)) ∧
      (∀ p j : ℤ, 0 ≤ p → p < k → 3 ≤ j → j < 4 → rd P (4 * p + j) = 0) :=
  retain_previous_coefficients_spec 3 demoRetainHVecs 3 zeroArr 4 4 3 demoRetainIev 1
    zeroIArr zeroIArr demoParamsRetain (by decide) (by decide)
    (fun p q h1 h2 h3 => by omega)
    (fun p h1 h2 => by
      have hp : p = 0 := by omega
      subst hp
      decide)
    (by decide) (by decide) (by decide)

/-- The run of the example: the block entry 1 and then the unconverged index
2 are retained. -/
theorem retain_previous_demo_run :
    (retain_previous_coefficients 3 demoRetainHVecs 3 zeroArr 4 4 3 demoRetainIev 1
        zeroIArr zeroIArr demoParamsRetain).map
      (fun r => (r.1, rd r.2.2 0, rd r.2.2 1)) = some (2, 1, 2) ∧
    (retain_previous_coefficients 3 demoRetainHVecs 3 zeroArr 4 4 3 demoRetainIev 1
        zeroIArr zeroIArr demoParamsRetain).map
      (fun r => (rd r.2.1 0, rd r.2.1 2, rd r.2.1 3, rd r.2.1 4, rd r.2.1 7)) =
      some (4, 6, 0, 7, 0) := by
  constructor <;> decide!
/-! ## Progress of the growth loop -/

/-- The candidate loop never shrinks the block or the count of converged
pairs, and never grows the block beyond `maxBlockSize`. -/
theorem candidateLoop_bounds (nLocal ldV xOff rOff numEvals blockNormsSize maxBlockSize
    numLocked : ℤ) (targetShift : ℚ) (flagsBlock : IArr) :
    ∀ (k : ℕ) (i blki : ℤ) (s : MainState),
      s.blockSize ≤ (candidateLoop nLocal ldV xOff rOff numEvals blockNormsSize maxBlockSize
        numLocked targetShift flagsBlock k i blki s).2.blockSize ∧
      (candidateLoop nLocal ldV xOff rOff numEvals blockNormsSize maxBlockSize
        numLocked targetShift flagsBlock k i blki s).2.blockSize
          ≤ max s.blockSize maxBlockSize ∧
      s.recentlyConverged ≤ (candidateLoop nLocal ldV xOff rOff numEvals blockNormsSize
        maxBlockSize numLocked targetShift flagsBlock k i blki s).2.recentlyConverged
  | 0, _, _, s => by
    rw [candidateLoop]
    exact ⟨le_rfl, le_max_left _ _, le_rfl⟩
  | k + 1, i, blki, s => by
    rw [candidateLoop_succ]
    split_ifs with hg
    · obtain ⟨_, hshape, hrc⟩ := candidateStep_shape nLocal ldV xOff rOff numEvals
        blockNormsSize maxBlockSize numLocked targetShift flagsBlock i blki s hg
      obtain ⟨a1, a2, a3⟩ := candidateLoop_bounds nLocal ldV xOff rOff numEvals
        blockNormsSize maxBlockSize numLocked targetShift flagsBlock k (i + 1) (blki + 1)
        (candidateStep nLocal ldV xOff rOff numEvals blockNormsSize maxBlockSize
          numLocked targetShift flagsBlock i blki s)
      generalize candidateLoop nLocal ldV xOff rOff numEvals blockNormsSize maxBlockSize
        numLocked targetShift flagsBlock k (i + 1) (blki + 1)
        (candidateStep nLocal ldV xOff rOff numEvals blockNormsSize maxBlockSize
          numLocked targetShift flagsBlock i blki s) = r at a1 a2 a3
      generalize candidateStep nLocal ldV xOff rOff numEvals blockNormsSize maxBlockSize
          numLocked targetShift flagsBlock i blki s = t at hshape hrc a1 a2 a3
      have hb : s.blockSize ≤ t.blockSize ∧ t.blockSize ≤ maxBlockSize := by
        rcases hshape with ⟨_, e⟩ | ⟨_, _, e⟩
        · rw [e]
          exact ⟨le_rfl, le_of_lt hg.2⟩
        · rw [e]
          have := hg.2
          constructor <;> omega
      refine ⟨by omega, ?_, by omega⟩
      have h1 : max t.blockSize maxBlockSize = maxBlockSize := max_eq_right hb.2
      rw [h1] at a2
      exact le_trans a2 (le_max_right _ _)
    · exact ⟨le_rfl, le_max_left _ _, le_rfl⟩

theorem candidatesWhile_bounds (env : Env) (nLocal basisSize ldV xOff rOff ldhVecs numEvals
    maxBlockSize numLocked targetShiftIndex : ℤ) (targetShift : ℚ) :
    ∀ (fuel : ℕ) (blockNormsSize : ℤ) (hValsBlock : Arr) (s : MainState) (r : ℤ × MainState),
      candidatesWhile env nLocal basisSize ldV xOff rOff ldhVecs numEvals maxBlockSize
        numLocked targetShiftIndex targetShift fuel blockNormsSize hValsBlock s = some r →
      s.blockSize ≤ r.2.blockSize ∧ r.2.blockSize ≤ max s.blockSize maxBlockSize ∧
        s.recentlyConverged ≤ r.2.recentlyConverged
  | 0, _, _, _, _, h => by
    unfold candidatesWhile at h
    cases h
  | fuel + 1, blockNormsSize, hValsBlock, s, r, h => by
    unfold candidatesWhile at h
    dsimp only at h
    have c2 : (candidatesCheck env ldV xOff rOff numLocked blockNormsSize hValsBlock
      s).2.blockSize = s.blockSize := rfl
    have c3 : (candidatesCheck env ldV xOff rOff numLocked blockNormsSize hValsBlock
      s).2.recentlyConverged = s.recentlyConverged := rfl
    generalize candidatesCheck env ldV xOff rOff numLocked blockNormsSize hValsBlock s = c
      at h c2 c3
    obtain ⟨a1, a2, a3⟩ := candidateLoop_bounds nLocal ldV xOff rOff numEvals blockNormsSize
        maxBlockSize numLocked targetShift c.2.iwork blockNormsSize.toNat 0 c.2.blockSize c.2
    generalize candidateLoop nLocal ldV xOff rOff numEvals blockNormsSize
        maxBlockSize numLocked targetShift c.2.iwork blockNormsSize.toNat 0 c.2.blockSize c.2
        = rr at h a1 a2 a3
    rw [c2] at a1 a2
    rw [c3] at a3
    have p2 : (candidatesPrepareVecs env basisSize maxBlockSize targetShiftIndex
      (candidatesResume rr.1 rr.2.iev) rr.2).blockSize = rr.2.blockSize := rfl
    have p3 : (candidatesPrepareVecs env basisSize maxBlockSize targetShiftIndex
      (candidatesResume rr.1 rr.2.iev) rr.2).recentlyConverged = rr.2.recentlyConverged := rfl
    generalize candidatesPrepareVecs env basisSize maxBlockSize targetShiftIndex
      (candidatesResume rr.1 rr.2.iev) rr.2 = pv at h p2 p3
    have s2 : (candidatesScan basisSize maxBlockSize (candidatesResume rr.1 rr.2.iev)
      pv).2.blockSize = pv.blockSize := rfl
    have s3 : (candidatesScan basisSize maxBlockSize (candidatesResume rr.1 rr.2.iev)
      pv).2.recentlyConverged = pv.recentlyConverged := rfl
    generalize candidatesScan basisSize maxBlockSize (candidatesResume rr.1 rr.2.iev) pv = sc
      at h s2 s3
    split at h
    · cases h
      rw [c2, c3]
      exact ⟨le_rfl, le_max_left _ _, le_rfl⟩
    · split at h
      · cases h
        show s.blockSize ≤ sc.2.blockSize ∧ sc.2.blockSize ≤ max s.blockSize maxBlockSize ∧
          s.recentlyConverged ≤ sc.2.recentlyConverged
        rw [s2, s3, p2, p3]
        exact ⟨a1, a2, a3⟩
      · have u2 : (candidatesResiduals env nLocal basisSize ldV xOff rOff ldhVecs
          (sc.1 - sc.2.blockSize) sc.2).2.blockSize = sc.2.blockSize := rfl
        have u3 : (candidatesResiduals env nLocal basisSize ldV xOff rOff ldhVecs
          (sc.1 - sc.2.blockSize) sc.2).2.recentlyConverged = sc.2.recentlyConverged := rfl
        generalize candidatesResiduals env nLocal basisSize ldV xOff rOff ldhVecs
          (sc.1 - sc.2.blockSize) sc.2 = u at h u2 u3
        split at h
        · cases h
          rw [u2, u3, s2, s3, p2, p3]
          exact ⟨a1, a2, a3⟩
        · obtain ⟨_, m1, _, m3, _, _⟩ :=
            candidatesSmallest_frame env (sc.1 - sc.2.blockSize) u.2
          obtain ⟨i1, i2, i3⟩ := candidatesWhile_bounds env nLocal basisSize ldV xOff rOff
            ldhVecs numEvals maxBlockSize numLocked targetShiftIndex targetShift fuel _ _ _ r h
          rw [m3, u2, s2, p2] at i1 i2
          rw [m1, u3, s3, p3] at i3
          refine ⟨by omega, ?_, by omega⟩
          refine le_trans i2 (max_le a2 (le_max_right _ _))

/-- On return from `prepare_candidates_dprimme` the block size is between 0
and `max(0, maxBlockSize)` and the count of newly converged pairs is not
negative, whatever the input is. -/
theorem prepare_candidates_bounds (env : Env) (fuel : ℕ) (s : MainState)
    (nLocal basisSize ldV xOff rOff ldhVecs numEvals blockNormsSize maxBlockSize
      numLocked targetShiftIndex : ℤ) (r : ℤ × MainState)
    (h : prepare_candidates_dprimme env fuel s nLocal basisSize ldV xOff rOff ldhVecs numEvals
      blockNormsSize maxBlockSize numLocked targetShiftIndex = some r) :
    0 ≤ r.2.blockSize ∧ r.2.blockSize ≤ max 0 maxBlockSize ∧ 0 ≤ r.2.recentlyConverged := by
  rw [prepare_candidates_eq] at h
  obtain ⟨e1, e2, e3, e4⟩ := candidatesEntry_fields env s blockNormsSize
  obtain ⟨a1, a2, a3⟩ := candidatesWhile_bounds _ _ _ _ _ _ _ _ _ _ _ _ _ _ _ _ r h
  rw [e3] at a1 a2
  rw [e4] at a3
  exact ⟨a1, a2, a3⟩

/-! ### The sizes through a growth step -/

theorem dynamicBeforeCorrection_dims (env : Env) (s : MainState) :
    (dynamicBeforeCorrection env s).dims = s.dims := by
  unfold dynamicBeforeCorrection
  dsimp only
  split_ifs <;> rfl

theorem growthCorrection_dims (env : Env) (s t : MainState)
    (h : growthCorrection env s = Flow.cont t) :
    t.dims = (s.basisSize, (if s.blockSize = 0 then s.availableBlockSize else s.blockSize),
      s.numLocked, s.numConverged, s.availableBlockSize) := by
  unfold growthCorrection at h
  have hd := dynamicBeforeCorrection_dims env s
  by_cases hb : s.blockSize = 0
  · rw [if_pos hb] at h
    rw [if_pos hb]
    cases h
    rfl
  · rw [if_neg hb] at h
    rw [if_neg hb]
    dsimp only at h
    have e : (((dynamicBeforeCorrection env s).solveCorrection env).2).dims =
      (dynamicBeforeCorrection env s).dims := rfl
    have e2 : ((((dynamicBeforeCorrection env s).solveCorrection env).2).addInnerTime env).dims
      = (dynamicBeforeCorrection env s).dims := rfl
    split_ifs at h
    · cases h
      rw [e2, hd]
      rfl
    · cases h
      rw [e, hd]
      rfl

theorem growthRetain_dims (fuel : ℕ) (s t : MainState) (h : growthRetain fuel s = some t) :
    t.dims = s.dims := by
  unfold growthRetain at h
  dsimp only at h
  split at h
  · split at h
    · cases h
    · split at h
      · split at h
        · cases h
        · cases h
          rfl
      · cases h
        rfl
  · cases h
    rfl

theorem updateProjections_dims (env : Env) (s : MainState) (a b : ℤ) :
    (s.updateProjections env a b).dims = s.dims := by
  unfold MainState.updateProjections
  dsimp only
  split_ifs <;> rfl

theorem extendBasis_dims (env : Env) (s : MainState) :
    (s.extendBasis env).dims = (s.basisSize + s.blockSize, 0, s.numLocked, s.numConverged,
      s.availableBlockSize) := by
  have hu := updateProjections_dims env (s.matvec env s.basisSize s.blockSize)
    s.basisSize s.blockSize
  have e : (s.matvec env s.basisSize s.blockSize).dims = s.dims := rfl
  rw [e] at hu
  unfold MainState.dims at hu ⊢
  simp only [Prod.mk.injEq] at hu ⊢
  obtain ⟨u1, u2, u3, u4, u5⟩ := hu
  refine ⟨?_, rfl, u3, u4, u5⟩
  show (MainState.updateProjections env (s.matvec env s.basisSize s.blockSize)
      s.basisSize s.blockSize).basisSize +
    (MainState.updateProjections env (s.matvec env s.basisSize s.blockSize)
      s.basisSize s.blockSize).blockSize = _
  rw [u1, u2]

theorem solveH_reset_dims (env : Env) (x : MainState) :
    ((x.solveH env).2.resetArbitrary).dims = x.dims := rfl

theorem growthExtend_dims (env : Env) (fuel : ℕ) (s t : MainState)
    (h : growthExtend env fuel s = Flow.cont t) :
    t.dims = (s.basisSize + s.blockSize, 0, s.numLocked, s.numConverged,
      s.availableBlockSize) := by
  unfold growthExtend at h
  dsimp only at h
  have ho : (s.orthoCall env s.basisSize (s.basisSize + s.blockSize - 1)
    (s.primme.numOrthoConst + s.numLocked)).2.dims = s.dims := rfl
  generalize s.orthoCall env s.basisSize (s.basisSize + s.blockSize - 1)
    (s.primme.numOrthoConst + s.numLocked) = o at h ho
  have hu := extendBasis_dims env o.2
  have hr := solveH_reset_dims env (o.2.extendBasis env)
  generalize o.2.extendBasis env = x at h hu hr
  generalize (x.solveH env) = y at h hr
  split_ifs at h
  split at h
  · cases h
  · rename_i s2 h2
    cases h
    rw [growthRetain_dims fuel _ _ h2, hr, hu]
    unfold MainState.dims at ho
    simp only [Prod.mk.injEq] at ho
    obtain ⟨u1, u2, u3, u4, u5⟩ := ho
    rw [u1, u2, u3, u4, u5]

theorem growthBlockSize_dims (s : MainState) :
    (growthBlockSize s).basisSize = s.basisSize ∧
    (growthBlockSize s).blockSize = s.blockSize ∧
    (growthBlockSize s).numLocked = s.numLocked ∧
    (growthBlockSize s).numConverged = s.numConverged ∧
    (growthBlockSize s).iev = s.iev := by
  unfold growthBlockSize
  dsimp only
  split_ifs <;> exact ⟨rfl, rfl, rfl, rfl, rfl⟩

/-- The block size available to a growth step fits into the vacant part of
the basis and of the space, and it is at least 1 unless the step is bound to
leave the loop early. -/
theorem growthBlockSize_avail (s : MainState) (hg : s.growthGuard)
    (hmb : 1 ≤ s.primme.maxBlockSize) (hoc : 0 ≤ s.primme.numOrthoConst)
    (hl : 0 ≤ s.numLocked) (hlc : s.numLocked ≤ s.numConverged) :
    (growthBlockSize s).availableBlockSize ≤ s.primme.maxBasisSize - s.basisSize ∧
    (growthBlockSize s).availableBlockSize ≤ s.primme.n - s.basisSize ∧
    ((growthBlockSize s).targetShiftIndex < 0 ∨ s.primme.numEvals < s.numConverged ∨
      1 ≤ (growthBlockSize s).availableBlockSize) := by
  obtain ⟨g1, g2, _⟩ := hg
  unfold growthBlockSize
  dsimp only
  simp only [cmin_eq_min]
  split_ifs
  · refine ⟨?_, ?_, Or.inl ?_⟩
    · show (0 : ℤ) ≤ s.primme.maxBasisSize - s.basisSize
      omega
    · show (0 : ℤ) ≤ s.primme.n - s.basisSize
      omega
    · show (-1 : ℤ) < 0
      omega
  · refine ⟨?_, ?_, Or.inr (Or.inr ?_)⟩
    · show min (min (min 1 (s.primme.maxBasisSize - s.basisSize))
        (s.numConverged - s.numLocked + 1 + 1)) (s.primme.n - s.basisSize) ≤ s.primme.maxBasisSize - s.basisSize
      omega
    · show min (min (min 1 (s.primme.maxBasisSize - s.basisSize))
        (s.numConverged - s.numLocked + 1 + 1)) (s.primme.n - s.basisSize) ≤ s.primme.n - s.basisSize
      omega
    · show 1 ≤ min (min (min 1 (s.primme.maxBasisSize - s.basisSize))
        (s.numConverged - s.numLocked + 1 + 1)) (s.primme.n - s.basisSize)
      omega
  · refine ⟨?_, ?_, Or.inl ?_⟩
    · show (0 : ℤ) ≤ s.primme.maxBasisSize - s.basisSize
      omega
    · show (0 : ℤ) ≤ s.primme.n - s.basisSize
      omega
    · show (-1 : ℤ) < 0
      omega
  · refine ⟨?_, ?_, ?_⟩
    · show min (min (min s.primme.maxBlockSize (s.primme.maxBasisSize - s.basisSize))
        (s.primme.numEvals - s.numConverged + 1)) (s.primme.n - s.basisSize) ≤ s.primme.maxBasisSize - s.basisSize
      omega
    · show min (min (min s.primme.maxBlockSize (s.primme.maxBasisSize - s.basisSize))
        (s.primme.numEvals - s.numConverged + 1)) (s.primme.n - s.basisSize) ≤ s.primme.n - s.basisSize
      omega
    · rcases lt_or_le s.primme.numEvals s.numConverged with h | h
      · exact Or.inr (Or.inl h)
      · refine Or.inr (Or.inr ?_)
        show 1 ≤ min (min (min s.primme.maxBlockSize (s.primme.maxBasisSize - s.basisSize))
          (s.primme.numEvals - s.numConverged + 1)) (s.primme.n - s.basisSize)
        omega

/-- The sizes after the candidate preparation of a growth step. -/
theorem growthCandidates_dims (env : Env) (fuel : ℕ) (b c : MainState)
    (h : growthCandidates env fuel b = some c) :
    c.basisSize = b.basisSize ∧ c.numLocked = b.numLocked ∧
    c.numConverged = b.numConverged + c.recentlyConverged ∧ 0 ≤ c.recentlyConverged ∧
    c.availableBlockSize = b.availableBlockSize ∧
    c.targetShiftIndex = b.targetShiftIndex ∧ c.primme = b.primme ∧
    0 ≤ c.blockSize ∧ c.blockSize ≤ max 0 b.availableBlockSize := by
  unfold growthCandidates at h
  split at h
  · cases h
  · rename_i p hp
    cases h
    unfold growthPrepare at hp
    split_ifs at hp with ha
    · split at hp
      · cases hp
      · rename_i r hr
        cases hp
        obtain ⟨⟨f1, _, f3, f4, _, f6, f7, f8, _, _⟩, _⟩ :=
          prepare_candidates_frame env fuel b _ _ _ _ _ _ _ _ _ _ _ r hr
        obtain ⟨b1, b2, b3⟩ := prepare_candidates_bounds env fuel b _ _ _ _ _ _ _ _ _ _ _ r hr
        refine ⟨f7, f4, ?_, b3, f6, f8, f1, b1, b2⟩
        show r.2.numConverged + r.2.recentlyConverged = _
        rw [f3]
        rfl
    · cases hp
      refine ⟨rfl, rfl, rfl, le_rfl, rfl, rfl, rfl, le_rfl, le_max_left _ _⟩

/-- C-level reading of a completed growth step: the basis grows by the size
of the block, which is between 1 and the available block size. -/
theorem growthStep_progress (env : Env) (inner : ℕ) (s t : MainState) (hg : s.growthGuard)
    (hmb : 1 ≤ s.primme.maxBlockSize) (hoc : 0 ≤ s.primme.numOrthoConst)
    (hl : 0 ≤ s.numLocked) (hlc : s.numLocked ≤ s.numConverged)
    (h : growthStep env inner s = Flow.cont t) :
    s.basisSize + 1 ≤ t.basisSize ∧
    t.basisSize ≤ s.basisSize + (growthBlockSize s).availableBlockSize ∧
    t.basisSize ≤ min s.primme.maxBasisSize s.primme.n ∧
    t.blockSize = 0 ∧ t.numLocked = s.numLocked ∧ s.numConverged ≤ t.numConverged ∧
    t.config = s.config := by
  have hcfg : t.config = s.config := by
    have := growthStep_good env inner s
    rw [h] at this
    exact this.1
  obtain ⟨a1, a2, a3⟩ := growthBlockSize_avail s hg hmb hoc hl hlc
  obtain ⟨d1, _, d3, d4, _⟩ := growthBlockSize_dims s
  have hbc := Ext_config (growthBlockSize_ext s)
  have hne : (growthBlockSize s).primme.numEvals = s.primme.numEvals :=
    congrArg Config.numEvals hbc
  unfold growthStep at h
  split at h
  · cases h
  · rename_i c hc
    obtain ⟨c1, c2, c3, c4, c5, c6, c7, c8, c9⟩ := growthCandidates_dims env inner _ c hc
    split_ifs at h with he
    have he1 : c.numConverged < c.primme.numEvals := by
      by_contra hx
      exact he (Or.inl (not_lt.mp hx))
    have he2 : 0 ≤ c.targetShiftIndex := by
      by_contra hx
      exact he (Or.inr (Or.inr (Or.inl (not_le.mp hx))))
    rw [c7, hne] at he1
    rw [c6] at he2
    rw [c3, d4] at he1
    have hav : 1 ≤ (growthBlockSize s).availableBlockSize := by
      rcases a3 with x | x | x
      · omega
      · omega
      · exact x
    rw [max_eq_right (by omega : (0 : ℤ) ≤ (growthBlockSize s).availableBlockSize)] at c9
    split at h
    · rename_i d hd
      have e1 := growthCorrection_dims env c d hd
      have e2 := growthExtend_dims env inner d t h
      unfold MainState.dims at e1 e2
      simp only [Prod.mk.injEq] at e1 e2
      obtain ⟨p1, p2, p3, p4, p5⟩ := e1
      obtain ⟨q1, q2, q3, q4, q5⟩ := e2
      rw [p1, p2, c1, d1, c5] at q1
      rw [p3, c2, d3] at q3
      rw [p4, c3, d4] at q4
      have hmin : s.basisSize + (growthBlockSize s).availableBlockSize
          ≤ min s.primme.maxBasisSize s.primme.n := by
        apply le_min <;> omega
      by_cases hz : c.blockSize = 0
      · rw [if_pos hz] at q1
        exact ⟨by omega, by omega, by omega, q2, q3, by omega, hcfg⟩
      · rw [if_neg hz] at q1
        exact ⟨by omega, by omega, by omega, q2, q3, by omega, hcfg⟩
    · rename_i other hno
      rw [h] at hno
      exact absurd rfl (hno t)

/-! ### The growth step does not run out of fuel -/

/-- With an empty block the retention loop only scans the flags, so it ends
within `basisSize - index` passes. -/
theorem retainLoop_total (mp B bs : ℤ) (iev flags : IArr) :
    ∀ (fuel : ℕ) (i index : ℤ) (cols : IArr), bs ≤ i → (B - index).toNat ≤ fuel →
      ∃ r, retainLoop mp B bs iev flags fuel i index cols = some r
  | fuel, i, index, cols, hi, hf => by
    by_cases hg : i < mp ∧ index < B
    · cases fuel with
      | zero =>
        exfalso
        omega
      | succ f =>
        rw [retainLoop_succ mp B bs iev flags f i index cols hg,
          if_neg (by omega : ¬ i < bs)]
        split_ifs
        · exact retainLoop_total mp B bs iev flags f _ _ _ (by omega) (by omega)
        · exact retainLoop_total mp B bs iev flags f _ _ _ hi (by omega)
    · exact ⟨_, retainLoop_exit mp B bs iev flags fuel i index cols hg⟩

theorem retain_previous_total (fuel : ℕ) (hVecs : Arr) (ldhVecs : ℤ)
    (previousHVecs : Arr) (mpreviousHVecs ldpreviousHVecs basisSize : ℤ) (iev : IArr)
    (blockSize : ℤ) (flags cols : IArr) (primme : primme_params)
    (hb : blockSize ≤ 0) (hf : basisSize.toNat ≤ fuel) :
    ∃ r, retain_previous_coefficients fuel hVecs ldhVecs previousHVecs mpreviousHVecs
      ldpreviousHVecs basisSize iev blockSize flags cols primme = some r := by
  obtain ⟨r, hr⟩ := retainLoop_total primme.restartingParams.maxPrevRetain basisSize
    blockSize iev flags fuel 0 0 cols hb (by simpa using hf)
  unfold retain_previous_coefficients
  rw [hr]
  exact ⟨_, rfl⟩

theorem growthRetain_total (fuel : ℕ) (s : MainState) (hb : s.blockSize ≤ 0)
    (hf : s.primme.maxBasisSize.toNat ≤ fuel) : ∃ t, growthRetain fuel s = some t := by
  unfold growthRetain
  dsimp only
  by_cases hc : s.basisSize + s.primme.maxBlockSize ≥ s.primme.maxBasisSize
      ∧ s.basisSize < s.primme.maxBasisSize
  · rw [if_pos hc]
    have hfb : s.basisSize.toNat ≤ fuel := by omega
    obtain ⟨⟨n, prev, cols⟩, h1⟩ := retain_previous_total fuel
      (if s.useQtV then s.hU else s.hVecs)
      s.basisSize s.previousHVecs s.primme.maxBasisSize s.primme.maxBasisSize
      s.basisSize s.iev s.blockSize s.flags s.iwork s.primme hb hfb
    rw [h1]
    dsimp only
    by_cases hr : s.primme.projectionParams.projection = primme_proj_refined
    · rw [if_pos hr]
      obtain ⟨⟨n2, prev2, cols2⟩, h2⟩ := retain_previous_total fuel s.hU s.basisSize
        s.previousHU s.primme.maxBasisSize s.primme.maxBasisSize s.basisSize s.iev
        s.blockSize s.flags cols s.primme hb hfb
      rw [h2]
      exact ⟨_, rfl⟩
    · rw [if_neg hr]
      exact ⟨_, rfl⟩
  · rw [if_neg hc]
    exact ⟨_, rfl⟩

theorem growthExtend_not_stuck (env : Env) (fuel : ℕ) (s st : MainState)
    (hf : s.primme.maxBasisSize.toNat ≤ fuel) : growthExtend env fuel s ≠ Flow.stuck st := by
  intro h
  have hgood := growthExtend_good env fuel s
  rw [h] at hgood
  have hmax : st.primme.maxBasisSize = s.primme.maxBasisSize :=
    congrArg Config.maxBasisSize hgood.1
  unfold growthExtend at h
  dsimp only at h
  generalize s.orthoCall env s.basisSize (s.basisSize + s.blockSize - 1)
    (s.primme.numOrthoConst + s.numLocked) = o at h
  have hu := extendBasis_dims env o.2
  have hr := solveH_reset_dims env (o.2.extendBasis env)
  generalize o.2.extendBasis env = x at h hu hr
  generalize (x.solveH env) = y at h hr
  split_ifs at h
  split at h
  · rename_i hn
    cases h
    rw [hu] at hr
    have hb : y.2.resetArbitrary.blockSize = 0 := congrArg (fun d => d.2.1) hr
    obtain ⟨t, ht⟩ := growthRetain_total fuel y.2.resetArbitrary (le_of_eq hb)
      (by rw [hmax]; exact hf)
    rw [ht] at hn
    cases hn
  · cases h

theorem growthCorrection_not_stuck (env : Env) (s st : MainState) :
    growthCorrection env s ≠ Flow.stuck st := by
  unfold growthCorrection
  dsimp only
  split_ifs <;> intro h <;> cases h

theorem EntryBlock_of_empty (s : MainState) (h : s.blockSize = 0) : EntryBlock s := by
  refine ⟨by omega, ?_, ?_, ?_⟩
  · intro ha
    omega
  · intro p q p0 pq q1
    omega
  · intro p p0 p1
    omega

theorem growthCandidates_total (env : Env) (inner : ℕ) (s : MainState) (hg : s.growthGuard)
    (he : EntryBlock s) (hf : s.primme.maxBasisSize.toNat + 2 ≤ inner) :
    ∃ c, growthCandidates env inner (growthBlockSize s) = some c := by
  obtain ⟨d1, d2, _, _, d5⟩ := growthBlockSize_dims s
  obtain ⟨e1, e2, e3, e4⟩ := he
  have g1 : s.basisSize < s.primme.maxBasisSize := hg.1
  unfold growthCandidates growthPrepare
  by_cases ha : (growthBlockSize s).availableBlockSize > 0
  · rw [if_pos ha]
    obtain ⟨⟨r, hr, _⟩, _⟩ := prepare_candidates_post env inner (growthBlockSize s)
      (growthBlockSize s).primme.nLocal (growthBlockSize s).basisSize
      (growthBlockSize s).primme.nLocal
      ((growthBlockSize s).basisSize * (growthBlockSize s).primme.nLocal)
      ((growthBlockSize s).basisSize * (growthBlockSize s).primme.nLocal)
      (growthBlockSize s).basisSize (growthBlockSize s).maxRecentlyConverged
      (growthBlockSize s).blockSize (growthBlockSize s).availableBlockSize
      (growthBlockSize s).numLocked (growthBlockSize s).targetShiftIndex
      (by rw [d2]; exact e1) (by rw [d2]; exact e2 ha)
      (by rw [d2, d5]; exact e3) (by rw [d1, d2, d5]; exact e4)
      (by rw [d1]; omega)
    rw [hr]
    exact ⟨_, rfl⟩
  · rw [if_neg ha]
    exact ⟨_, rfl⟩

/-- A growth step started under the loop guard with a usable block does not
run out of the fuel of its inner loops, once that fuel is `maxBasisSize + 2`. -/
theorem growthStep_not_stuck (env : Env) (inner : ℕ) (s st : MainState) (hg : s.growthGuard)
    (he : EntryBlock s) (hf : s.primme.maxBasisSize.toNat + 2 ≤ inner) :
    growthStep env inner s ≠ Flow.stuck st := by
  intro h
  obtain ⟨c, hc⟩ := growthCandidates_total env inner s hg he hf
  have x1 := Ext_trans (growthBlockSize_ext s) (growthCandidates_ext env inner _ c hc)
  unfold growthStep at h
  rw [hc] at h
  dsimp only at h
  split_ifs at h
  have x2 := growthCorrection_good env c
  split at h
  · rename_i d hd
    rw [hd] at x2
    have hcfg : d.config = s.config := Ext_config (Ext_trans x1 x2)
    have hmax : d.primme.maxBasisSize = s.primme.maxBasisSize :=
      congrArg Config.maxBasisSize hcfg
    exact growthExtend_not_stuck env inner d st (by rw [hmax]; omega) h
  · exact growthCorrection_not_stuck env c st h

/-- The growth loop ends within `maxBasisSize - basisSize` passes. -/
theorem growthLoop_not_stuck (env : Env) (inner : ℕ) :
    ∀ (fuel : ℕ) (s : MainState), 1 ≤ s.primme.maxBlockSize → 0 ≤ s.primme.numOrthoConst →
      0 ≤ s.numLocked → s.numLocked ≤ s.numConverged → EntryBlock s →
      s.primme.maxBasisSize.toNat + 2 ≤ inner →
      (s.primme.maxBasisSize - s.basisSize).toNat ≤ fuel →
      ∀ st, growthLoop env inner fuel s ≠ Flow.stuck st
  | fuel, s, hmb, hoc, hl, hlc, he, hf, hfuel, st => by
    unfold growthLoop
    split_ifs with hg
    · have g1 : s.basisSize < s.primme.maxBasisSize := hg.1
      cases fuel with
      | zero =>
        exfalso
        omega
      | succ f =>
        dsimp only
        have hns := growthStep_not_stuck env inner s
        split
        · rename_i t ht
          obtain ⟨p1, _, _, p4, p5, p6, p7⟩ :=
            growthStep_progress env inner s t hg hmb hoc hl hlc ht
          have c1 : t.primme.maxBlockSize = s.primme.maxBlockSize :=
            congrArg Config.maxBlockSize p7
          have c2 : t.primme.numOrthoConst = s.primme.numOrthoConst :=
            congrArg Config.numOrthoConst p7
          have c3 : t.primme.maxBasisSize = s.primme.maxBasisSize :=
            congrArg Config.maxBasisSize p7
          exact growthLoop_not_stuck env inner f t (by rw [c1]; exact hmb)
            (by rw [c2]; exact hoc) (by rw [p5]; exact hl) (by rw [p5]; omega)
            (EntryBlock_of_empty t p4) (by rw [c3]; exact hf) (by rw [c3]; omega) st
        · intro h
          cases h
        · rename_i other h1 h2
          intro h
          exact hns st hg he hf h
    · intro h
      cases h

/-- C29: basis-size bound and progress of the growth loop.  For a state with
`maxBlockSize >= 1`, `numOrthoConst >= 0` and `0 <= numLocked <=
numConverged`: (1) the block that the candidate preparation of the step
leaves is never larger than `availableBlockSize`; (2) a growth step entered
under the loop guard that neither breaks early nor fails increases
`basisSize` by at least 1 and at most `availableBlockSize`, and afterwards
`basisSize <= min(maxBasisSize, n)`; (3) hence the growth loop terminates:
started with a usable block (an empty one, for instance) it never needs more
than `maxBasisSize - basisSize` passes, its inner loops being allowed
`maxBasisSize + 2` passes. -/
theorem growth_loop_progress (env : Env) (inner : ℕ) (s : MainState)
    (hmb : 1 ≤ s.primme.maxBlockSize) (hoc : 0 ≤ s.primme.numOrthoConst)
    (hl : 0 ≤ s.numLocked) (hlc : s.numLocked ≤ s.numConverged) :
    (∀ c, growthCandidates env inner (growthBlockSize s) = some c →
      0 ≤ c.blockSize ∧ c.blockSize ≤ max 0 (growthBlockSize s).availableBlockSize) ∧
    (∀ t, s.growthGuard → growthStep env inner s = Flow.cont t →
      s.basisSize + 1 ≤ t.basisSize ∧
      t.basisSize ≤ s.basisSize + (growthBlockSize s).availableBlockSize ∧
      t.basisSize ≤ min s.primme.maxBasisSize s.primme.n ∧
      t.primme.maxBasisSize = s.primme.maxBasisSize ∧ t.primme.n = s.primme.n) ∧
    (∀ fuel : ℕ, EntryBlock s → s.primme.maxBasisSize.toNat + 2 ≤ inner →
      (s.primme.maxBasisSize - s.basisSize).toNat ≤ fuel →
      ∀ st, growthLoop env inner fuel s ≠ Flow.stuck st) := by
  refine ⟨?_, ?_, ?_⟩
  · intro c hc
    obtain ⟨_, _, _, _, _, _, _, c8, c9⟩ := growthCandidates_dims env inner _ c hc
    exact ⟨c8, c9⟩
  · intro t hg ht
    obtain ⟨p1, p2, p3, _, _, _, p7⟩ := growthStep_progress env inner s t hg hmb hoc hl hlc ht
    exact ⟨p1, p2, p3, congrArg Config.maxBasisSize p7, congrArg Config.n p7⟩
  · intro fuel he hf hfuel st
    exact growthLoop_not_stuck env inner fuel s hmb hoc hl hlc he hf hfuel st

theorem growth_loop_progress_witness :
    (∀ t, growthStep (demoEnv 0 0 0 1 0) 5 demoGrowthState = Flow.cont t →
      demoGrowthState.basisSize + 1 ≤ t.basisSize ∧
      t.basisSize ≤ demoGrowthState.basisSize +
        (growthBlockSize demoGrowthState).availableBlockSize ∧
      t.basisSize ≤ min demoGrowthState.primme.maxBasisSize demoGrowthState.primme.n ∧
      t.primme.maxBasisSize = demoGrowthState.primme.maxBasisSize ∧
      t.primme.n = demoGrowthState.primme.n) ∧
    ∀ st, growthLoop (demoEnv 0 0 0 1 0) 5 2 demoGrowthState ≠ Flow.stuck st :=
  ⟨fun t ht =>
    (growth_loop_progress (demoEnv 0 0 0 1 0) 5 demoGrowthState (by decide) (by decide)
      (by decide) (by decide)).2.1 t (by decide) ht,
   fun st =>
    (growth_loop_progress (demoEnv 0 0 0 1 0) 5 demoGrowthState (by decide) (by decide)
      (by decide) (by decide)).2.2 2 (EntryBlock_of_empty demoGrowthState rfl)
      (by decide) (by decide) st⟩

/-- The run of the example: the first pass takes the basis from 1 to 2
vectors with `availableBlockSize = 1`, and the loop ends after two passes
with a full basis of 3 vectors. -/
theorem growth_loop_demo_run :
    (growthBlockSize demoGrowthState).availableBlockSize = 1 ∧
    (growthStep (demoEnv 0 0 0 1 0) 5 demoGrowthState).isCont = true ∧
    (growthStep (demoEnv 0 0 0 1 0) 5 demoGrowthState).state.basisSize = 2 ∧
    (growthLoop (demoEnv 0 0 0 1 0) 5 2 demoGrowthState).isCont = true ∧
    (growthLoop (demoEnv 0 0 0 1 0) 5 2 demoGrowthState).state.basisSize = 3 ∧
    (growthLoop (demoEnv 0 0 0 1 0) 5 1 demoGrowthState).isCont = false := by
  refine ⟨?_, ?_, ?_, ?_, ?_, ?_⟩ <;> decide!

end PRIMME
